import Mathlib

/-! # uBee512: the speaker sound source (`src/sound.c`) and the 6545 CRTC (`src/crtc.c`)

A shallow embedding of the Microbee speaker driver and of the CRTC emulation.
C `int` values are modelled as `Int` (as `Nat` where the code keeps them
non-negative), `uint64_t` cycle counts as `Nat` with explicit wrap-around at
`2^64`; conversions to `int` and the `int` products of `PARTIAL_SAMPLE` wrap at
`2^32`.  Operations whose C behaviour
is undefined (division by zero, a failed `assert`, a negative fill count) or
that never return yield `none`.

The current Z80 cycle count (`z80api_get_tstates ()`) is passed to each speaker
operation as the argument `cycles_now`; the CRTC reads it from its environment.
The speaker comes first, then the CRTC; the definitions of both precede the
theorems.
-/

namespace UBee

/-! ## Machine integers -/

/-- Conversion of an integer value to a C `int`: 32-bit two's-complement wrap. -/
def toInt32 (x : Int) : Int := (x + 2147483648) % 4294967296 - 2147483648

/-- Conversion of a C `int` to `uint64_t`: reduction modulo `2^64`. -/
def toU64 (x : Int) : Nat := (x % 18446744073709551616).toNat

/-! ## The audio collaborator -/

/-- Modelled from the spec: the constants and globals of `audio.h` that `sound.c`
reads but that are not among the sources: `AUDIO_MAXVAL`, the output sample rate
`audio.frequency`, whether `audio.mode` is `AUDIO_PROPORTIONAL`, and the number
of free slots of a freshly acquired work segment. -/
structure audio_t where
  AUDIO_MAXVAL : Int
  frequency : Int
  proportional : Bool
  bufsize : Nat
deriving DecidableEq, Repr

/-- Modelled from the spec: the externally owned ring buffer (`audio_scratch_t`
of `audio.h`), seen through its contract "has work segment", "get/put working
segment", "space remaining", "write one clamped sample".  `written` logs every
sample written, oldest first; `gets` and `puts` count the segments acquired and
handed over. -/
structure audio_scratch_t where
  has_work : Bool
  space : Nat
  written : List Int
  gets : Nat
  puts : Nat
deriving DecidableEq, Repr

/-- Modelled from the spec: `audio_has_work_buffer`. -/
def audio_has_work_buffer (sb : audio_scratch_t) : Bool := sb.has_work

/-- Modelled from the spec: `audio_space_remaining`, the free slots of the work
segment (none when no segment is held). -/
def audio_space_remaining (sb : audio_scratch_t) : Nat :=
  if sb.has_work then sb.space else 0

/-- Modelled from the spec: `audio_get_work_buffer` acquires a fresh segment. -/
def audio_get_work_buffer (a : audio_t) (sb : audio_scratch_t) : audio_scratch_t :=
  { sb with has_work := true, space := a.bufsize, gets := sb.gets + 1 }

/-- Modelled from the spec: `audio_put_work_buffer` hands the segment over. -/
def audio_put_work_buffer (sb : audio_scratch_t) : audio_scratch_t :=
  { sb with has_work := false, space := 0, puts := sb.puts + 1 }

/-- Modelled from the spec: `audio_put_sample` writes one sample. -/
def audio_put_sample (sb : audio_scratch_t) (v : Int) : audio_scratch_t :=
  { sb with space := sb.space - 1, written := sb.written ++ [v] }

/-- Modelled from the spec: `audio_limit` clamps a value to the sample range
`-(AUDIO_MAXVAL + 1) .. AUDIO_MAXVAL`. -/
def audio_limit (a : audio_t) (v : Int) : Int :=
  if v > a.AUDIO_MAXVAL then a.AUDIO_MAXVAL
  else if v < -(a.AUDIO_MAXVAL + 1) then -(a.AUDIO_MAXVAL + 1)
  else v

/-! ## Speaker state -/

/-- The `speaker_t` structure. -/
structure speaker_t where
  snd_buf : audio_scratch_t
  samples_since_write : Int
  state : Nat
  idle : Int
  change_tstates : Nat
  samplenumber : Int
  fraction : Int
  last_sample : Int
  div_num : Int
  div_denom : Int
  idle_count : Int
  count : Int
  tau : Int
  decay : Int
deriving DecidableEq, Repr

/-- `SPEAKER_AMPLITUDE`, that is `AUDIO_MAXVAL / 3`. -/
def SPEAKER_AMPLITUDE (a : audio_t) : Int := a.AUDIO_MAXVAL.tdiv 3

/-- The product `TSTATES * div_denom` of the macros, computed in `uint64_t`. -/
def tstates_scaled (s : speaker_t) (tstates : Nat) : Nat :=
  tstates * toU64 s.div_denom % 18446744073709551616

/-- `SAMPLE_TIME_FRACTION`: clocks after the start of the current sample. -/
def SAMPLE_TIME_FRACTION (s : speaker_t) (tstates : Nat) : Nat :=
  tstates_scaled s tstates % toU64 s.div_num / toU64 s.div_denom

/-- `SAMPLE_TIME_FRACTION_REMAINING`: clocks up to the end of the current
sample (the `uint64_t` subtraction, modulo `2^64`). -/
def SAMPLE_TIME_FRACTION_REMAINING (s : speaker_t) (tstates : Nat) : Nat :=
  (toU64 s.div_num + 18446744073709551616 - tstates_scaled s tstates % toU64 s.div_num)
    % 18446744073709551616 / toU64 s.div_denom

/-- `PARTIAL_SAMPLE`: the value of a partial sample, in `int` arithmetic.  The
macro multiplies three `int`s from left to right; a product that leaves the
range of `int` wraps modulo `2^32`, as in the compiled code. -/
def PARTIAL_SAMPLE (s : speaker_t) (tstate_fraction : Int) (sample : Int) : Int :=
  (toInt32 (toInt32 (sample * tstate_fraction) * s.div_denom)).tdiv s.div_num

/-- `SAMPLE_COUNT`: complete samples in a number of CPU clocks. -/
def SAMPLE_COUNT (s : speaker_t) (tstates : Nat) : Nat :=
  tstates_scaled s tstates / toU64 s.div_num

/-- `speaker_init`: the idle frame count and the decay time constant
(`framerate` is `emu.framerate`). -/
def speaker_init (a : audio_t) (framerate : Int) (s : speaker_t) : speaker_t :=
  { s with idle_count := (1000 * framerate).tdiv 1000,
           tau := (a.frequency * 50).tdiv 1000 }

/-- The `while (b != 0)` loop of `speaker_clock`; the result is the final `a`.
The first argument bounds the number of turns: a loop that did not end within
it yields `none`. -/
def speaker_clock_gcd : Nat → Int → Int → Option Int
  | 0, _, _ => none
  | turns + 1, a, b => if b = 0 then some a else speaker_clock_gcd turns b (a.tmod b)

/-- The clock that `speaker_clock` works with: the fixed 3.375 MHz unless
`audio.mode` is `AUDIO_PROPORTIONAL`. -/
def chosen_clock (e : audio_t) (cpuclock : Int) : Int :=
  if !e.proportional then 3375000 else cpuclock

/-- The end of `speaker_clock`: the sample number and the partial sample count
are brought up to date for the current cycle count. -/
def speaker_clock_rederive (s : speaker_t) (cycles_now : Nat) : speaker_t :=
  { s with samplenumber := toInt32 (SAMPLE_COUNT s cycles_now),
           fraction := toInt32 (SAMPLE_TIME_FRACTION s cycles_now) }

/-- `speaker_clock`.  The loop starts from `a = div_denom`, `b = div_num`,
swapped when `a < b`, and is given `|b| + 1` turns.  Division by zero (a zero
divisor after the loop, or a zero `div_num` or `div_denom` in the macros) is
undefined: `none`. -/
def speaker_clock (e : audio_t) (s : speaker_t) (cpuclock : Int) (cycles_now : Nat) :
    Option speaker_t :=
  (if e.frequency < chosen_clock e cpuclock
    then speaker_clock_gcd (e.frequency.natAbs + 1) (chosen_clock e cpuclock) e.frequency
    else speaker_clock_gcd ((chosen_clock e cpuclock).natAbs + 1) e.frequency
      (chosen_clock e cpuclock)).bind
    fun a =>
      if a = 0 then none
      else if (chosen_clock e cpuclock).tdiv a = 0 ∨ e.frequency.tdiv a = 0 then none
      else some (speaker_clock_rederive
        { s with div_num := (chosen_clock e cpuclock).tdiv a,
                 div_denom := e.frequency.tdiv a } cycles_now)

/-- `speaker_sample`: the full-scale value of a speaker bit. -/
def speaker_sample (e : audio_t) (data : Nat) : Int :=
  if data ≠ 0 then SPEAKER_AMPLITUDE e else -SPEAKER_AMPLITUDE e

/-- `speaker_fixup_sample`. -/
def speaker_fixup_sample (e : audio_t) (sample : Int) : Int :=
  if sample ≥ SPEAKER_AMPLITUDE e - 2 then SPEAKER_AMPLITUDE e
  else if sample ≤ -(SPEAKER_AMPLITUDE e - 2) then -SPEAKER_AMPLITUDE e
  else sample

/-- `speaker_reset`. -/
def speaker_reset (s : speaker_t) (cycles_now : Nat) : speaker_t :=
  let s1 := { s with state := 0, change_tstates := cycles_now, decay := 0,
                     fraction := 0, last_sample := 0 }
  if audio_has_work_buffer s1.snd_buf then
    { s1 with snd_buf := audio_put_work_buffer s1.snd_buf }
  else s1

/-- The decay accumulator after one more sample:
`decay -= ((sample * (1 << 16)) + decay) / tau`. -/
def speaker_decay (tau sample decay : Int) : Int :=
  decay - (sample * 65536 + decay).tdiv tau

/-- The value written for a sample once the decay accumulator is updated: the
decay is applied only when it is significant. -/
def speaker_shaped (e : audio_t) (sample decay : Int) : Int :=
  if decay > 2 * 65536 ∨ decay < -2 * 65536
  then audio_limit e (sample + decay.tdiv 65536)
  else audio_limit e sample

/-- The inner `while (n--)` loop of `speaker_fill`: the decay filter, one
sample per turn.  A zero `tau` is a division by zero: `none`. -/
def speaker_fill_samples (e : audio_t) (sample : Int) : Nat → speaker_t → Option speaker_t
  | 0, s => some s
  | n + 1, s =>
    if s.tau = 0 then none
    else
      let decay := speaker_decay s.tau sample s.decay
      speaker_fill_samples e sample n
        { s with decay := decay,
                 snd_buf := audio_put_sample s.snd_buf (speaker_shaped e sample decay) }

/-- The outer `while (count)` loop of `speaker_fill`.  The first argument bounds
the number of turns: a turn that writes nothing (a fresh segment without a free
slot) repeats for ever, and the bound then runs out: `none`. -/
def speaker_fill_loop (e : audio_t) (sample : Int) : Nat → Nat → speaker_t → Option speaker_t
  | _, 0, s => some s
  | 0, _ + 1, _ => none
  | turns + 1, count + 1, s =>
    let sb1 := if audio_space_remaining s.snd_buf = 0
               then audio_put_work_buffer s.snd_buf else s.snd_buf
    let sb2 := if !audio_has_work_buffer sb1 then audio_get_work_buffer e sb1 else sb1
    let n := if audio_space_remaining sb2 > count + 1 then count + 1
             else audio_space_remaining sb2
    match speaker_fill_samples e sample n { s with snd_buf := sb2 } with
    | none => none
    | some s1 => speaker_fill_loop e sample turns (count + 1 - n) s1

/-- `speaker_fill`.  With a negative `count` the inner loop runs past the end of
the work segment (undefined): `none`. -/
def speaker_fill (e : audio_t) (s : speaker_t) (sample : Int) (count : Int) : Option speaker_t :=
  if count < 0 then none
  else speaker_fill_loop e sample count.toNat count.toNat s

/-- The first part of `speaker_update`: without a work buffer one is obtained,
the last sample is taken as zero and the last state change as now. -/
def speaker_update_open (e : audio_t) (s : speaker_t) (cycles_now : Nat) : speaker_t :=
  if !audio_has_work_buffer s.snd_buf then
    let s1 := { s with snd_buf := audio_get_work_buffer e s.snd_buf,
                       change_tstates := cycles_now, last_sample := 0 }
    { s1 with samplenumber := toInt32 (SAMPLE_COUNT s1 s1.change_tstates),
              fraction := toInt32 (SAMPLE_TIME_FRACTION s1 s1.change_tstates) }
  else s

/-- The completed in-flight sample of `speaker_update` (the start of its `else`
branch): the partial sample finished off up to the sample boundary and passed
through the fix-up.  `sample` is `speaker_sample (s->state)`. -/
def speaker_update_finished (e : audio_t) (s : speaker_t) (sample : Int) : Int :=
  speaker_fixup_sample e
    (s.last_sample
      + PARTIAL_SAMPLE s (toInt32 (SAMPLE_TIME_FRACTION_REMAINING s s.change_tstates)) sample)

/-- The closing assignments of `speaker_update`, together with the assignment
to `last_sample` made on the branch taken. -/
def speaker_update_store (s : speaker_t) (data cycles_now : Nat)
    (samplenumber_now fraction_now last_sample : Int) : speaker_t :=
  { s with last_sample := last_sample, fraction := fraction_now,
           samplenumber := samplenumber_now, state := data, change_tstates := cycles_now }

/-- The `else` branch of `speaker_update` after the completed sample is written:
`samples_since_write++`, the count `n` of whole samples (an `unsigned int`
passed as `int`), their `speaker_fill`, and `samples_since_write += n`. -/
def speaker_update_whole (e : audio_t) (s1 : speaker_t) (sample samplenumber_now : Int) :
    Option speaker_t :=
  (speaker_fill e { s1 with samples_since_write := s1.samples_since_write + 1 } sample
      (toInt32 (samplenumber_now - s1.samplenumber - 1))).bind
    fun s3 => some { s3 with
      samples_since_write :=
        toInt32 (s3.samples_since_write + toInt32 (samplenumber_now - s1.samplenumber - 1)) }

/-- The `else` branch of `speaker_update` up to `samples_since_write += n`: the
in-flight sample is completed, checked by the `assert` and written, then the
whole samples follow. -/
def speaker_update_emit (e : audio_t) (s : speaker_t) (sample samplenumber_now : Int) :
    Option speaker_t :=
  if speaker_update_finished e s sample ≥ -(e.AUDIO_MAXVAL + 1)
      ∧ speaker_update_finished e s sample ≤ e.AUDIO_MAXVAL then
    (speaker_fill e { s with last_sample := speaker_update_finished e s sample }
        (speaker_update_finished e s sample) 1).bind
      fun s1 => speaker_update_whole e s1 sample samplenumber_now
  else none

/-- The part of `speaker_update` from `samplenumber_now = SAMPLE_COUNT (...)` on;
`sample` is `speaker_sample (s->state)`. -/
def speaker_update_body (e : audio_t) (s : speaker_t) (sample : Int) (data cycles_now : Nat) :
    Option speaker_t :=
  if toInt32 (SAMPLE_COUNT s cycles_now) = s.samplenumber then
    some (speaker_update_store s data cycles_now (toInt32 (SAMPLE_COUNT s cycles_now))
      (toInt32 (SAMPLE_TIME_FRACTION s cycles_now))
      (s.last_sample
        + PARTIAL_SAMPLE s (toInt32 (SAMPLE_TIME_FRACTION s cycles_now) - s.fraction) sample))
  else
    (speaker_update_emit e s sample (toInt32 (SAMPLE_COUNT s cycles_now))).bind
      fun s3 => some (speaker_update_store s3 data cycles_now
        (toInt32 (SAMPLE_COUNT s cycles_now)) (toInt32 (SAMPLE_TIME_FRACTION s cycles_now))
        (PARTIAL_SAMPLE s3 (toInt32 (SAMPLE_TIME_FRACTION s cycles_now)) sample))

/-- `speaker_update`.  A zero `div_num` or `div_denom` makes the macros divide
by zero, and a failed `assert` aborts: `none`. -/
def speaker_update (e : audio_t) (s : speaker_t) (data : Nat) (cycles_now : Nat) :
    Option speaker_t :=
  if s.div_num = 0 ∨ s.div_denom = 0 then none
  else speaker_update_body e (speaker_update_open e s cycles_now) (speaker_sample e s.state)
    data cycles_now

/-- `speaker_w`. -/
def speaker_w (e : audio_t) (s : speaker_t) (data : Nat) (cycles_now : Nat) :
    Option speaker_t :=
  if data = s.state then some s
  else
    (if s.idle ≠ 0 ∧ s.count = 0 then
        some { s with last_sample := 0, state := data, change_tstates := cycles_now }
      else speaker_update e s data cycles_now).bind
      fun s1 => some { s1 with idle := 0, count := s1.idle_count, samples_since_write := 0 }

/-- The `idle:` exit of `speaker_tick`. -/
def speaker_tick_idle (s : speaker_t) (start cycles : Nat) : speaker_t × Int :=
  ({ s with change_tstates := (start + cycles) % 18446744073709551616 }, 0)

/-- The tail of `speaker_tick` from the call of `speaker_update` on. -/
def speaker_tick_work (e : audio_t) (s : speaker_t) (cycles_now : Nat) :
    Option (speaker_t × Int) :=
  match speaker_update e s s.state cycles_now with
  | none => none
  | some s1 =>
    if s1.idle ≠ 0 ∧ s1.count = 0 then
      some ({ s1 with snd_buf := audio_put_work_buffer s1.snd_buf, decay := 0 }, 1)
    else some (s1, 1)

/-- `speaker_tick`: the new state and the returned value. -/
def speaker_tick (e : audio_t) (s : speaker_t) (start cycles : Nat) (cycles_now : Nat) :
    Option (speaker_t × Int) :=
  if !audio_has_work_buffer s.snd_buf then some (speaker_tick_idle s start cycles)
  else if s.change_tstates = start then
    if s.idle ≠ 0 then
      if s.count > 0 then speaker_tick_work e { s with count := s.count - 1 } cycles_now
      else some (speaker_tick_idle s start cycles)
    else speaker_tick_work e { s with idle := 1, count := s.idle_count } cycles_now
  else speaker_tick_work e s cycles_now

/-! ## Runs of operations -/

/-- The decay accumulator after `n` further samples of one value. -/
def decay_after (tau sample : Int) : Nat → Int → Int
  | 0, d => d
  | n + 1, d => decay_after tau sample n (speaker_decay tau sample d)

/-- The values written for `n` samples of one value, oldest first. -/
def decay_output (e : audio_t) (tau sample : Int) : Nat → Int → List Int
  | 0, _ => []
  | n + 1, d =>
    speaker_shaped e sample (speaker_decay tau sample d)
      :: decay_output e tau sample n (speaker_decay tau sample d)

/-- The state `s1` differs from `s` at most in the ring buffer and the decay
accumulator, the two things `speaker_fill` writes. -/
def speaker_fill_keeps (s s1 : speaker_t) : Prop :=
  s1.samples_since_write = s.samples_since_write ∧ s1.state = s.state ∧ s1.idle = s.idle
    ∧ s1.change_tstates = s.change_tstates ∧ s1.samplenumber = s.samplenumber
    ∧ s1.fraction = s.fraction ∧ s1.last_sample = s.last_sample ∧ s1.div_num = s.div_num
    ∧ s1.div_denom = s.div_denom ∧ s1.idle_count = s.idle_count ∧ s1.count = s.count
    ∧ s1.tau = s.tau

/-- The state `s1` has the conversion fraction, the time constant and the idle
bookkeeping of `s`: the fields `speaker_update` leaves alone. -/
def speaker_update_keeps (s s1 : speaker_t) : Prop :=
  s1.div_num = s.div_num ∧ s1.div_denom = s.div_denom ∧ s1.tau = s.tau ∧ s1.idle = s.idle
    ∧ s1.count = s.count ∧ s1.idle_count = s.idle_count

/-- Successive calls of `speaker_update` at the given cycle counts, every call
passing the same bit. -/
def speaker_update_seq (e : audio_t) (data : Nat) : List Nat → speaker_t → Option speaker_t
  | [], s => some s
  | t :: ts, s =>
    match speaker_update e s data t with
    | none => none
    | some s1 => speaker_update_seq e data ts s1

/-- The speaker operations, each with the cycle count at which it is called. -/
inductive speaker_op where
  | clock (cpuclock : Int) (cycles_now : Nat)
  | reset (cycles_now : Nat)
  | w (data : Nat) (cycles_now : Nat)
  | update (data : Nat) (cycles_now : Nat)
  | tick (start cycles : Nat) (cycles_now : Nat)
deriving DecidableEq, Repr

/-- One speaker operation. -/
def speaker_step (e : audio_t) (s : speaker_t) : speaker_op → Option speaker_t
  | .clock cpuclock cycles_now => speaker_clock e s cpuclock cycles_now
  | .reset cycles_now => some (speaker_reset s cycles_now)
  | .w data cycles_now => speaker_w e s data cycles_now
  | .update data cycles_now => speaker_update e s data cycles_now
  | .tick start cycles cycles_now =>
    match speaker_tick e s start cycles cycles_now with
    | none => none
    | some r => some r.1

/-- A sequence of speaker operations, first to last. -/
def speaker_run (e : audio_t) : List speaker_op → speaker_t → Option speaker_t
  | [], s => some s
  | op :: ops, s =>
    match speaker_step e s op with
    | none => none
    | some s1 => speaker_run e ops s1

/-- The clock passed to a `clock` operation is a positive `int`. -/
def clock_ok (e : audio_t) : speaker_op → Prop
  | .clock cpuclock _ => 1 ≤ chosen_clock e cpuclock ∧ chosen_clock e cpuclock < 2147483648
  | _ => True

/-! ## Concrete configurations -/

/-- The usual output: 16-bit samples at 44100 Hz, pitch not proportional to the
CPU clock, work segments of 4 slots. -/
def audio_default : audio_t :=
  { AUDIO_MAXVAL := 32767, frequency := 44100, proportional := false, bufsize := 4 }

/-- The speaker on `audio_default` at cycle 0 with the bit high: the fraction
3375000/44100 reduced to 3750/49, `tau` 2205, `idle_count` 50, and a work
segment held that has no free slot left. -/
def speaker_default : speaker_t :=
  { snd_buf := { has_work := true, space := 0, written := [], gets := 0, puts := 0 },
    samples_since_write := 0, state := 1, idle := 0, change_tstates := 0, samplenumber := 0,
    fraction := 0, last_sample := 0, div_num := 3750, div_denom := 49, idle_count := 50,
    count := 50, tau := 2205, decay := 0 }

/-! ## Invariants -/

/-- The fraction invariant: `div_num` is a positive `int` and
`0 <= fraction < div_num`. -/
def speaker_fraction_ok (s : speaker_t) : Prop :=
  1 ≤ s.div_num ∧ s.div_num < 2147483648 ∧ 0 ≤ s.fraction ∧ s.fraction < s.div_num

/-- Joint consistency: `samplenumber` and `fraction` are the values the macros
give for the stored change cycle under the current `div_num / div_denom`. -/
def speaker_consistent (s : speaker_t) : Prop :=
  s.samplenumber = toInt32 (SAMPLE_COUNT s s.change_tstates)
    ∧ s.fraction = toInt32 (SAMPLE_TIME_FRACTION s s.change_tstates)

/-- The output of `audio_default` with the pitch proportional to the CPU clock
(`audio.mode == AUDIO_PROPORTIONAL`). -/
def audio_proportional : audio_t := { audio_default with proportional := true }

/-- Successive calls of `speaker_tick` at the given cycle counts with no bit
change in between: every call is passed the stored change cycle as `start` and
the cycles run since then as `cycles`.  The result is the final state and the
values returned, first call first. -/
def speaker_tick_seq (e : audio_t) : List Nat → speaker_t → Option (speaker_t × List Int)
  | [], s => some (s, [])
  | now :: rest, s =>
    (speaker_tick e s s.change_tstates (now - s.change_tstates) now).bind fun r =>
      (speaker_tick_seq e rest r.1).bind fun q => some (q.1, r.2 :: q.2)

/-- The speaker holds a work buffer, can divide by `tau`, `div_num` and
`div_denom`, and its sample number is that of the stored change cycle. -/
def speaker_ready (s : speaker_t) : Prop :=
  s.snd_buf.has_work = true ∧ s.tau ≠ 0 ∧ s.div_num ≠ 0 ∧ s.div_denom ≠ 0
    ∧ s.samplenumber = (SAMPLE_COUNT s s.change_tstates : Int)


/-! ## Speaker: reachable states -/

/-- The zero-initialised `speaker` structure: no work buffer is held. -/
def speaker_zeroed : speaker_t :=
  { snd_buf := { has_work := false, space := 0, written := [], gets := 0, puts := 0 },
    samples_since_write := 0, state := 0, idle := 0, change_tstates := 0, samplenumber := 0,
    fraction := 0, last_sample := 0, div_num := 0, div_denom := 0, idle_count := 0,
    count := 0, tau := 0, decay := 0 }

/-- The operation is one of the entry points `speaker_clock`, `speaker_reset`,
`speaker_w` and `speaker_tick`, not a direct call of `speaker_update`. -/
def speaker_op_entry : speaker_op → Prop
  | .update _ _ => False
  | _ => True

/-- When `idle` is set and the idle countdown is 0, no work buffer is held. -/
def speaker_idle_closed (s : speaker_t) : Prop :=
  s.idle ≠ 0 ∧ s.count = 0 → audio_has_work_buffer s.snd_buf = false

/-! # uBee512: the 6545 CRTC (`src/crtc.c`)

The static variables of `crtc.c` and the fields of the global `crtc` structure
form the state `crtc_state`; what the code reads from other modules (`emu`,
`modelx`, `video`, the timers, the keyboard scan) is the environment `crtc_env`.
A C `double` is modelled by the rational value it holds: every floating point
operation is rounded to the nearest IEEE 754 binary64 value, ties to even, and
`none` stands for a result that is not finite (an infinity or a NaN).  The
conversion `(int)` of a value that is not finite or whose integral part is not
an `int` gives an unspecified value, `crtc_env.cvt_invalid`.  Integer division
by zero is undefined and yields `none`. -/

/-! ## IEEE 754 binary64 arithmetic -/

/-- The number of halvings that bring `n` below 2, with `fuel` turns at most. -/
def log2_floor_aux : Nat → Nat → Nat
  | 0, _ => 0
  | fuel + 1, n => if n < 2 then 0 else log2_floor_aux fuel (n / 2) + 1

/-- The position of the leading binary digit of `n`: `2^k ≤ n < 2^(k+1)` for
`n ≥ 1`. -/
def log2_floor (n : Nat) : Nat := log2_floor_aux n n

/-- The binary exponent of a non-zero rational: the `e` with
`2^e ≤ |q| < 2^(e+1)`.  The quotient of the leading digits is `e` or `e + 1`. -/
def dbl_exponent (q : ℚ) : Int :=
  if |q| < 2 ^ ((log2_floor q.num.natAbs : Int) - (log2_floor q.den : Int))
    then (log2_floor q.num.natAbs : Int) - (log2_floor q.den : Int) - 1
    else (log2_floor q.num.natAbs : Int) - (log2_floor q.den : Int)

/-- The spacing of the binary64 values at `q`: `2^(e-52)` for the 53-bit
significand, and `2^-1074` in the subnormal range. -/
def dbl_ulp (q : ℚ) : ℚ := 2 ^ max (dbl_exponent q - 52) (-1074)

/-- Rounding to nearest, ties to even: the multiple of the spacing nearest to
`q`, the even multiple when `q` lies half-way.  The exponent is not bounded
above here. -/
def dbl_nearest (q : ℚ) : ℚ :=
  if q = 0 then 0
  else
    (if q / dbl_ulp q - ⌊q / dbl_ulp q⌋ < 1 / 2 then (⌊q / dbl_ulp q⌋ : ℚ)
      else if 1 / 2 < q / dbl_ulp q - ⌊q / dbl_ulp q⌋ then (⌊q / dbl_ulp q⌋ : ℚ) + 1
      else if ⌊q / dbl_ulp q⌋ % 2 = 0 then (⌊q / dbl_ulp q⌋ : ℚ)
      else (⌊q / dbl_ulp q⌋ : ℚ) + 1) * dbl_ulp q

/-- The result of a floating point operation whose exact value is `q`: the
nearest binary64 value, infinite (`none`) when the rounded magnitude reaches
`2^1024`. -/
def dbl_round (q : ℚ) : Option ℚ :=
  if |dbl_nearest q| < 2 ^ 1024 then some (dbl_nearest q) else none

/-- The quotient `a / b` of two finite doubles; a division by zero gives an
infinity or a NaN. -/
def dbl_div (a b : ℚ) : Option ℚ := if b = 0 then none else dbl_round (a / b)

/-- The product of two doubles; it is not finite when an operand is not. -/
def dbl_mul (x y : Option ℚ) : Option ℚ :=
  x.bind fun a => y.bind fun b => dbl_round (a * b)

/-- The conversion `(int)` of a `double`: truncation toward zero; `invalid` when
the value is not finite or the truncated value is not an `int`. -/
def double_to_int (invalid : Int) : Option ℚ → Int
  | some q => if -2147483649 < q ∧ q < 2147483648 then q.num.tdiv q.den else invalid
  | none => invalid

/-- Modelled from the spec: what `crtc.c` reads from outside.  `model_2mhz` is
`emu.model == MOD_2MHZ`; `tstates` is `z80api_get_tstates ()`; `time_ms` is
`time_get_ms ()`; `lpen` is `modelx.lpen`; `yscale` is `video.yscale`;
`pcg_dirty` lists the cells that `vdu_propagate_pcg_updates` marks dirty;
`key_scan` is the first key that `keystd_checkall` finds down (none when there
is no such key or `crtc.latchrom` is set); `key_down` is the result of
`getkeystate` in `keystd_handler`; `cvt_invalid` is the value that the platform
gives to a conversion `(int)` of a `double` out of range (`INT_MIN` on x86). -/
structure crtc_env where
  model_2mhz : Bool
  cpuclock : Int
  cvt_invalid : Int
  turbo : Bool
  z80_cycles : Nat
  tstates : Nat
  time_ms : Nat
  lpen : Bool
  hwflash : Nat
  extendram : Bool
  aspect : Nat
  yscale : Nat
  pcg_dirty : List Nat
  key_scan : Option Nat
  key_down : Bool
deriving DecidableEq, Repr

/-- The vertical-sync frequency and the constants derived from it: the statics
`vsync_freq`, `vblank_divval`, `vblank_cmpval`, `cur_blink_rate_*`, and the
fields `crtc.flashrate`, `crtc.flashvalue_c`, `crtc.flashvalue_t`. -/
structure crtc_timing where
  vsync_freq : ℚ
  vblank_divval : Int
  vblank_cmpval : Int
  cur_blink_rate_t1r32 : Int
  cur_blink_rate_t1r16 : Int
  cur_blink_rate_c1r32 : Int
  cur_blink_rate_c1r16 : Int
  flashrate : Int
  flashvalue_c : Int
  flashvalue_t : Int
deriving DecidableEq, Repr

/-- The cursor statics `cur_blink_last`, `cur_blink`, `cur_mode`, `cur_pos`,
`cur_start`, `cur_end`. -/
structure crtc_cursor where
  cur_blink_last : Nat
  cur_blink : Nat
  cur_mode : Nat
  cur_pos : Nat
  cur_start : Nat
  cur_end : Nat
deriving DecidableEq, Repr

/-- The arguments of one call of `vdu_draw_char` (the surface apart). -/
structure draw_call where
  x : Nat
  y : Nat
  maddr : Nat
  scans_per_row : Nat
  flashvideo : Nat
  cursor : Nat
  cur_start : Nat
  cur_end : Nat
deriving DecidableEq, Repr

/-- Modelled from the spec: the render collaborators `vdu.c` and `video.c` as
seen by `crtc.c`.  `dirty` lists the cells whose dirty bit is set; `drawn` logs
the calls of `vdu_draw_char` and `redrawn` those of `vdu_redraw_char`, oldest
first; `aspect`, `vdu_yscale` and `surface` hold the arguments of the last
`video_configure`, `vdu_configure` and `video_create_surface`; `renders` counts
`video_render`. -/
structure vdu_t where
  dirty : List Nat
  drawn : List draw_call
  redrawn : List Nat
  aspect : Option Nat
  vdu_yscale : Option Nat
  surface : Option (Nat × Nat)
  renders : Nat
deriving DecidableEq, Repr

/-- The state of `crtc.c`: the fields of `crtc` (`video` to `update`), the
statics, and the collaborators. -/
structure crtc_state where
  video : Nat
  hdisp : Nat
  vdisp : Nat
  scans_per_row : Nat
  vblank_method : Nat
  resized : Nat
  update_strobe : Nat
  lpen_valid : Nat
  disp_start : Nat
  flashvideo : Nat
  update : Nat
  flashvideo_last : Nat
  crtc_regs_data : List Nat
  htot : Nat
  vtot : Nat
  vtot_adj : Nat
  lpen : Nat
  reg : Nat
  mem_addr : Nat
  redraw : Nat
  timing : crtc_timing
  cursor : crtc_cursor
  vdu : vdu_t
deriving DecidableEq, Repr

/-- The initial values: the initialiser of `crtc`, every other variable zero. -/
def crtc_initial : crtc_state :=
  { video := 1, hdisp := 80, vdisp := 25, scans_per_row := 11, vblank_method := 0,
    resized := 0, update_strobe := 0, lpen_valid := 0, disp_start := 0, flashvideo := 0,
    update := 0, flashvideo_last := 0, crtc_regs_data := List.replicate 32 0, htot := 0,
    vtot := 0, vtot_adj := 0, lpen := 0, reg := 0, mem_addr := 0, redraw := 0,
    timing := { vsync_freq := 0, vblank_divval := 0, vblank_cmpval := 0,
                cur_blink_rate_t1r32 := 0, cur_blink_rate_t1r16 := 0,
                cur_blink_rate_c1r32 := 0, cur_blink_rate_c1r16 := 0, flashrate := 4,
                flashvalue_c := 0, flashvalue_t := 0 },
    cursor := { cur_blink_last := 0, cur_blink := 0, cur_mode := 0, cur_pos := 0,
                cur_start := 0, cur_end := 0 },
    vdu := { dirty := [], drawn := [], redrawn := [], aspect := none, vdu_yscale := none,
             surface := none, renders := 0 } }

/-- `crtc_set_redraw`. -/
def crtc_set_redraw (s : crtc_state) : crtc_state := { s with redraw := 1 }

/-- The body of the inner loop of `crtc_redraw` for the cell at pixel `(x, y)`:
the address is wrapped to 14 bits, and the cell is drawn and its dirty bit
cleared when the global flag or its dirty bit is set. -/
def crtc_redraw_cell (s : crtc_state) (x y maddr : Nat) : crtc_state :=
  if s.redraw ≠ 0 ∨ (maddr &&& 0x3fff) ∈ s.vdu.dirty then
    { s with
      vdu := { s.vdu with
        drawn := s.vdu.drawn ++
          [{ x := x, y := y, maddr := maddr &&& 0x3fff, scans_per_row := s.scans_per_row,
             flashvideo := s.flashvideo,
             cursor := if (maddr &&& 0x3fff) = s.cursor.cur_pos then s.cursor.cur_blink else 0,
             cur_start := s.cursor.cur_start, cur_end := s.cursor.cur_end }],
        dirty := s.vdu.dirty.filter (fun a => a ≠ (maddr &&& 0x3fff)) },
      update := 1 }
  else s

/-- The inner loop of `crtc_redraw` with `n` columns to go; the result is the
state and the value of `maddr`. -/
def crtc_redraw_row : Nat → crtc_state → Nat → Nat → Nat → crtc_state × Nat
  | 0, s, _, _, maddr => (s, maddr)
  | n + 1, s, x, y, maddr =>
    crtc_redraw_row n (crtc_redraw_cell s x y maddr) (x + 8) y ((maddr &&& 0x3fff) + 1)

/-- The outer loop of `crtc_redraw` with `n` rows to go, `l` being the row pitch
`video.yscale * crtc.scans_per_row`. -/
def crtc_redraw_rows (l : Nat) : Nat → crtc_state → Nat → Nat → crtc_state
  | 0, s, _, _ => s
  | n + 1, s, y, maddr =>
    crtc_redraw_rows l n (crtc_redraw_row s.hdisp s 0 y maddr).1 (y + l)
      (crtc_redraw_row s.hdisp s 0 y maddr).2

/-- `crtc_redraw`.  `vdu_propagate_pcg_updates` marks the cells `e.pcg_dirty`. -/
def crtc_redraw (e : crtc_env) (s : crtc_state) : crtc_state :=
  if s.video = 0 then s
  else
    { crtc_redraw_rows (e.yscale * s.scans_per_row) s.vdisp
        { s with vdu := { s.vdu with dirty := s.vdu.dirty ++ e.pcg_dirty } } 0 s.disp_start
      with redraw := 0 }

/-- `crtc_videochange`: the new state and the returned value. -/
def crtc_videochange (e : crtc_env) (s : crtc_state) : crtc_state × Int :=
  if s.hdisp * 8 = 0 ∨ s.vdisp * s.scans_per_row = 0 ∨ s.hdisp * 8 > 720
      ∨ s.vdisp * s.scans_per_row > 600 then (s, -1)
  else
    let s1 := { s with
      vdu := { s.vdu with aspect := some (if s.hdisp < 50 then 1 else e.aspect),
                          vdu_yscale := some e.yscale,
                          surface := some (s.hdisp * 8,
                            s.vdisp * s.scans_per_row * e.yscale) } }
    let s2 := crtc_redraw e (crtc_set_redraw s1)
    ({ s2 with vdu := { s2.vdu with renders := s2.vdu.renders + 1 }, resized := 0 }, 0)

/-- `crtc_reset`. -/
def crtc_reset (s : crtc_state) : crtc_state := { s with reg := 0 }

/-- `crtc_vblank`: the operands of `%` and `<` are converted to `uint64_t`; a
zero divisor is a division by zero. -/
def crtc_vblank (e : crtc_env) (s : crtc_state) : Option Nat :=
  if s.vblank_method = 0 then
    if toU64 s.timing.vblank_divval = 0 then none
    else if e.tstates % toU64 s.timing.vblank_divval < toU64 s.timing.vblank_cmpval
    then some 0x80 else some 0
  else if (e.time_ms / 10) &&& 1 ≠ 0 then some 0x80 else some 0

/-- `crtc_lpen`. -/
def crtc_lpen (s : crtc_state) (addr : Nat) : crtc_state :=
  if s.lpen_valid = 0 then { s with lpen_valid := 1, lpen := addr } else s

/-- The effect of `keystd_checkall` on the CRTC: `crtc_lpen (i << 4)` for the
first key `i` found down. -/
def keystd_checkall (e : crtc_env) (s : crtc_state) : crtc_state :=
  match e.key_scan with
  | none => s
  | some i => crtc_lpen s (i <<< 4)

/-- The effect of `keystd_handler` on the CRTC: `crtc_lpen (addr)` when the key
scanned is down. -/
def keystd_handler (e : crtc_env) (s : crtc_state) (addr : Nat) : crtc_state :=
  if e.key_down then crtc_lpen s addr else s

/-- The light-pen bit of `crtc_status_r`. -/
def crtc_status_lpen (e : crtc_env) (s : crtc_state) : Nat :=
  if e.lpen = true ∧ s.lpen_valid ≠ 0 then 0x40 else 0

/-- The first statements of `crtc_status_r`: the update strobe is set, and the
keys are scanned when the light pen is supported and no address is latched. -/
def crtc_status_scan (e : crtc_env) (s : crtc_state) : crtc_state :=
  if e.lpen = true ∧ s.lpen_valid = 0
    then keystd_checkall e { s with update_strobe := 0x80 }
    else { s with update_strobe := 0x80 }

/-- `crtc_status_r`: the new state and the status returned (`uint16_t`). -/
def crtc_status_r (e : crtc_env) (s : crtc_state) : Option (crtc_state × Nat) :=
  (crtc_vblank e (crtc_status_scan e s)).bind fun v =>
    some (crtc_status_scan e s,
      ((crtc_status_scan e s).update_strobe
        ||| (crtc_status_lpen e (crtc_status_scan e s) ||| (if v ≠ 0 then 0x20 else 0)))
        % 65536)

/-- `crtc_address_w`. -/
def crtc_address_w (s : crtc_state) (data : Nat) : crtc_state :=
  { s with reg := data &&& 0x1F }

/-- `crtc_data_r`: the new state and the value returned (`uint16_t`). -/
def crtc_data_r (s : crtc_state) : crtc_state × Nat :=
  if s.reg = 14 then (s, ((s.cursor.cur_pos >>> 8) &&& 0x3F) % 65536)
  else if s.reg = 15 then (s, (s.cursor.cur_pos &&& 0xFF) % 65536)
  else if s.reg = 16 then ({ s with lpen_valid := 0 }, ((s.lpen >>> 8) &&& 0x3F) % 65536)
  else if s.reg = 17 then ({ s with lpen_valid := 0 }, (s.lpen &&& 0xFF) % 65536)
  else if s.reg = 31 then ({ s with update_strobe := 0 }, 0xFFFF)
  else (s, 0xFFFF)

/-- `crtc_redraw_char`. -/
def crtc_redraw_char (s : crtc_state) (maddr : Nat) : crtc_state :=
  if s.hdisp = 0 ∨ s.video = 0 then s
  else { s with vdu := { s.vdu with redrawn := s.vdu.redrawn ++ [maddr] } }

/-- The blink phase of `crtc_update_cursor`: `(elapsed / period) & 1 ? 0xff : 0`,
the division being made in `uint64_t`; a zero period is a division by zero. -/
def cur_blink_phase (elapsed : Nat) (period : Int) : Option Nat :=
  if toU64 period = 0 then none
  else some (if (elapsed / toU64 period) &&& 0x01 ≠ 0 then 0xff else 0x00)

/-- The end of `crtc_update_cursor`: the comparison of `cur_blink` with
`cur_blink_last`. -/
def crtc_update_cursor_edge (s : crtc_state) : crtc_state × Int :=
  if s.cursor.cur_blink ≠ s.cursor.cur_blink_last then
    ({ s with cursor := { s.cursor with cur_blink_last := s.cursor.cur_blink } }, 1)
  else (s, 0)

/-- `crtc_update_cursor`: the new state and the returned value. -/
def crtc_update_cursor (e : crtc_env) (s : crtc_state) : Option (crtc_state × Int) :=
  if s.cursor.cur_mode = 1 then
    some (crtc_update_cursor_edge
      { s with cursor := { s.cursor with cur_blink_last := 0x00, cur_blink := 0x00 } })
  else if s.cursor.cur_mode = 2 then
    (if e.turbo then cur_blink_phase e.time_ms s.timing.cur_blink_rate_t1r32
      else cur_blink_phase e.z80_cycles s.timing.cur_blink_rate_c1r32).bind
      fun b => some (crtc_update_cursor_edge { s with cursor := { s.cursor with cur_blink := b } })
  else if s.cursor.cur_mode = 3 then
    (if e.turbo then cur_blink_phase e.time_ms s.timing.cur_blink_rate_t1r16
      else cur_blink_phase e.z80_cycles s.timing.cur_blink_rate_c1r16).bind
      fun b => some (crtc_update_cursor_edge { s with cursor := { s.cursor with cur_blink := b } })
  else
    some (crtc_update_cursor_edge
      { s with cursor := { s.cursor with cur_blink_last := 0xff, cur_blink := 0xff } })

/-- `crtc_set_flash_rate`: the new state and the returned value.  It always
returns; `t` is `(1.0 / vsync_freq) * (1 << n)`. -/
def crtc_set_flash_rate (e : crtc_env) (s : crtc_state) (n : Int) :
    Option (crtc_state × Int) :=
  if n < 0 ∨ n > 11 then some (s, -1)
  else
    some ({ s with timing := { s.timing with
              flashrate := if n < 8 then n else (n - 8) + 3,
              flashvalue_c := double_to_int e.cvt_invalid
                (dbl_mul (some e.cpuclock)
                  (dbl_mul (dbl_div 1 s.timing.vsync_freq) (some (2 ^ n.toNat)))),
              flashvalue_t := double_to_int e.cvt_invalid
                (dbl_mul (dbl_mul (dbl_div 1 s.timing.vsync_freq) (some (2 ^ n.toNat)))
                  (some 1000)) } }, 0)

/-- The assignments of `crtc_clock` before the call of `crtc_set_flash_rate`;
`15.0/100.0` is itself a rounded quotient. -/
def crtc_clock_rates (e : crtc_env) (s : crtc_state) (cpuclock : Int) : Option crtc_state :=
  some { s with timing := { s.timing with
    vblank_divval := double_to_int e.cvt_invalid (dbl_div cpuclock s.timing.vsync_freq),
    vblank_cmpval := double_to_int e.cvt_invalid
      (dbl_mul
        (some (double_to_int e.cvt_invalid (dbl_div cpuclock s.timing.vsync_freq) : Int))
        (dbl_div 15 100)),
    cur_blink_rate_t1r32 := double_to_int e.cvt_invalid
      (dbl_mul (dbl_div 32 s.timing.vsync_freq) (some 1000)),
    cur_blink_rate_c1r32 := double_to_int e.cvt_invalid
      (dbl_mul (some cpuclock) (dbl_div 32 s.timing.vsync_freq)),
    cur_blink_rate_t1r16 := double_to_int e.cvt_invalid
      (dbl_mul (dbl_div 16 s.timing.vsync_freq) (some 1000)),
    cur_blink_rate_c1r16 := double_to_int e.cvt_invalid
      (dbl_mul (some cpuclock) (dbl_div 16 s.timing.vsync_freq)) } }

/-- `crtc_clock`. -/
def crtc_clock (e : crtc_env) (s : crtc_state) (cpuclock : Int) : Option crtc_state :=
  (crtc_clock_rates e s cpuclock).bind fun s1 =>
    (crtc_set_flash_rate e s1 s1.timing.flashrate).bind fun r => some r.1

/-- The crystal frequency chosen by `crtc_calc_vsync_freq`. -/
def vdu_xtal (e : crtc_env) : ℚ := if e.model_2mhz then 12000000 else 13500000

/-- The floor applied at the end of `crtc_calc_vsync_freq`. -/
def vsync_floor (s : crtc_state) : crtc_state :=
  if s.timing.vsync_freq < 5 then { s with timing := { s.timing with vsync_freq := 1 } }
  else s

/-- `crtc_calc_vsync_freq`.  The two quotients are at most the crystal
frequency, so they are finite. -/
def crtc_calc_vsync_freq (e : crtc_env) (s : crtc_state) : Option crtc_state :=
  (if s.htot ≠ 0 ∧ s.vtot ≠ 0 ∧ s.scans_per_row ≠ 0 then
      crtc_clock e
        { s with timing := { s.timing with
            vsync_freq := dbl_nearest (dbl_nearest (vdu_xtal e / ((s.htot * 8 : Nat) : ℚ))
              / ((s.vtot * s.scans_per_row + s.vtot_adj : Nat) : ℚ)) } }
        e.cpuclock
    else some s).bind fun s1 => some (vsync_floor s1)

/-- The first statement of `crtc_data_w`: `crtc_regs_data[reg] = data`. -/
def crtc_store_reg (s : crtc_state) (data : Nat) : crtc_state :=
  { s with crtc_regs_data := s.crtc_regs_data.set s.reg data }

/-- `crtc_data_w`; `data` is a `uint8_t`. -/
def crtc_data_w (e : crtc_env) (s : crtc_state) (data : Nat) : Option crtc_state :=
  if s.reg = 0 then
    crtc_calc_vsync_freq e { crtc_store_reg s data with htot := (data &&& 0xFF) + 1 }
  else if s.reg = 1 then
    crtc_calc_vsync_freq e
      (if s.hdisp ≠ data &&& 0xFF
        then { crtc_store_reg s data with hdisp := data &&& 0xFF, resized := 1 }
        else crtc_store_reg s data)
  else if s.reg = 4 then
    crtc_calc_vsync_freq e { crtc_store_reg s data with vtot := (data &&& 0x7F) + 1 }
  else if s.reg = 5 then
    crtc_calc_vsync_freq e { crtc_store_reg s data with vtot_adj := data &&& 0x1F }
  else if s.reg = 6 then
    some (if s.vdisp ≠ data &&& 0x7F
      then { crtc_store_reg s data with vdisp := data &&& 0x7F, resized := 1 }
      else crtc_store_reg s data)
  else if s.reg = 9 then
    crtc_calc_vsync_freq e
      (if s.scans_per_row ≠ (data &&& 0x1F) + 1
        then { crtc_store_reg s data with scans_per_row := (data &&& 0x1F) + 1, resized := 1 }
        else crtc_store_reg s data)
  else if s.reg = 10 then
    (crtc_update_cursor e
        { crtc_store_reg s data with
          cursor := { s.cursor with cur_start := data &&& 0x1F,
                                    cur_mode := (data >>> 5) &&& 0x03 } }).bind
      fun r => some (crtc_redraw_char r.1 r.1.cursor.cur_pos)
  else if s.reg = 11 then
    some (crtc_redraw_char
      { crtc_store_reg s data with cursor := { s.cursor with cur_end := data &&& 0x1F } }
      s.cursor.cur_pos)
  else if s.reg = 12 then
    some (crtc_set_redraw { crtc_store_reg s data with
      disp_start := (s.disp_start &&& 0xFF) ||| ((data &&& 0x3F) <<< 8) })
  else if s.reg = 13 then
    some (crtc_set_redraw { crtc_store_reg s data with
      disp_start := (s.disp_start &&& 0x3F00) ||| (data &&& 0xFF) })
  else if s.reg = 14 then
    some (crtc_redraw_char
      (crtc_redraw_char
        { crtc_store_reg s data with
          cursor := { s.cursor with
            cur_pos := (s.cursor.cur_pos &&& 0xFF) ||| ((data &&& 0x3F) <<< 8) } }
        s.cursor.cur_pos)
      ((s.cursor.cur_pos &&& 0xFF) ||| ((data &&& 0x3F) <<< 8)))
  else if s.reg = 15 then
    some (crtc_redraw_char
      (crtc_redraw_char
        { crtc_store_reg s data with
          cursor := { s.cursor with
            cur_pos := (s.cursor.cur_pos &&& 0x3F00) ||| (data &&& 0xFF) } }
        s.cursor.cur_pos)
      ((s.cursor.cur_pos &&& 0x3F00) ||| (data &&& 0xFF)))
  else if s.reg = 18 then
    some { crtc_store_reg s data with
      mem_addr := (s.mem_addr &&& 0x00FF) ||| ((data &&& 0x3F) <<< 8) }
  else if s.reg = 19 then
    some { crtc_store_reg s data with
      mem_addr := (s.mem_addr &&& 0x3F00) ||| (data &&& 0xFF) }
  else if s.reg = 31 then
    some (if e.lpen
      then keystd_handler e { crtc_store_reg s data with update_strobe := 0 } s.mem_addr
      else { crtc_store_reg s data with update_strobe := 0 })
  else some (crtc_store_reg s data)

/-- A run of data writes: each pair selects a register with `crtc_address_w`
and writes it with `crtc_data_w`. -/
def crtc_write_regs (e : crtc_env) : List (Nat × Nat) → crtc_state → Option crtc_state
  | [], s => some s
  | (r, d) :: rest, s =>
    (crtc_data_w e (crtc_address_w s r) d).bind fun s1 => crtc_write_regs e rest s1


/-! ## CRTC: derived values and concrete states -/

/-- The blank divisor and threshold and the four cursor-blink periods of `t` are
the ones that `crtc_clock` computes in `double` arithmetic from the frequency
`f` and the CPU clock `c`, `u` being the value of an invalid conversion. -/
def crtc_rates_derived (u : Int) (t : crtc_timing) (f : ℚ) (c : Int) : Prop :=
  t.vblank_divval = double_to_int u (dbl_div c f)
    ∧ t.vblank_cmpval = double_to_int u (dbl_mul (some (t.vblank_divval : Int)) (dbl_div 15 100))
    ∧ t.cur_blink_rate_t1r32 = double_to_int u (dbl_mul (dbl_div 32 f) (some 1000))
    ∧ t.cur_blink_rate_c1r32 = double_to_int u (dbl_mul (some c) (dbl_div 32 f))
    ∧ t.cur_blink_rate_t1r16 = double_to_int u (dbl_mul (dbl_div 16 f) (some 1000))
    ∧ t.cur_blink_rate_c1r16 = double_to_int u (dbl_mul (some c) (dbl_div 16 f))

/-- The flash periods of `t` are the ones that `crtc_set_flash_rate (n)`
computes in `double` arithmetic from the frequency `f` and the CPU clock `c`. -/
def crtc_flash_derived (u : Int) (t : crtc_timing) (f : ℚ) (c : Int) (n : Int) : Prop :=
  t.flashvalue_c
      = double_to_int u (dbl_mul (some c) (dbl_mul (dbl_div 1 f) (some (2 ^ n.toNat))))
    ∧ t.flashvalue_t
      = double_to_int u (dbl_mul (dbl_mul (dbl_div 1 f) (some (2 ^ n.toNat))) (some 1000))

/-- The frequency that `crtc_calc_vsync_freq` computes from the totals: the
quotient `(xtal / (htot * 8)) / (vtot * scans_per_row + vtot_adj)`, each
division rounded to a `double`. -/
def vsync_formula (e : crtc_env) (htot vtot scans_per_row vtot_adj : Nat) : ℚ :=
  dbl_nearest (dbl_nearest (vdu_xtal e / ((htot * 8 : Nat) : ℚ))
    / ((vtot * scans_per_row + vtot_adj : Nat) : ℚ))

/-- The state `s` with the draw log, the dirty cells and `crtc.update` replaced:
the part of the state that the loops of `crtc_redraw` write. -/
def crtc_drawn (s : crtc_state) (drawn : List draw_call) (dirty : List Nat)
    (update : Nat) : crtc_state :=
  { s with vdu := { s.vdu with drawn := drawn, dirty := dirty }, update := update }

/-- The call of `vdu_draw_char` that `crtc_redraw` makes for the cell at pixel
`(x, y)` with the wrapped address `a`. -/
def cell_draw (scans_per_row flashvideo : Nat) (c : crtc_cursor) (x y a : Nat) : draw_call :=
  { x := x, y := y, maddr := a, scans_per_row := scans_per_row, flashvideo := flashvideo,
    cursor := if a = c.cur_pos then c.cur_blink else 0,
    cur_start := c.cur_start, cur_end := c.cur_end }

/-- The value of `maddr` after `n` cells. -/
def maddr_after : Nat → Nat → Nat
  | 0, m => m
  | n + 1, m => maddr_after n ((m &&& 0x3fff) + 1)

/-- The wrapped addresses of `n` successive cells. -/
def row_addrs : Nat → Nat → List Nat
  | 0, _ => []
  | n + 1, m => (m &&& 0x3fff) :: row_addrs n ((m &&& 0x3fff) + 1)

/-- The wrapped addresses of `v` rows of `h` cells. -/
def grid_addrs (h : Nat) : Nat → Nat → List Nat
  | 0, _ => []
  | v + 1, m => row_addrs h m ++ grid_addrs h v (maddr_after h m)

/-- The draw calls of a row of `n` cells that are all drawn. -/
def row_calls (scans_per_row flashvideo : Nat) (c : crtc_cursor) :
    Nat → Nat → Nat → Nat → List draw_call
  | 0, _, _, _ => []
  | n + 1, x, y, m =>
    cell_draw scans_per_row flashvideo c x y (m &&& 0x3fff)
      :: row_calls scans_per_row flashvideo c n (x + 8) y ((m &&& 0x3fff) + 1)

/-- The draw calls of `v` rows of `h` cells that are all drawn, `l` being the row
pitch. -/
def grid_calls (scans_per_row flashvideo : Nat) (c : crtc_cursor) (h l : Nat) :
    Nat → Nat → Nat → List draw_call
  | 0, _, _ => []
  | v + 1, y, m =>
    row_calls scans_per_row flashvideo c h 0 y m
      ++ grid_calls scans_per_row flashvideo c h l v (y + l) (maddr_after h m)

/-- The constants derived from the frequency are the same in `t` and `t'`: the
blank divisor and threshold, the cursor-blink periods and the flash periods. -/
def crtc_constants_kept (t t' : crtc_timing) : Prop :=
  t'.vblank_divval = t.vblank_divval ∧ t'.vblank_cmpval = t.vblank_cmpval
    ∧ t'.cur_blink_rate_t1r32 = t.cur_blink_rate_t1r32
    ∧ t'.cur_blink_rate_t1r16 = t.cur_blink_rate_t1r16
    ∧ t'.cur_blink_rate_c1r32 = t.cur_blink_rate_c1r32
    ∧ t'.cur_blink_rate_c1r16 = t.cur_blink_rate_c1r16
    ∧ t'.flashrate = t.flashrate ∧ t'.flashvalue_c = t.flashvalue_c
    ∧ t'.flashvalue_t = t.flashvalue_t

/-- The elapsed count that `crtc_update_cursor` divides: host milliseconds in
turbo mode, Z80 cycles otherwise. -/
def cursor_elapsed (e : crtc_env) : Nat := if e.turbo then e.time_ms else e.z80_cycles

/-- The period that `crtc_update_cursor` divides by in the blink modes: the
1/32 period in mode 2 and the 1/16 period otherwise, in milliseconds in turbo
mode and in cycles otherwise. -/
def cursor_period (turbo : Bool) (s : crtc_state) : Int :=
  if s.cursor.cur_mode = 2 then
    (if turbo then s.timing.cur_blink_rate_t1r32 else s.timing.cur_blink_rate_c1r32)
  else (if turbo then s.timing.cur_blink_rate_t1r16 else s.timing.cur_blink_rate_c1r16)

/-- The blink phase at the elapsed count `t` for the period `p`: 0xff in the odd
periods and 0 in the even ones. -/
def cursor_phase (t p : Nat) : Nat := if (t / p) % 2 = 1 then 0xff else 0x00

/-- Successive calls of `crtc_update_cursor`, one for each environment of the
list; the result is the list of the returned values. -/
def crtc_update_cursor_seq : List crtc_env → crtc_state → Option (List Int)
  | [], _ => some []
  | e :: es, s =>
    (crtc_update_cursor e s).bind fun r =>
      (crtc_update_cursor_seq es r.1).bind fun rs => some (r.2 :: rs)

/-- The values that edge detection returns along the elapsed counts `ts`, the
count observed before being `t0`: 1 where the parity of the period number
changes, 0 elsewhere. -/
def blink_edges (p : Nat) : Nat → List Nat → List Int
  | _, [] => []
  | t0, t :: ts => (if (t0 / p) % 2 ≠ (t / p) % 2 then 1 else 0) :: blink_edges p t ts

/-- A concrete environment: the 13.5 MHz crystal, a 3.375 MHz CPU clock, no
turbo, no light pen, no key down, unit scale. -/
def crtc_env_default : crtc_env :=
  { model_2mhz := false, cpuclock := 3375000, cvt_invalid := -2147483648, turbo := false, z80_cycles := 0, tstates := 0,
    time_ms := 0, lpen := false, hwflash := 0, extendram := false, aspect := 1, yscale := 1,
    pcg_dirty := [], key_scan := none, key_down := false }

/-- The 14-bit value held by the register pair whose high register is `k`:
the display start for 12, the cursor position for 14, the update address
otherwise (18). -/
def register_pair (k : Nat) (s : crtc_state) : Nat :=
  if k = 12 then s.disp_start else if k = 14 then s.cursor.cur_pos else s.mem_addr

/-- The totals are within the ranges that the register masks allow and the stored
flash rate is one of 0..7. -/
def crtc_totals_ok (s : crtc_state) : Prop :=
  s.htot ≤ 256 ∧ s.vtot ≤ 128 ∧ s.scans_per_row ≤ 32 ∧ s.vtot_adj ≤ 31
    ∧ 0 ≤ s.timing.flashrate ∧ s.timing.flashrate ≤ 7

/-- The initial state with the timing group of a 50 Hz field at a CPU clock of
3.375 MHz. -/
def crtc_at_50hz : crtc_state :=
  { crtc_initial with
    timing := { vsync_freq := 50, vblank_divval := 67500, vblank_cmpval := 10125,
                cur_blink_rate_t1r32 := 640, cur_blink_rate_t1r16 := 320,
                cur_blink_rate_c1r32 := 2160000, cur_blink_rate_c1r16 := 1080000,
                flashrate := 4, flashvalue_c := 1080000, flashvalue_t := 320 } }


/-! ## CRTC: the redraw walk and runs of port operations -/

/-- The cells given by their pixel position and memory address are considered
one after the other, each as by the body of the inner loop of `crtc_redraw`. -/
def crtc_walk (s : crtc_state) (cells : List (Nat × Nat × Nat)) : crtc_state :=
  cells.foldl (fun st c => crtc_redraw_cell st c.1 c.2.1 c.2.2) s

/-- The first `n` cells of a grid of rows of `h` cells in row order: the cell
number `k` is in row `k / h` and column `k % h`, at the pixel position
`(8 * column, row * l)`, and has the memory address `(m0 + k) mod 0x4000`. -/
def grid_cells (h l m0 n : Nat) : List (Nat × Nat × Nat) :=
  (List.range n).map fun k => (8 * (k % h), k / h * l, (m0 + k) % 0x4000)

/-- The ranges that the register masks give: the selected register, the three
14-bit addresses, the cursor scan lines and mode, and the displayed geometry. -/
def crtc_regs_in_range (s : crtc_state) : Prop :=
  s.reg ≤ 31 ∧ s.disp_start ≤ 0x3FFF ∧ s.cursor.cur_pos ≤ 0x3FFF ∧ s.mem_addr ≤ 0x3FFF
    ∧ s.cursor.cur_start ≤ 31 ∧ s.cursor.cur_end ≤ 31 ∧ s.cursor.cur_mode ≤ 3
    ∧ s.hdisp ≤ 255 ∧ s.vdisp ≤ 127 ∧ 1 ≤ s.scans_per_row ∧ s.scans_per_row ≤ 32

/-- The port operations of the CRTC; the writes carry the data byte. -/
inductive crtc_op where
  | address_w (data : Nat)
  | data_w (data : Nat)
  | data_r
  | status_r
deriving DecidableEq, Repr

/-- One port operation in the environment `e`. -/
def crtc_step (e : crtc_env) (s : crtc_state) : crtc_op → Option crtc_state
  | .address_w data => some (crtc_address_w s data)
  | .data_w data => crtc_data_w e s data
  | .data_r => some (crtc_data_r s).1
  | .status_r => (crtc_status_r e s).bind fun r => some r.1

/-- A sequence of port operations, each in its own environment, first to last. -/
def crtc_run : List (crtc_env × crtc_op) → crtc_state → Option crtc_state
  | [], s => some s
  | (e, op) :: rest, s => (crtc_step e s op).bind fun s1 => crtc_run rest s1


/-! # uBee512: the standard keyboard (`src/keystd.c`)

The key-down and key-up handlers with the scan tables.  The arrays are lists; a
read or a write at an index outside the array is undefined: `none`. -/

/-- `MB_KEYS`. -/
def MB_KEYS : Nat := 64

/-- `PC_KEYS`. -/
def PC_KEYS : Nat := 72

/-- `PCK_m`. -/
def PCK_m : Nat := 12

/-- `PCK_INSERT`. -/
def PCK_INSERT : Nat := 30

/-- `PCK_ESCAPE`. -/
def PCK_ESCAPE : Nat := 38

/-- `PCK_LCTRL`. -/
def PCK_LCTRL : Nat := 47

/-- `PCK_RCTRL`. -/
def PCK_RCTRL : Nat := 48

/-- `PCK_LSHIFT`. -/
def PCK_LSHIFT : Nat := 54

/-- `PCK_RSHIFT`. -/
def PCK_RSHIFT : Nat := 55

/-- `PCK_2`. -/
def PCK_2 : Nat := 57

/-- `PCK_6`. -/
def PCK_6 : Nat := 58

/-- `PCK_BACKQUOTE`. -/
def PCK_BACKQUOTE : Nat := 62

/-- `PCK_QUOTE`. -/
def PCK_QUOTE : Nat := 63

/-- `PCK_SEMICOLON`. -/
def PCK_SEMICOLON : Nat := 64

/-- `PCK_EQUALS`. -/
def PCK_EQUALS : Nat := 66

/-- The table `mb_scan_pclower`: Microbee codes for lower PC keys, 0xFF for a
key that is not implemented. -/
def mb_scan_pclower : List Nat :=
  [0x01, 0x02, 0x03, 0x04, 0x05, 0x06, 0x07, 0x08,
   0x09, 0x0A, 0x0B, 0x0C, 0x0D, 0x0E, 0x0F, 0x10,
   0x11, 0x12, 0x13, 0x14, 0x15, 0x16, 0x17, 0x18,
   0x19, 0x1A, 0x1B, 0x1C, 0x1D,
   0x1F,
   0xFF,
   0x21,
   0x23, 0x24, 0x25,
   0x2C,
   0x2E, 0x2F,
   0x30, 0x31, 0x32, 0x33, 0x34, 0x35, 0x36, 0x37,
   0x38, 0x39, 0x39, 0x3A, 0x3B, 0x3C, 0x3D, 0x3E,
   0x3F, 0x3F,
   0x20, 0x22, 0x26, 0x27, 0x28, 0x29, 0x00, 0x27,
   0x2B, 0x2D, 0x2D,
   0xFF, 0xFF, 0xFF, 0xFF, 0xFF]

/-- The table `mb_scan_pcshift`: Microbee codes for shift PC keys, 0xFF for a
key that is not implemented. -/
def mb_scan_pcshift : List Nat :=
  [0x01, 0x02, 0x03, 0x04, 0x05, 0x06, 0x07, 0x08,
   0x09, 0x0A, 0x0B, 0x0C, 0x0D, 0x0E, 0x0F, 0x10,
   0x11, 0x12, 0x13, 0x14, 0x15, 0x16, 0x17, 0x18,
   0x19, 0x1A, 0x1B, 0x1C, 0x1D,
   0x1F,
   0x20,
   0x21,
   0x23, 0x24, 0x25,
   0x2C,
   0x2E, 0x2F,
   0x30, 0x31, 0x32, 0x33, 0x34, 0x35, 0x36, 0x37,
   0x38, 0x39, 0x39, 0x3A, 0x3B, 0x3C, 0x3D, 0x3E,
   0x3F, 0x3F,
   0x29, 0x00, 0x1E, 0x26, 0x2A, 0x28, 0x1E, 0x22,
   0x2A, 0x1F, 0x2B,
   0xFF, 0xFF, 0xFF, 0xFF, 0xFF]

/-- The statics `pc_keystate` (`PC_KEYS` entries), `mb_keystate` and `mb_invert`
(`MB_KEYS` entries each) and `havekeys`, with `emu.keyesc` and `emu.keym`. -/
structure keystd_state where
  pc_keystate : List Nat
  mb_keystate : List Nat
  mb_invert : List Nat
  havekeys : Int
  keyesc : Nat
  keym : Nat
deriving DecidableEq, Repr

/-- A read `a[i]` of an array. -/
def array_get (a : List Nat) (i : Nat) : Option Nat :=
  if i < a.length then some (a.getD i 0) else none

/-- A write `a[i] = v` to an array. -/
def array_set (a : List Nat) (i v : Nat) : Option (List Nat) :=
  if i < a.length then some (a.set i v) else none

/-- The last statement of the matching turn of the loop of
`keystd_keydown_event`: `if (scan != 255) mb_keystate[scan] = 1`. -/
def keystd_set_keystate (s : keystd_state) (scan : Nat) : Option keystd_state :=
  if scan ≠ 255 then
    (array_set s.mb_keystate scan 1).bind fun k => some { s with mb_keystate := k }
  else some s

/-- The write `mb_invert[scan] = v` followed by the last statement of the turn;
`havekeys` has been incremented. -/
def keystd_set_invert (s : keystd_state) (scan v : Nat) : Option keystd_state :=
  (array_set s.mb_invert scan v).bind fun inv =>
    keystd_set_keystate { s with havekeys := s.havekeys + 1, mb_invert := inv } scan

/-- The turn of the loop of `keystd_keydown_event` at the index `i` whose entry
`pc_keys[i]` is the key of the event.  The entries of `pc_keys` are distinct, so
a test such as `key == SDLK_2` is `i = PCK_2`.  `ctrl_shift` is
`keystd.key_mod & KEYSTD_MOD_CTRL_SHIFT`. -/
def keystd_keydown_match (ctrl_shift : Bool) (s : keystd_state) (i : Nat) :
    Option keystd_state :=
  if (s.pc_keystate.set i 1).getD PCK_LSHIFT 0 ≠ 0
      ∨ (s.pc_keystate.set i 1).getD PCK_RSHIFT 0 ≠ 0 then
    if mb_scan_pcshift.getD i 255 ≠ 255 then
      if ((s.pc_keystate.set i 1).getD PCK_LCTRL 0 ≠ 0
          ∨ (s.pc_keystate.set i 1).getD PCK_RCTRL 0 ≠ 0) ∧ ctrl_shift = true then
        keystd_set_invert { s with pc_keystate := s.pc_keystate.set i 1 }
          (mb_scan_pclower.getD i 255) 0
      else
        keystd_set_invert { s with pc_keystate := s.pc_keystate.set i 1 }
          (mb_scan_pcshift.getD i 255)
          (if i = PCK_2 ∨ i = PCK_6 ∨ i = PCK_SEMICOLON then 1 else 0)
    else keystd_set_keystate { s with pc_keystate := s.pc_keystate.set i 1 } 255
  else
    if mb_scan_pclower.getD i 255 ≠ 255 then
      keystd_set_invert { s with pc_keystate := s.pc_keystate.set i 1 }
        (mb_scan_pclower.getD i 255)
        (if i = PCK_BACKQUOTE ∨ i = PCK_QUOTE ∨ i = PCK_EQUALS then 1 else 0)
    else keystd_set_keystate { s with pc_keystate := s.pc_keystate.set i 1 } 255

/-- The two statements after the loop of both handlers:
`emu.keyesc = mb_keystate[mb_scan_pclower[PCK_ESCAPE]]` and the same for
`PCK_m`. -/
def keystd_key_flags (s : keystd_state) : Option keystd_state :=
  (array_get s.mb_keystate (mb_scan_pclower.getD PCK_ESCAPE 255)).bind fun a =>
    (array_get s.mb_keystate (mb_scan_pclower.getD PCK_m 255)).bind fun b =>
      some { s with keyesc := a, keym := b }

/-- `keystd_keydown_event` for the key `pc_keys[key]`; an index of `PC_KEYS` or
more stands for a key that is not in the table. -/
def keystd_keydown_event (ctrl_shift : Bool) (s : keystd_state) (key : Nat) :
    Option keystd_state :=
  (if key < PC_KEYS then keystd_keydown_match ctrl_shift s key else some s).bind
    keystd_key_flags

/-- The turn of the loop of `keystd_keyup_event` at the index `i` whose entry
`pc_keys[i]` is the key of the event. -/
def keystd_keyup_match (s : keystd_state) (i : Nat) : Option keystd_state :=
  (if mb_scan_pcshift.getD i 255 ≠ 255
    then array_set s.mb_keystate (mb_scan_pcshift.getD i 255) 0
    else some s.mb_keystate).bind fun k1 =>
    (if mb_scan_pclower.getD i 255 ≠ 255
      then array_set k1 (mb_scan_pclower.getD i 255) 0
      else some k1).bind fun k2 =>
      some { s with pc_keystate := s.pc_keystate.set i 0, mb_keystate := k2 }

/-- `keystd_keyup_event` for the key `pc_keys[key]`. -/
def keystd_keyup_event (s : keystd_state) (key : Nat) : Option keystd_state :=
  (if key < PC_KEYS then keystd_keyup_match s key else some s).bind keystd_key_flags

/-- No key down: every entry of the three arrays is 0. -/
def keystd_initial : keystd_state :=
  { pc_keystate := List.replicate 72 0, mb_keystate := List.replicate 64 0,
    mb_invert := List.replicate 64 0, havekeys := 0, keyesc := 0, keym := 0 }

/-- The arrays have their declared sizes. -/
def keystd_sized (s : keystd_state) : Prop :=
  s.pc_keystate.length = PC_KEYS ∧ s.mb_keystate.length = MB_KEYS
    ∧ s.mb_invert.length = MB_KEYS

/-- A SHIFT key is down in `pc_keystate`. -/
def keystd_shift_down (s : keystd_state) : Prop :=
  s.pc_keystate.getD PCK_LSHIFT 0 ≠ 0 ∨ s.pc_keystate.getD PCK_RSHIFT 0 ≠ 0

/-- A CTRL key is down in `pc_keystate`. -/
def keystd_ctrl_down (s : keystd_state) : Prop :=
  s.pc_keystate.getD PCK_LCTRL 0 ≠ 0 ∨ s.pc_keystate.getD PCK_RCTRL 0 ≠ 0

/-! ## Machine-integer facts -/

theorem toU64_one : toU64 1 = 1 := by decide

theorem toInt32_one : toInt32 ((1 : Nat) : Int) = 1 := by decide

theorem toInt32_of_range (x : Int) (hlo : -2147483648 ≤ x) (hhi : x < 2147483648) :
    toInt32 x = x := by
  unfold toInt32
  omega

theorem toU64_of_range (x : Int) (hlo : 0 ≤ x) (hhi : x < 18446744073709551616) :
    (toU64 x : Int) = x := by
  unfold toU64
  rw [Int.toNat_of_nonneg (Int.emod_nonneg _ (by norm_num))]
  exact Int.emod_eq_of_lt hlo hhi

theorem toU64_pos (x : Int) (hlo : 1 ≤ x) (hhi : x < 2147483648) : 1 ≤ toU64 x := by
  have h := toU64_of_range x (by omega) (by omega)
  omega

/-! ## The emitter `speaker_fill` -/

theorem decay_after_add (tau sample : Int) (n m : Nat) (d : Int) :
    decay_after tau sample (n + m) d = decay_after tau sample m (decay_after tau sample n d) := by
  induction n generalizing d with
  | zero => simp [decay_after]
  | succ n ih =>
    rw [Nat.succ_add]
    simp only [decay_after]
    exact ih _

theorem decay_output_add (e : audio_t) (tau sample : Int) (n m : Nat) (d : Int) :
    decay_output e tau sample (n + m) d
      = decay_output e tau sample n d
        ++ decay_output e tau sample m (decay_after tau sample n d) := by
  induction n generalizing d with
  | zero => simp [decay_output, decay_after]
  | succ n ih =>
    rw [Nat.succ_add]
    simp only [decay_output, decay_after, List.cons_append]
    rw [ih]

theorem decay_output_length (e : audio_t) (tau sample : Int) (n : Nat) (d : Int) :
    (decay_output e tau sample n d).length = n := by
  induction n generalizing d with
  | zero => simp [decay_output]
  | succ n ih => simp [decay_output, ih]

theorem speaker_fill_samples_eq (e : audio_t) (sample : Int) (n : Nat) (s : speaker_t)
    (htau : s.tau ≠ 0) :
    speaker_fill_samples e sample n s
      = some { s with
          decay := decay_after s.tau sample n s.decay,
          snd_buf := { s.snd_buf with
            space := s.snd_buf.space - n,
            written := s.snd_buf.written ++ decay_output e s.tau sample n s.decay } } := by
  induction n generalizing s with
  | zero => simp [speaker_fill_samples, decay_after, decay_output]
  | succ n ih =>
    simp only [speaker_fill_samples, if_neg htau]
    rw [ih]
    · simp only [audio_put_sample, decay_after, decay_output, List.append_assoc,
        List.singleton_append, Nat.sub_sub, Nat.add_comm 1 n]
    · exact htau

/-- The number of fresh segments needed to write `c` samples when the segment
held has `r` free slots and a fresh segment has `B`. -/
theorem segments_fit (B r c : Nat) (hB : 1 ≤ B) (h : c ≤ r) : (c - r + B - 1) / B = 0 := by
  have h0 : c - r = 0 := by omega
  rw [h0]
  exact Nat.div_eq_of_lt (by omega)

theorem segments_fresh (B c n : Nat) (hB : 1 ≤ B) (hc : 1 ≤ c)
    (hn : n = if B > c then c else B) :
    (c - n - (B - n) + B - 1) / B + 1 = (c - 0 + B - 1) / B := by
  by_cases h : B > c
  · rw [if_pos h] at hn
    rw [hn]
    have h1 : c - c - (B - c) + B - 1 = B - 1 := by omega
    have h2 : c - 0 + B - 1 = (c - 1) + B := by omega
    rw [h1, h2, Nat.add_div_right _ (by omega), Nat.div_eq_of_lt (by omega : B - 1 < B),
      Nat.div_eq_of_lt (by omega : c - 1 < B)]
  · rw [if_neg h] at hn
    rw [hn]
    have h1 : c - B - (B - B) + B - 1 = c - 1 := by omega
    have h2 : c - 0 + B - 1 = (c - 1) + B := by omega
    rw [h1, h2, Nat.add_div_right _ (by omega)]

theorem segments_held (B r c n : Nat) (hB : 1 ≤ B)
    (hn : n = if r > c then c else r) :
    (c - n - (r - n) + B - 1) / B = (c - r + B - 1) / B := by
  by_cases h : r > c
  · rw [if_pos h] at hn
    rw [hn]
    rw [segments_fit B r c hB (by omega), segments_fit B (r - c) (c - c) hB (by omega)]
  · rw [if_neg h] at hn
    rw [hn]
    have h1 : c - r - (r - r) = c - r := by omega
    rw [h1]

theorem speaker_fill_loop_spec (e : audio_t) (sample : Int) (hbuf : 1 ≤ e.bufsize)
    (turns count : Nat) (s : speaker_t) (htau : s.tau ≠ 0) (hturns : count ≤ turns) :
    ∃ sb, speaker_fill_loop e sample turns count s
        = some { s with decay := decay_after s.tau sample count s.decay, snd_buf := sb }
      ∧ sb.written = s.snd_buf.written ++ decay_output e s.tau sample count s.decay
      ∧ (s.snd_buf.has_work = true ∨ 0 < count → sb.has_work = true)
      ∧ (count = 0 → sb = s.snd_buf)
      ∧ sb.gets = s.snd_buf.gets
          + (count - audio_space_remaining s.snd_buf + e.bufsize - 1) / e.bufsize
      ∧ sb.puts = s.snd_buf.puts
          + (count - audio_space_remaining s.snd_buf + e.bufsize - 1) / e.bufsize := by
  induction turns generalizing count s with
  | zero =>
    obtain rfl : count = 0 := by omega
    have h0 := segments_fit e.bufsize (audio_space_remaining s.snd_buf) 0 hbuf (by omega)
    exact ⟨s.snd_buf, by simp [speaker_fill_loop, decay_after], by simp [decay_output],
      by simp, by simp, by rw [h0]; rfl, by rw [h0]; rfl⟩
  | succ turns ih =>
    cases count with
    | zero =>
      have h0 := segments_fit e.bufsize (audio_space_remaining s.snd_buf) 0 hbuf (by omega)
      exact ⟨s.snd_buf, by simp [speaker_fill_loop, decay_after], by simp [decay_output],
        by simp, by simp, by rw [h0]; rfl, by rw [h0]; rfl⟩
    | succ count =>
      simp only [speaker_fill_loop]
      generalize hsb2 : (if (!audio_has_work_buffer
          (if audio_space_remaining s.snd_buf = 0 then audio_put_work_buffer s.snd_buf
            else s.snd_buf)) = true
        then audio_get_work_buffer e
          (if audio_space_remaining s.snd_buf = 0 then audio_put_work_buffer s.snd_buf
            else s.snd_buf)
        else (if audio_space_remaining s.snd_buf = 0 then audio_put_work_buffer s.snd_buf
            else s.snd_buf)) = sb2
      have hprop : sb2.has_work = true ∧ 1 ≤ sb2.space ∧ sb2.written = s.snd_buf.written
          ∧ ((audio_space_remaining s.snd_buf = 0 ∧ sb2.space = e.bufsize
                ∧ sb2.gets = s.snd_buf.gets + 1 ∧ sb2.puts = s.snd_buf.puts + 1)
              ∨ (1 ≤ audio_space_remaining s.snd_buf
                ∧ sb2.space = audio_space_remaining s.snd_buf
                ∧ sb2.gets = s.snd_buf.gets ∧ sb2.puts = s.snd_buf.puts)) := by
        subst hsb2
        by_cases h0 : audio_space_remaining s.snd_buf = 0
        · simp [h0, audio_put_work_buffer, audio_has_work_buffer, audio_get_work_buffer, hbuf]
        · have hw : s.snd_buf.has_work = true := by
            by_contra hw
            exact h0 (by simp [audio_space_remaining, hw])
          have hs : 1 ≤ s.snd_buf.space := by
            simp [audio_space_remaining, hw] at h0
            omega
          have hr : audio_space_remaining s.snd_buf = s.snd_buf.space := by
            simp [audio_space_remaining, hw]
          rw [if_neg h0]
          simp [audio_has_work_buffer, hw, hs, hr]
      obtain ⟨hw2, hs2, hwr2, hcase⟩ := hprop
      have hsr : audio_space_remaining sb2 = sb2.space := by simp [audio_space_remaining, hw2]
      rw [hsr]
      generalize hn : (if sb2.space > count + 1 then count + 1 else sb2.space) = n
      have hn1 : 1 ≤ n ∧ n ≤ count + 1 := by
        subst hn
        split <;> omega
      rw [speaker_fill_samples_eq e sample n _ (by exact htau)]
      simp only []
      obtain ⟨sb, heq, hwr, hhw, -, hg, hp⟩ := ih (count + 1 - n)
        { s with
          decay := decay_after s.tau sample n s.decay,
          snd_buf := { sb2 with
            space := sb2.space - n,
            written := sb2.written ++ decay_output e s.tau sample n s.decay } }
        htau (by omega)
      have hrem : audio_space_remaining { sb2 with
            space := sb2.space - n,
            written := sb2.written ++ decay_output e s.tau sample n s.decay }
          = sb2.space - n := by
        simp [audio_space_remaining, hw2]
      simp only [hrem] at hg hp
      have hseg : sb2.gets + (count + 1 - n - (sb2.space - n) + e.bufsize - 1) / e.bufsize
            = s.snd_buf.gets
              + (count + 1 - audio_space_remaining s.snd_buf + e.bufsize - 1) / e.bufsize
          ∧ sb2.puts + (count + 1 - n - (sb2.space - n) + e.bufsize - 1) / e.bufsize
            = s.snd_buf.puts
              + (count + 1 - audio_space_remaining s.snd_buf + e.bufsize - 1) / e.bufsize := by
        rcases hcase with ⟨hr0, hsp, hg2, hp2⟩ | ⟨hr1, hsp, hg2, hp2⟩
        · rw [hsp] at hn
          have := segments_fresh e.bufsize (count + 1) n hbuf (by omega) hn.symm
          rw [hsp, hg2, hp2, hr0]
          omega
        · rw [hsp] at hn
          have := segments_held e.bufsize (audio_space_remaining s.snd_buf) (count + 1) n hbuf
            hn.symm
          rw [hsp, hg2, hp2, this]
          exact ⟨rfl, rfl⟩
      refine ⟨sb, ?_, ?_, ?_, ?_, ?_, ?_⟩
      · rw [heq]
        simp only [← decay_after_add]
        have : n + (count + 1 - n) = count + 1 := by omega
        rw [this]
      · rw [hwr]
        simp only [hwr2, List.append_assoc, ← decay_output_add]
        have : n + (count + 1 - n) = count + 1 := by omega
        rw [this]
      · intro _
        exact hhw (Or.inl hw2)
      · intro h
        omega
      · rw [hg]
        exact hseg.1
      · rw [hp]
        exact hseg.2

theorem speaker_fill_samples_frame (e : audio_t) (sample : Int) (n : Nat) (s s1 : speaker_t)
    (h : speaker_fill_samples e sample n s = some s1) : speaker_fill_keeps s s1 := by
  induction n generalizing s with
  | zero =>
    simp only [speaker_fill_samples, Option.some.injEq] at h
    subst h
    exact ⟨rfl, rfl, rfl, rfl, rfl, rfl, rfl, rfl, rfl, rfl, rfl, rfl⟩
  | succ n ih =>
    simp only [speaker_fill_samples] at h
    split at h
    · exact absurd h (by simp)
    · have h2 := ih _ h
      exact h2

theorem speaker_fill_loop_frame (e : audio_t) (sample : Int) (turns count : Nat)
    (s s1 : speaker_t) (h : speaker_fill_loop e sample turns count s = some s1) :
    speaker_fill_keeps s s1 := by
  induction turns generalizing count s with
  | zero =>
    cases count with
    | zero =>
      simp only [speaker_fill_loop, Option.some.injEq] at h
      subst h
      exact ⟨rfl, rfl, rfl, rfl, rfl, rfl, rfl, rfl, rfl, rfl, rfl, rfl⟩
    | succ count => simp [speaker_fill_loop] at h
  | succ turns ih =>
    cases count with
    | zero =>
      simp only [speaker_fill_loop, Option.some.injEq] at h
      subst h
      exact ⟨rfl, rfl, rfl, rfl, rfl, rfl, rfl, rfl, rfl, rfl, rfl, rfl⟩
    | succ count =>
      simp only [speaker_fill_loop] at h
      split at h
      · exact absurd h (by simp)
      · rename_i s2 hs2
        obtain ⟨a1, a2, a3, a4, a5, a6, a7, a8, a9, a10, a11, a12⟩ :=
          speaker_fill_samples_frame e sample _ _ s2 hs2
        obtain ⟨b1, b2, b3, b4, b5, b6, b7, b8, b9, b10, b11, b12⟩ := ih _ _ h
        exact ⟨b1.trans a1, b2.trans a2, b3.trans a3, b4.trans a4, b5.trans a5, b6.trans a6,
          b7.trans a7, b8.trans a8, b9.trans a9, b10.trans a10, b11.trans a11, b12.trans a12⟩

theorem speaker_fill_frame (e : audio_t) (s s1 : speaker_t) (sample count : Int)
    (h : speaker_fill e s sample count = some s1) : speaker_fill_keeps s s1 := by
  simp only [speaker_fill] at h
  split at h
  · exact absurd h (by simp)
  · exact speaker_fill_loop_frame e sample _ _ s s1 h

theorem speaker_fill_spec (e : audio_t) (s : speaker_t) (sample count : Int)
    (hbuf : 1 ≤ e.bufsize) (htau : s.tau ≠ 0) (hcount : 0 ≤ count) :
    ∃ s1, speaker_fill e s sample count = some s1
      ∧ s1.decay = decay_after s.tau sample count.toNat s.decay
      ∧ s1.snd_buf.written
          = s.snd_buf.written ++ decay_output e s.tau sample count.toNat s.decay
      ∧ (s.snd_buf.has_work = true ∨ 0 < count → s1.snd_buf.has_work = true)
      ∧ (count = 0 → s1 = s)
      ∧ s1.snd_buf.gets = s.snd_buf.gets
          + (count.toNat - audio_space_remaining s.snd_buf + e.bufsize - 1) / e.bufsize
      ∧ s1.snd_buf.puts = s.snd_buf.puts
          + (count.toNat - audio_space_remaining s.snd_buf + e.bufsize - 1) / e.bufsize := by
  obtain ⟨sb, h1, h2, h3, h4, h5, h6⟩ :=
    speaker_fill_loop_spec e sample hbuf count.toNat count.toNat s htau (le_refl _)
  refine ⟨{ s with decay := decay_after s.tau sample count.toNat s.decay, snd_buf := sb },
    ?_, rfl, h2, ?_, ?_, h5, h6⟩
  · simp only [speaker_fill, if_neg (not_lt.mpr hcount)]
    exact h1
  · intro h
    apply h3
    rcases h with h | h
    · exact Or.inl h
    · exact Or.inr (by omega)
  · intro h
    have hc : count.toNat = 0 := by omega
    rw [h4 hc, hc]
    rfl

/-! ## `speaker_fixup_sample` and the range assertion -/

theorem amplitude_range (e : audio_t) (hM : 0 ≤ e.AUDIO_MAXVAL) :
    0 ≤ SPEAKER_AMPLITUDE e ∧ SPEAKER_AMPLITUDE e ≤ e.AUDIO_MAXVAL := by
  unfold SPEAKER_AMPLITUDE
  rw [Int.tdiv_eq_ediv hM (by norm_num)]
  omega

theorem fixup_range (e : audio_t) (hM : 0 ≤ e.AUDIO_MAXVAL) (x : Int) :
    -(e.AUDIO_MAXVAL + 1) ≤ speaker_fixup_sample e x
      ∧ speaker_fixup_sample e x ≤ e.AUDIO_MAXVAL := by
  obtain ⟨h0, h1⟩ := amplitude_range e hM
  unfold speaker_fixup_sample
  split_ifs <;> omega

/-! ## `speaker_update` -/

theorem speaker_update_open_of_work (e : audio_t) (s : speaker_t) (now : Nat)
    (hopen : s.snd_buf.has_work = true) : speaker_update_open e s now = s := by
  unfold speaker_update_open audio_has_work_buffer
  rw [hopen]
  rfl

theorem speaker_update_same (e : audio_t) (s : speaker_t) (data now : Nat)
    (hdn : s.div_num ≠ 0) (hdd : s.div_denom ≠ 0) (hopen : s.snd_buf.has_work = true)
    (hsame : toInt32 (SAMPLE_COUNT s now) = s.samplenumber) :
    speaker_update e s data now
      = some (speaker_update_store s data now (toInt32 (SAMPLE_COUNT s now))
          (toInt32 (SAMPLE_TIME_FRACTION s now))
          (s.last_sample
            + PARTIAL_SAMPLE s (toInt32 (SAMPLE_TIME_FRACTION s now) - s.fraction)
                (speaker_sample e s.state))) := by
  unfold speaker_update
  rw [if_neg (by simp [hdn, hdd]), speaker_update_open_of_work e s now hopen]
  unfold speaker_update_body
  rw [if_pos hsame]

theorem speaker_update_cross (e : audio_t) (s : speaker_t) (data now : Nat)
    (hM : 0 ≤ e.AUDIO_MAXVAL) (hbuf : 1 ≤ e.bufsize) (htau : s.tau ≠ 0)
    (hdn : s.div_num ≠ 0) (hdd : s.div_denom ≠ 0) (hopen : s.snd_buf.has_work = true)
    (hcross : toInt32 (SAMPLE_COUNT s now) ≠ s.samplenumber)
    (hn : 0 ≤ toInt32 (toInt32 (SAMPLE_COUNT s now) - s.samplenumber - 1)) :
    ∃ s1, speaker_update e s data now = some s1
      ∧ s1.snd_buf.written = s.snd_buf.written
          ++ decay_output e s.tau
              (speaker_update_finished e s (speaker_sample e s.state)) 1 s.decay
          ++ decay_output e s.tau (speaker_sample e s.state)
              (toInt32 (toInt32 (SAMPLE_COUNT s now) - s.samplenumber - 1)).toNat
              (decay_after s.tau
                (speaker_update_finished e s (speaker_sample e s.state)) 1 s.decay)
      ∧ s1.decay = decay_after s.tau (speaker_sample e s.state)
              (toInt32 (toInt32 (SAMPLE_COUNT s now) - s.samplenumber - 1)).toNat
              (decay_after s.tau
                (speaker_update_finished e s (speaker_sample e s.state)) 1 s.decay)
      ∧ s1.snd_buf.has_work = true
      ∧ s1.last_sample = PARTIAL_SAMPLE s (toInt32 (SAMPLE_TIME_FRACTION s now))
          (speaker_sample e s.state) := by
  obtain ⟨hlo, hhi⟩ := fixup_range e hM
    (s.last_sample + PARTIAL_SAMPLE s
      (toInt32 (SAMPLE_TIME_FRACTION_REMAINING s s.change_tstates)) (speaker_sample e s.state))
  obtain ⟨s1, h1, hd1, hw1, hh1, -, -, -⟩ := speaker_fill_spec e
    { s with last_sample := speaker_update_finished e s (speaker_sample e s.state) }
    (speaker_update_finished e s (speaker_sample e s.state)) 1 hbuf htau (by norm_num)
  have hf1 := speaker_fill_frame _ _ _ _ _ h1
  have hs1n : s1.samplenumber = s.samplenumber := hf1.2.2.2.2.1
  have hs1t : s1.tau = s.tau := hf1.2.2.2.2.2.2.2.2.2.2.2
  rw [← hs1n] at hn
  obtain ⟨s3, h3, hd3, hw3, hh3, -, -, -⟩ := speaker_fill_spec e
    { s1 with samples_since_write := s1.samples_since_write + 1 }
    (speaker_sample e s.state)
    (toInt32 (toInt32 (SAMPLE_COUNT s now) - s1.samplenumber - 1))
    hbuf (by rw [← hs1t] at htau; exact htau) hn
  have hf3 := speaker_fill_frame _ _ _ _ _ h3
  have hs3n : s3.div_num = s.div_num := hf3.2.2.2.2.2.2.2.1.trans hf1.2.2.2.2.2.2.2.1
  have hs3d : s3.div_denom = s.div_denom :=
    hf3.2.2.2.2.2.2.2.2.1.trans hf1.2.2.2.2.2.2.2.2.1
  unfold speaker_update
  rw [if_neg (by simp [hdn, hdd]), speaker_update_open_of_work e s now hopen]
  unfold speaker_update_body
  rw [if_neg hcross]
  unfold speaker_update_emit
  rw [if_pos ⟨hlo, hhi⟩, h1, Option.some_bind]
  unfold speaker_update_whole
  rw [h3, Option.some_bind, Option.some_bind]
  refine ⟨_, rfl, ?_, ?_, ?_, ?_⟩
  · show s3.snd_buf.written = _
    rw [hw3, hw1]
    simp only [Int.toNat_one, hs1n, hs1t, hd1]
  · show s3.decay = _
    rw [hd3]
    simp only [Int.toNat_one, hs1n, hs1t, hd1]
  · exact hh3 (Or.inl (hh1 (Or.inl hopen)))
  · show PARTIAL_SAMPLE _ _ _ = _
    unfold PARTIAL_SAMPLE
    show (toInt32 (_ * s3.div_denom)).tdiv s3.div_num = _
    rw [hs3n, hs3d]

theorem SAMPLE_COUNT_congr (s s1 : speaker_t) (hn : s1.div_num = s.div_num)
    (hd : s1.div_denom = s.div_denom) (t : Nat) : SAMPLE_COUNT s1 t = SAMPLE_COUNT s t := by
  unfold SAMPLE_COUNT tstates_scaled
  rw [hn, hd]

theorem SAMPLE_TIME_FRACTION_congr (s s1 : speaker_t) (hn : s1.div_num = s.div_num)
    (hd : s1.div_denom = s.div_denom) (t : Nat) :
    SAMPLE_TIME_FRACTION s1 t = SAMPLE_TIME_FRACTION s t := by
  unfold SAMPLE_TIME_FRACTION tstates_scaled
  rw [hn, hd]

theorem speaker_update_open_keeps (e : audio_t) (s : speaker_t) (now : Nat) :
    speaker_update_keeps s (speaker_update_open e s now)
      ∧ (speaker_update_open e s now).state = s.state := by
  unfold speaker_update_open
  split
  · exact ⟨⟨rfl, rfl, rfl, rfl, rfl, rfl⟩, rfl⟩
  · exact ⟨⟨rfl, rfl, rfl, rfl, rfl, rfl⟩, rfl⟩

theorem speaker_update_emit_keeps (e : audio_t) (s s3 : speaker_t) (sample k : Int)
    (h : speaker_update_emit e s sample k = some s3) : speaker_update_keeps s s3 := by
  unfold speaker_update_emit at h
  split at h
  · obtain ⟨s1, h1, h2⟩ := Option.bind_eq_some.mp h
    unfold speaker_update_whole at h2
    obtain ⟨s2, h3, h4⟩ := Option.bind_eq_some.mp h2
    obtain ⟨-, -, -, -, -, -, -, a8, a9, a10, a11, a12⟩ := speaker_fill_frame _ _ _ _ _ h1
    obtain ⟨-, -, b3, -, -, -, -, b8, b9, b10, b11, b12⟩ := speaker_fill_frame _ _ _ _ _ h3
    have a3 : s1.idle = s.idle := (speaker_fill_frame _ _ _ _ _ h1).2.2.1
    simp only [Option.some.injEq] at h4
    subst h4
    exact ⟨b8.trans a8, b9.trans a9, b12.trans a12, b3.trans a3, b11.trans a11, b10.trans a10⟩
  · exact absurd h (by simp)

theorem speaker_update_fields (e : audio_t) (s s1 : speaker_t) (data now : Nat)
    (h : speaker_update e s data now = some s1) :
    speaker_update_keeps s s1 ∧ s1.state = data ∧ s1.change_tstates = now
      ∧ s1.samplenumber = toInt32 (SAMPLE_COUNT s now)
      ∧ s1.fraction = toInt32 (SAMPLE_TIME_FRACTION s now) := by
  obtain ⟨⟨o1, o2, o3, o4, o5, o6⟩, -⟩ := speaker_update_open_keeps e s now
  have hc := SAMPLE_COUNT_congr s _ o1 o2 now
  have hf := SAMPLE_TIME_FRACTION_congr s _ o1 o2 now
  unfold speaker_update at h
  split at h
  · exact absurd h (by simp)
  · unfold speaker_update_body at h
    split at h
    · simp only [Option.some.injEq] at h
      subst h
      exact ⟨⟨o1, o2, o3, o4, o5, o6⟩, rfl, rfl, congrArg toInt32 (congrArg Nat.cast hc),
        congrArg toInt32 (congrArg Nat.cast hf)⟩
    · obtain ⟨s3, h3, h4⟩ := Option.bind_eq_some.mp h
      obtain ⟨e1, e2, e3, e4, e5, e6⟩ := speaker_update_emit_keeps _ _ _ _ _ h3
      simp only [Option.some.injEq] at h4
      subst h4
      exact ⟨⟨e1.trans o1, e2.trans o2, e3.trans o3, e4.trans o4, e5.trans o5, e6.trans o6⟩,
        rfl, rfl, congrArg toInt32 (congrArg Nat.cast hc),
        congrArg toInt32 (congrArg Nat.cast hf)⟩

theorem speaker_update_store_fields (s : speaker_t) (data now : Nat) (a b c : Int) :
    (speaker_update_store s data now a b c).snd_buf = s.snd_buf
      ∧ (speaker_update_store s data now a b c).div_num = s.div_num
      ∧ (speaker_update_store s data now a b c).div_denom = s.div_denom
      ∧ (speaker_update_store s data now a b c).tau = s.tau
      ∧ (speaker_update_store s data now a b c).decay = s.decay
      ∧ (speaker_update_store s data now a b c).state = data
      ∧ (speaker_update_store s data now a b c).samplenumber = a
      ∧ (speaker_update_store s data now a b c).fraction = b
      ∧ (speaker_update_store s data now a b c).last_sample = c
      ∧ (speaker_update_store s data now a b c).change_tstates = now
      ∧ (speaker_update_store s data now a b c).idle = s.idle
      ∧ (speaker_update_store s data now a b c).count = s.count
      ∧ (speaker_update_store s data now a b c).idle_count = s.idle_count := by
  unfold speaker_update_store
  exact ⟨rfl, rfl, rfl, rfl, rfl, rfl, rfl, rfl, rfl, rfl, rfl, rfl, rfl⟩

/-! ## Counting the samples of `speaker_update` -/

theorem toInt32_natCast (n : Nat) (h : n < 2147483648) : toInt32 (n : Int) = n :=
  toInt32_of_range _ (by omega) (by omega)

theorem SAMPLE_COUNT_exact (s : speaker_t) (t : Nat)
    (hov : t * toU64 s.div_denom < 18446744073709551616) :
    SAMPLE_COUNT s t = t * toU64 s.div_denom / toU64 s.div_num := by
  unfold SAMPLE_COUNT tstates_scaled
  rw [Nat.mod_eq_of_lt hov]

theorem SAMPLE_COUNT_mono (s : speaker_t) (t0 t : Nat) (h : t0 ≤ t)
    (hov : t * toU64 s.div_denom < 18446744073709551616) :
    SAMPLE_COUNT s t0 ≤ SAMPLE_COUNT s t := by
  have h1 : t0 * toU64 s.div_denom ≤ t * toU64 s.div_denom := Nat.mul_le_mul_right _ h
  rw [SAMPLE_COUNT_exact s t hov, SAMPLE_COUNT_exact s t0 (lt_of_le_of_lt h1 hov)]
  exact Nat.div_le_div_right h1

theorem SAMPLE_COUNT_span (s : speaker_t) (t0 t : Nat) (h : t0 ≤ t)
    (hN : 1 ≤ toU64 s.div_num) (hov : t * toU64 s.div_denom < 18446744073709551616) :
    SAMPLE_COUNT s (t - t0) ≤ SAMPLE_COUNT s t - SAMPLE_COUNT s t0
      ∧ SAMPLE_COUNT s t - SAMPLE_COUNT s t0 ≤ SAMPLE_COUNT s (t - t0) + 1 := by
  have h1 : t0 * toU64 s.div_denom ≤ t * toU64 s.div_denom := Nat.mul_le_mul_right _ h
  have h2 : (t - t0) * toU64 s.div_denom ≤ t * toU64 s.div_denom :=
    Nat.mul_le_mul_right _ (Nat.sub_le _ _)
  have h3 : t * toU64 s.div_denom
      = t0 * toU64 s.div_denom + (t - t0) * toU64 s.div_denom := by
    rw [← Nat.add_mul]
    congr 1
    omega
  rw [SAMPLE_COUNT_exact s t hov, SAMPLE_COUNT_exact s t0 (lt_of_le_of_lt h1 hov),
    SAMPLE_COUNT_exact s (t - t0) (lt_of_le_of_lt h2 hov), h3, Nat.add_div (by omega)]
  generalize t0 * toU64 s.div_denom / toU64 s.div_num = q1
  generalize (t - t0) * toU64 s.div_denom / toU64 s.div_num = q2
  split_ifs <;> omega

theorem speaker_update_count (e : audio_t) (s : speaker_t) (data t0 now : Nat)
    (hM : 0 ≤ e.AUDIO_MAXVAL) (hbuf : 1 ≤ e.bufsize) (htau : s.tau ≠ 0)
    (hdn : s.div_num ≠ 0) (hdd : s.div_denom ≠ 0) (hopen : s.snd_buf.has_work = true)
    (hsn : s.samplenumber = (SAMPLE_COUNT s t0 : Int)) (ht : t0 ≤ now)
    (hov : now * toU64 s.div_denom < 18446744073709551616)
    (hfit : SAMPLE_COUNT s now < 2147483648) :
    ∃ s1, speaker_update e s data now = some s1
      ∧ s1.snd_buf.written.length
          = s.snd_buf.written.length + (SAMPLE_COUNT s now - SAMPLE_COUNT s t0)
      ∧ s1.snd_buf.has_work = true := by
  have hmono := SAMPLE_COUNT_mono s t0 now ht hov
  have h32 := toInt32_natCast _ hfit
  by_cases hsame : SAMPLE_COUNT s now = SAMPLE_COUNT s t0
  · refine ⟨_, speaker_update_same e s data now hdn hdd hopen ?_, ?_, hopen⟩
    · rw [h32, hsn, hsame]
    · rw [hsame]
      simp [speaker_update_store]
  · have hn : toInt32 (toInt32 (SAMPLE_COUNT s now) - s.samplenumber - 1)
        = ((SAMPLE_COUNT s now - SAMPLE_COUNT s t0 - 1 : Nat) : Int) := by
      rw [h32, hsn, toInt32_of_range _ (by omega) (by omega)]
      omega
    obtain ⟨s1, h1, hw, -, hh, -⟩ := speaker_update_cross e s data now hM hbuf htau hdn hdd
      hopen (by rw [h32, hsn]; omega) (by rw [hn]; omega)
    refine ⟨s1, h1, ?_, hh⟩
    rw [hw, hn]
    simp only [List.length_append, decay_output_length, Int.toNat_ofNat]
    omega

theorem chain_le_getLastD (t0 : Nat) (ts : List Nat) (h : List.Chain (fun a b => a ≤ b) t0 ts) :
    t0 ≤ ts.getLastD t0 := by
  induction ts generalizing t0 with
  | nil => simp
  | cons t ts ih =>
    rw [List.chain_cons] at h
    rw [List.getLastD_cons]
    exact le_trans h.1 (ih t h.2)

theorem speaker_update_seq_count (e : audio_t) (data : Nat) (ts : List Nat) (s : speaker_t)
    (t0 : Nat) (hM : 0 ≤ e.AUDIO_MAXVAL) (hbuf : 1 ≤ e.bufsize) (htau : s.tau ≠ 0)
    (hdn : s.div_num ≠ 0) (hdd : s.div_denom ≠ 0) (hopen : s.snd_buf.has_work = true)
    (hsn : s.samplenumber = (SAMPLE_COUNT s t0 : Int))
    (hchain : List.Chain (fun a b => a ≤ b) t0 ts)
    (hov : ts.getLastD t0 * toU64 s.div_denom < 18446744073709551616)
    (hfit : SAMPLE_COUNT s (ts.getLastD t0) < 2147483648) :
    ∃ s1, speaker_update_seq e data ts s = some s1
      ∧ s1.snd_buf.written.length
          = s.snd_buf.written.length + (SAMPLE_COUNT s (ts.getLastD t0) - SAMPLE_COUNT s t0)
      ∧ s1.snd_buf.has_work = true := by
  induction ts generalizing s t0 with
  | nil => exact ⟨s, rfl, by simp, hopen⟩
  | cons t ts ih =>
    rw [List.chain_cons] at hchain
    rw [List.getLastD_cons] at hov hfit ⊢
    have hlast := chain_le_getLastD t ts hchain.2
    have hovt : t * toU64 s.div_denom < 18446744073709551616 :=
      lt_of_le_of_lt (Nat.mul_le_mul_right _ hlast) hov
    have hm1 := SAMPLE_COUNT_mono s t0 t hchain.1 hovt
    have hm2 := SAMPLE_COUNT_mono s t _ hlast hov
    obtain ⟨s1, h1, hlen1, hw1⟩ := speaker_update_count e s data t0 t hM hbuf htau hdn hdd
      hopen hsn hchain.1 hovt (by omega)
    obtain ⟨⟨k1, k2, k3, -, -, -⟩, -, -, ksn, -⟩ := speaker_update_fields e s s1 data t h1
    have hc : ∀ u, SAMPLE_COUNT s1 u = SAMPLE_COUNT s u := SAMPLE_COUNT_congr s s1 k1 k2
    obtain ⟨s2, h2, hlen2, hw2⟩ := ih s1 t (by rw [k3]; exact htau) (by rw [k1]; exact hdn)
      (by rw [k2]; exact hdd) hw1
      (by rw [ksn, hc, toInt32_natCast _ (by omega)])
      hchain.2 (by rw [k2]; exact hov) (by rw [hc]; exact hfit)
    refine ⟨s2, ?_, ?_, hw2⟩
    · simp only [speaker_update_seq, h1]
      exact h2
    · rw [hlen2, hlen1, hc, hc]
      omega

/-! ## `speaker_clock` -/

theorem speaker_clock_gcd_natCast (turns b a : Nat) (h : b < turns) :
    speaker_clock_gcd turns (a : Int) (b : Int) = some (Nat.gcd a b : Int) := by
  induction turns generalizing a b with
  | zero => omega
  | succ turns ih =>
    rw [speaker_clock_gcd]
    by_cases hb : b = 0
    · subst hb
      simp
    · rw [if_neg (by exact_mod_cast hb)]
      have hmod : (a : Int).tmod (b : Int) = ((a % b : Nat) : Int) := by
        rw [Int.tmod_eq_emod (by positivity) (by positivity)]
        norm_cast
      have hlt : a % b < b := Nat.mod_lt _ (Nat.pos_of_ne_zero hb)
      rw [hmod, ih (a % b) b (by omega)]
      congr 2
      rw [Nat.gcd_comm b, ← Nat.gcd_rec, Nat.gcd_comm]

theorem SAMPLE_TIME_FRACTION_lt (s : speaker_t) (t : Nat) (hN : 1 ≤ toU64 s.div_num) :
    SAMPLE_TIME_FRACTION s t < toU64 s.div_num := by
  unfold SAMPLE_TIME_FRACTION
  exact lt_of_le_of_lt (Nat.div_le_self _ _) (Nat.mod_lt _ hN)

theorem speaker_clock_rederive_fields (s : speaker_t) (now : Nat) :
    (speaker_clock_rederive s now).samplenumber
        = toInt32 (SAMPLE_COUNT (speaker_clock_rederive s now) now)
      ∧ (speaker_clock_rederive s now).fraction
        = toInt32 (SAMPLE_TIME_FRACTION (speaker_clock_rederive s now) now)
      ∧ (speaker_clock_rederive s now).div_num = s.div_num
      ∧ (speaker_clock_rederive s now).div_denom = s.div_denom := by
  have h1 : (speaker_clock_rederive s now).div_num = s.div_num := by
    unfold speaker_clock_rederive
    rfl
  have h2 : (speaker_clock_rederive s now).div_denom = s.div_denom := by
    unfold speaker_clock_rederive
    rfl
  refine ⟨?_, ?_, h1, h2⟩
  · rw [SAMPLE_COUNT_congr s (speaker_clock_rederive s now) h1 h2]
    simp only [speaker_clock_rederive]
  · rw [SAMPLE_TIME_FRACTION_congr s (speaker_clock_rederive s now) h1 h2]
    simp only [speaker_clock_rederive]

theorem speaker_clock_spec (e : audio_t) (s : speaker_t) (cpuclock : Int) (now F C : Nat)
    (hF : e.frequency = F) (hC : chosen_clock e cpuclock = C) (hF1 : 1 ≤ F) (hC1 : 1 ≤ C) :
    ∃ s1, speaker_clock e s cpuclock now = some s1
      ∧ s1.div_num = ((C / Nat.gcd C F : Nat) : Int)
      ∧ s1.div_denom = ((F / Nat.gcd C F : Nat) : Int)
      ∧ s1.samplenumber = toInt32 (SAMPLE_COUNT s1 now)
      ∧ s1.fraction = toInt32 (SAMPLE_TIME_FRACTION s1 now)
      ∧ s1.snd_buf = s.snd_buf ∧ s1.tau = s.tau ∧ s1.idle_count = s.idle_count := by
  have hg : 1 ≤ Nat.gcd C F := Nat.gcd_pos_of_pos_left _ hC1
  have ha : (if e.frequency < chosen_clock e cpuclock
      then speaker_clock_gcd (e.frequency.natAbs + 1) (chosen_clock e cpuclock) e.frequency
      else speaker_clock_gcd ((chosen_clock e cpuclock).natAbs + 1) e.frequency
        (chosen_clock e cpuclock)) = some (Nat.gcd C F : Int) := by
    rw [hF, hC]
    split
    · exact speaker_clock_gcd_natCast _ _ _ (by simp)
    · rw [speaker_clock_gcd_natCast _ _ _ (by simp), Nat.gcd_comm]
  have hdn : (chosen_clock e cpuclock).tdiv (Nat.gcd C F : Int)
      = ((C / Nat.gcd C F : Nat) : Int) := by
    rw [hC, Int.tdiv_eq_ediv (by positivity) (by positivity)]
    norm_cast
  have hdd : e.frequency.tdiv (Nat.gcd C F : Int) = ((F / Nat.gcd C F : Nat) : Int) := by
    rw [hF, Int.tdiv_eq_ediv (by positivity) (by positivity)]
    norm_cast
  have hn1 : 1 ≤ C / Nat.gcd C F :=
    Nat.div_pos (Nat.le_of_dvd hC1 (Nat.gcd_dvd_left C F)) hg
  have hd1 : 1 ≤ F / Nat.gcd C F :=
    Nat.div_pos (Nat.le_of_dvd hF1 (Nat.gcd_dvd_right C F)) hg
  unfold speaker_clock
  rw [ha, Option.some_bind, hdn, hdd,
    if_neg (by exact_mod_cast (by omega : Nat.gcd C F ≠ 0)),
    if_neg (by
      intro h
      rcases h with h | h
      · have : C / Nat.gcd C F = 0 := by exact_mod_cast h
        omega
      · have : F / Nat.gcd C F = 0 := by exact_mod_cast h
        omega)]
  obtain ⟨r1, r2, -, -⟩ := speaker_clock_rederive_fields
    { s with div_num := ((C / Nat.gcd C F : Nat) : Int),
             div_denom := ((F / Nat.gcd C F : Nat) : Int) } now
  refine ⟨_, rfl, ?_, ?_, r1, r2, ?_, ?_, ?_⟩ <;>
  · unfold speaker_clock_rederive
    rfl

theorem toU64_natCast (n : Nat) (h : n < 18446744073709551616) : toU64 (n : Int) = n := by
  have := toU64_of_range (n : Int) (by omega) (by omega)
  exact_mod_cast this

theorem fraction_in_range (s : speaker_t) (t : Nat) (h1 : 1 ≤ s.div_num)
    (h2 : s.div_num < 2147483648) :
    toInt32 (SAMPLE_TIME_FRACTION s t) = (SAMPLE_TIME_FRACTION s t : Int)
      ∧ ((SAMPLE_TIME_FRACTION s t : Nat) : Int) < s.div_num := by
  have hN := toU64_of_range s.div_num (by omega) (by omega)
  have hlt := SAMPLE_TIME_FRACTION_lt s t (toU64_pos _ h1 h2)
  have hlt2 : ((SAMPLE_TIME_FRACTION s t : Nat) : Int) < s.div_num := by omega
  exact ⟨toInt32_natCast _ (by omega), hlt2⟩

theorem speaker_update_consistent (e : audio_t) (s s1 : speaker_t) (data now : Nat)
    (h : speaker_update e s data now = some s1) : speaker_consistent s1 := by
  obtain ⟨⟨k1, k2, -, -, -, -⟩, -, kt, ksn, kf⟩ := speaker_update_fields e s s1 data now h
  unfold speaker_consistent
  rw [kt, ksn, kf, SAMPLE_COUNT_congr s s1 k1 k2, SAMPLE_TIME_FRACTION_congr s s1 k1 k2]
  exact ⟨rfl, rfl⟩

theorem speaker_consistent_congr (s s1 : speaker_t) (h1 : s1.samplenumber = s.samplenumber)
    (h2 : s1.fraction = s.fraction) (h3 : s1.change_tstates = s.change_tstates)
    (h4 : s1.div_num = s.div_num) (h5 : s1.div_denom = s.div_denom)
    (h : speaker_consistent s) : speaker_consistent s1 := by
  unfold speaker_consistent at h ⊢
  rw [h1, h2, h3, SAMPLE_COUNT_congr s s1 h4 h5, SAMPLE_TIME_FRACTION_congr s s1 h4 h5]
  exact h

theorem speaker_tick_work_fields (e : audio_t) (s : speaker_t) (now : Nat)
    (r : speaker_t × Int) (h : speaker_tick_work e s now = some r) :
    r.1.div_num = s.div_num ∧ r.1.fraction = toInt32 (SAMPLE_TIME_FRACTION s now)
      ∧ r.2 = 1 ∧ speaker_consistent r.1 := by
  unfold speaker_tick_work at h
  split at h
  · exact absurd h (by simp)
  · rename_i s1 h1
    obtain ⟨⟨k1, -, -, -, -, -⟩, -, -, -, kf⟩ := speaker_update_fields e s s1 _ now h1
    have hj := speaker_update_consistent e s s1 _ now h1
    split at h
    · simp only [Option.some.injEq] at h
      subst h
      exact ⟨k1, kf, rfl, speaker_consistent_congr s1 _ rfl rfl rfl rfl rfl hj⟩
    · simp only [Option.some.injEq] at h
      subst h
      exact ⟨k1, kf, rfl, hj⟩

theorem speaker_tick_cases (e : audio_t) (s : speaker_t) (start cycles now : Nat)
    (r : speaker_t × Int) (h : speaker_tick e s start cycles now = some r) :
    (r.1.div_num = s.div_num ∧ r.1.fraction = s.fraction ∧ r.2 = 0)
      ∨ (r.1.div_num = s.div_num ∧ r.1.fraction = toInt32 (SAMPLE_TIME_FRACTION s now)
          ∧ r.2 = 1 ∧ speaker_consistent r.1) := by
  have hw : ∀ s2 : speaker_t, s2.div_num = s.div_num → s2.div_denom = s.div_denom →
      speaker_tick_work e s2 now = some r →
      r.1.div_num = s.div_num ∧ r.1.fraction = toInt32 (SAMPLE_TIME_FRACTION s now)
        ∧ r.2 = 1 ∧ speaker_consistent r.1 := by
    intro s2 a b h2
    obtain ⟨w1, w2, w3, w4⟩ := speaker_tick_work_fields e s2 now r h2
    exact ⟨w1.trans a, by rw [w2, SAMPLE_TIME_FRACTION_congr s s2 a b], w3, w4⟩
  unfold speaker_tick at h
  split_ifs at h
  · simp only [Option.some.injEq] at h
    subst h
    exact Or.inl ⟨rfl, rfl, rfl⟩
  · exact Or.inr (hw _ (by rfl) (by rfl) h)
  · simp only [Option.some.injEq] at h
    subst h
    exact Or.inl ⟨rfl, rfl, rfl⟩
  · exact Or.inr (hw _ (by rfl) (by rfl) h)
  · exact Or.inr (hw _ (by rfl) (by rfl) h)

theorem speaker_clock_fraction_ok (e : audio_t) (s s1 : speaker_t) (cpuclock : Int)
    (now : Nat) (hf : 1 ≤ e.frequency) (hok : clock_ok e (speaker_op.clock cpuclock now))
    (h : speaker_clock e s cpuclock now = some s1) : speaker_fraction_ok s1 := by
  obtain ⟨hc1, hc2⟩ := hok
  obtain ⟨s2, h2, hdn, -, -, hfr, -⟩ := speaker_clock_spec e s cpuclock now
    e.frequency.toNat (chosen_clock e cpuclock).toNat (by omega) (by omega) (by omega)
    (by omega)
  rw [h2, Option.some.injEq] at h
  subst h
  have hle : (chosen_clock e cpuclock).toNat
      / Nat.gcd (chosen_clock e cpuclock).toNat e.frequency.toNat
        ≤ (chosen_clock e cpuclock).toNat := Nat.div_le_self _ _
  have hpos : 1 ≤ (chosen_clock e cpuclock).toNat
      / Nat.gcd (chosen_clock e cpuclock).toNat e.frequency.toNat :=
    Nat.div_pos (Nat.le_of_dvd (by omega) (Nat.gcd_dvd_left _ _))
      (Nat.gcd_pos_of_pos_left _ (by omega))
  have g1 : 1 ≤ s2.div_num := by omega
  have g2 : s2.div_num < 2147483648 := by omega
  obtain ⟨f1, f2⟩ := fraction_in_range s2 now g1 g2
  unfold speaker_fraction_ok
  rw [hfr, f1]
  exact ⟨g1, g2, by omega, f2⟩

theorem speaker_step_fraction_ok (e : audio_t) (s s1 : speaker_t) (op : speaker_op)
    (hf : 1 ≤ e.frequency) (hok : clock_ok e op)
    (hinv : (∀ c n, op ≠ speaker_op.clock c n) → speaker_fraction_ok s)
    (h : speaker_step e s op = some s1) : speaker_fraction_ok s1 := by
  by_cases hop : ∃ c n, op = speaker_op.clock c n
  · obtain ⟨c, n, rfl⟩ := hop
    simp only [speaker_step] at h
    exact speaker_clock_fraction_ok e s s1 c n hf hok h
  obtain ⟨i1, i2, i3, i4⟩ := hinv (fun c n hc => hop ⟨c, n, hc⟩)
  have key : ∀ t, s1.div_num = s.div_num → s1.fraction = toInt32 (SAMPLE_TIME_FRACTION s t) →
      speaker_fraction_ok s1 := by
    intro t hd hfr
    obtain ⟨f1, f2⟩ := fraction_in_range s t i1 i2
    unfold speaker_fraction_ok
    rw [hd, hfr, f1]
    exact ⟨i1, i2, by omega, f2⟩
  cases op with
  | clock cpuclock now =>
    simp only [speaker_step] at h
    exact speaker_clock_fraction_ok e s s1 cpuclock now hf hok h
  | reset now =>
    simp only [speaker_step, Option.some.injEq] at h
    subst h
    simp only [speaker_reset]
    split
    · exact ⟨i1, i2, le_refl _, by show (0 : Int) < s.div_num; omega⟩
    · exact ⟨i1, i2, le_refl _, by show (0 : Int) < s.div_num; omega⟩
  | w data now =>
    simp only [speaker_step] at h
    unfold speaker_w at h
    split_ifs at h
    · simp only [Option.some.injEq] at h
      subst h
      exact ⟨i1, i2, i3, i4⟩
    · simp only [Option.some_bind, Option.some.injEq] at h
      subst h
      exact ⟨i1, i2, i3, i4⟩
    · obtain ⟨s2, h2, h3⟩ := Option.bind_eq_some.mp h
      obtain ⟨⟨k1, -, -, -, -, -⟩, -, -, -, kf⟩ := speaker_update_fields e s s2 data now h2
      simp only [Option.some.injEq] at h3
      subst h3
      exact key now k1 kf
  | update data now =>
    simp only [speaker_step] at h
    obtain ⟨⟨k1, -, -, -, -, -⟩, -, -, -, kf⟩ := speaker_update_fields e s s1 data now h
    exact key now k1 kf
  | tick start cycles now =>
    simp only [speaker_step] at h
    split at h
    · exact absurd h (by simp)
    · rename_i r hr
      simp only [Option.some.injEq] at h
      subst h
      rcases speaker_tick_cases e s start cycles now r hr with ⟨a, b, -⟩ | ⟨a, b, -, -⟩
      · unfold speaker_fraction_ok
        rw [a, b]
        exact ⟨i1, i2, i3, i4⟩
      · exact key now a b

theorem speaker_run_fraction_ok (e : audio_t) (ops : List speaker_op) (s s1 : speaker_t)
    (hf : 1 ≤ e.frequency) (hok : ∀ op ∈ ops, clock_ok e op) (hinv : speaker_fraction_ok s)
    (h : speaker_run e ops s = some s1) : speaker_fraction_ok s1 := by
  induction ops generalizing s with
  | nil =>
    simp only [speaker_run, Option.some.injEq] at h
    subst h
    exact hinv
  | cons op ops ih =>
    simp only [speaker_run] at h
    split at h
    · exact absurd h (by simp)
    · rename_i s2 h2
      exact ih s2 (fun o ho => hok o (List.mem_cons_of_mem _ ho))
        (speaker_step_fraction_ok e s s2 op hf (hok op (List.mem_cons_self _ _))
          (fun _ => hinv) h2) h

/-! ## Arithmetic of partial samples and of the decay filter -/

theorem decay_quiet_step (tau A d k : Int) (hA : 2 ≤ A) (h5 : 5 * A ≤ tau) (hk0 : 0 ≤ k)
    (hk : k ≤ 9) (hd1 : -13107 * k ≤ d) (hd2 : d ≤ 0) :
    -13107 * (k + 1) ≤ speaker_decay tau A d ∧ speaker_decay tau A d ≤ 0 := by
  unfold speaker_decay
  have hnum : 0 ≤ A * 65536 + d := by omega
  rw [Int.tdiv_eq_ediv hnum (by omega)]
  have q0 : 0 ≤ (A * 65536 + d) / tau := Int.ediv_nonneg hnum (by omega)
  have q1 := Int.ediv_mul_le (A * 65536 + d) (by omega : tau ≠ 0)
  generalize (A * 65536 + d) / tau = q at q0 q1 ⊢
  have q2 : q ≤ 13107 := by
    by_contra h
    have h1 : 13108 ≤ q := by omega
    nlinarith
  omega

theorem decay_output_quiet (e : audio_t) (tau : Int) (hM : 0 ≤ e.AUDIO_MAXVAL)
    (hA : 2 ≤ SPEAKER_AMPLITUDE e) (h5 : 5 * SPEAKER_AMPLITUDE e ≤ tau) (n : Nat) (k d : Int)
    (hk0 : 0 ≤ k) (hk : k + n ≤ 10) (hd1 : -13107 * k ≤ d) (hd2 : d ≤ 0) :
    decay_output e tau (SPEAKER_AMPLITUDE e) n d = List.replicate n (SPEAKER_AMPLITUDE e) := by
  induction n generalizing k d with
  | zero => rfl
  | succ n ih =>
    obtain ⟨s1, s2⟩ := decay_quiet_step tau (SPEAKER_AMPLITUDE e) d k hA h5 hk0 (by omega) hd1 hd2
    obtain ⟨a0, a1⟩ := amplitude_range e hM
    simp only [decay_output, List.replicate_succ]
    rw [ih (k + 1) _ (by omega) (by push_cast at hk ⊢; omega) s1 s2]
    congr 1
    unfold speaker_shaped audio_limit
    rw [if_neg (by omega), if_neg (by omega), if_neg (by omega)]

theorem SAMPLE_one (s : speaker_t) (t : Nat) (hdn : s.div_num = 1) (hdd : s.div_denom = 1)
    (ht : t < 18446744073709551616) :
    SAMPLE_COUNT s t = t ∧ SAMPLE_TIME_FRACTION s t = 0
      ∧ SAMPLE_TIME_FRACTION_REMAINING s t = 1 := by
  unfold SAMPLE_COUNT SAMPLE_TIME_FRACTION SAMPLE_TIME_FRACTION_REMAINING tstates_scaled
  rw [hdn, hdd, toU64_one]
  omega

theorem held_high_first (e : audio_t) (s : speaker_t) (t0 : Nat)
    (hopen : s.snd_buf.has_work = true) (hdn : s.div_num = 1) (hdd : s.div_denom = 1)
    (hsn : s.samplenumber = t0) (hfr : s.fraction = 0) (hlast : s.last_sample = 0)
    (ht : t0 < 2147483648) :
    ∃ s1, speaker_update e s s.state t0 = some s1 ∧ s1.snd_buf = s.snd_buf
      ∧ s1.div_num = 1 ∧ s1.div_denom = 1 ∧ s1.tau = s.tau ∧ s1.decay = s.decay
      ∧ s1.state = s.state ∧ s1.samplenumber = t0 ∧ s1.last_sample = 0
      ∧ s1.change_tstates = t0 := by
  have hb : t0 < 18446744073709551616 := by omega
  obtain ⟨c0, f0, -⟩ := SAMPLE_one s t0 hdn hdd hb
  have h32 : toInt32 ((t0 : Nat) : Int) = t0 := toInt32_natCast _ ht
  have h30 : toInt32 ((0 : Nat) : Int) = 0 := toInt32_natCast _ (by norm_num)
  have hsame : toInt32 (SAMPLE_COUNT s t0) = s.samplenumber := by
    rw [c0, hsn, h32]
  have h1 := speaker_update_same e s s.state t0 (by rw [hdn]; decide) (by rw [hdd]; decide)
    hopen hsame
  have hp0 : s.last_sample + PARTIAL_SAMPLE s
      (toInt32 (SAMPLE_TIME_FRACTION s t0) - s.fraction) (speaker_sample e s.state) = 0 := by
    unfold PARTIAL_SAMPLE
    rw [f0, hfr, hlast, hdn, h30]
    simp [toInt32]
  rw [hp0, c0, f0, h32, h30] at h1
  obtain ⟨g1, g2, g3, g4, g5, g6, g7, -, g9, g10, -, -, -⟩ :=
    speaker_update_store_fields s s.state t0 t0 0 0
  exact ⟨_, h1, g1, g2.trans hdn, g3.trans hdd, g4, g5, g6, g7, g9, g10⟩

theorem held_high_second (e : audio_t) (s1 : speaker_t) (data t0 : Nat)
    (hM : 0 ≤ e.AUDIO_MAXVAL) (hbuf : 1 ≤ e.bufsize) (hA : 2 ≤ SPEAKER_AMPLITUDE e)
    (hA2 : SPEAKER_AMPLITUDE e < 2147483648)
    (h5 : 5 * SPEAKER_AMPLITUDE e ≤ s1.tau) (hopen : s1.snd_buf.has_work = true)
    (k1 : s1.div_num = 1) (k2 : s1.div_denom = 1) (k4 : s1.decay = 0) (k5 : s1.state ≠ 0)
    (k6 : s1.samplenumber = t0) (k7 : s1.last_sample = 0)
    (k9 : s1.change_tstates < 18446744073709551616) (ht : t0 + 10 < 2147483648) :
    ∃ s2, speaker_update e s1 data (t0 + 10) = some s2
      ∧ s2.snd_buf.written
          = s1.snd_buf.written ++ List.replicate 10 (SPEAKER_AMPLITUDE e) := by
  have hb : t0 + 10 < 18446744073709551616 := by omega
  have htau : s1.tau ≠ 0 := by omega
  have h32 : toInt32 ((t0 + 10 : Nat) : Int) = ((t0 + 10 : Nat) : Int) :=
    toInt32_natCast _ ht
  have h9 : toInt32 (((t0 + 10 : Nat) : Int) - (t0 : Int) - 1) = 9 := by
    have : ((t0 + 10 : Nat) : Int) - (t0 : Int) - 1 = 9 := by push_cast; omega
    rw [this]
    exact toInt32_of_range 9 (by norm_num) (by norm_num)
  have hne : ((t0 + 10 : Nat) : Int) ≠ (t0 : Int) := by push_cast; omega
  obtain ⟨c1, -, -⟩ := SAMPLE_one s1 (t0 + 10) k1 k2 hb
  obtain ⟨-, -, r2⟩ := SAMPLE_one s1 s1.change_tstates k1 k2 k9
  have hsample : speaker_sample e s1.state = SPEAKER_AMPLITUDE e := by
    unfold speaker_sample
    rw [if_pos k5]
  have hfin : speaker_update_finished e s1 (SPEAKER_AMPLITUDE e) = SPEAKER_AMPLITUDE e := by
    have hw : toInt32 (SPEAKER_AMPLITUDE e) = SPEAKER_AMPLITUDE e :=
      toInt32_of_range _ (by omega) hA2
    unfold speaker_update_finished PARTIAL_SAMPLE speaker_fixup_sample
    rw [r2, k7, k1, k2, toInt32_one]
    simp only [mul_one, hw, Int.tdiv_one, zero_add]
    rw [if_pos (sub_le_self _ (by norm_num))]
  have hn : toInt32 (toInt32 (SAMPLE_COUNT s1 (t0 + 10)) - s1.samplenumber - 1) = 9 := by
    rw [c1, k6, h32, h9]
  obtain ⟨s2, h2, hw, -⟩ := speaker_update_cross e s1 data (t0 + 10) hM hbuf htau
    (by rw [k1]; decide) (by rw [k2]; decide) hopen
    (by rw [c1, k6, h32]; exact hne) (by rw [hn]; decide)
  refine ⟨s2, h2, ?_⟩
  rw [hw, hn, hsample, hfin, k4, List.append_assoc]
  have h10 := decay_output_add e s1.tau (SPEAKER_AMPLITUDE e) 1 9 0
  rw [show (9 : Int).toNat = 9 from rfl, ← h10,
    decay_output_quiet e s1.tau hM hA h5 (1 + 9) 0 0 (le_refl _) (by norm_num) (by norm_num)
      (le_refl _)]


/-! ## The idle countdown of `speaker_tick` -/

theorem speaker_ready_congr (s s1 : speaker_t) (h1 : s1.snd_buf = s.snd_buf)
    (h2 : s1.tau = s.tau) (h3 : s1.div_num = s.div_num) (h4 : s1.div_denom = s.div_denom)
    (h5 : s1.samplenumber = s.samplenumber) (h6 : s1.change_tstates = s.change_tstates)
    (h : speaker_ready s) : speaker_ready s1 := by
  unfold speaker_ready at h ⊢
  rw [h1, h2, h3, h4, h5, h6, SAMPLE_COUNT_congr s s1 h3 h4]
  exact h

theorem speaker_update_ready (e : audio_t) (s : speaker_t) (now : Nat)
    (hM : 0 ≤ e.AUDIO_MAXVAL) (hbuf : 1 ≤ e.bufsize) (hr : speaker_ready s)
    (ht : s.change_tstates ≤ now)
    (hov : now * toU64 s.div_denom < 18446744073709551616)
    (hfit : SAMPLE_COUNT s now < 2147483648) :
    ∃ s1, speaker_update e s s.state now = some s1 ∧ speaker_ready s1
      ∧ s1.change_tstates = now ∧ speaker_update_keeps s s1 := by
  obtain ⟨r1, r2, r3, r4, r5⟩ := hr
  obtain ⟨s1, h1, -, hw⟩ := speaker_update_count e s s.state s.change_tstates now hM hbuf r2
    r3 r4 r1 r5 ht hov hfit
  obtain ⟨⟨k1, k2, k3, k4, k5, k6⟩, -, kt, ksn, -⟩ := speaker_update_fields e s s1 _ now h1
  refine ⟨s1, h1, ⟨hw, by rw [k3]; exact r2, by rw [k1]; exact r3, by rw [k2]; exact r4, ?_⟩,
    kt, ⟨k1, k2, k3, k4, k5, k6⟩⟩
  rw [ksn, kt, SAMPLE_COUNT_congr s s1 k1 k2, toInt32_natCast _ hfit]

theorem speaker_tick_work_run (e : audio_t) (s : speaker_t) (now : Nat)
    (hM : 0 ≤ e.AUDIO_MAXVAL) (hbuf : 1 ≤ e.bufsize) (hr : speaker_ready s)
    (hidle : s.idle ≠ 0) (ht : s.change_tstates ≤ now)
    (hov : now * toU64 s.div_denom < 18446744073709551616)
    (hfit : SAMPLE_COUNT s now < 2147483648) :
    ∃ s1, speaker_tick_work e s now = some (s1, 1)
      ∧ (s.count = 0 → s1.snd_buf.has_work = false ∧ s1.decay = 0)
      ∧ (s.count ≠ 0 → speaker_ready s1 ∧ s1.change_tstates = now
          ∧ speaker_update_keeps s s1) := by
  obtain ⟨s1, h1, hr1, kt, k1, k2, k3, k4, k5, k6⟩ :=
    speaker_update_ready e s now hM hbuf hr ht hov hfit
  unfold speaker_tick_work
  rw [h1]
  by_cases hc : s.count = 0
  · refine ⟨_, by
      show (if s1.idle ≠ 0 ∧ s1.count = 0 then _ else _) = _
      rw [if_pos ⟨by rw [k4]; exact hidle, by rw [k5]; exact hc⟩], ?_, ?_⟩
    · intro _
      exact ⟨rfl, rfl⟩
    · intro h
      exact absurd hc h
  · refine ⟨s1, by
      show (if s1.idle ≠ 0 ∧ s1.count = 0 then _ else _) = _
      rw [if_neg (by
        intro h
        rw [k5] at h
        exact hc h.2)], ?_, ?_⟩
    · intro h
      exact absurd h hc
    · intro _
      exact ⟨hr1, kt, k1, k2, k3, k4, k5, k6⟩

theorem speaker_tick_held (e : audio_t) (s : speaker_t) (cycles now : Nat)
    (hopen : s.snd_buf.has_work = true) :
    speaker_tick e s s.change_tstates cycles now
      = if s.idle ≠ 0 then
          if s.count > 0 then speaker_tick_work e { s with count := s.count - 1 } now
          else some (speaker_tick_idle s s.change_tstates cycles)
        else speaker_tick_work e { s with idle := 1, count := s.idle_count } now := by
  unfold speaker_tick audio_has_work_buffer
  rw [hopen]
  simp

theorem speaker_tick_countdown (e : audio_t) (s : speaker_t) (now : Nat)
    (hM : 0 ≤ e.AUDIO_MAXVAL) (hbuf : 1 ≤ e.bufsize) (hr : speaker_ready s)
    (hidle : s.idle ≠ 0) (hcount : 1 ≤ s.count) (ht : s.change_tstates ≤ now)
    (hov : now * toU64 s.div_denom < 18446744073709551616)
    (hfit : SAMPLE_COUNT s now < 2147483648) :
    ∃ s1, speaker_tick e s s.change_tstates (now - s.change_tstates) now = some (s1, 1)
      ∧ (s.count = 1 → s1.snd_buf.has_work = false ∧ s1.decay = 0)
      ∧ (s.count ≠ 1 → speaker_ready s1 ∧ s1.change_tstates = now ∧ s1.idle = s.idle
          ∧ s1.count = s.count - 1 ∧ s1.div_num = s.div_num
          ∧ s1.div_denom = s.div_denom) := by
  obtain ⟨s1, h1, ha, hb⟩ := speaker_tick_work_run e { s with count := s.count - 1 } now hM hbuf
    (speaker_ready_congr s _ (by rfl) (by rfl) (by rfl) (by rfl) (by rfl) (by rfl) hr)
    hidle ht
    (by rw [show ({ s with count := s.count - 1 } : speaker_t).div_denom = s.div_denom from rfl]
        exact hov)
    (by rw [SAMPLE_COUNT_congr s _ (by rfl) (by rfl)]; exact hfit)
  refine ⟨s1, ?_, ?_, ?_⟩
  · rw [speaker_tick_held e s _ now hr.1, if_pos hidle, if_pos (by omega)]
    exact h1
  · intro h
    exact ha (by show s.count - 1 = 0; omega)
  · intro h
    obtain ⟨b1, b2, k1, k2, -, k4, k5, -⟩ := hb (by show s.count - 1 ≠ 0; omega)
    exact ⟨b1, b2, k4, k5, k1, k2⟩

theorem speaker_tick_first (e : audio_t) (s : speaker_t) (now : Nat)
    (hM : 0 ≤ e.AUDIO_MAXVAL) (hbuf : 1 ≤ e.bufsize) (hr : speaker_ready s)
    (hidle : s.idle = 0) (ht : s.change_tstates ≤ now)
    (hov : now * toU64 s.div_denom < 18446744073709551616)
    (hfit : SAMPLE_COUNT s now < 2147483648) :
    ∃ s1, speaker_tick e s s.change_tstates (now - s.change_tstates) now = some (s1, 1)
      ∧ (s.idle_count = 0 → s1.snd_buf.has_work = false ∧ s1.decay = 0)
      ∧ (s.idle_count ≠ 0 → speaker_ready s1 ∧ s1.change_tstates = now ∧ s1.idle = 1
          ∧ s1.count = s.idle_count ∧ s1.div_num = s.div_num
          ∧ s1.div_denom = s.div_denom) := by
  obtain ⟨s1, h1, ha, hb⟩ := speaker_tick_work_run e
    { s with idle := 1, count := s.idle_count } now hM hbuf
    (speaker_ready_congr s _ (by rfl) (by rfl) (by rfl) (by rfl) (by rfl) (by rfl) hr)
    (by show (1 : Int) ≠ 0; decide) ht
    (by rw [show ({ s with idle := 1, count := s.idle_count } : speaker_t).div_denom
              = s.div_denom from rfl]
        exact hov)
    (by rw [SAMPLE_COUNT_congr s _ (by rfl) (by rfl)]; exact hfit)
  refine ⟨s1, ?_, ?_, ?_⟩
  · rw [speaker_tick_held e s _ now hr.1, if_neg (by rw [hidle]; decide)]
    exact h1
  · intro h
    exact ha h
  · intro h
    obtain ⟨b1, b2, k1, k2, -, k4, k5, -⟩ := hb h
    exact ⟨b1, b2, k4, k5, k1, k2⟩

theorem speaker_tick_seq_countdown (e : audio_t) (hM : 0 ≤ e.AUDIO_MAXVAL)
    (hbuf : 1 ≤ e.bufsize) (T : Nat) (ts : List Nat) (s : speaker_t) (j : Nat)
    (hr : speaker_ready s) (hidle : s.idle ≠ 0)
    (hcount : s.count = ((ts.length + j + 1 : Nat) : Int))
    (hchain : List.Chain (fun a b => a ≤ b) s.change_tstates ts)
    (hlast : ts.getLastD s.change_tstates ≤ T)
    (hov : T * toU64 s.div_denom < 18446744073709551616)
    (hfit : SAMPLE_COUNT s T < 2147483648) :
    ∃ s1, speaker_tick_seq e ts s = some (s1, List.replicate ts.length 1)
      ∧ speaker_ready s1 ∧ s1.idle ≠ 0 ∧ s1.count = ((j + 1 : Nat) : Int)
      ∧ s1.div_num = s.div_num ∧ s1.div_denom = s.div_denom
      ∧ s1.change_tstates = ts.getLastD s.change_tstates := by
  induction ts generalizing s with
  | nil => exact ⟨s, rfl, hr, hidle, by simpa using hcount, rfl, rfl, rfl⟩
  | cons t rest ih =>
    rw [List.chain_cons] at hchain
    rw [List.getLastD_cons] at hlast ⊢
    have htT : t ≤ T := le_trans (chain_le_getLastD t rest hchain.2) hlast
    have hovt : t * toU64 s.div_denom < 18446744073709551616 :=
      lt_of_le_of_lt (Nat.mul_le_mul_right _ htT) hov
    have hfitt : SAMPLE_COUNT s t < 2147483648 :=
      lt_of_le_of_lt (SAMPLE_COUNT_mono s t T htT hov) hfit
    have hc1 : 1 ≤ s.count := by
      rw [hcount]
      exact_mod_cast Nat.succ_le_succ (Nat.zero_le _)
    have hc2 : s.count ≠ 1 := by
      rw [hcount, List.length_cons]
      intro h
      have : rest.length + 1 + j + 1 = 1 := by exact_mod_cast h
      omega
    have hc3 : s.count - 1 = ((rest.length + j + 1 : Nat) : Int) := by
      rw [hcount, List.length_cons]
      push_cast
      ring
    obtain ⟨s1, h1, -, hb⟩ :=
      speaker_tick_countdown e s t hM hbuf hr hidle hc1 hchain.1 hovt hfitt
    obtain ⟨b1, b2, b3, b4, b5, b6⟩ := hb hc2
    obtain ⟨s2, h2, c1, c2, c3, c4, c5, c6⟩ := ih s1 b1 (by rw [b3]; exact hidle)
      (by rw [b4]; exact hc3) (by rw [b2]; exact hchain.2) (by rw [b2]; exact hlast)
      (by rw [b6]; exact hov) (by rw [SAMPLE_COUNT_congr s s1 b5 b6]; exact hfit)
    refine ⟨s2, ?_, c1, c2, c3, c4.trans b5, c5.trans b6, by rw [c6, b2]⟩
    simp only [speaker_tick_seq, h1, Option.some_bind, h2, List.length_cons,
      List.replicate_succ]

theorem speaker_tick_seq_idle (e : audio_t) (ts : List Nat) (s : speaker_t)
    (h : s.snd_buf.has_work = false) :
    ∃ s1, speaker_tick_seq e ts s = some (s1, List.replicate ts.length 0)
      ∧ s1.snd_buf = s.snd_buf ∧ s1.decay = s.decay := by
  induction ts generalizing s with
  | nil => exact ⟨s, rfl, rfl, rfl⟩
  | cons t rest ih =>
    have h1 : speaker_tick e s s.change_tstates (t - s.change_tstates) t
        = some (speaker_tick_idle s s.change_tstates (t - s.change_tstates)) := by
      unfold speaker_tick audio_has_work_buffer
      rw [h]
      rfl
    obtain ⟨s2, h2, c1, c2⟩ :=
      ih (speaker_tick_idle s s.change_tstates (t - s.change_tstates)).1 (by
        unfold speaker_tick_idle
        exact h)
    refine ⟨s2, ?_, ?_, ?_⟩
    · simp only [speaker_tick_seq, h1, Option.some_bind, h2, List.length_cons,
        List.replicate_succ]
      rfl
    · rw [c1]
      unfold speaker_tick_idle
      rfl
    · rw [c2]
      unfold speaker_tick_idle
      rfl


/-! ## Speaker: the two branches of `speaker_update`, the assertion, the decay bound -/

theorem tdiv_toward_zero (n t : Int) (ht : 1 ≤ t) :
    (0 ≤ n → 0 ≤ n.tdiv t ∧ n.tdiv t ≤ n) ∧ (n ≤ 0 → n ≤ n.tdiv t ∧ n.tdiv t ≤ 0) := by
  constructor
  · intro h
    rw [Int.tdiv_eq_ediv h (by omega)]
    exact ⟨Int.ediv_nonneg h (by omega), Int.ediv_le_self _ h⟩
  · intro h
    have h2 : n = -(-n) := by omega
    rw [h2, Int.neg_tdiv, Int.tdiv_eq_ediv (by omega) (by omega)]
    have q0 : 0 ≤ (-n) / t := Int.ediv_nonneg (by omega) (by omega)
    have q1 : (-n) / t ≤ -n := Int.ediv_le_self _ (by omega)
    omega

theorem tdiv_65536_bound (d a : Int) (h1 : -(a * 65536) ≤ d) (h2 : d ≤ a * 65536) :
    -a ≤ d.tdiv 65536 ∧ d.tdiv 65536 ≤ a := by
  by_cases h : 0 ≤ d
  · rw [Int.tdiv_eq_ediv h (by norm_num)]
    omega
  · have h3 : d = -(-d) := by omega
    rw [h3, Int.neg_tdiv, Int.tdiv_eq_ediv (by omega) (by norm_num)]
    omega

theorem amplitude_maxval (e : audio_t) (hA : 2 ≤ SPEAKER_AMPLITUDE e) : 6 ≤ e.AUDIO_MAXVAL := by
  unfold SPEAKER_AMPLITUDE at hA
  by_contra hc
  by_cases h0 : 0 ≤ e.AUDIO_MAXVAL
  · rw [Int.tdiv_eq_ediv h0 (by norm_num)] at hA
    omega
  · have h3 : e.AUDIO_MAXVAL = -(-e.AUDIO_MAXVAL) := by omega
    rw [h3, Int.neg_tdiv, Int.tdiv_eq_ediv (by omega) (by norm_num)] at hA
    omega

theorem fixup_within_amplitude (e : audio_t) (hA : 0 ≤ SPEAKER_AMPLITUDE e) (x : Int) :
    -SPEAKER_AMPLITUDE e ≤ speaker_fixup_sample e x
      ∧ speaker_fixup_sample e x ≤ SPEAKER_AMPLITUDE e := by
  unfold speaker_fixup_sample
  split_ifs <;> omega

theorem speaker_decay_between (tau s d : Int) (htau : 1 ≤ tau) :
    min d (-(s * 65536)) ≤ speaker_decay tau s d
      ∧ speaker_decay tau s d ≤ max d (-(s * 65536)) := by
  unfold speaker_decay
  obtain ⟨hp, hn⟩ := tdiv_toward_zero (s * 65536 + d) tau htau
  by_cases h : 0 ≤ s * 65536 + d
  · obtain ⟨q0, q1⟩ := hp h
    generalize (s * 65536 + d).tdiv tau = q at q0 q1 ⊢
    omega
  · obtain ⟨q0, q1⟩ := hn (by omega)
    generalize (s * 65536 + d).tdiv tau = q at q0 q1 ⊢
    omega

theorem speaker_decay_bound (tau s d a : Int) (htau : 1 ≤ tau) (hs : -a ≤ s ∧ s ≤ a)
    (hd : -(a * 65536) ≤ d ∧ d ≤ a * 65536) :
    -(a * 65536) ≤ speaker_decay tau s d ∧ speaker_decay tau s d ≤ a * 65536 := by
  obtain ⟨h1, h2⟩ := speaker_decay_between tau s d htau
  generalize speaker_decay tau s d = d1 at h1 h2 ⊢
  omega

theorem decay_after_bound (tau s a : Int) (htau : 1 ≤ tau) (hs : -a ≤ s ∧ s ≤ a) (n : Nat)
    (d : Int) (hd : -(a * 65536) ≤ d ∧ d ≤ a * 65536) :
    -(a * 65536) ≤ decay_after tau s n d ∧ decay_after tau s n d ≤ a * 65536 := by
  induction n generalizing d with
  | zero => exact hd
  | succ n ih =>
    unfold decay_after
    exact ih _ (speaker_decay_bound tau s d a htau hs hd)

theorem speaker_clock_frame (e : audio_t) (s s1 : speaker_t) (cpuclock : Int) (now : Nat)
    (h : speaker_clock e s cpuclock now = some s1) :
    s1.snd_buf = s.snd_buf ∧ s1.idle = s.idle ∧ s1.count = s.count := by
  unfold speaker_clock at h
  obtain ⟨a, _, h2⟩ := Option.bind_eq_some.mp h
  split_ifs at h2
  simp only [Option.some.injEq] at h2
  subst h2
  unfold speaker_clock_rederive
  exact ⟨rfl, rfl, rfl⟩

theorem speaker_reset_closed (s : speaker_t) (now : Nat) :
    audio_has_work_buffer (speaker_reset s now).snd_buf = false := by
  unfold speaker_reset audio_has_work_buffer
  by_cases h : s.snd_buf.has_work = true
  · simp [h, audio_put_work_buffer]
  · simp [h]

theorem speaker_w_idle (e : audio_t) (s s1 : speaker_t) (data now : Nat)
    (h : speaker_w e s data now = some s1) : s1 = s ∨ s1.idle = 0 := by
  unfold speaker_w at h
  split_ifs at h
  · simp only [Option.some.injEq] at h
    exact Or.inl h.symm
  · obtain ⟨s2, _, h2⟩ := Option.bind_eq_some.mp h
    simp only [Option.some.injEq] at h2
    subst h2
    exact Or.inr rfl
  · obtain ⟨s2, _, h2⟩ := Option.bind_eq_some.mp h
    simp only [Option.some.injEq] at h2
    subst h2
    exact Or.inr rfl

theorem speaker_tick_work_closed (e : audio_t) (s : speaker_t) (now : Nat)
    (r : speaker_t × Int) (h : speaker_tick_work e s now = some r) :
    speaker_idle_closed r.1 := by
  unfold speaker_tick_work at h
  cases hu : speaker_update e s s.state now with
  | none => rw [hu] at h; cases h
  | some s1 =>
    rw [hu] at h
    simp only at h
    by_cases hc : s1.idle ≠ 0 ∧ s1.count = 0
    · rw [if_pos hc] at h
      simp only [Option.some.injEq] at h
      subst h
      intro _
      rfl
    · rw [if_neg hc] at h
      simp only [Option.some.injEq] at h
      subst h
      intro hx
      exact absurd hx hc

theorem speaker_tick_closed (e : audio_t) (s : speaker_t) (start cycles now : Nat)
    (r : speaker_t × Int) (hs : speaker_idle_closed s)
    (h : speaker_tick e s start cycles now = some r) : speaker_idle_closed r.1 := by
  have hidle : speaker_idle_closed (speaker_tick_idle s start cycles).1 := hs
  unfold speaker_tick at h
  split_ifs at h
  · simp only [Option.some.injEq] at h
    subst h
    exact hidle
  · exact speaker_tick_work_closed e _ now r h
  · simp only [Option.some.injEq] at h
    subst h
    exact hidle
  · exact speaker_tick_work_closed e _ now r h
  · exact speaker_tick_work_closed e _ now r h

theorem speaker_step_closed (e : audio_t) (s s1 : speaker_t) (op : speaker_op)
    (hop : speaker_op_entry op) (hs : speaker_idle_closed s)
    (h : speaker_step e s op = some s1) : speaker_idle_closed s1 := by
  cases op with
  | clock cpuclock now =>
    obtain ⟨a1, a2, a3⟩ := speaker_clock_frame e s s1 cpuclock now h
    unfold speaker_idle_closed
    rw [a1, a2, a3]
    exact hs
  | reset now =>
    simp only [speaker_step, Option.some.injEq] at h
    subst h
    intro _
    exact speaker_reset_closed s now
  | w data now =>
    rcases speaker_w_idle e s s1 data now h with h1 | h1
    · rw [h1]; exact hs
    · intro hx
      exact absurd h1 hx.1
  | update data now => exact absurd hop (by simp [speaker_op_entry])
  | tick start cycles now =>
    simp only [speaker_step] at h
    cases ht : speaker_tick e s start cycles now with
    | none => rw [ht] at h; cases h
    | some r =>
      rw [ht] at h
      simp only [Option.some.injEq] at h
      subst h
      exact speaker_tick_closed e s start cycles now r hs ht

theorem speaker_run_closed (e : audio_t) (ops : List speaker_op) (s s1 : speaker_t)
    (hops : ∀ op ∈ ops, speaker_op_entry op) (hs : speaker_idle_closed s)
    (h : speaker_run e ops s = some s1) : speaker_idle_closed s1 := by
  induction ops generalizing s with
  | nil =>
    simp only [speaker_run, Option.some.injEq] at h
    subst h
    exact hs
  | cons op ops ih =>
    simp only [speaker_run] at h
    cases hst : speaker_step e s op with
    | none => rw [hst] at h; cases h
    | some s2 =>
      rw [hst] at h
      exact ih s2 (fun x hx => hops x (List.mem_cons_of_mem _ hx))
        (speaker_step_closed e s s2 op (hops op (List.mem_cons_self _ _)) hs hst) h

/-! ## The wrapped products of `PARTIAL_SAMPLE` -/

theorem toInt32_wrap (a : Int) : ∃ k, toInt32 a = a - 4294967296 * k :=
  ⟨(a + 2147483648) / 4294967296, by unfold toInt32; omega⟩

theorem toInt32_sub_mul (y m : Int) : toInt32 (y - 4294967296 * m) = toInt32 y := by
  unfold toInt32
  omega

theorem toInt32_mul_toInt32 (a b : Int) : toInt32 (toInt32 a * b) = toInt32 (a * b) := by
  obtain ⟨k, hk⟩ := toInt32_wrap a
  have h : (a - 4294967296 * k) * b = a * b - 4294967296 * (k * b) := by ring
  rw [hk, h, toInt32_sub_mul]

/-- A product that stays within the range of `int` is not changed by the
wrap-around. -/
theorem PARTIAL_SAMPLE_of_range (s : speaker_t) (f x : Int)
    (hlo : -2147483648 ≤ x * f * s.div_denom) (hhi : x * f * s.div_denom < 2147483648) :
    PARTIAL_SAMPLE s f x = (x * f * s.div_denom).tdiv s.div_num := by
  unfold PARTIAL_SAMPLE
  rw [toInt32_mul_toInt32, toInt32_of_range _ hlo hhi]


/-! ## Binary64 rounding -/

theorem dbl_ulp_pos (q : ℚ) : 0 < dbl_ulp q := by
  unfold dbl_ulp
  positivity

/-- The rounded value is a nearest multiple of the spacing: it lies within half
a spacing of the exact value. -/
theorem dbl_nearest_close (q : ℚ) : |dbl_nearest q - q| ≤ dbl_ulp q / 2 := by
  have hu := dbl_ulp_pos q
  unfold dbl_nearest
  by_cases h0 : q = 0
  · rw [if_pos h0, h0, sub_zero, abs_zero]
    exact le_of_lt (half_pos (dbl_ulp_pos 0))
  rw [if_neg h0]
  have hq : q = q / dbl_ulp q * dbl_ulp q := by field_simp
  have hfl := Int.floor_le (q / dbl_ulp q)
  have hlt := Int.lt_floor_add_one (q / dbl_ulp q)
  generalize q / dbl_ulp q = m at hq hfl hlt ⊢
  generalize (⌊m⌋ : ℚ) = k at hfl hlt ⊢
  generalize dbl_ulp q = u at hu hq ⊢
  rw [abs_le]
  split_ifs with h1 h2 h3
  · constructor <;> nlinarith
  · constructor <;> nlinarith
  · constructor <;> nlinarith
  · constructor <;> nlinarith

/-- Values of the rounding: 0.1 and 0.15 (inexact), a tie at `2^53 + 1` going
to the even significand, a subnormal tie, and the overflow threshold. -/
theorem dbl_nearest_values :
    dbl_nearest (1 / 10) = 3602879701896397 / 36028797018963968
      ∧ dbl_div 15 100 = some (5404319552844595 / 36028797018963968)
      ∧ dbl_nearest (2 ^ 53 + 1) = 2 ^ 53 ∧ dbl_nearest (2 ^ 53 + 3) = 2 ^ 53 + 4
      ∧ dbl_nearest (3 / 2 ^ 1075) = 2 / 2 ^ 1074
      ∧ dbl_round (2 ^ 1024 - 2 ^ 970 - 1) = some (2 ^ 1024 - 2 ^ 971)
      ∧ dbl_round (2 ^ 1024 - 2 ^ 970) = none := by
  decide!

theorem log2_floor_aux_spec (fuel n : Nat) (hf : n ≤ fuel) (hn : 1 ≤ n) :
    2 ^ log2_floor_aux fuel n ≤ n ∧ n < 2 ^ (log2_floor_aux fuel n + 1) := by
  induction fuel generalizing n with
  | zero => omega
  | succ fuel ih =>
    unfold log2_floor_aux
    by_cases h2 : n < 2
    · rw [if_pos h2]
      have : n = 1 := by omega
      subst this
      decide
    · rw [if_neg h2]
      obtain ⟨i1, i2⟩ := ih (n / 2) (by omega) (by omega)
      rw [pow_succ] at i2 ⊢
      rw [pow_succ (n := log2_floor_aux fuel (n / 2) + 1), pow_succ]
      omega

theorem log2_floor_spec (n : Nat) (hn : 1 ≤ n) :
    2 ^ log2_floor n ≤ n ∧ n < 2 ^ (log2_floor n + 1) :=
  log2_floor_aux_spec n n (le_refl n) hn

/-- The exponent computed from the leading digits is the binary exponent. -/
theorem dbl_exponent_spec (q : ℚ) (hq : q ≠ 0) :
    (2 : ℚ) ^ dbl_exponent q ≤ |q| ∧ |q| < (2 : ℚ) ^ (dbl_exponent q + 1) := by
  have hnum : q.num.natAbs ≠ 0 := by
    rw [Ne, Int.natAbs_eq_zero, Rat.num_eq_zero]
    exact hq
  obtain ⟨a1, a2⟩ := log2_floor_spec q.num.natAbs (Nat.one_le_iff_ne_zero.mpr hnum)
  obtain ⟨b1, b2⟩ := log2_floor_spec q.den q.den_pos
  have habs : |q| = (q.num.natAbs : ℚ) / (q.den : ℚ) := by
    conv_lhs => rw [← Rat.num_div_den q]
    rw [abs_div, Nat.abs_cast, ← Int.cast_abs, Int.abs_eq_natAbs, Int.cast_natCast]
  have ha1 : (2 : ℚ) ^ (log2_floor q.num.natAbs : Int) ≤ (q.num.natAbs : ℚ) := by
    rw [zpow_natCast]; exact_mod_cast a1
  have ha2 : (q.num.natAbs : ℚ) < (2 : ℚ) ^ (log2_floor q.num.natAbs : Int) * 2 := by
    rw [zpow_natCast, ← pow_succ]; exact_mod_cast a2
  have hb1 : (2 : ℚ) ^ (log2_floor q.den : Int) ≤ (q.den : ℚ) := by
    rw [zpow_natCast]; exact_mod_cast b1
  have hb2 : (q.den : ℚ) < (2 : ℚ) ^ (log2_floor q.den : Int) * 2 := by
    rw [zpow_natCast, ← pow_succ]; exact_mod_cast b2
  have hd : (0 : ℚ) < (q.den : ℚ) := by exact_mod_cast q.den_pos
  have hpa : (0 : ℚ) < (2 : ℚ) ^ (log2_floor q.num.natAbs : Int) := by positivity
  have hpb : (0 : ℚ) < (2 : ℚ) ^ (log2_floor q.den : Int) := by positivity
  have hsub : (2 : ℚ) ^ ((log2_floor q.num.natAbs : Int) - (log2_floor q.den : Int))
      = (2 : ℚ) ^ (log2_floor q.num.natAbs : Int) / (2 : ℚ) ^ (log2_floor q.den : Int) :=
    zpow_sub₀ (by norm_num) _ _
  unfold dbl_exponent
  by_cases hlt : |q| < 2 ^ ((log2_floor q.num.natAbs : Int) - (log2_floor q.den : Int))
  · rw [if_pos hlt, sub_add_cancel]
    refine ⟨?_, hlt⟩
    rw [zpow_sub_one₀ (by norm_num), hsub, habs, div_mul_eq_mul_div, div_le_div_iff₀
      (by positivity) hd]
    generalize (2 : ℚ) ^ (log2_floor q.num.natAbs : Int) = A at *
    generalize (2 : ℚ) ^ (log2_floor q.den : Int) = B at *
    generalize (q.num.natAbs : ℚ) = n at *
    generalize (q.den : ℚ) = d at *
    have h1 : A * 2⁻¹ * d ≤ A * 2⁻¹ * (B * 2) :=
      mul_le_mul_of_nonneg_left (le_of_lt hb2) (by positivity)
    have h2 : A * 2⁻¹ * (B * 2) = A * B := by ring
    have h3 : A * B ≤ n * B := mul_le_mul_of_nonneg_right ha1 (le_of_lt hpb)
    linarith
  · rw [if_neg hlt]
    refine ⟨not_lt.mp hlt, ?_⟩
    rw [zpow_add_one₀ (by norm_num), hsub, habs, div_mul_eq_mul_div, div_lt_div_iff₀ hd hpb]
    generalize (2 : ℚ) ^ (log2_floor q.num.natAbs : Int) = A at *
    generalize (2 : ℚ) ^ (log2_floor q.den : Int) = B at *
    generalize (q.num.natAbs : ℚ) = n at *
    generalize (q.den : ℚ) = d at *
    have h1 : n * B < A * 2 * B := mul_lt_mul_of_pos_right ha2 hpb
    have h2 : A * 2 * B ≤ A * 2 * d := mul_le_mul_of_nonneg_left hb1 (by positivity)
    linarith

/-- In the normal range the rounding error is at most `2^-53` of the value. -/
theorem dbl_nearest_relative (q : ℚ) (hq : (2 : ℚ) ^ (-1022 : Int) ≤ |q|) :
    |dbl_nearest q - q| ≤ |q| / 2 ^ 53 := by
  have h0 : q ≠ 0 := by
    intro h
    rw [h, abs_zero] at hq
    have : (0 : ℚ) < (2 : ℚ) ^ (-1022 : Int) := by positivity
    linarith
  obtain ⟨e1, e2⟩ := dbl_exponent_spec q h0
  have he : -1022 ≤ dbl_exponent q := by
    have h1 : (2 : ℚ) ^ (-1022 : Int) < (2 : ℚ) ^ (dbl_exponent q + 1) := lt_of_le_of_lt hq e2
    have h2 := (zpow_lt_zpow_iff_right₀ (by norm_num : (1 : ℚ) < 2)).mp h1
    omega
  have hu : dbl_ulp q = (2 : ℚ) ^ dbl_exponent q / 2 ^ 52 := by
    unfold dbl_ulp
    rw [max_eq_left (by omega), zpow_sub₀ (by norm_num)]
    norm_num
  have hc := dbl_nearest_close q
  rw [hu] at hc
  have h3 : (2 : ℚ) ^ dbl_exponent q / 2 ^ 52 / 2 ≤ |q| / 2 ^ 53 := by
    rw [div_div, div_le_div_iff₀ (by positivity) (by positivity)]
    have : (2 : ℚ) ^ dbl_exponent q * 2 ^ 53 ≤ |q| * 2 ^ 53 :=
      mul_le_mul_of_nonneg_right e1 (by positivity)
    linarith
  linarith

/-! ## CRTC: register reads and writes -/

theorem and_mask_mod (x m : Nat) (hm : m < 65536) : (x &&& m) % 65536 = x &&& m :=
  Nat.mod_eq_of_lt (lt_of_le_of_lt Nat.and_le_right hm)

theorem crtc_set_flash_rate_frame (e : crtc_env) (s : crtc_state) (n : Int)
    (r : crtc_state × Int) (h : crtc_set_flash_rate e s n = some r) :
    r.1 = { s with timing := r.1.timing }
      ∧ r.1.timing.vsync_freq = s.timing.vsync_freq
      ∧ r.1.timing.vblank_divval = s.timing.vblank_divval
      ∧ r.1.timing.vblank_cmpval = s.timing.vblank_cmpval
      ∧ r.1.timing.cur_blink_rate_t1r32 = s.timing.cur_blink_rate_t1r32
      ∧ r.1.timing.cur_blink_rate_t1r16 = s.timing.cur_blink_rate_t1r16
      ∧ r.1.timing.cur_blink_rate_c1r32 = s.timing.cur_blink_rate_c1r32
      ∧ r.1.timing.cur_blink_rate_c1r16 = s.timing.cur_blink_rate_c1r16 := by
  unfold crtc_set_flash_rate at h
  by_cases h1 : n < 0 ∨ n > 11
  · rw [if_pos h1] at h; cases h; exact ⟨rfl, rfl, rfl, rfl, rfl, rfl, rfl, rfl⟩
  · rw [if_neg h1] at h; cases h; exact ⟨rfl, rfl, rfl, rfl, rfl, rfl, rfl, rfl⟩

/-- For a rate number in 0..11 `crtc_set_flash_rate` returns 0 with the rate and
the two periods stored, whatever the frequency. -/
theorem crtc_set_flash_rate_valid (e : crtc_env) (s : crtc_state) (n : Int)
    (hn : 0 ≤ n ∧ n ≤ 11) :
    ∃ r, crtc_set_flash_rate e s n = some r ∧ r.2 = 0
      ∧ r.1.timing.flashrate = (if n < 8 then n else (n - 8) + 3)
      ∧ crtc_flash_derived e.cvt_invalid r.1.timing s.timing.vsync_freq e.cpuclock n := by
  unfold crtc_set_flash_rate
  rw [if_neg (by omega)]
  exact ⟨_, rfl, rfl, rfl, rfl, rfl⟩

theorem crtc_set_flash_rate_spec (e : crtc_env) (s : crtc_state) (n : Int)
    (r : crtc_state × Int) (hn : 0 ≤ n ∧ n ≤ 11) (h : crtc_set_flash_rate e s n = some r) :
    r.2 = 0
      ∧ r.1.timing.flashrate = (if n < 8 then n else (n - 8) + 3)
      ∧ crtc_flash_derived e.cvt_invalid r.1.timing s.timing.vsync_freq e.cpuclock n := by
  obtain ⟨r2, h2, a1, a2, a3⟩ := crtc_set_flash_rate_valid e s n hn
  rw [h] at h2
  cases h2
  exact ⟨a1, a2, a3⟩

theorem crtc_set_flash_rate_total (e : crtc_env) (s : crtc_state) (n : Int) :
    ∃ r, crtc_set_flash_rate e s n = some r := by
  unfold crtc_set_flash_rate
  split_ifs <;> exact ⟨_, rfl⟩

theorem crtc_clock_rates_spec (e : crtc_env) (s : crtc_state) (c : Int) (s' : crtc_state)
    (h : crtc_clock_rates e s c = some s') :
    s' = { s with timing := s'.timing }
      ∧ s'.timing.vsync_freq = s.timing.vsync_freq
      ∧ s'.timing.flashrate = s.timing.flashrate
      ∧ s'.timing.flashvalue_c = s.timing.flashvalue_c
      ∧ s'.timing.flashvalue_t = s.timing.flashvalue_t
      ∧ crtc_rates_derived e.cvt_invalid s'.timing s.timing.vsync_freq c := by
  unfold crtc_clock_rates at h
  cases h
  exact ⟨rfl, rfl, rfl, rfl, rfl, rfl, rfl, rfl, rfl, rfl, rfl⟩

theorem crtc_clock_total (e : crtc_env) (s : crtc_state) (c : Int) :
    ∃ s', crtc_clock e s c = some s' := by
  unfold crtc_clock crtc_clock_rates
  rw [Option.some_bind]
  obtain ⟨r, hr⟩ := crtc_set_flash_rate_total e
    { s with timing := { s.timing with
      vblank_divval := double_to_int e.cvt_invalid (dbl_div c s.timing.vsync_freq),
      vblank_cmpval := double_to_int e.cvt_invalid
        (dbl_mul (some (double_to_int e.cvt_invalid (dbl_div c s.timing.vsync_freq) : Int))
          (dbl_div 15 100)),
      cur_blink_rate_t1r32 := double_to_int e.cvt_invalid
        (dbl_mul (dbl_div 32 s.timing.vsync_freq) (some 1000)),
      cur_blink_rate_c1r32 := double_to_int e.cvt_invalid
        (dbl_mul (some c) (dbl_div 32 s.timing.vsync_freq)),
      cur_blink_rate_t1r16 := double_to_int e.cvt_invalid
        (dbl_mul (dbl_div 16 s.timing.vsync_freq) (some 1000)),
      cur_blink_rate_c1r16 := double_to_int e.cvt_invalid
        (dbl_mul (some c) (dbl_div 16 s.timing.vsync_freq)) } } s.timing.flashrate
  exact ⟨r.1, by rw [hr]; rfl⟩

theorem crtc_clock_spec (e : crtc_env) (s : crtc_state) (c : Int) (s' : crtc_state)
    (h : crtc_clock e s c = some s') :
    s' = { s with timing := s'.timing }
      ∧ s'.timing.vsync_freq = s.timing.vsync_freq
      ∧ crtc_rates_derived e.cvt_invalid s'.timing s.timing.vsync_freq c
      ∧ (0 ≤ s.timing.flashrate ∧ s.timing.flashrate ≤ 11 →
          crtc_flash_derived e.cvt_invalid s'.timing s.timing.vsync_freq e.cpuclock
            s.timing.flashrate)
      ∧ (¬ (0 ≤ s.timing.flashrate ∧ s.timing.flashrate ≤ 11) →
          s'.timing.flashrate = s.timing.flashrate
            ∧ s'.timing.flashvalue_c = s.timing.flashvalue_c
            ∧ s'.timing.flashvalue_t = s.timing.flashvalue_t) := by
  unfold crtc_clock at h
  cases h1 : crtc_clock_rates e s c with
  | none => rw [h1] at h; cases h
  | some s1 =>
  rw [h1, Option.some_bind] at h
  cases h2 : crtc_set_flash_rate e s1 s1.timing.flashrate with
  | none => rw [h2] at h; cases h
  | some r =>
  rw [h2, Option.some_bind] at h
  cases h
  obtain ⟨a1, a2, a3, a4, a5, a6⟩ := crtc_clock_rates_spec e s c s1 h1
  obtain ⟨b1, b2, b3, b4, b5, b6, b7, b8⟩ := crtc_set_flash_rate_frame e s1 _ r h2
  refine ⟨?_, by rw [b2, a2], ?_, ?_, ?_⟩
  · rw [b1]; rw [a1]
  · unfold crtc_rates_derived at a6 ⊢
    rw [b3, b4, b5, b6, b7, b8]; exact a6
  · intro hn
    rw [← a3] at hn
    have := (crtc_set_flash_rate_spec e s1 _ r hn h2).2.2
    rw [a2, a3] at this; exact this
  · intro hn
    rw [← a3] at hn
    unfold crtc_set_flash_rate at h2
    have h1 : s1.timing.flashrate < 0 ∨ s1.timing.flashrate > 11 := by omega
    rw [if_pos h1] at h2
    cases h2
    exact ⟨a3, a4, a5⟩

theorem vsync_floor_frame (s : crtc_state) :
    vsync_floor s = { s with timing := (vsync_floor s).timing }
      ∧ (vsync_floor s).timing.vsync_freq
          = (if s.timing.vsync_freq < 5 then 1 else s.timing.vsync_freq)
      ∧ (vsync_floor s).timing.vblank_divval = s.timing.vblank_divval
      ∧ (vsync_floor s).timing.vblank_cmpval = s.timing.vblank_cmpval
      ∧ (vsync_floor s).timing.cur_blink_rate_t1r32 = s.timing.cur_blink_rate_t1r32
      ∧ (vsync_floor s).timing.cur_blink_rate_t1r16 = s.timing.cur_blink_rate_t1r16
      ∧ (vsync_floor s).timing.cur_blink_rate_c1r32 = s.timing.cur_blink_rate_c1r32
      ∧ (vsync_floor s).timing.cur_blink_rate_c1r16 = s.timing.cur_blink_rate_c1r16
      ∧ (vsync_floor s).timing.flashrate = s.timing.flashrate
      ∧ (vsync_floor s).timing.flashvalue_c = s.timing.flashvalue_c
      ∧ (vsync_floor s).timing.flashvalue_t = s.timing.flashvalue_t := by
  unfold vsync_floor
  split_ifs <;> exact ⟨rfl, rfl, rfl, rfl, rfl, rfl, rfl, rfl, rfl, rfl, rfl⟩

theorem crtc_rates_derived_congr (u : Int) (t t' : crtc_timing) (f : ℚ) (c : Int)
    (h1 : t'.vblank_divval = t.vblank_divval) (h2 : t'.vblank_cmpval = t.vblank_cmpval)
    (h3 : t'.cur_blink_rate_t1r32 = t.cur_blink_rate_t1r32)
    (h4 : t'.cur_blink_rate_t1r16 = t.cur_blink_rate_t1r16)
    (h5 : t'.cur_blink_rate_c1r32 = t.cur_blink_rate_c1r32)
    (h6 : t'.cur_blink_rate_c1r16 = t.cur_blink_rate_c1r16)
    (h : crtc_rates_derived u t f c) : crtc_rates_derived u t' f c := by
  unfold crtc_rates_derived at h ⊢
  rw [h1, h2, h3, h4, h5, h6]; exact h

theorem crtc_flash_derived_congr (u : Int) (t t' : crtc_timing) (f : ℚ) (c n : Int)
    (h1 : t'.flashvalue_c = t.flashvalue_c) (h2 : t'.flashvalue_t = t.flashvalue_t)
    (h : crtc_flash_derived u t f c n) : crtc_flash_derived u t' f c n := by
  unfold crtc_flash_derived at h ⊢
  rw [h1, h2]; exact h

/-- What `crtc_calc_vsync_freq` leaves when the three totals are non-zero. -/
theorem crtc_calc_vsync_freq_spec (e : crtc_env) (s s' : crtc_state)
    (hz : s.htot ≠ 0 ∧ s.vtot ≠ 0 ∧ s.scans_per_row ≠ 0)
    (h : crtc_calc_vsync_freq e s = some s') :
    s' = { s with timing := s'.timing }
      ∧ s'.timing.vsync_freq
          = (if vsync_formula e s.htot s.vtot s.scans_per_row s.vtot_adj < 5 then 1
              else vsync_formula e s.htot s.vtot s.scans_per_row s.vtot_adj)
      ∧ crtc_rates_derived e.cvt_invalid s'.timing
          (vsync_formula e s.htot s.vtot s.scans_per_row s.vtot_adj) e.cpuclock
      ∧ (0 ≤ s.timing.flashrate ∧ s.timing.flashrate ≤ 11 →
          crtc_flash_derived e.cvt_invalid s'.timing
            (vsync_formula e s.htot s.vtot s.scans_per_row s.vtot_adj) e.cpuclock
            s.timing.flashrate)
      ∧ (¬ (0 ≤ s.timing.flashrate ∧ s.timing.flashrate ≤ 11) →
          s'.timing.flashrate = s.timing.flashrate
            ∧ s'.timing.flashvalue_c = s.timing.flashvalue_c
            ∧ s'.timing.flashvalue_t = s.timing.flashvalue_t) := by
  unfold crtc_calc_vsync_freq at h
  rw [if_pos hz] at h
  cases h1 : crtc_clock e
      { s with timing := { s.timing with
          vsync_freq := dbl_nearest (dbl_nearest (vdu_xtal e / ((s.htot * 8 : Nat) : ℚ))
            / ((s.vtot * s.scans_per_row + s.vtot_adj : Nat) : ℚ)) } } e.cpuclock with
  | none => rw [h1] at h; cases h
  | some s1 =>
  rw [h1, Option.some_bind] at h
  cases h
  obtain ⟨a1, a2, a3, a4, a5⟩ := crtc_clock_spec e _ _ s1 h1
  obtain ⟨f0, f1, f2, f3, f4, f5, f6, f7, f8, f9, f10⟩ := vsync_floor_frame s1
  refine ⟨?_, ?_, ?_, ?_, ?_⟩
  · rw [f0]; rw [a1]
  · rw [f1, a2]; rfl
  · exact crtc_rates_derived_congr _ _ _ _ _ f2 f3 f4 f5 f6 f7 a3
  · intro hn
    exact crtc_flash_derived_congr _ _ _ _ _ _ f9 f10 (a4 hn)
  · intro hn
    obtain ⟨b1, b2, b3⟩ := a5 hn
    exact ⟨by rw [f8, b1], by rw [f9, b2], by rw [f10, b3]⟩

/-- The function `crtc_calc_vsync_freq` always returns. -/
theorem crtc_calc_vsync_freq_total (e : crtc_env) (s : crtc_state) :
    ∃ s', crtc_calc_vsync_freq e s = some s' := by
  unfold crtc_calc_vsync_freq
  by_cases hz : s.htot ≠ 0 ∧ s.vtot ≠ 0 ∧ s.scans_per_row ≠ 0
  · rw [if_pos hz]
    obtain ⟨s1, h1⟩ := crtc_clock_total e
      { s with timing := { s.timing with
          vsync_freq := dbl_nearest (dbl_nearest (vdu_xtal e / ((s.htot * 8 : Nat) : ℚ))
            / ((s.vtot * s.scans_per_row + s.vtot_adj : Nat) : ℚ)) } } e.cpuclock
    rw [h1]
    exact ⟨_, rfl⟩
  · rw [if_neg hz]
    exact ⟨_, rfl⟩

/-- What `crtc_calc_vsync_freq` leaves when one of the totals is zero. -/
theorem crtc_calc_vsync_freq_skip (e : crtc_env) (s : crtc_state)
    (hz : s.htot = 0 ∨ s.vtot = 0 ∨ s.scans_per_row = 0) :
    crtc_calc_vsync_freq e s = some (vsync_floor s) := by
  unfold crtc_calc_vsync_freq
  have h : ¬ (s.htot ≠ 0 ∧ s.vtot ≠ 0 ∧ s.scans_per_row ≠ 0) := by
    rintro ⟨h1, h2, h3⟩
    rcases hz with hz | hz | hz
    · exact h1 hz
    · exact h2 hz
    · exact h3 hz
  rw [if_neg h]; rfl

/-- The function `crtc_calc_vsync_freq` changes the timing group only. -/
theorem crtc_calc_vsync_freq_frame (e : crtc_env) (s s' : crtc_state)
    (h : crtc_calc_vsync_freq e s = some s') : s' = { s with timing := s'.timing } := by
  by_cases hz : s.htot ≠ 0 ∧ s.vtot ≠ 0 ∧ s.scans_per_row ≠ 0
  · exact (crtc_calc_vsync_freq_spec e s s' hz h).1
  · have hz2 : s.htot = 0 ∨ s.vtot = 0 ∨ s.scans_per_row = 0 := by
      by_contra hc
      push_neg at hc
      exact hz hc
    rw [crtc_calc_vsync_freq_skip e s hz2] at h
    cases h
    exact (vsync_floor_frame s).1

/-- A value that is finite and within the range of `int` converts to its
truncation, whatever the value of an invalid conversion. -/
theorem double_to_int_of_range (u : Int) (q : ℚ) (h0 : 0 ≤ q) (h1 : q < 2147483648) :
    double_to_int u (some q) = ⌊q⌋ := by
  show (if -2147483649 < q ∧ q < 2147483648 then q.num.tdiv q.den else u) = ⌊q⌋
  rw [if_pos ⟨by linarith, h1⟩, Rat.floor_def,
    Int.tdiv_eq_ediv (Rat.num_nonneg.mpr h0) (Int.ofNat_nonneg _)]


/-! The branches of `crtc_data_w`. -/

theorem crtc_data_w_r0 (e : crtc_env) (s : crtc_state) (data : Nat) (h : s.reg = 0) :
    crtc_data_w e s data =
    crtc_calc_vsync_freq e { crtc_store_reg s data with htot := (data &&& 0xFF) + 1 } := by
  unfold crtc_data_w
  simp only [h]
  rfl

theorem crtc_data_w_r1 (e : crtc_env) (s : crtc_state) (data : Nat) (h : s.reg = 1) :
    crtc_data_w e s data =
    crtc_calc_vsync_freq e
      (if s.hdisp ≠ data &&& 0xFF
        then { crtc_store_reg s data with hdisp := data &&& 0xFF, resized := 1 }
        else crtc_store_reg s data) := by
  unfold crtc_data_w
  simp only [h]
  rfl

theorem crtc_data_w_r4 (e : crtc_env) (s : crtc_state) (data : Nat) (h : s.reg = 4) :
    crtc_data_w e s data =
    crtc_calc_vsync_freq e { crtc_store_reg s data with vtot := (data &&& 0x7F) + 1 } := by
  unfold crtc_data_w
  simp only [h]
  rfl

theorem crtc_data_w_r5 (e : crtc_env) (s : crtc_state) (data : Nat) (h : s.reg = 5) :
    crtc_data_w e s data =
    crtc_calc_vsync_freq e { crtc_store_reg s data with vtot_adj := data &&& 0x1F } := by
  unfold crtc_data_w
  simp only [h]
  rfl

theorem crtc_data_w_r6 (e : crtc_env) (s : crtc_state) (data : Nat) (h : s.reg = 6) :
    crtc_data_w e s data =
    some (if s.vdisp ≠ data &&& 0x7F
      then { crtc_store_reg s data with vdisp := data &&& 0x7F, resized := 1 }
      else crtc_store_reg s data) := by
  unfold crtc_data_w
  simp only [h]
  rfl

theorem crtc_data_w_r9 (e : crtc_env) (s : crtc_state) (data : Nat) (h : s.reg = 9) :
    crtc_data_w e s data =
    crtc_calc_vsync_freq e
      (if s.scans_per_row ≠ (data &&& 0x1F) + 1
        then { crtc_store_reg s data with scans_per_row := (data &&& 0x1F) + 1, resized := 1 }
        else crtc_store_reg s data) := by
  unfold crtc_data_w
  simp only [h]
  rfl

theorem crtc_data_w_r10 (e : crtc_env) (s : crtc_state) (data : Nat) (h : s.reg = 10) :
    crtc_data_w e s data =
    (crtc_update_cursor e
        { crtc_store_reg s data with
          cursor := { s.cursor with cur_start := data &&& 0x1F,
                                    cur_mode := (data >>> 5) &&& 0x03 } }).bind
      fun r => some (crtc_redraw_char r.1 r.1.cursor.cur_pos) := by
  unfold crtc_data_w
  simp only [h]
  rfl

theorem crtc_data_w_r11 (e : crtc_env) (s : crtc_state) (data : Nat) (h : s.reg = 11) :
    crtc_data_w e s data =
    some (crtc_redraw_char
      { crtc_store_reg s data with cursor := { s.cursor with cur_end := data &&& 0x1F } }
      s.cursor.cur_pos) := by
  unfold crtc_data_w
  simp only [h]
  rfl

theorem crtc_data_w_r12 (e : crtc_env) (s : crtc_state) (data : Nat) (h : s.reg = 12) :
    crtc_data_w e s data =
    some (crtc_set_redraw { crtc_store_reg s data with
      disp_start := (s.disp_start &&& 0xFF) ||| ((data &&& 0x3F) <<< 8) }) := by
  unfold crtc_data_w
  simp only [h]
  rfl

theorem crtc_data_w_r13 (e : crtc_env) (s : crtc_state) (data : Nat) (h : s.reg = 13) :
    crtc_data_w e s data =
    some (crtc_set_redraw { crtc_store_reg s data with
      disp_start := (s.disp_start &&& 0x3F00) ||| (data &&& 0xFF) }) := by
  unfold crtc_data_w
  simp only [h]
  rfl

theorem crtc_data_w_r14 (e : crtc_env) (s : crtc_state) (data : Nat) (h : s.reg = 14) :
    crtc_data_w e s data =
    some (crtc_redraw_char
      (crtc_redraw_char
        { crtc_store_reg s data with
          cursor := { s.cursor with
            cur_pos := (s.cursor.cur_pos &&& 0xFF) ||| ((data &&& 0x3F) <<< 8) } }
        s.cursor.cur_pos)
      ((s.cursor.cur_pos &&& 0xFF) ||| ((data &&& 0x3F) <<< 8))) := by
  unfold crtc_data_w
  simp only [h]
  rfl

theorem crtc_data_w_r15 (e : crtc_env) (s : crtc_state) (data : Nat) (h : s.reg = 15) :
    crtc_data_w e s data =
    some (crtc_redraw_char
      (crtc_redraw_char
        { crtc_store_reg s data with
          cursor := { s.cursor with
            cur_pos := (s.cursor.cur_pos &&& 0x3F00) ||| (data &&& 0xFF) } }
        s.cursor.cur_pos)
      ((s.cursor.cur_pos &&& 0x3F00) ||| (data &&& 0xFF))) := by
  unfold crtc_data_w
  simp only [h]
  rfl

theorem crtc_data_w_r18 (e : crtc_env) (s : crtc_state) (data : Nat) (h : s.reg = 18) :
    crtc_data_w e s data =
    some { crtc_store_reg s data with
      mem_addr := (s.mem_addr &&& 0x00FF) ||| ((data &&& 0x3F) <<< 8) } := by
  unfold crtc_data_w
  simp only [h]
  rfl

theorem crtc_data_w_r19 (e : crtc_env) (s : crtc_state) (data : Nat) (h : s.reg = 19) :
    crtc_data_w e s data =
    some { crtc_store_reg s data with
      mem_addr := (s.mem_addr &&& 0x3F00) ||| (data &&& 0xFF) } := by
  unfold crtc_data_w
  simp only [h]
  rfl

theorem crtc_data_w_r31 (e : crtc_env) (s : crtc_state) (data : Nat) (h : s.reg = 31) :
    crtc_data_w e s data =
    some (if e.lpen
      then keystd_handler e { crtc_store_reg s data with update_strobe := 0 } s.mem_addr
      else { crtc_store_reg s data with update_strobe := 0 }) := by
  unfold crtc_data_w
  simp only [h]
  rfl

theorem crtc_data_w_other (e : crtc_env) (s : crtc_state) (data : Nat)
    (h : s.reg ≠ 0 ∧ s.reg ≠ 1 ∧ s.reg ≠ 4 ∧ s.reg ≠ 5 ∧ s.reg ≠ 6 ∧ s.reg ≠ 9
      ∧ s.reg ≠ 10 ∧ s.reg ≠ 11 ∧ s.reg ≠ 12 ∧ s.reg ≠ 13 ∧ s.reg ≠ 14
      ∧ s.reg ≠ 15 ∧ s.reg ≠ 18 ∧ s.reg ≠ 19 ∧ s.reg ≠ 31) :
    crtc_data_w e s data = some (crtc_store_reg s data) := by
  unfold crtc_data_w
  obtain ⟨h0, h1, h4, h5, h6, h9, h10, h11, h12, h13, h14, h15, h18, h19, h31⟩ := h
  simp only [h0, h1, h4, h5, h6, h9, h10, h11, h12, h13, h14, h15, h18, h19, h31, if_false]

theorem crtc_update_cursor_edge_frame (s : crtc_state) :
    (crtc_update_cursor_edge s).1
      = { s with cursor := (crtc_update_cursor_edge s).1.cursor } := by
  unfold crtc_update_cursor_edge
  split_ifs <;> rfl

theorem crtc_update_cursor_frame (e : crtc_env) (s : crtc_state) (r : crtc_state × Int)
    (h : crtc_update_cursor e s = some r) : r.1 = { s with cursor := r.1.cursor } := by
  unfold crtc_update_cursor at h
  by_cases h1 : s.cursor.cur_mode = 1
  · rw [if_pos h1] at h
    cases h
    exact crtc_update_cursor_edge_frame _
  by_cases h2 : s.cursor.cur_mode = 2
  · rw [if_neg h1, if_pos h2] at h
    cases hb : (if e.turbo then cur_blink_phase e.time_ms s.timing.cur_blink_rate_t1r32
        else cur_blink_phase e.z80_cycles s.timing.cur_blink_rate_c1r32) with
    | none => rw [hb] at h; cases h
    | some b =>
      rw [hb, Option.some_bind] at h
      cases h
      exact crtc_update_cursor_edge_frame _
  by_cases h3 : s.cursor.cur_mode = 3
  · rw [if_neg h1, if_neg h2, if_pos h3] at h
    cases hb : (if e.turbo then cur_blink_phase e.time_ms s.timing.cur_blink_rate_t1r16
        else cur_blink_phase e.z80_cycles s.timing.cur_blink_rate_c1r16) with
    | none => rw [hb] at h; cases h
    | some b =>
      rw [hb, Option.some_bind] at h
      cases h
      exact crtc_update_cursor_edge_frame _
  · rw [if_neg h1, if_neg h2, if_neg h3] at h
    cases h
    exact crtc_update_cursor_edge_frame _

theorem crtc_redraw_char_frame (s : crtc_state) (m : Nat) :
    crtc_redraw_char s m = { s with vdu := (crtc_redraw_char s m).vdu } := by
  unfold crtc_redraw_char
  split_ifs <;> rfl

theorem crtc_lpen_frame (s : crtc_state) (a : Nat) :
    crtc_lpen s a
      = { s with lpen_valid := (crtc_lpen s a).lpen_valid, lpen := (crtc_lpen s a).lpen } := by
  unfold crtc_lpen
  split_ifs <;> rfl

theorem keystd_handler_frame (e : crtc_env) (s : crtc_state) (a : Nat) :
    keystd_handler e s a
      = { s with lpen_valid := (keystd_handler e s a).lpen_valid,
                 lpen := (keystd_handler e s a).lpen } := by
  unfold keystd_handler
  split_ifs
  · exact crtc_lpen_frame s a
  · rfl

theorem keystd_checkall_frame (e : crtc_env) (s : crtc_state) :
    keystd_checkall e s
      = { s with lpen_valid := (keystd_checkall e s).lpen_valid,
                 lpen := (keystd_checkall e s).lpen } := by
  unfold keystd_checkall
  cases e.key_scan with
  | none => rfl
  | some i => exact crtc_lpen_frame s _

/-- The geometry written by `crtc_data_w`: the displayed sizes, the scan lines
per row and the needs-resize flag after a data write. -/
theorem crtc_data_w_geometry (e : crtc_env) (s : crtc_state) (data : Nat) (s' : crtc_state)
    (h : crtc_data_w e s data = some s') :
    s'.hdisp = (if s.reg = 1 then data &&& 0xFF else s.hdisp)
      ∧ s'.vdisp = (if s.reg = 6 then data &&& 0x7F else s.vdisp)
      ∧ s'.scans_per_row = (if s.reg = 9 then (data &&& 0x1F) + 1 else s.scans_per_row)
      ∧ s'.resized = (if (s.reg = 1 ∧ s.hdisp ≠ data &&& 0xFF)
          ∨ (s.reg = 6 ∧ s.vdisp ≠ data &&& 0x7F)
          ∨ (s.reg = 9 ∧ s.scans_per_row ≠ (data &&& 0x1F) + 1) then 1 else s.resized) := by
  by_cases h0 : s.reg = 0
  · rw [crtc_data_w_r0 e s data h0] at h
    rw [crtc_calc_vsync_freq_frame e _ s' h]
    simp [h0, crtc_store_reg]
  by_cases h1 : s.reg = 1
  · rw [crtc_data_w_r1 e s data h1] at h
    rw [crtc_calc_vsync_freq_frame e _ s' h]
    by_cases hd : s.hdisp = data &&& 0xFF
    · simp [h1, hd, crtc_store_reg]
    · simp [h1, hd, crtc_store_reg]
  by_cases h4 : s.reg = 4
  · rw [crtc_data_w_r4 e s data h4] at h
    rw [crtc_calc_vsync_freq_frame e _ s' h]
    simp [h4, crtc_store_reg]
  by_cases h5 : s.reg = 5
  · rw [crtc_data_w_r5 e s data h5] at h
    rw [crtc_calc_vsync_freq_frame e _ s' h]
    simp [h5, crtc_store_reg]
  by_cases h6 : s.reg = 6
  · rw [crtc_data_w_r6 e s data h6] at h
    cases h
    by_cases hd : s.vdisp = data &&& 0x7F
    · simp [h6, hd, crtc_store_reg]
    · simp [h6, hd, crtc_store_reg]
  by_cases h9 : s.reg = 9
  · rw [crtc_data_w_r9 e s data h9] at h
    rw [crtc_calc_vsync_freq_frame e _ s' h]
    by_cases hd : s.scans_per_row = (data &&& 0x1F) + 1
    · simp [h9, hd, crtc_store_reg]
    · simp [h9, hd, crtc_store_reg]
  by_cases h10 : s.reg = 10
  · rw [crtc_data_w_r10 e s data h10] at h
    cases hu : crtc_update_cursor e
        { crtc_store_reg s data with
          cursor := { s.cursor with cur_start := data &&& 0x1F,
                                    cur_mode := (data >>> 5) &&& 0x03 } } with
    | none => rw [hu] at h; cases h
    | some r =>
      rw [hu, Option.some_bind] at h
      cases h
      rw [crtc_redraw_char_frame, crtc_update_cursor_frame e _ r hu]
      simp [h10, crtc_store_reg]
  by_cases h11 : s.reg = 11
  · rw [crtc_data_w_r11 e s data h11] at h
    cases h
    rw [crtc_redraw_char_frame]
    simp [h11, crtc_store_reg]
  by_cases h12 : s.reg = 12
  · rw [crtc_data_w_r12 e s data h12] at h
    cases h
    simp [h12, crtc_store_reg, crtc_set_redraw]
  by_cases h13 : s.reg = 13
  · rw [crtc_data_w_r13 e s data h13] at h
    cases h
    simp [h13, crtc_store_reg, crtc_set_redraw]
  by_cases h14 : s.reg = 14
  · rw [crtc_data_w_r14 e s data h14] at h
    cases h
    rw [crtc_redraw_char_frame, crtc_redraw_char_frame]
    simp [h14, crtc_store_reg]
  by_cases h15 : s.reg = 15
  · rw [crtc_data_w_r15 e s data h15] at h
    cases h
    rw [crtc_redraw_char_frame, crtc_redraw_char_frame]
    simp [h15, crtc_store_reg]
  by_cases h18 : s.reg = 18
  · rw [crtc_data_w_r18 e s data h18] at h
    cases h
    simp [h18, crtc_store_reg]
  by_cases h19 : s.reg = 19
  · rw [crtc_data_w_r19 e s data h19] at h
    cases h
    simp [h19, crtc_store_reg]
  by_cases h31 : s.reg = 31
  · rw [crtc_data_w_r31 e s data h31] at h
    cases h
    by_cases hl : e.lpen = true
    · rw [if_pos hl, keystd_handler_frame]
      simp [h31, crtc_store_reg]
    · rw [if_neg hl]
      simp [h31, crtc_store_reg]
  · rw [crtc_data_w_other e s data ⟨h0, h1, h4, h5, h6, h9, h10, h11, h12, h13, h14, h15,
      h18, h19, h31⟩] at h
    cases h
    simp [h1, h6, h9, crtc_store_reg]

theorem crtc_calc_vsync_freq_skip_kept (e : crtc_env) (s : crtc_state) (t : crtc_timing)
    (ht : s.timing = t) (hz : s.htot = 0 ∨ s.vtot = 0 ∨ s.scans_per_row = 0) :
    ∃ s', crtc_calc_vsync_freq e s = some s'
      ∧ (s'.htot = 0 ∨ s'.vtot = 0 ∨ s'.scans_per_row = 0)
      ∧ crtc_constants_kept t s'.timing := by
  refine ⟨vsync_floor s, crtc_calc_vsync_freq_skip e s hz, ?_, ?_⟩
  · rw [(vsync_floor_frame s).1]; exact hz
  · obtain ⟨_, _, f2, f3, f4, f5, f6, f7, f8, f9, f10⟩ := vsync_floor_frame s
    rw [← ht]
    exact ⟨f2, f3, f4, f5, f6, f7, f8, f9, f10⟩


/-! ## CRTC: the redraw pass -/

theorem crtc_redraw_cell_full (s : crtc_state) (x y m : Nat) (h : s.redraw ≠ 0) :
    crtc_redraw_cell s x y m
      = crtc_drawn s
          (s.vdu.drawn ++ [cell_draw s.scans_per_row s.flashvideo s.cursor x y (m &&& 0x3fff)])
          (s.vdu.dirty.filter (fun a => a ≠ (m &&& 0x3fff))) 1 := by
  unfold crtc_redraw_cell
  rw [if_pos (Or.inl h)]
  rfl

theorem crtc_redraw_row_snd (n : Nat) (s : crtc_state) (x y m : Nat) :
    (crtc_redraw_row n s x y m).2 = maddr_after n m := by
  induction n generalizing s x m with
  | zero => rfl
  | succ n ih =>
    unfold crtc_redraw_row maddr_after
    exact ih _ _ _

theorem filter_not_mem_cons (l : List Nat) (a : Nat) (as : List Nat) :
    (l.filter (fun b => b ≠ a)).filter (fun b => b ∉ as)
      = l.filter (fun b => b ∉ a :: as) := by
  rw [List.filter_filter]
  congr 1
  funext b
  simp only [List.mem_cons, not_or, ne_eq, decide_not, Bool.decide_and]
  rw [Bool.and_comm]

theorem crtc_redraw_row_full (n : Nat) (s : crtc_state) (x y m : Nat) (h : s.redraw ≠ 0) :
    (crtc_redraw_row (n + 1) s x y m).1
      = crtc_drawn s
          (s.vdu.drawn ++ row_calls s.scans_per_row s.flashvideo s.cursor (n + 1) x y m)
          (s.vdu.dirty.filter (fun a => a ∉ row_addrs (n + 1) m)) 1 := by
  induction n generalizing s x m with
  | zero =>
    unfold crtc_redraw_row crtc_redraw_row row_calls row_calls row_addrs row_addrs
    rw [crtc_redraw_cell_full s x y m h]
    simp only [List.mem_singleton, ne_eq]
  | succ n ih =>
    unfold crtc_redraw_row
    rw [crtc_redraw_cell_full s x y m h]
    rw [ih _ _ _ (by exact h)]
    unfold crtc_drawn
    simp only
    rw [filter_not_mem_cons]
    rw [List.append_assoc]
    rfl

theorem filter_not_mem_append (l as bs : List Nat) :
    (l.filter (fun b => b ∉ as)).filter (fun b => b ∉ bs)
      = l.filter (fun b => b ∉ as ++ bs) := by
  rw [List.filter_filter]
  congr 1
  funext b
  simp only [List.mem_append, not_or, decide_not, Bool.decide_and]
  rw [Bool.and_comm]

theorem crtc_drawn_self (s : crtc_state) :
    crtc_drawn s s.vdu.drawn s.vdu.dirty s.update = s := rfl

theorem crtc_redraw_row_all (n : Nat) (s : crtc_state) (x y m : Nat) (h : s.redraw ≠ 0) :
    ∃ u, (crtc_redraw_row n s x y m).1
      = crtc_drawn s
          (s.vdu.drawn ++ row_calls s.scans_per_row s.flashvideo s.cursor n x y m)
          (s.vdu.dirty.filter (fun a => a ∉ row_addrs n m)) u := by
  cases n with
  | zero =>
    refine ⟨s.update, ?_⟩
    unfold crtc_redraw_row row_calls row_addrs
    simp only [List.append_nil, List.not_mem_nil, not_false_eq_true, decide_True,
      List.filter_true]
    rfl
  | succ n => exact ⟨1, crtc_redraw_row_full n s x y m h⟩

theorem crtc_redraw_rows_all (l v : Nat) (s : crtc_state) (y m : Nat) (h : s.redraw ≠ 0) :
    ∃ u, crtc_redraw_rows l v s y m
      = crtc_drawn s
          (s.vdu.drawn ++ grid_calls s.scans_per_row s.flashvideo s.cursor s.hdisp l v y m)
          (s.vdu.dirty.filter (fun a => a ∉ grid_addrs s.hdisp v m)) u := by
  induction v generalizing s y m with
  | zero =>
    refine ⟨s.update, ?_⟩
    unfold crtc_redraw_rows grid_calls grid_addrs
    simp only [List.append_nil, List.not_mem_nil, not_false_eq_true, decide_True,
      List.filter_true]
    rfl
  | succ v ih =>
    unfold crtc_redraw_rows grid_calls grid_addrs
    rw [crtc_redraw_row_snd]
    obtain ⟨u1, h1⟩ := crtc_redraw_row_all s.hdisp s 0 y m h
    rw [h1]
    obtain ⟨u2, h2⟩ := ih (crtc_drawn s
      (s.vdu.drawn ++ row_calls s.scans_per_row s.flashvideo s.cursor s.hdisp 0 y m)
      (s.vdu.dirty.filter (fun a => a ∉ row_addrs s.hdisp m)) u1) (y + l)
      (maddr_after s.hdisp m) h
    refine ⟨u2, ?_⟩
    rw [h2]
    unfold crtc_drawn
    simp only
    rw [filter_not_mem_append, List.append_assoc]

theorem row_calls_length (p f : Nat) (c : crtc_cursor) (n x y m : Nat) :
    (row_calls p f c n x y m).length = n := by
  induction n generalizing x m with
  | zero => rfl
  | succ n ih => unfold row_calls; rw [List.length_cons, ih]

theorem grid_calls_length (p f : Nat) (c : crtc_cursor) (h l v y m : Nat) :
    (grid_calls p f c h l v y m).length = v * h := by
  induction v generalizing y m with
  | zero => simp [grid_calls]
  | succ v ih =>
    unfold grid_calls
    rw [List.length_append, row_calls_length, ih]
    ring

theorem crtc_redraw_full (e : crtc_env) (s : crtc_state) (hv : s.video ≠ 0)
    (hr : s.redraw ≠ 0) :
    ∃ u, crtc_redraw e s
      = { crtc_drawn s
            (s.vdu.drawn ++ grid_calls s.scans_per_row s.flashvideo s.cursor s.hdisp
              (e.yscale * s.scans_per_row) s.vdisp 0 s.disp_start)
            ((s.vdu.dirty ++ e.pcg_dirty).filter
              (fun a => a ∉ grid_addrs s.hdisp s.vdisp s.disp_start)) u
          with redraw := 0 } := by
  unfold crtc_redraw
  rw [if_neg hv]
  obtain ⟨u, h⟩ := crtc_redraw_rows_all (e.yscale * s.scans_per_row) s.vdisp
    { s with vdu := { s.vdu with dirty := s.vdu.dirty ++ e.pcg_dirty } } 0 s.disp_start hr
  refine ⟨u, ?_⟩
  rw [h]
  rfl

theorem crtc_videochange_fail (e : crtc_env) (s : crtc_state)
    (hc : s.hdisp * 8 = 0 ∨ s.vdisp * s.scans_per_row = 0 ∨ s.hdisp * 8 > 720
      ∨ s.vdisp * s.scans_per_row > 600) : crtc_videochange e s = (s, -1) := by
  unfold crtc_videochange
  rw [if_pos hc]

theorem crtc_videochange_pass (e : crtc_env) (s : crtc_state)
    (hc : ¬ (s.hdisp * 8 = 0 ∨ s.vdisp * s.scans_per_row = 0 ∨ s.hdisp * 8 > 720
      ∨ s.vdisp * s.scans_per_row > 600)) :
    (crtc_videochange e s).2 = 0
      ∧ (crtc_videochange e s).1.resized = 0
      ∧ (crtc_videochange e s).1.vdu.surface
          = some (s.hdisp * 8, s.vdisp * s.scans_per_row * e.yscale)
      ∧ (s.video ≠ 0 →
          (crtc_videochange e s).1.redraw = 0
            ∧ (crtc_videochange e s).1.vdu.drawn
                = s.vdu.drawn ++ grid_calls s.scans_per_row s.flashvideo s.cursor s.hdisp
                    (e.yscale * s.scans_per_row) s.vdisp 0 s.disp_start)
      ∧ (s.video = 0 → (crtc_videochange e s).1.redraw = 1) := by
  unfold crtc_videochange
  rw [if_neg hc]
  refine ⟨rfl, rfl, ?_, ?_, ?_⟩
  · by_cases hv : s.video = 0
    · simp only
      unfold crtc_redraw
      rw [if_pos (by exact hv)]
      rfl
    · simp only
      obtain ⟨u, h⟩ := crtc_redraw_full e (crtc_set_redraw { s with
        vdu := { s.vdu with aspect := some (if s.hdisp < 50 then 1 else e.aspect),
                            vdu_yscale := some e.yscale,
                            surface := some (s.hdisp * 8,
                              s.vdisp * s.scans_per_row * e.yscale) } }) hv
        (by unfold crtc_set_redraw; simp)
      rw [h]
      rfl
  · intro hv
    simp only
    obtain ⟨u, h⟩ := crtc_redraw_full e (crtc_set_redraw { s with
      vdu := { s.vdu with aspect := some (if s.hdisp < 50 then 1 else e.aspect),
                          vdu_yscale := some e.yscale,
                          surface := some (s.hdisp * 8,
                            s.vdisp * s.scans_per_row * e.yscale) } }) hv
      (by unfold crtc_set_redraw; simp)
    rw [h]
    exact ⟨rfl, rfl⟩
  · intro hv
    simp only
    unfold crtc_redraw
    rw [if_pos (by exact hv)]
    rfl


/-! ## CRTC: status, blanking and the cursor -/

theorem crtc_vblank_cycle (e : crtc_env) (s : crtc_state) (h0 : s.vblank_method = 0)
    (hd : 0 < s.timing.vblank_divval ∧ s.timing.vblank_divval < 2147483648)
    (ht : 0 ≤ s.timing.vblank_cmpval ∧ s.timing.vblank_cmpval < 2147483648) :
    crtc_vblank e s
      = some (if (e.tstates : Int) % s.timing.vblank_divval < s.timing.vblank_cmpval
          then 0x80 else 0) := by
  unfold crtc_vblank
  obtain ⟨D, hD⟩ : ∃ D : Nat, s.timing.vblank_divval = D :=
    ⟨s.timing.vblank_divval.toNat, (Int.toNat_of_nonneg (by omega)).symm⟩
  obtain ⟨T, hT⟩ : ∃ T : Nat, s.timing.vblank_cmpval = T :=
    ⟨s.timing.vblank_cmpval.toNat, (Int.toNat_of_nonneg (by omega)).symm⟩
  rw [hD] at hd ⊢
  rw [hT] at ht ⊢
  rw [toU64_natCast D (by omega), toU64_natCast T (by omega)]
  have h3 : D ≠ 0 := by omega
  rw [if_pos h0, if_neg h3]
  by_cases hb : e.tstates % D < T
  · rw [if_pos hb, if_pos (by exact_mod_cast hb)]
  · rw [if_neg hb, if_neg (by exact_mod_cast hb)]

theorem crtc_vblank_clock (e : crtc_env) (s : crtc_state) (h0 : s.vblank_method ≠ 0) :
    crtc_vblank e s = some (if (e.time_ms / 10) % 2 = 1 then 0x80 else 0) := by
  unfold crtc_vblank
  rw [if_neg h0, Nat.and_one_is_mod]
  by_cases hb : (e.time_ms / 10) % 2 = 1
  · rw [if_pos hb, if_pos (by omega)]
  · rw [if_neg hb, if_neg (by omega)]

theorem crtc_vblank_congr (e : crtc_env) (s s1 : crtc_state)
    (h1 : s1.vblank_method = s.vblank_method) (h2 : s1.timing = s.timing) :
    crtc_vblank e s1 = crtc_vblank e s := by
  unfold crtc_vblank
  rw [h1, h2]

theorem status_byte (a b : Nat) (ha : a = 0x40 ∨ a = 0) (hb : b = 0x20 ∨ b = 0) :
    (0x80 ||| (a ||| b)) % 65536 = 0x80 ||| (a ||| b)
      ∧ (0x80 ||| (a ||| b)) &&& 0x80 = 0x80 := by
  rcases ha with rfl | rfl <;> rcases hb with rfl | rfl <;> decide

theorem crtc_status_scan_frame (e : crtc_env) (s : crtc_state) :
    crtc_status_scan e s
      = { s with update_strobe := 0x80,
                 lpen_valid := (crtc_status_scan e s).lpen_valid,
                 lpen := (crtc_status_scan e s).lpen } := by
  unfold crtc_status_scan
  split_ifs
  · rw [keystd_checkall_frame]
  · rfl

theorem filter_range_length (q : Nat → Bool) (n : Nat) :
    ((List.range n).filter q).length = Nat.count (fun i => q i = true) n := by
  induction n with
  | zero => rfl
  | succ n ih =>
    rw [List.range_succ, List.filter_append, List.length_append, ih, Nat.count_succ]
    congr 1
    by_cases h : q n = true
    · simp [h]
    · simp [h]

theorem count_mod_lt_prefix (D T n : Nat) (hn : n ≤ D) :
    Nat.count (fun x => x % D < T) n = min n T := by
  induction n with
  | zero => simp
  | succ n ih =>
    rw [Nat.count_succ, ih (by omega), Nat.mod_eq_of_lt (by omega)]
    split_ifs <;> omega

theorem count_mod_lt_window (D T c : Nat) (hT : T ≤ D) :
    Nat.count (fun i => (c + i) % D < T) D = T := by
  have h1 := Nat.count_add (fun x => x % D < T) c D
  have h2 := Nat.count_add (fun x => x % D < T) D c
  have h3 : Nat.count (fun k => (D + k) % D < T) c = Nat.count (fun k => k % D < T) c := by
    congr 1
    funext k
    rw [Nat.add_mod_left]
  have h4 := count_mod_lt_prefix D T D (le_refl _)
  rw [h3, h4] at h2
  rw [Nat.add_comm c D, h2] at h1
  have h5 : min D T = T := by omega
  rw [h5] at h1
  omega

theorem crtc_update_cursor_edge_spec (s : crtc_state) (b : Nat) :
    crtc_update_cursor_edge { s with cursor := { s.cursor with cur_blink := b } }
      = ({ s with cursor := { s.cursor with cur_blink := b, cur_blink_last := b } },
          if b ≠ s.cursor.cur_blink_last then 1 else 0) := by
  unfold crtc_update_cursor_edge
  by_cases h : b = s.cursor.cur_blink_last
  · rw [if_neg (by simpa using h), if_neg (by simpa using h)]
    subst h
    rfl
  · rw [if_pos (by simpa using h), if_pos (by simpa using h)]

theorem cur_blink_phase_spec (t p : Nat) (hp : 0 < p) (hp2 : p < 2147483648) :
    cur_blink_phase t (p : Int) = some (cursor_phase t p) := by
  unfold cur_blink_phase cursor_phase
  rw [toU64_natCast p (by omega), if_neg (by omega), Nat.and_one_is_mod]
  congr 1
  by_cases h : (t / p) % 2 = 1
  · rw [if_pos h, if_pos (by omega)]
  · rw [if_neg h, if_neg (by omega)]

theorem crtc_update_cursor_blink (e : crtc_env) (s : crtc_state) (p : Nat)
    (hm : s.cursor.cur_mode = 2 ∨ s.cursor.cur_mode = 3)
    (hper : cursor_period e.turbo s = (p : Int)) (hp : 0 < p) (hp2 : p < 2147483648) :
    crtc_update_cursor e s
      = some ({ s with cursor := { s.cursor with
                  cur_blink := cursor_phase (cursor_elapsed e) p,
                  cur_blink_last := cursor_phase (cursor_elapsed e) p } },
              if cursor_phase (cursor_elapsed e) p ≠ s.cursor.cur_blink_last then 1 else 0) := by
  unfold crtc_update_cursor
  unfold cursor_period at hper
  unfold cursor_elapsed
  rcases hm with hm | hm
  · rw [if_neg (by omega), if_pos hm]
    rw [if_pos hm] at hper
    cases ht : e.turbo
    · rw [ht] at hper
      simp only [Bool.false_eq_true, if_false] at hper ⊢
      rw [hper, cur_blink_phase_spec _ p hp hp2, Option.some_bind,
        crtc_update_cursor_edge_spec]
    · rw [ht] at hper
      simp only [if_true] at hper ⊢
      rw [hper, cur_blink_phase_spec _ p hp hp2, Option.some_bind,
        crtc_update_cursor_edge_spec]
  · rw [if_neg (by omega), if_neg (by omega), if_pos hm]
    rw [if_neg (by omega)] at hper
    cases ht : e.turbo
    · rw [ht] at hper
      simp only [Bool.false_eq_true, if_false] at hper ⊢
      rw [hper, cur_blink_phase_spec _ p hp hp2, Option.some_bind,
        crtc_update_cursor_edge_spec]
    · rw [ht] at hper
      simp only [if_true] at hper ⊢
      rw [hper, cur_blink_phase_spec _ p hp hp2, Option.some_bind,
        crtc_update_cursor_edge_spec]

theorem crtc_update_cursor_steady (e : crtc_env) (s : crtc_state)
    (hm : s.cursor.cur_mode ≠ 2 ∧ s.cursor.cur_mode ≠ 3) :
    crtc_update_cursor e s
      = some ({ s with cursor := { s.cursor with
                  cur_blink := if s.cursor.cur_mode = 1 then 0x00 else 0xff,
                  cur_blink_last := if s.cursor.cur_mode = 1 then 0x00 else 0xff } }, 0) := by
  unfold crtc_update_cursor crtc_update_cursor_edge
  by_cases h1 : s.cursor.cur_mode = 1
  · rw [if_pos h1, if_pos h1]
    rfl
  · rw [if_neg h1, if_neg hm.1, if_neg hm.2, if_neg h1]
    rfl

theorem cursor_phase_ne_iff (a b p : Nat) :
    cursor_phase a p ≠ cursor_phase b p ↔ (a / p) % 2 ≠ (b / p) % 2 := by
  unfold cursor_phase
  by_cases h1 : (a / p) % 2 = 1 <;> by_cases h2 : (b / p) % 2 = 1
  · simp [h1, h2]
  · simp only [h1, h2, if_true, if_false]
    constructor
    · intro _; omega
    · intro _; decide
  · simp only [h1, h2, if_true, if_false]
    constructor
    · intro _; omega
    · intro _; decide
  · simp only [h1, h2, if_false]
    constructor
    · intro h; exact absurd rfl h
    · intro h; omega

theorem crtc_update_cursor_seq_blink (p : Nat) (hp : 0 < p) (hp2 : p < 2147483648)
    (turbo : Bool) (es : List crtc_env) (s : crtc_state) (t0 : Nat)
    (hm : s.cursor.cur_mode = 2 ∨ s.cursor.cur_mode = 3)
    (hper : cursor_period turbo s = (p : Int)) (hturbo : ∀ e ∈ es, e.turbo = turbo)
    (hlast : s.cursor.cur_blink_last = cursor_phase t0 p) :
    crtc_update_cursor_seq es s = some (blink_edges p t0 (es.map cursor_elapsed)) := by
  induction es generalizing s t0 with
  | nil => rfl
  | cons e es ih =>
    have ht : e.turbo = turbo := hturbo e (List.mem_cons_self _ _)
    unfold crtc_update_cursor_seq
    rw [crtc_update_cursor_blink e s p hm (by rw [ht]; exact hper) hp hp2, Option.some_bind]
    rw [ih _ (cursor_elapsed e) (by exact hm) (by exact hper)
      (fun x hx => hturbo x (List.mem_cons_of_mem _ hx)) (by rfl)]
    rw [Option.some_bind, List.map_cons]
    have hb : blink_edges p t0 (cursor_elapsed e :: es.map cursor_elapsed)
        = (if (t0 / p) % 2 ≠ (cursor_elapsed e / p) % 2 then 1 else 0)
            :: blink_edges p (cursor_elapsed e) (es.map cursor_elapsed) := rfl
    rw [hb, hlast]
    congr 2
    by_cases h : (t0 / p) % 2 = (cursor_elapsed e / p) % 2
    · rw [if_neg (fun hc => (cursor_phase_ne_iff _ _ p).mp hc h.symm), if_neg (fun hc => hc h)]
    · rw [if_pos ((cursor_phase_ne_iff _ _ p).mpr (fun hc => h hc.symm)), if_pos h]

theorem blink_edges_count (p : Nat) (hp : 0 < p) (ts : List Nat) (t0 : Nat)
    (hc : List.Chain (fun a b => a ≤ b ∧ b ≤ a + p) t0 ts) :
    ((blink_edges p t0 ts).filter (fun r => r = 1)).length + t0 / p = ts.getLastD t0 / p := by
  induction ts generalizing t0 with
  | nil => simp [blink_edges]
  | cons t ts ih =>
    rw [List.chain_cons] at hc
    obtain ⟨⟨h1, h2⟩, hrest⟩ := hc
    have ih2 := ih t hrest
    have hlast : (t :: ts).getLastD t0 = ts.getLastD t := by
      cases ts <;> rfl
    have hd1 : t0 / p ≤ t / p := Nat.div_le_div_right h1
    have hd2 : t / p ≤ t0 / p + 1 := by
      have := Nat.div_le_div_right (c := p) h2
      rw [Nat.add_div_right _ hp] at this
      exact this
    unfold blink_edges
    rw [hlast, ← ih2]
    by_cases h : (t0 / p) % 2 ≠ (t / p) % 2
    · rw [if_pos h, List.filter_cons_of_pos (by simp), List.length_cons]
      omega
    · rw [if_neg h, List.filter_cons_of_neg (by simp)]
      omega


/-! ## CRTC: the 14-bit register pairs -/

theorem crtc_data_r_snd (s : crtc_state) :
    (crtc_data_r s).2 =
      if s.reg = 14 then (s.cursor.cur_pos >>> 8) &&& 0x3F
      else if s.reg = 15 then s.cursor.cur_pos &&& 0xFF
      else if s.reg = 16 then (s.lpen >>> 8) &&& 0x3F
      else if s.reg = 17 then s.lpen &&& 0xFF
      else 0xFFFF := by
  unfold crtc_data_r
  split_ifs <;> first | rfl | exact and_mask_mod _ _ (by decide)

theorem testBit_ff (i : Nat) : Nat.testBit 0xFF i = decide (i < 8) :=
  Nat.testBit_two_pow_sub_one 8 i

theorem testBit_3f (i : Nat) : Nat.testBit 0x3F i = decide (i < 6) :=
  Nat.testBit_two_pow_sub_one 6 i

theorem testBit_3f00 (i : Nat) :
    Nat.testBit 0x3F00 i = (decide (8 ≤ i) && decide (i < 14)) := by
  have : (0x3F00 : Nat) = 0x3F <<< 8 := by decide
  rw [this, Nat.testBit_shiftLeft, testBit_3f]
  by_cases h1 : 8 ≤ i <;> by_cases h2 : i < 14 <;> simp [h1, h2] <;> omega

theorem testBit_byte (l i : Nat) (hl : l < 256) (hi : 8 ≤ i) : Nat.testBit l i = false :=
  Nat.testBit_lt_two_pow (lt_of_lt_of_le hl (by
    calc (256 : Nat) = 2 ^ 8 := by norm_num
      _ ≤ 2 ^ i := Nat.pow_le_pow_right (by norm_num) hi))

theorem byte_and_ff (l : Nat) (hl : l < 256) : l &&& 0xFF = l := by
  apply Nat.eq_of_testBit_eq
  intro i
  rw [Nat.testBit_and, testBit_ff]
  by_cases h : i < 8
  · simp [h]
  · simp [h, testBit_byte l i hl (by omega)]

theorem pair_high_keeps_low (x h : Nat) :
    ((x &&& 0xFF) ||| ((h &&& 0x3F) <<< 8)) &&& 0xFF = x &&& 0xFF := by
  apply Nat.eq_of_testBit_eq
  intro i
  simp only [Nat.testBit_and, Nat.testBit_or, Nat.testBit_shiftLeft, testBit_ff, testBit_3f]
  by_cases h1 : i < 8
  · have h2 : ¬ 8 ≤ i := by omega
    simp [h1, h2]
  · simp [h1]

theorem pair_high_sets (x h : Nat) :
    ((x &&& 0xFF) ||| ((h &&& 0x3F) <<< 8)) >>> 8 = h &&& 0x3F := by
  apply Nat.eq_of_testBit_eq
  intro i
  simp only [Nat.testBit_and, Nat.testBit_or, Nat.testBit_shiftLeft, Nat.testBit_shiftRight,
    testBit_ff, testBit_3f]
  have h1 : ¬ 8 + i < 8 := by omega
  have h2 : 8 ≤ 8 + i := by omega
  have h3 : 8 + i - 8 = i := by omega
  simp [h1, h2, h3]

theorem pair_low_sets (x l : Nat) :
    ((x &&& 0x3F00) ||| (l &&& 0xFF)) &&& 0xFF = l &&& 0xFF := by
  apply Nat.eq_of_testBit_eq
  intro i
  simp only [Nat.testBit_and, Nat.testBit_or, testBit_ff, testBit_3f00]
  by_cases h1 : i < 8
  · have h2 : ¬ 8 ≤ i := by omega
    simp [h1, h2]
  · simp [h1]

theorem pair_low_keeps_high (x l : Nat) :
    ((x &&& 0x3F00) ||| (l &&& 0xFF)) &&& 0x3F00 = x &&& 0x3F00 := by
  apply Nat.eq_of_testBit_eq
  intro i
  simp only [Nat.testBit_and, Nat.testBit_or, testBit_ff, testBit_3f00]
  by_cases h1 : i < 8
  · have h2 : ¬ 8 ≤ i := by omega
    simp [h1, h2]
  · simp [h1]

theorem pair_high_low (x h l : Nat) (hl : l < 256) :
    ((((x &&& 0xFF) ||| ((h &&& 0x3F) <<< 8)) &&& 0x3F00) ||| (l &&& 0xFF))
      = ((h &&& 0x3F) <<< 8) ||| l := by
  apply Nat.eq_of_testBit_eq
  intro i
  simp only [Nat.testBit_and, Nat.testBit_or, Nat.testBit_shiftLeft, testBit_ff, testBit_3f,
    testBit_3f00]
  by_cases h1 : 8 ≤ i
  · rw [testBit_byte l i hl h1]
    by_cases h2 : i < 14
    · have h3 : ¬ i < 8 := by omega
      have h4 : i - 8 < 6 := by omega
      simp [h1, h2, h3, h4]
    · have h3 : ¬ i < 8 := by omega
      have h4 : ¬ i - 8 < 6 := by omega
      simp [h1, h2, h3, h4]
  · have h3 : i < 8 := by omega
    simp [h1, h3]

theorem pair_low_high (x h l : Nat) (hl : l < 256) :
    ((((x &&& 0x3F00) ||| (l &&& 0xFF)) &&& 0xFF) ||| ((h &&& 0x3F) <<< 8))
      = ((h &&& 0x3F) <<< 8) ||| l := by
  apply Nat.eq_of_testBit_eq
  intro i
  simp only [Nat.testBit_and, Nat.testBit_or, Nat.testBit_shiftLeft, testBit_ff, testBit_3f,
    testBit_3f00]
  by_cases h1 : 8 ≤ i
  · rw [testBit_byte l i hl h1]
    have h3 : ¬ i < 8 := by omega
    simp [h1, h3]
  · have h3 : i < 8 := by omega
    simp [h1, h3]

theorem pair_read_high (h l : Nat) (hl : l < 256) :
    ((((h &&& 0x3F) <<< 8) ||| l) >>> 8) &&& 0x3F = h &&& 0x3F := by
  apply Nat.eq_of_testBit_eq
  intro i
  simp only [Nat.testBit_and, Nat.testBit_or, Nat.testBit_shiftLeft, Nat.testBit_shiftRight,
    testBit_3f]
  have h2 : 8 ≤ 8 + i := by omega
  have h3 : 8 + i - 8 = i := by omega
  rw [testBit_byte l (8 + i) hl h2]
  by_cases h4 : i < 6
  · simp [h2, h3, h4]
  · simp [h2, h3, h4]

theorem pair_read_low (h l : Nat) (hl : l < 256) :
    (((h &&& 0x3F) <<< 8) ||| l) &&& 0xFF = l := by
  apply Nat.eq_of_testBit_eq
  intro i
  simp only [Nat.testBit_and, Nat.testBit_or, Nat.testBit_shiftLeft, testBit_ff, testBit_3f]
  by_cases h1 : i < 8
  · have h2 : ¬ 8 ≤ i := by omega
    simp [h1, h2]
  · simp [h1, testBit_byte l i hl (by omega)]

theorem crtc_redraw_char_cursor (s : crtc_state) (m : Nat) :
    (crtc_redraw_char s m).cursor = s.cursor := by
  rw [crtc_redraw_char_frame]

theorem crtc_data_w_pair_high (e : crtc_env) (s : crtc_state) (d k : Nat)
    (hk : k = 12 ∨ k = 14 ∨ k = 18) (hr : s.reg = k) :
    ∃ s1, crtc_data_w e s d = some s1
      ∧ register_pair k s1 = (register_pair k s &&& 0xFF) ||| ((d &&& 0x3F) <<< 8) := by
  rcases hk with rfl | rfl | rfl
  · exact ⟨_, crtc_data_w_r12 e s d hr, rfl⟩
  · refine ⟨_, crtc_data_w_r14 e s d hr, ?_⟩
    unfold register_pair
    rw [if_neg (by decide), if_pos rfl, crtc_redraw_char_cursor, crtc_redraw_char_cursor]
    rfl
  · exact ⟨_, crtc_data_w_r18 e s d hr, rfl⟩

theorem crtc_data_w_pair_low (e : crtc_env) (s : crtc_state) (d k : Nat)
    (hk : k = 12 ∨ k = 14 ∨ k = 18) (hr : s.reg = k + 1) :
    ∃ s1, crtc_data_w e s d = some s1
      ∧ register_pair k s1 = (register_pair k s &&& 0x3F00) ||| (d &&& 0xFF) := by
  rcases hk with rfl | rfl | rfl
  · exact ⟨_, crtc_data_w_r13 e s d hr, rfl⟩
  · refine ⟨_, crtc_data_w_r15 e s d hr, ?_⟩
    unfold register_pair
    rw [if_neg (by decide), if_pos rfl, crtc_redraw_char_cursor, crtc_redraw_char_cursor]
    rfl
  · exact ⟨_, crtc_data_w_r19 e s d hr, rfl⟩

theorem crtc_address_w_reg (s : crtc_state) (k : Nat) (hk : k < 32) :
    (crtc_address_w s k).reg = k := by
  unfold crtc_address_w
  show k &&& 0x1F = k
  have : (0x1F : Nat) = 2 ^ 5 - 1 := by decide
  rw [this, Nat.and_pow_two_sub_one_eq_mod]
  omega

theorem register_pair_address_w (k : Nat) (s : crtc_state) (r : Nat) :
    register_pair k (crtc_address_w s r) = register_pair k s := rfl

theorem crtc_write_pair_high_low (e : crtc_env) (s : crtc_state) (h l k : Nat)
    (hk : k = 12 ∨ k = 14 ∨ k = 18) (hl : l < 256) :
    ∃ s2, crtc_write_regs e [(k, h), (k + 1, l)] s = some s2
      ∧ register_pair k s2 = ((h &&& 0x3F) <<< 8) ||| l := by
  obtain ⟨s1, e1, f1⟩ := crtc_data_w_pair_high e (crtc_address_w s k) h k hk
    (crtc_address_w_reg s k (by omega))
  obtain ⟨s2, e2, f2⟩ := crtc_data_w_pair_low e (crtc_address_w s1 (k + 1)) l k hk
    (crtc_address_w_reg s1 (k + 1) (by omega))
  refine ⟨s2, ?_, ?_⟩
  · unfold crtc_write_regs crtc_write_regs crtc_write_regs
    rw [e1, Option.some_bind, e2]
    rfl
  · rw [f2, register_pair_address_w, f1, register_pair_address_w]
    exact pair_high_low _ h l hl

theorem crtc_write_pair_low_high (e : crtc_env) (s : crtc_state) (h l k : Nat)
    (hk : k = 12 ∨ k = 14 ∨ k = 18) (hl : l < 256) :
    ∃ s2, crtc_write_regs e [(k + 1, l), (k, h)] s = some s2
      ∧ register_pair k s2 = ((h &&& 0x3F) <<< 8) ||| l := by
  obtain ⟨s1, e1, f1⟩ := crtc_data_w_pair_low e (crtc_address_w s (k + 1)) l k hk
    (crtc_address_w_reg s (k + 1) (by omega))
  obtain ⟨s2, e2, f2⟩ := crtc_data_w_pair_high e (crtc_address_w s1 k) h k hk
    (crtc_address_w_reg s1 k (by omega))
  refine ⟨s2, ?_, ?_⟩
  · unfold crtc_write_regs crtc_write_regs crtc_write_regs
    rw [e1, Option.some_bind, e2]
    rfl
  · rw [f2, register_pair_address_w, f1, register_pair_address_w]
    exact pair_low_high _ h l hl

theorem crtc_read_cursor_pair (s : crtc_state) (h l : Nat) (hl : l < 256)
    (hp : s.cursor.cur_pos = ((h &&& 0x3F) <<< 8) ||| l) :
    (crtc_data_r (crtc_address_w s 14)).2 = h &&& 0x3F
      ∧ (crtc_data_r (crtc_address_w s 15)).2 = l := by
  constructor
  · rw [crtc_data_r_snd, if_pos (crtc_address_w_reg s 14 (by decide))]
    show (s.cursor.cur_pos >>> 8) &&& 0x3F = _
    rw [hp]
    exact pair_read_high h l hl
  · rw [crtc_data_r_snd, if_neg (by rw [crtc_address_w_reg s 15 (by decide)]; decide),
      if_pos (crtc_address_w_reg s 15 (by decide))]
    show s.cursor.cur_pos &&& 0xFF = _
    rw [hp]
    exact pair_read_low h l hl


/-! ## CRTC: the frequency derivation -/

/-- The totals written by `crtc_data_w`: the horizontal and vertical totals and
the vertical adjust after a data write. -/
theorem crtc_data_w_totals (e : crtc_env) (s : crtc_state) (data : Nat) (s' : crtc_state)
    (h : crtc_data_w e s data = some s') :
    s'.htot = (if s.reg = 0 then (data &&& 0xFF) + 1 else s.htot)
      ∧ s'.vtot = (if s.reg = 4 then (data &&& 0x7F) + 1 else s.vtot)
      ∧ s'.vtot_adj = (if s.reg = 5 then data &&& 0x1F else s.vtot_adj) := by
  by_cases h0 : s.reg = 0
  · rw [crtc_data_w_r0 e s data h0] at h
    rw [crtc_calc_vsync_freq_frame e _ s' h]
    simp [h0, crtc_store_reg]
  by_cases h1 : s.reg = 1
  · rw [crtc_data_w_r1 e s data h1] at h
    rw [crtc_calc_vsync_freq_frame e _ s' h]
    by_cases hd : s.hdisp = data &&& 0xFF
    · simp [h1, hd, crtc_store_reg]
    · simp [h1, hd, crtc_store_reg]
  by_cases h4 : s.reg = 4
  · rw [crtc_data_w_r4 e s data h4] at h
    rw [crtc_calc_vsync_freq_frame e _ s' h]
    simp [h4, crtc_store_reg]
  by_cases h5 : s.reg = 5
  · rw [crtc_data_w_r5 e s data h5] at h
    rw [crtc_calc_vsync_freq_frame e _ s' h]
    simp [h5, crtc_store_reg]
  by_cases h6 : s.reg = 6
  · rw [crtc_data_w_r6 e s data h6] at h
    cases h
    by_cases hd : s.vdisp = data &&& 0x7F
    · simp [h6, hd, crtc_store_reg]
    · simp [h6, hd, crtc_store_reg]
  by_cases h9 : s.reg = 9
  · rw [crtc_data_w_r9 e s data h9] at h
    rw [crtc_calc_vsync_freq_frame e _ s' h]
    by_cases hd : s.scans_per_row = (data &&& 0x1F) + 1
    · simp [h9, hd, crtc_store_reg]
    · simp [h9, hd, crtc_store_reg]
  by_cases h10 : s.reg = 10
  · rw [crtc_data_w_r10 e s data h10] at h
    cases hu : crtc_update_cursor e
        { crtc_store_reg s data with
          cursor := { s.cursor with cur_start := data &&& 0x1F,
                                    cur_mode := (data >>> 5) &&& 0x03 } } with
    | none => rw [hu] at h; cases h
    | some r =>
      rw [hu, Option.some_bind] at h
      cases h
      rw [crtc_redraw_char_frame, crtc_update_cursor_frame e _ r hu]
      simp [h10, crtc_store_reg]
  by_cases h11 : s.reg = 11
  · rw [crtc_data_w_r11 e s data h11] at h
    cases h
    rw [crtc_redraw_char_frame]
    simp [h11, crtc_store_reg]
  by_cases h12 : s.reg = 12
  · rw [crtc_data_w_r12 e s data h12] at h
    cases h
    simp [h12, crtc_store_reg, crtc_set_redraw]
  by_cases h13 : s.reg = 13
  · rw [crtc_data_w_r13 e s data h13] at h
    cases h
    simp [h13, crtc_store_reg, crtc_set_redraw]
  by_cases h14 : s.reg = 14
  · rw [crtc_data_w_r14 e s data h14] at h
    cases h
    rw [crtc_redraw_char_frame, crtc_redraw_char_frame]
    simp [h14, crtc_store_reg]
  by_cases h15 : s.reg = 15
  · rw [crtc_data_w_r15 e s data h15] at h
    cases h
    rw [crtc_redraw_char_frame, crtc_redraw_char_frame]
    simp [h15, crtc_store_reg]
  by_cases h18 : s.reg = 18
  · rw [crtc_data_w_r18 e s data h18] at h
    cases h
    simp [h18, crtc_store_reg]
  by_cases h19 : s.reg = 19
  · rw [crtc_data_w_r19 e s data h19] at h
    cases h
    simp [h19, crtc_store_reg]
  by_cases h31 : s.reg = 31
  · rw [crtc_data_w_r31 e s data h31] at h
    cases h
    by_cases hl : e.lpen = true
    · rw [if_pos hl, keystd_handler_frame]
      simp [h31, crtc_store_reg]
    · rw [if_neg hl]
      simp [h31, crtc_store_reg]
  · rw [crtc_data_w_other e s data ⟨h0, h1, h4, h5, h6, h9, h10, h11, h12, h13, h14, h15,
      h18, h19, h31⟩] at h
    cases h
    simp [h0, h4, h5, crtc_store_reg]

theorem crtc_data_w_timing_reg (e : crtc_env) (s : crtc_state) (data : Nat)
    (hreg : s.reg = 0 ∨ s.reg = 1 ∨ s.reg = 4 ∨ s.reg = 5 ∨ s.reg = 9) :
    ∃ x, crtc_data_w e s data = crtc_calc_vsync_freq e x ∧ x.timing = s.timing := by
  rcases hreg with h | h | h | h | h
  · exact ⟨_, crtc_data_w_r0 e s data h, rfl⟩
  · refine ⟨_, crtc_data_w_r1 e s data h, ?_⟩
    split_ifs <;> rfl
  · exact ⟨_, crtc_data_w_r4 e s data h, rfl⟩
  · exact ⟨_, crtc_data_w_r5 e s data h, rfl⟩
  · refine ⟨_, crtc_data_w_r9 e s data h, ?_⟩
    split_ifs <;> rfl

/-- What `crtc_calc_vsync_freq` leaves, in terms of the totals of the result. -/
theorem crtc_calc_vsync_freq_post (e : crtc_env) (x s' : crtc_state)
    (h : crtc_calc_vsync_freq e x = some s')
    (hz : s'.htot ≠ 0 ∧ s'.vtot ≠ 0 ∧ s'.scans_per_row ≠ 0) :
    s'.timing.vsync_freq
        = (if vsync_formula e s'.htot s'.vtot s'.scans_per_row s'.vtot_adj < 5 then 1
            else vsync_formula e s'.htot s'.vtot s'.scans_per_row s'.vtot_adj)
      ∧ crtc_rates_derived e.cvt_invalid s'.timing
          (vsync_formula e s'.htot s'.vtot s'.scans_per_row s'.vtot_adj) e.cpuclock
      ∧ (0 ≤ x.timing.flashrate ∧ x.timing.flashrate ≤ 11 →
          crtc_flash_derived e.cvt_invalid s'.timing
            (vsync_formula e s'.htot s'.vtot s'.scans_per_row s'.vtot_adj) e.cpuclock
            x.timing.flashrate) := by
  have hf := crtc_calc_vsync_freq_frame e x s' h
  have e1 : s'.htot = x.htot := by rw [hf]
  have e2 : s'.vtot = x.vtot := by rw [hf]
  have e3 : s'.scans_per_row = x.scans_per_row := by rw [hf]
  have e4 : s'.vtot_adj = x.vtot_adj := by rw [hf]
  rw [e1, e2, e3] at hz
  rw [e1, e2, e3, e4]
  obtain ⟨_, a2, a3, a4, _⟩ := crtc_calc_vsync_freq_spec e x s' hz h
  exact ⟨a2, a3, a4⟩

/-- What a data write to register 0, 1, 4, 5 or 9 leaves in the timing group. -/
theorem crtc_data_w_timing_derived (e : crtc_env) (s : crtc_state) (data : Nat)
    (s' : crtc_state) (hreg : s.reg = 0 ∨ s.reg = 1 ∨ s.reg = 4 ∨ s.reg = 5 ∨ s.reg = 9)
    (h : crtc_data_w e s data = some s')
    (hz : s'.htot ≠ 0 ∧ s'.vtot ≠ 0 ∧ s'.scans_per_row ≠ 0) :
    s'.timing.vsync_freq
        = (if vsync_formula e s'.htot s'.vtot s'.scans_per_row s'.vtot_adj < 5 then 1
            else vsync_formula e s'.htot s'.vtot s'.scans_per_row s'.vtot_adj)
      ∧ crtc_rates_derived e.cvt_invalid s'.timing
          (vsync_formula e s'.htot s'.vtot s'.scans_per_row s'.vtot_adj) e.cpuclock
      ∧ (0 ≤ s.timing.flashrate ∧ s.timing.flashrate ≤ 11 →
          crtc_flash_derived e.cvt_invalid s'.timing
            (vsync_formula e s'.htot s'.vtot s'.scans_per_row s'.vtot_adj) e.cpuclock
            s.timing.flashrate) := by
  obtain ⟨x, hx, ht⟩ := crtc_data_w_timing_reg e s data hreg
  rw [hx] at h
  rw [← ht]
  exact crtc_calc_vsync_freq_post e x s' h hz

theorem crtc_write_regs_cons (e : crtc_env) (r d : Nat) (rest : List (Nat × Nat))
    (s s' : crtc_state) (h : crtc_write_regs e ((r, d) :: rest) s = some s') :
    ∃ s1, crtc_data_w e (crtc_address_w s r) d = some s1
      ∧ crtc_write_regs e rest s1 = some s' := by
  unfold crtc_write_regs at h
  cases h1 : crtc_data_w e (crtc_address_w s r) d with
  | none => rw [h1] at h; cases h
  | some s1 => rw [h1, Option.some_bind] at h; exact ⟨s1, rfl, h⟩

/-- The totals and the frequency after the four timing registers are written. -/
theorem crtc_write_timing_freq (e : crtc_env) (s s' : crtc_state) (r0 r4 r5 r9 : Nat)
    (h : crtc_write_regs e [(0, r0), (4, r4), (5, r5), (9, r9)] s = some s') :
    s'.htot = (r0 &&& 0xFF) + 1 ∧ s'.vtot = (r4 &&& 0x7F) + 1 ∧ s'.vtot_adj = r5 &&& 0x1F
      ∧ s'.scans_per_row = (r9 &&& 0x1F) + 1
      ∧ s'.timing.vsync_freq
          = (if vsync_formula e ((r0 &&& 0xFF) + 1) ((r4 &&& 0x7F) + 1) ((r9 &&& 0x1F) + 1)
                (r5 &&& 0x1F) < 5 then 1
              else vsync_formula e ((r0 &&& 0xFF) + 1) ((r4 &&& 0x7F) + 1) ((r9 &&& 0x1F) + 1)
                (r5 &&& 0x1F)) := by
  obtain ⟨s1, h1, h⟩ := crtc_write_regs_cons e _ _ _ _ _ h
  obtain ⟨s2, h2, h⟩ := crtc_write_regs_cons e _ _ _ _ _ h
  obtain ⟨s3, h3, h⟩ := crtc_write_regs_cons e _ _ _ _ _ h
  obtain ⟨s4, h4, h⟩ := crtc_write_regs_cons e _ _ _ _ _ h
  cases h
  obtain ⟨a1, a2, a3⟩ := crtc_data_w_totals e _ _ _ h1
  obtain ⟨b1, b2, b3⟩ := crtc_data_w_totals e _ _ _ h2
  obtain ⟨c1, c2, c3⟩ := crtc_data_w_totals e _ _ _ h3
  obtain ⟨d1, d2, d3⟩ := crtc_data_w_totals e _ _ _ h4
  obtain ⟨_, _, g3, _⟩ := crtc_data_w_geometry e _ _ _ h4
  rw [crtc_address_w_reg _ _ (by decide)] at a1 a2 a3 b1 b2 b3 c1 c2 c3 d1 d2 d3 g3
  simp only [if_pos, if_neg, Nat.reduceEqDiff, OfNat.ofNat_ne_zero, if_true, if_false,
    Nat.succ_ne_zero] at a1 a2 a3 b1 b2 b3 c1 c2 c3 d1 d2 d3 g3
  have e1 : s'.htot = (r0 &&& 0xFF) + 1 := d1.trans (c1.trans (b1.trans a1))
  have e2 : s'.vtot = (r4 &&& 0x7F) + 1 := d2.trans (c2.trans b2)
  have e3 : s'.vtot_adj = r5 &&& 0x1F := d3.trans c3
  have hz : s'.htot ≠ 0 ∧ s'.vtot ≠ 0 ∧ s'.scans_per_row ≠ 0 := by
    rw [e1, e2, g3]; exact ⟨by omega, by omega, by omega⟩
  obtain ⟨f1, _, _⟩ := crtc_data_w_timing_derived e _ _ s'
    (Or.inr (Or.inr (Or.inr (Or.inr (crtc_address_w_reg s3 9 (by decide)))))) h4 hz
  rw [e1, e2, e3, g3] at f1
  exact ⟨e1, e2, e3, g3, f1⟩

/-! ## CRTC: the derivation returns -/

theorem crtc_clock_defined (e : crtc_env) (s : crtc_state) (c : Int)
    (hn : 0 ≤ s.timing.flashrate ∧ s.timing.flashrate ≤ 7) :
    ∃ s', crtc_clock e s c = some s' ∧ s'.timing.flashrate = s.timing.flashrate := by
  obtain ⟨s', h⟩ := crtc_clock_total e s c
  refine ⟨s', h, ?_⟩
  unfold crtc_clock at h
  cases h1 : crtc_clock_rates e s c with
  | none => rw [h1] at h; cases h
  | some s1 =>
  rw [h1, Option.some_bind] at h
  cases h2 : crtc_set_flash_rate e s1 s1.timing.flashrate with
  | none => rw [h2] at h; cases h
  | some r =>
  rw [h2, Option.some_bind] at h
  cases h
  obtain ⟨_, _, a3, _⟩ := crtc_clock_rates_spec e s c s1 h1
  obtain ⟨_, b3, _⟩ := crtc_set_flash_rate_spec e s1 _ r (by rw [a3]; omega) h2
  rw [b3, if_pos (by rw [a3]; omega), a3]

theorem crtc_calc_vsync_freq_defined (e : crtc_env) (s : crtc_state)
    (hok : crtc_totals_ok s) :
    ∃ s', crtc_calc_vsync_freq e s = some s' ∧ crtc_totals_ok s' := by
  obtain ⟨k1, k2, k3, k4, k5, k6⟩ := hok
  by_cases hz : s.htot ≠ 0 ∧ s.vtot ≠ 0 ∧ s.scans_per_row ≠ 0
  · obtain ⟨s1, e1, e2⟩ := crtc_clock_defined e
      { s with timing := { s.timing with
          vsync_freq := dbl_nearest (dbl_nearest (vdu_xtal e / ((s.htot * 8 : Nat) : ℚ))
            / ((s.vtot * s.scans_per_row + s.vtot_adj : Nat) : ℚ)) } } e.cpuclock ⟨k5, k6⟩
    refine ⟨vsync_floor s1, ?_, ?_⟩
    · unfold crtc_calc_vsync_freq
      rw [if_pos hz, e1, Option.some_bind]
    · obtain ⟨a1, _⟩ := crtc_clock_spec e _ _ s1 e1
      obtain ⟨g0, _, _, _, _, _, _, _, g8, _, _⟩ := vsync_floor_frame s1
      unfold crtc_totals_ok
      rw [g8, e2, g0, a1]
      exact ⟨k1, k2, k3, k4, k5, k6⟩
  · have hz2 : s.htot = 0 ∨ s.vtot = 0 ∨ s.scans_per_row = 0 := by
      by_contra hcon
      push_neg at hcon
      exact hz hcon
    refine ⟨vsync_floor s, crtc_calc_vsync_freq_skip e s hz2, ?_⟩
    obtain ⟨g0, _, _, _, _, _, _, _, g8, _, _⟩ := vsync_floor_frame s
    unfold crtc_totals_ok
    rw [g8, g0]
    exact ⟨k1, k2, k3, k4, k5, k6⟩

theorem and_le_mask (d m : Nat) : d &&& m ≤ m := Nat.and_le_right

/-- A data write to register 0, 1, 4, 5 or 9 always returns. -/
theorem crtc_data_w_timing_total (e : crtc_env) (s : crtc_state) (data : Nat)
    (hreg : s.reg = 0 ∨ s.reg = 1 ∨ s.reg = 4 ∨ s.reg = 5 ∨ s.reg = 9) :
    ∃ s', crtc_data_w e s data = some s' := by
  obtain ⟨x, hx, _⟩ := crtc_data_w_timing_reg e s data hreg
  rw [hx]
  exact crtc_calc_vsync_freq_total e x

theorem crtc_data_w_timing_defined (e : crtc_env) (s : crtc_state) (data : Nat)
    (hreg : s.reg = 0 ∨ s.reg = 1 ∨ s.reg = 4 ∨ s.reg = 5 ∨ s.reg = 9)
    (hok : crtc_totals_ok s) :
    ∃ s', crtc_data_w e s data = some s' ∧ crtc_totals_ok s' := by
  obtain ⟨k1, k2, k3, k4, k5, k6⟩ := hok
  have m1 := and_le_mask data 0xFF
  have m2 := and_le_mask data 0x7F
  have m3 := and_le_mask data 0x1F
  rcases hreg with h | h | h | h | h
  · rw [crtc_data_w_r0 e s data h]
    exact crtc_calc_vsync_freq_defined e _ ⟨by show (data &&& 0xFF) + 1 ≤ 256; omega, k2, k3,
      k4, k5, k6⟩
  · rw [crtc_data_w_r1 e s data h]
    split_ifs
    · exact crtc_calc_vsync_freq_defined e _ ⟨k1, k2, k3, k4, k5, k6⟩
    · exact crtc_calc_vsync_freq_defined e _ ⟨k1, k2, k3, k4, k5, k6⟩
  · rw [crtc_data_w_r4 e s data h]
    exact crtc_calc_vsync_freq_defined e _ ⟨k1, by show (data &&& 0x7F) + 1 ≤ 128; omega, k3,
      k4, k5, k6⟩
  · rw [crtc_data_w_r5 e s data h]
    exact crtc_calc_vsync_freq_defined e _ ⟨k1, k2, k3, by show data &&& 0x1F ≤ 31; omega,
      k5, k6⟩
  · rw [crtc_data_w_r9 e s data h]
    split_ifs
    · exact crtc_calc_vsync_freq_defined e _ ⟨k1, k2, by show (data &&& 0x1F) + 1 ≤ 32; omega,
        k4, k5, k6⟩
    · exact crtc_calc_vsync_freq_defined e _ ⟨k1, k2, k3, k4, k5, k6⟩

theorem crtc_totals_ok_address_w (s : crtc_state) (r : Nat) (h : crtc_totals_ok s) :
    crtc_totals_ok (crtc_address_w s r) := h

theorem crtc_write_timing_defined (e : crtc_env) (s : crtc_state) (r0 r4 r5 r9 : Nat) :
    ∃ s', crtc_write_regs e [(0, r0), (4, r4), (5, r5), (9, r9)] s = some s' := by
  obtain ⟨s1, e1⟩ := crtc_data_w_timing_total e (crtc_address_w s 0) r0
    (Or.inl (crtc_address_w_reg s 0 (by decide)))
  obtain ⟨s2, e2⟩ := crtc_data_w_timing_total e (crtc_address_w s1 4) r4
    (Or.inr (Or.inr (Or.inl (crtc_address_w_reg s1 4 (by decide)))))
  obtain ⟨s3, e3⟩ := crtc_data_w_timing_total e (crtc_address_w s2 5) r5
    (Or.inr (Or.inr (Or.inr (Or.inl (crtc_address_w_reg s2 5 (by decide))))))
  obtain ⟨s4, e4⟩ := crtc_data_w_timing_total e (crtc_address_w s3 9) r9
    (Or.inr (Or.inr (Or.inr (Or.inr (crtc_address_w_reg s3 9 (by decide))))))
  refine ⟨s4, ?_⟩
  unfold crtc_write_regs crtc_write_regs crtc_write_regs crtc_write_regs crtc_write_regs
  rw [e1, Option.some_bind, e2, Option.some_bind, e3, Option.some_bind, e4, Option.some_bind]

/-! ## CRTC: the rounded frequency and the exact quotient -/

theorem two_rounds_close (A D B F : ℚ) (hA : 0 < A) (hD : 0 < D)
    (hB : |B - A| ≤ A / 2 ^ 53) (hF : |F - B / D| ≤ |B / D| / 2 ^ 53) :
    |F - A / D| ≤ A / D / 2 ^ 51 := by
  rw [abs_le] at hB
  have hy : 0 < A / D := div_pos hA hD
  have hBpos : 0 < B := by
    have : A / 2 ^ 53 < A := div_lt_self hA (by norm_num)
    linarith
  have hb0 : 0 < B / D := div_pos hBpos hD
  rw [abs_of_pos hb0, abs_le] at hF
  have hb1 : B / D ≤ A / D + A / D / 2 ^ 53 := by
    have h1 : B / D ≤ (A + A / 2 ^ 53) / D := div_le_div_of_nonneg_right (by linarith) hD.le
    have h2 : (A + A / 2 ^ 53) / D = A / D + A / D / 2 ^ 53 := by ring
    rw [h2] at h1
    exact h1
  have hb2 : A / D - A / D / 2 ^ 53 ≤ B / D := by
    have h1 : (A - A / 2 ^ 53) / D ≤ B / D := div_le_div_of_nonneg_right (by linarith) hD.le
    have h2 : (A - A / 2 ^ 53) / D = A / D - A / D / 2 ^ 53 := by ring
    rw [h2] at h1
    exact h1
  generalize A / D = y at hy hb1 hb2 ⊢
  generalize B / D = b at hb0 hF hb1 hb2
  rw [abs_le]
  constructor <;> linarith

/-- The frequency computed in `double` arithmetic is within `2^-51` (relative)
of the exact quotient, for totals in the range of the registers. -/
theorem vsync_formula_close (e : crtc_env) (a b p j : Nat) (ha : 0 < a ∧ a ≤ 256)
    (hd : 0 < b * p + j ∧ b * p + j ≤ 4127) :
    |vsync_formula e a b p j
        - (vdu_xtal e / ((a * 8 : Nat) : ℚ)) / ((b * p + j : Nat) : ℚ)|
      ≤ (vdu_xtal e / ((a * 8 : Nat) : ℚ)) / ((b * p + j : Nat) : ℚ) / 2 ^ 51 := by
  have hx : (12000000 : ℚ) ≤ vdu_xtal e := by
    unfold vdu_xtal; split_ifs <;> norm_num
  have hA0 : (0 : ℚ) < ((a * 8 : Nat) : ℚ) := by
    have : 0 < a * 8 := by omega
    exact_mod_cast this
  have hA2 : ((a * 8 : Nat) : ℚ) ≤ 2048 := by
    have : a * 8 ≤ 2048 := by omega
    exact_mod_cast this
  have hD0 : (0 : ℚ) < ((b * p + j : Nat) : ℚ) := by exact_mod_cast hd.1
  have hD2 : ((b * p + j : Nat) : ℚ) ≤ 4127 := by exact_mod_cast hd.2
  have hA : (5859 : ℚ) ≤ vdu_xtal e / ((a * 8 : Nat) : ℚ) := by
    rw [le_div_iff₀ hA0]
    nlinarith
  have hsmall : (2 : ℚ) ^ (-1022 : Int) ≤ 1 := by
    rw [zpow_neg]
    exact inv_le_one_of_one_le₀ (one_le_zpow₀ (by norm_num) (by norm_num))
  have hB := dbl_nearest_relative (vdu_xtal e / ((a * 8 : Nat) : ℚ))
    (by rw [abs_of_pos (by linarith)]; linarith)
  rw [abs_of_pos (by linarith : (0 : ℚ) < vdu_xtal e / ((a * 8 : Nat) : ℚ))] at hB
  have hBlow : (5858 : ℚ) ≤ dbl_nearest (vdu_xtal e / ((a * 8 : Nat) : ℚ)) := by
    have h1 := (abs_le.mp hB).1
    have h2 : vdu_xtal e / ((a * 8 : Nat) : ℚ) / 2 ^ 53
        ≤ vdu_xtal e / ((a * 8 : Nat) : ℚ) / 5859 :=
      div_le_div_of_nonneg_left (by linarith) (by norm_num) (by norm_num)
    have h3 : vdu_xtal e / ((a * 8 : Nat) : ℚ) / 5859
        = vdu_xtal e / ((a * 8 : Nat) : ℚ) * (1 / 5859) := by ring
    nlinarith
  have hq : (1 : ℚ) ≤ dbl_nearest (vdu_xtal e / ((a * 8 : Nat) : ℚ))
      / ((b * p + j : Nat) : ℚ) := by
    rw [le_div_iff₀ hD0]
    linarith
  have hF := dbl_nearest_relative
    (dbl_nearest (vdu_xtal e / ((a * 8 : Nat) : ℚ)) / ((b * p + j : Nat) : ℚ))
    (by rw [abs_of_pos (by linarith)]; linarith)
  unfold vsync_formula
  exact two_rounds_close _ _ _ _ (by linarith) hD0 hB hF


/-! ## CRTC: the redraw walk -/

theorem mask_14_mod (m : Nat) : m &&& 0x3fff = m % 16384 := by
  have : (0x3fff : Nat) = 2 ^ 14 - 1 := by decide
  rw [this, Nat.and_pow_two_sub_one_eq_mod]

theorem crtc_redraw_cell_congr (st : crtc_state) (x y m m2 : Nat)
    (h : m % 16384 = m2 % 16384) : crtc_redraw_cell st x y m = crtc_redraw_cell st x y m2 := by
  unfold crtc_redraw_cell
  rw [mask_14_mod, mask_14_mod, h]

theorem crtc_redraw_cell_frame (st : crtc_state) (x y m : Nat) :
    ∃ d q u, crtc_redraw_cell st x y m = crtc_drawn st d q u := by
  unfold crtc_redraw_cell
  by_cases h : st.redraw ≠ 0 ∨ (m &&& 0x3fff) ∈ st.vdu.dirty
  · rw [if_pos h]
    exact ⟨_, _, _, rfl⟩
  · rw [if_neg h]
    exact ⟨st.vdu.drawn, st.vdu.dirty, st.update, rfl⟩

theorem crtc_walk_frame (cells : List (Nat × Nat × Nat)) (s : crtc_state) :
    ∃ d q u, crtc_walk s cells = crtc_drawn s d q u := by
  induction cells generalizing s with
  | nil => exact ⟨s.vdu.drawn, s.vdu.dirty, s.update, rfl⟩
  | cons c cs ih =>
    obtain ⟨d1, q1, u1, h1⟩ := crtc_redraw_cell_frame s c.1 c.2.1 c.2.2
    obtain ⟨d2, q2, u2, h2⟩ := ih (crtc_redraw_cell s c.1 c.2.1 c.2.2)
    refine ⟨d2, q2, u2, ?_⟩
    show crtc_walk (crtc_redraw_cell s c.1 c.2.1 c.2.2) cs = _
    rw [h2, h1]
    rfl

theorem crtc_walk_append (s : crtc_state) (a b : List (Nat × Nat × Nat)) :
    crtc_walk s (a ++ b) = crtc_walk (crtc_walk s a) b := by
  unfold crtc_walk
  rw [List.foldl_append]

theorem maddr_after_mod (n m : Nat) : maddr_after n m % 16384 = (m + n) % 16384 := by
  induction n generalizing m with
  | zero => rfl
  | succ n ih =>
    unfold maddr_after
    rw [ih, mask_14_mod]
    omega

theorem crtc_redraw_row_walk (n : Nat) (s : crtc_state) (x y m : Nat) :
    (crtc_redraw_row n s x y m).1
      = crtc_walk s ((List.range n).map fun j => (x + 8 * j, y, (m + j) % 16384)) := by
  induction n generalizing s x m with
  | zero => rfl
  | succ n ih =>
    unfold crtc_redraw_row
    rw [ih, List.range_succ_eq_map, List.map_cons, List.map_map]
    show _ = crtc_walk (crtc_redraw_cell s (x + 8 * 0) y ((m + 0) % 16384)) _
    rw [crtc_redraw_cell_congr s (x + 8 * 0) y ((m + 0) % 16384) m (by omega)]
    congr 1
    apply List.map_congr_left
    intro j _
    simp only [Function.comp, Nat.succ_eq_add_one, mask_14_mod]
    refine Prod.ext ?_ (Prod.ext rfl ?_)
    · show x + 8 + 8 * j = x + 8 * (j + 1)
      omega
    · show (m % 16384 + 1 + j) % 16384 = (m + (j + 1)) % 16384
      omega

theorem crtc_redraw_rows_walk (l v : Nat) (s : crtc_state) (y m : Nat) :
    crtc_redraw_rows l v s y m
      = crtc_walk s ((List.range (v * s.hdisp)).map fun k =>
          (8 * (k % s.hdisp), y + k / s.hdisp * l, (m + k) % 16384)) := by
  induction v generalizing s y m with
  | zero =>
    rw [Nat.zero_mul]
    rfl
  | succ v ih =>
    unfold crtc_redraw_rows
    rw [crtc_redraw_row_snd, crtc_redraw_row_walk, ih]
    obtain ⟨d, q, u, hw⟩ := crtc_walk_frame
      ((List.range s.hdisp).map fun j => (0 + 8 * j, y, (m + j) % 16384)) s
    have hh : (crtc_walk s
        ((List.range s.hdisp).map fun j => (0 + 8 * j, y, (m + j) % 16384))).hdisp
        = s.hdisp := by rw [hw]; rfl
    rw [hh]
    have hsplit : (v + 1) * s.hdisp = s.hdisp + v * s.hdisp := by ring
    rw [hsplit, List.range_add, List.map_append, crtc_walk_append, List.map_map]
    by_cases h0 : s.hdisp = 0
    · rw [h0]
      simp
    have hpos : 0 < s.hdisp := Nat.pos_of_ne_zero h0
    have hm := maddr_after_mod s.hdisp m
    congr 1
    · congr 1
      apply List.map_congr_left
      intro j hj
      rw [List.mem_range] at hj
      rw [Nat.mod_eq_of_lt hj, Nat.div_eq_of_lt hj]
      simp
    · apply List.map_congr_left
      intro k _
      simp only [Function.comp]
      refine Prod.ext ?_ (Prod.ext ?_ ?_)
      · show 8 * (k % s.hdisp) = 8 * ((s.hdisp + k) % s.hdisp)
        rw [Nat.add_mod_left]
      · show y + l + k / s.hdisp * l = y + (s.hdisp + k) / s.hdisp * l
        rw [Nat.add_div_left _ hpos]
        ring
      · show (maddr_after s.hdisp m + k) % 16384 = (m + (s.hdisp + k)) % 16384
        omega

theorem crtc_redraw_walk (e : crtc_env) (s : crtc_state) (hv : s.video ≠ 0) :
    crtc_redraw e s
      = { crtc_walk { s with vdu := { s.vdu with dirty := s.vdu.dirty ++ e.pcg_dirty } }
            (grid_cells s.hdisp (e.yscale * s.scans_per_row) s.disp_start
              (s.vdisp * s.hdisp))
          with redraw := 0 } := by
  unfold crtc_redraw grid_cells
  rw [if_neg hv, crtc_redraw_rows_walk]
  simp only [Nat.zero_add]

theorem crtc_redraw_cell_drawn (st : crtc_state) (x y a : Nat) (ha : a < 16384)
    (h : st.redraw ≠ 0 ∨ a ∈ st.vdu.dirty) :
    crtc_redraw_cell st x y a
      = crtc_drawn st
          (st.vdu.drawn ++
            [{ x := x, y := y, maddr := a, scans_per_row := st.scans_per_row,
               flashvideo := st.flashvideo,
               cursor := if a = st.cursor.cur_pos then st.cursor.cur_blink else 0,
               cur_start := st.cursor.cur_start, cur_end := st.cursor.cur_end }])
          (st.vdu.dirty.filter (fun b => b ≠ a)) 1 := by
  have hm : a &&& 0x3fff = a := by rw [mask_14_mod]; exact Nat.mod_eq_of_lt ha
  unfold crtc_redraw_cell
  rw [hm, if_pos h]
  rfl

theorem crtc_redraw_cell_skipped (st : crtc_state) (x y a : Nat) (ha : a < 16384)
    (h : ¬ (st.redraw ≠ 0 ∨ a ∈ st.vdu.dirty)) : crtc_redraw_cell st x y a = st := by
  have hm : a &&& 0x3fff = a := by rw [mask_14_mod]; exact Nat.mod_eq_of_lt ha
  unfold crtc_redraw_cell
  rw [hm, if_neg h]


/-! ## CRTC: the ranges of the register file -/

theorem pair_high_bound (x h : Nat) : (x &&& 0xFF) ||| ((h &&& 0x3F) <<< 8) ≤ 0x3FFF := by
  have h1 : x &&& 0xFF ≤ 0xFF := Nat.and_le_right
  have h2 : h &&& 0x3F ≤ 0x3F := Nat.and_le_right
  have h3 : (h &&& 0x3F) <<< 8 = (h &&& 0x3F) * 256 := by rw [Nat.shiftLeft_eq]
  have h4 : (x &&& 0xFF) ||| ((h &&& 0x3F) <<< 8) < 2 ^ 14 :=
    Nat.or_lt_two_pow (by omega) (by omega)
  omega

theorem pair_low_bound (x l : Nat) : (x &&& 0x3F00) ||| (l &&& 0xFF) ≤ 0x3FFF := by
  have h1 : x &&& 0x3F00 ≤ 0x3F00 := Nat.and_le_right
  have h2 : l &&& 0xFF ≤ 0xFF := Nat.and_le_right
  have h4 : (x &&& 0x3F00) ||| (l &&& 0xFF) < 2 ^ 14 :=
    Nat.or_lt_two_pow (by omega) (by omega)
  omega

theorem crtc_update_cursor_edge_fields (s : crtc_state) :
    (crtc_update_cursor_edge s).1.cursor.cur_pos = s.cursor.cur_pos
      ∧ (crtc_update_cursor_edge s).1.cursor.cur_start = s.cursor.cur_start
      ∧ (crtc_update_cursor_edge s).1.cursor.cur_end = s.cursor.cur_end
      ∧ (crtc_update_cursor_edge s).1.cursor.cur_mode = s.cursor.cur_mode := by
  unfold crtc_update_cursor_edge
  split_ifs <;> exact ⟨rfl, rfl, rfl, rfl⟩

theorem crtc_update_cursor_fields (e : crtc_env) (s : crtc_state) (r : crtc_state × Int)
    (h : crtc_update_cursor e s = some r) :
    r.1.cursor.cur_pos = s.cursor.cur_pos ∧ r.1.cursor.cur_start = s.cursor.cur_start
      ∧ r.1.cursor.cur_end = s.cursor.cur_end ∧ r.1.cursor.cur_mode = s.cursor.cur_mode := by
  unfold crtc_update_cursor at h
  by_cases h1 : s.cursor.cur_mode = 1
  · rw [if_pos h1] at h
    cases h
    exact crtc_update_cursor_edge_fields _
  by_cases h2 : s.cursor.cur_mode = 2
  · rw [if_neg h1, if_pos h2] at h
    cases hb : (if e.turbo then cur_blink_phase e.time_ms s.timing.cur_blink_rate_t1r32
        else cur_blink_phase e.z80_cycles s.timing.cur_blink_rate_c1r32) with
    | none => rw [hb] at h; cases h
    | some b =>
      rw [hb, Option.some_bind] at h
      cases h
      exact crtc_update_cursor_edge_fields _
  by_cases h3 : s.cursor.cur_mode = 3
  · rw [if_neg h1, if_neg h2, if_pos h3] at h
    cases hb : (if e.turbo then cur_blink_phase e.time_ms s.timing.cur_blink_rate_t1r16
        else cur_blink_phase e.z80_cycles s.timing.cur_blink_rate_c1r16) with
    | none => rw [hb] at h; cases h
    | some b =>
      rw [hb, Option.some_bind] at h
      cases h
      exact crtc_update_cursor_edge_fields _
  · rw [if_neg h1, if_neg h2, if_neg h3] at h
    cases h
    exact crtc_update_cursor_edge_fields _

/-- The address registers and the cursor registers after a data write. -/
theorem crtc_data_w_registers (e : crtc_env) (s : crtc_state) (data : Nat) (s' : crtc_state)
    (h : crtc_data_w e s data = some s') :
    s'.reg = s.reg
      ∧ s'.crtc_regs_data = s.crtc_regs_data.set s.reg data
      ∧ s'.disp_start = (if s.reg = 12 then (s.disp_start &&& 0xFF) ||| ((data &&& 0x3F) <<< 8)
          else if s.reg = 13 then (s.disp_start &&& 0x3F00) ||| (data &&& 0xFF)
          else s.disp_start)
      ∧ s'.mem_addr = (if s.reg = 18 then (s.mem_addr &&& 0xFF) ||| ((data &&& 0x3F) <<< 8)
          else if s.reg = 19 then (s.mem_addr &&& 0x3F00) ||| (data &&& 0xFF)
          else s.mem_addr)
      ∧ s'.cursor.cur_pos
          = (if s.reg = 14 then (s.cursor.cur_pos &&& 0xFF) ||| ((data &&& 0x3F) <<< 8)
            else if s.reg = 15 then (s.cursor.cur_pos &&& 0x3F00) ||| (data &&& 0xFF)
            else s.cursor.cur_pos)
      ∧ s'.cursor.cur_start = (if s.reg = 10 then data &&& 0x1F else s.cursor.cur_start)
      ∧ s'.cursor.cur_mode = (if s.reg = 10 then (data >>> 5) &&& 0x03 else s.cursor.cur_mode)
      ∧ s'.cursor.cur_end = (if s.reg = 11 then data &&& 0x1F else s.cursor.cur_end) := by
  by_cases h0 : s.reg = 0
  · rw [crtc_data_w_r0 e s data h0] at h
    rw [crtc_calc_vsync_freq_frame e _ s' h]
    simp [h0, crtc_store_reg]
  by_cases h1 : s.reg = 1
  · rw [crtc_data_w_r1 e s data h1] at h
    rw [crtc_calc_vsync_freq_frame e _ s' h]
    by_cases hd : s.hdisp = data &&& 0xFF
    · simp [h1, hd, crtc_store_reg]
    · simp [h1, hd, crtc_store_reg]
  by_cases h4 : s.reg = 4
  · rw [crtc_data_w_r4 e s data h4] at h
    rw [crtc_calc_vsync_freq_frame e _ s' h]
    simp [h4, crtc_store_reg]
  by_cases h5 : s.reg = 5
  · rw [crtc_data_w_r5 e s data h5] at h
    rw [crtc_calc_vsync_freq_frame e _ s' h]
    simp [h5, crtc_store_reg]
  by_cases h6 : s.reg = 6
  · rw [crtc_data_w_r6 e s data h6] at h
    cases h
    by_cases hd : s.vdisp = data &&& 0x7F
    · simp [h6, hd, crtc_store_reg]
    · simp [h6, hd, crtc_store_reg]
  by_cases h9 : s.reg = 9
  · rw [crtc_data_w_r9 e s data h9] at h
    rw [crtc_calc_vsync_freq_frame e _ s' h]
    by_cases hd : s.scans_per_row = (data &&& 0x1F) + 1
    · simp [h9, hd, crtc_store_reg]
    · simp [h9, hd, crtc_store_reg]
  by_cases h10 : s.reg = 10
  · rw [crtc_data_w_r10 e s data h10] at h
    cases hu : crtc_update_cursor e
        { crtc_store_reg s data with
          cursor := { s.cursor with cur_start := data &&& 0x1F,
                                    cur_mode := (data >>> 5) &&& 0x03 } } with
    | none => rw [hu] at h; cases h
    | some r =>
      rw [hu, Option.some_bind] at h
      cases h
      obtain ⟨c1, c2, c3, c4⟩ := crtc_update_cursor_fields e _ r hu
      have hf := crtc_update_cursor_frame e _ r hu
      rw [crtc_redraw_char_frame]
      refine ⟨?_, ?_, ?_, ?_, ?_, ?_, ?_, ?_⟩
      · rw [hf]; rfl
      · rw [hf]; rfl
      · rw [hf]; simp [h10, crtc_store_reg]
      · rw [hf]; simp [h10, crtc_store_reg]
      · rw [if_neg (by omega), if_neg (by omega)]; exact c1
      · rw [if_pos h10]; exact c2
      · rw [if_pos h10]; exact c4
      · rw [if_neg (by omega)]; exact c3
  by_cases h11 : s.reg = 11
  · rw [crtc_data_w_r11 e s data h11] at h
    cases h
    rw [crtc_redraw_char_frame]
    simp [h11, crtc_store_reg]
  by_cases h12 : s.reg = 12
  · rw [crtc_data_w_r12 e s data h12] at h
    cases h
    simp [h12, crtc_store_reg, crtc_set_redraw]
  by_cases h13 : s.reg = 13
  · rw [crtc_data_w_r13 e s data h13] at h
    cases h
    simp [h13, crtc_store_reg, crtc_set_redraw]
  by_cases h14 : s.reg = 14
  · rw [crtc_data_w_r14 e s data h14] at h
    cases h
    rw [crtc_redraw_char_frame, crtc_redraw_char_frame]
    simp [h14, crtc_store_reg]
  by_cases h15 : s.reg = 15
  · rw [crtc_data_w_r15 e s data h15] at h
    cases h
    rw [crtc_redraw_char_frame, crtc_redraw_char_frame]
    simp [h15, crtc_store_reg]
  by_cases h18 : s.reg = 18
  · rw [crtc_data_w_r18 e s data h18] at h
    cases h
    simp [h18, crtc_store_reg]
  by_cases h19 : s.reg = 19
  · rw [crtc_data_w_r19 e s data h19] at h
    cases h
    simp [h19, crtc_store_reg]
  by_cases h31 : s.reg = 31
  · rw [crtc_data_w_r31 e s data h31] at h
    cases h
    by_cases hl : e.lpen = true
    · rw [if_pos hl, keystd_handler_frame]
      simp [h31, crtc_store_reg]
    · rw [if_neg hl]
      simp [h31, crtc_store_reg]
  · rw [crtc_data_w_other e s data ⟨h0, h1, h4, h5, h6, h9, h10, h11, h12, h13, h14, h15,
      h18, h19, h31⟩] at h
    cases h
    simp [h10, h11, h12, h13, h14, h15, h18, h19, crtc_store_reg]

theorem crtc_data_w_in_range (e : crtc_env) (s : crtc_state) (data : Nat) (s' : crtc_state)
    (hs : crtc_regs_in_range s) (h : crtc_data_w e s data = some s') :
    crtc_regs_in_range s' := by
  obtain ⟨r1, r2, r3, r4, r5, r6, r7, r8⟩ := crtc_data_w_registers e s data s' h
  obtain ⟨g1, g2, g3, _⟩ := crtc_data_w_geometry e s data s' h
  obtain ⟨i1, i2, i3, i4, i5, i6, i7, i8, i9, i10, i11⟩ := hs
  refine ⟨?_, ?_, ?_, ?_, ?_, ?_, ?_, ?_, ?_, ?_, ?_⟩
  · rw [r1]; exact i1
  · rw [r3]
    split_ifs
    · exact pair_high_bound _ _
    · exact pair_low_bound _ _
    · exact i2
  · rw [r5]
    split_ifs
    · exact pair_high_bound _ _
    · exact pair_low_bound _ _
    · exact i3
  · rw [r4]
    split_ifs
    · exact pair_high_bound _ _
    · exact pair_low_bound _ _
    · exact i4
  · rw [r6]
    split_ifs
    · exact Nat.and_le_right
    · exact i5
  · rw [r8]
    split_ifs
    · exact Nat.and_le_right
    · exact i6
  · rw [r7]
    split_ifs
    · exact Nat.and_le_right
    · exact i7
  · rw [g1]
    split_ifs
    · exact Nat.and_le_right
    · exact i8
  · rw [g2]
    split_ifs
    · exact Nat.and_le_right
    · exact i9
  · rw [g3]
    split_ifs
    · omega
    · exact i10
  · rw [g3]
    split_ifs
    · have : data &&& 0x1F ≤ 0x1F := Nat.and_le_right
      omega
    · exact i11

theorem crtc_address_w_in_range (s : crtc_state) (data : Nat) (hs : crtc_regs_in_range s) :
    crtc_regs_in_range (crtc_address_w s data) := by
  obtain ⟨_, i2, i3, i4, i5, i6, i7, i8, i9, i10, i11⟩ := hs
  exact ⟨Nat.and_le_right, i2, i3, i4, i5, i6, i7, i8, i9, i10, i11⟩

theorem crtc_data_r_in_range (s : crtc_state) (hs : crtc_regs_in_range s) :
    crtc_regs_in_range (crtc_data_r s).1 := by
  unfold crtc_data_r
  split_ifs <;> exact hs

theorem crtc_status_r_in_range (e : crtc_env) (s : crtc_state) (r : crtc_state × Nat)
    (hs : crtc_regs_in_range s) (h : crtc_status_r e s = some r) :
    crtc_regs_in_range r.1 := by
  unfold crtc_status_r at h
  cases hv : crtc_vblank e (crtc_status_scan e s) with
  | none => rw [hv] at h; cases h
  | some v =>
    rw [hv, Option.some_bind] at h
    cases h
    show crtc_regs_in_range (crtc_status_scan e s)
    rw [crtc_status_scan_frame]
    exact hs

theorem crtc_step_in_range (e : crtc_env) (op : crtc_op) (s s' : crtc_state)
    (hs : crtc_regs_in_range s) (h : crtc_step e s op = some s') : crtc_regs_in_range s' := by
  cases op with
  | address_w data =>
    cases h
    exact crtc_address_w_in_range s data hs
  | data_w data => exact crtc_data_w_in_range e s data s' hs h
  | data_r =>
    cases h
    exact crtc_data_r_in_range s hs
  | status_r =>
    cases hr : crtc_status_r e s with
    | none =>
      have h2 : (crtc_status_r e s).bind (fun r => some r.1) = some s' := h
      rw [hr] at h2
      cases h2
    | some r =>
      have h2 : (crtc_status_r e s).bind (fun r => some r.1) = some s' := h
      rw [hr, Option.some_bind] at h2
      cases h2
      exact crtc_status_r_in_range e s r hs hr

theorem crtc_step_regs_length (e : crtc_env) (op : crtc_op) (s s' : crtc_state)
    (h : crtc_step e s op = some s') :
    s'.crtc_regs_data.length = s.crtc_regs_data.length := by
  cases op with
  | address_w data =>
    cases h
    rfl
  | data_w data =>
    rw [(crtc_data_w_registers e s data s' h).2.1, List.length_set]
  | data_r =>
    cases h
    unfold crtc_data_r
    split_ifs <;> rfl
  | status_r =>
    cases hr : crtc_status_r e s with
    | none =>
      have h2 : (crtc_status_r e s).bind (fun r => some r.1) = some s' := h
      rw [hr] at h2
      cases h2
    | some r =>
      have h2 : (crtc_status_r e s).bind (fun r => some r.1) = some s' := h
      rw [hr, Option.some_bind] at h2
      cases h2
      unfold crtc_status_r at hr
      cases hv : crtc_vblank e (crtc_status_scan e s) with
      | none => rw [hv] at hr; cases hr
      | some v =>
        rw [hv, Option.some_bind] at hr
        cases hr
        show (crtc_status_scan e s).crtc_regs_data.length = _
        rw [crtc_status_scan_frame]

theorem crtc_run_in_range (ops : List (crtc_env × crtc_op)) (s s' : crtc_state)
    (hs : crtc_regs_in_range s) (h : crtc_run ops s = some s') :
    crtc_regs_in_range s' ∧ s'.crtc_regs_data.length = s.crtc_regs_data.length := by
  induction ops generalizing s with
  | nil =>
    cases h
    exact ⟨hs, rfl⟩
  | cons o rest ih =>
    obtain ⟨e, op⟩ := o
    cases h1 : crtc_step e s op with
    | none =>
      have h2 : (crtc_step e s op).bind (fun s1 => crtc_run rest s1) = some s' := h
      rw [h1] at h2
      cases h2
    | some s1 =>
      have h2 : (crtc_step e s op).bind (fun s1 => crtc_run rest s1) = some s' := h
      rw [h1, Option.some_bind] at h2
      obtain ⟨k1, k2⟩ := ih s1 (crtc_step_in_range e op s s1 hs h1) h2
      exact ⟨k1, by rw [k2, crtc_step_regs_length e op s s1 h1]⟩

theorem crtc_initial_in_range : crtc_regs_in_range crtc_initial := by
  unfold crtc_regs_in_range
  decide


/-! ## Keyboard: the indices of the scan tables -/

theorem scan_table_entries : ∀ i, i < 72 →
    (mb_scan_pcshift.getD i 255 < 64 ∨ mb_scan_pcshift.getD i 255 = 255)
      ∧ (mb_scan_pclower.getD i 255 < 64 ∨ mb_scan_pclower.getD i 255 = 255)
      ∧ (mb_scan_pcshift.getD i 255 ≠ 255 ∧ mb_scan_pclower.getD i 255 = 255 ↔ i = 30) := by
  decide

theorem array_set_inside (a : List Nat) (i v : Nat) (h : i < a.length) :
    array_set a i v = some (a.set i v) := by
  unfold array_set
  rw [if_pos h]

theorem array_set_outside (a : List Nat) (i v : Nat) (h : ¬ i < a.length) :
    array_set a i v = none := by
  unfold array_set
  rw [if_neg h]

theorem keystd_set_keystate_sized (s : keystd_state) (scan : Nat) (hs : keystd_sized s)
    (h : scan < 64 ∨ scan = 255) :
    ∃ s1, keystd_set_keystate s scan = some s1 ∧ keystd_sized s1 := by
  unfold keystd_set_keystate
  by_cases h255 : scan = 255
  · rw [if_neg (by simpa using h255)]
    exact ⟨s, rfl, hs⟩
  · have hlt : scan < s.mb_keystate.length := by
      rw [hs.2.1]; unfold MB_KEYS; omega
    rw [if_pos h255, array_set_inside _ _ _ hlt, Option.some_bind]
    refine ⟨_, rfl, hs.1, ?_, hs.2.2⟩
    show (s.mb_keystate.set scan 1).length = MB_KEYS
    rw [List.length_set]; exact hs.2.1

theorem keystd_set_invert_sized (s : keystd_state) (scan v : Nat) (hs : keystd_sized s)
    (h : scan < 64) : ∃ s1, keystd_set_invert s scan v = some s1 ∧ keystd_sized s1 := by
  unfold keystd_set_invert
  have hlt : scan < s.mb_invert.length := by
    rw [hs.2.2]; unfold MB_KEYS; omega
  rw [array_set_inside _ _ _ hlt, Option.some_bind]
  refine keystd_set_keystate_sized _ scan ⟨hs.1, hs.2.1, ?_⟩ (Or.inl h)
  show (s.mb_invert.set scan v).length = MB_KEYS
  rw [List.length_set]; exact hs.2.2

theorem keystd_set_invert_outside (s : keystd_state) (v : Nat) (hs : keystd_sized s) :
    keystd_set_invert s 255 v = none := by
  unfold keystd_set_invert
  rw [array_set_outside _ _ _ (by rw [hs.2.2]; unfold MB_KEYS; omega)]
  rfl

theorem keystd_key_flags_sized (s : keystd_state) (hs : keystd_sized s) :
    ∃ s1, keystd_key_flags s = some s1 ∧ keystd_sized s1 := by
  unfold keystd_key_flags array_get
  have h1 : mb_scan_pclower.getD PCK_ESCAPE 255 < s.mb_keystate.length := by
    rw [hs.2.1]; decide
  have h2 : mb_scan_pclower.getD PCK_m 255 < s.mb_keystate.length := by
    rw [hs.2.1]; decide
  rw [if_pos h1, Option.some_bind, if_pos h2, Option.some_bind]
  exact ⟨_, rfl, hs⟩

theorem keystd_pressed_sized (s : keystd_state) (i v : Nat) (hs : keystd_sized s) :
    keystd_sized { s with pc_keystate := s.pc_keystate.set i v } := by
  refine ⟨?_, hs.2.1, hs.2.2⟩
  show (s.pc_keystate.set i v).length = PC_KEYS
  rw [List.length_set]; exact hs.1

theorem getD_set_other (l : List Nat) (i j v : Nat) (h : i ≠ j) :
    (l.set i v).getD j 0 = l.getD j 0 := by
  rw [List.getD_eq_getElem?_getD, List.getD_eq_getElem?_getD, List.getElem?_set_ne h]

/-- The key-up handler stays inside the arrays. -/
theorem keystd_keyup_inside (s : keystd_state) (i : Nat) (hs : keystd_sized s)
    (hi : i < PC_KEYS) : ∃ s1, keystd_keyup_event s i = some s1 ∧ keystd_sized s1 := by
  obtain ⟨t1, t2, _⟩ := scan_table_entries i hi
  unfold keystd_keyup_event keystd_keyup_match
  rw [if_pos hi]
  have hk : ∃ k1, (if mb_scan_pcshift.getD i 255 ≠ 255
      then array_set s.mb_keystate (mb_scan_pcshift.getD i 255) 0
      else some s.mb_keystate) = some k1 ∧ k1.length = MB_KEYS := by
    by_cases h : mb_scan_pcshift.getD i 255 = 255
    · rw [if_neg (by simpa using h)]
      exact ⟨_, rfl, hs.2.1⟩
    · rw [if_pos h, array_set_inside _ _ _ (by rw [hs.2.1]; unfold MB_KEYS; omega)]
      exact ⟨_, rfl, by rw [List.length_set]; exact hs.2.1⟩
  obtain ⟨k1, e1, l1⟩ := hk
  rw [e1, Option.some_bind]
  have hk2 : ∃ k2, (if mb_scan_pclower.getD i 255 ≠ 255
      then array_set k1 (mb_scan_pclower.getD i 255) 0
      else some k1) = some k2 ∧ k2.length = MB_KEYS := by
    by_cases h : mb_scan_pclower.getD i 255 = 255
    · rw [if_neg (by simpa using h)]
      exact ⟨_, rfl, l1⟩
    · rw [if_pos h, array_set_inside _ _ _ (by rw [l1]; unfold MB_KEYS; omega)]
      exact ⟨_, rfl, by rw [List.length_set]; exact l1⟩
  obtain ⟨k2, e2, l2⟩ := hk2
  rw [e2, Option.some_bind, Option.some_bind]
  refine keystd_key_flags_sized _ ⟨?_, l2, hs.2.2⟩
  show (s.pc_keystate.set i 0).length = PC_KEYS
  rw [List.length_set]; exact hs.1

/-- The key-down handler stays inside the arrays except for INSERT pressed with
SHIFT and CTRL down under the modified handling. -/
theorem keystd_keydown_inside (m : Bool) (s : keystd_state) (i : Nat) (hs : keystd_sized s)
    (hi : i < PC_KEYS) :
    (∃ s1, keystd_keydown_event m s i = some s1 ∧ keystd_sized s1)
      ↔ ¬ (i = PCK_INSERT ∧ m = true ∧ keystd_shift_down s ∧ keystd_ctrl_down s) := by
  obtain ⟨t1, t2, t3⟩ := scan_table_entries i hi
  have hp := keystd_pressed_sized s i 1 hs
  have hflags : ∀ r, (∃ s1, r = some s1 ∧ keystd_sized s1) →
      ∃ s1, r.bind keystd_key_flags = some s1 ∧ keystd_sized s1 := by
    rintro r ⟨s1, rfl, h1⟩
    exact keystd_key_flags_sized s1 h1
  unfold keystd_keydown_event
  rw [if_pos hi]
  by_cases hbad : i = PCK_INSERT ∧ m = true ∧ keystd_shift_down s ∧ keystd_ctrl_down s
  · obtain ⟨h30, hm, hsh, hct⟩ := hbad
    have e30 : i = 30 := h30
    have hne : mb_scan_pcshift.getD i 255 ≠ 255 ∧ mb_scan_pclower.getD i 255 = 255 :=
      t3.mpr e30
    have g1 : (s.pc_keystate.set i 1).getD PCK_LSHIFT 0 = s.pc_keystate.getD PCK_LSHIFT 0 :=
      getD_set_other _ _ _ _ (by rw [e30]; decide)
    have g2 : (s.pc_keystate.set i 1).getD PCK_RSHIFT 0 = s.pc_keystate.getD PCK_RSHIFT 0 :=
      getD_set_other _ _ _ _ (by rw [e30]; decide)
    have g3 : (s.pc_keystate.set i 1).getD PCK_LCTRL 0 = s.pc_keystate.getD PCK_LCTRL 0 :=
      getD_set_other _ _ _ _ (by rw [e30]; decide)
    have g4 : (s.pc_keystate.set i 1).getD PCK_RCTRL 0 = s.pc_keystate.getD PCK_RCTRL 0 :=
      getD_set_other _ _ _ _ (by rw [e30]; decide)
    have hsh2 : s.pc_keystate.getD PCK_LSHIFT 0 ≠ 0 ∨ s.pc_keystate.getD PCK_RSHIFT 0 ≠ 0 :=
      hsh
    have hct2 : s.pc_keystate.getD PCK_LCTRL 0 ≠ 0 ∨ s.pc_keystate.getD PCK_RCTRL 0 ≠ 0 :=
      hct
    have hnone : keystd_keydown_match m s i = none := by
      unfold keystd_keydown_match
      rw [g1, g2, g3, g4, if_pos hsh2, if_pos hne.1, if_pos ⟨hct2, hm⟩, hne.2]
      exact keystd_set_invert_outside _ 0 hp
    rw [hnone]
    constructor
    · rintro ⟨s1, h1, _⟩
      cases h1
    · intro h
      exact absurd ⟨h30, hm, hsh, hct⟩ h
  · refine ⟨fun _ => hbad, fun _ => hflags _ ?_⟩
    unfold keystd_keydown_match
    by_cases hsh : (s.pc_keystate.set i 1).getD PCK_LSHIFT 0 ≠ 0
        ∨ (s.pc_keystate.set i 1).getD PCK_RSHIFT 0 ≠ 0
    · rw [if_pos hsh]
      by_cases h255 : mb_scan_pcshift.getD i 255 = 255
      · rw [if_neg (by simpa using h255)]
        exact keystd_set_keystate_sized _ 255 hp (Or.inr rfl)
      · rw [if_pos h255]
        by_cases hct : ((s.pc_keystate.set i 1).getD PCK_LCTRL 0 ≠ 0
            ∨ (s.pc_keystate.set i 1).getD PCK_RCTRL 0 ≠ 0) ∧ m = true
        · rw [if_pos hct]
          have hlow : mb_scan_pclower.getD i 255 < 64 := by
            rcases t2 with h | h
            · exact h
            · exfalso
              have e30 : i = 30 := t3.mp ⟨h255, h⟩
              apply hbad
              refine ⟨e30, hct.2, ?_, ?_⟩
              · unfold keystd_shift_down
                rw [← getD_set_other s.pc_keystate i PCK_LSHIFT 1 (by rw [e30]; decide),
                  ← getD_set_other s.pc_keystate i PCK_RSHIFT 1 (by rw [e30]; decide)]
                exact hsh
              · unfold keystd_ctrl_down
                rw [← getD_set_other s.pc_keystate i PCK_LCTRL 1 (by rw [e30]; decide),
                  ← getD_set_other s.pc_keystate i PCK_RCTRL 1 (by rw [e30]; decide)]
                exact hct.1
          exact keystd_set_invert_sized _ _ _ hp hlow
        · rw [if_neg hct]
          exact keystd_set_invert_sized _ _ _ hp (by omega)
    · rw [if_neg hsh]
      by_cases h255 : mb_scan_pclower.getD i 255 = 255
      · rw [if_neg (by simpa using h255)]
        exact keystd_set_keystate_sized _ 255 hp (Or.inr rfl)
      · rw [if_pos h255]
        exact keystd_set_invert_sized _ _ _ hp (by omega)

/-! ## The claims about the speaker -/

/-- C1, sample-count conservation and subdivision invariance: with a conversion
fraction `div_num, div_denom ≥ 1`, a work buffer held, `samplenumber` derived
from `t0` and update instants `t0 ≤ t1 ≤ ... ≤ tk` (whose scaled value does not
wrap and whose sample number fits an `int`), the successive calls of
`speaker_update` all return and together write exactly
`SAMPLE_COUNT (tk) - SAMPLE_COUNT (t0)` samples, whatever the intermediate
instants are; this total is `SAMPLE_COUNT (tk - t0)` or one more. -/
theorem sample_count_conservation (e : audio_t) (s : speaker_t) (data t0 : Nat)
    (ts : List Nat) (hM : 0 ≤ e.AUDIO_MAXVAL) (hbuf : 1 ≤ e.bufsize) (htau : s.tau ≠ 0)
    (hdn : 1 ≤ s.div_num) (hdn2 : s.div_num < 2147483648) (hdd : 1 ≤ s.div_denom)
    (hopen : audio_has_work_buffer s.snd_buf = true)
    (hsn : s.samplenumber = (SAMPLE_COUNT s t0 : Int))
    (hchain : List.Chain (fun a b => a ≤ b) t0 ts)
    (hov : ts.getLastD t0 * toU64 s.div_denom < 18446744073709551616)
    (hfit : SAMPLE_COUNT s (ts.getLastD t0) < 2147483648) :
    ∃ s1, speaker_update_seq e data ts s = some s1
      ∧ s1.snd_buf.written.length = s.snd_buf.written.length
          + (SAMPLE_COUNT s (ts.getLastD t0) - SAMPLE_COUNT s t0)
      ∧ SAMPLE_COUNT s (ts.getLastD t0 - t0)
          ≤ SAMPLE_COUNT s (ts.getLastD t0) - SAMPLE_COUNT s t0
      ∧ SAMPLE_COUNT s (ts.getLastD t0) - SAMPLE_COUNT s t0
          ≤ SAMPLE_COUNT s (ts.getLastD t0 - t0) + 1 := by
  obtain ⟨s1, h1, h2, -⟩ := speaker_update_seq_count e data ts s t0 hM hbuf htau (by omega)
    (by omega) hopen hsn hchain hov hfit
  obtain ⟨h3, h4⟩ := SAMPLE_COUNT_span s t0 (ts.getLastD t0) (chain_le_getLastD t0 ts hchain)
    (toU64_pos _ hdn hdn2) hov
  exact ⟨s1, h1, h2, h3, h4⟩

/-- C3, rail anti-buzz: `speaker_fixup_sample` gives `+SPEAKER_AMPLITUDE` from
`SPEAKER_AMPLITUDE - 2` upwards, `-SPEAKER_AMPLITUDE` from
`-(SPEAKER_AMPLITUDE - 2)` downwards and its argument in between; so a value
within 2 units of a rail is reported as that rail, and the function is
idempotent.  (The amplitude `AUDIO_MAXVAL / 3` is more than 2.) -/
theorem speaker_fixup_sample_rail (e : audio_t) (x : Int) (hA : 2 < SPEAKER_AMPLITUDE e) :
    (x ≥ SPEAKER_AMPLITUDE e - 2 → speaker_fixup_sample e x = SPEAKER_AMPLITUDE e)
      ∧ (x ≤ -(SPEAKER_AMPLITUDE e - 2) → speaker_fixup_sample e x = -SPEAKER_AMPLITUDE e)
      ∧ (¬ x ≥ SPEAKER_AMPLITUDE e - 2 → ¬ x ≤ -(SPEAKER_AMPLITUDE e - 2)
          → speaker_fixup_sample e x = x)
      ∧ (|x - SPEAKER_AMPLITUDE e| ≤ 2 → speaker_fixup_sample e x = SPEAKER_AMPLITUDE e)
      ∧ (|x + SPEAKER_AMPLITUDE e| ≤ 2 → speaker_fixup_sample e x = -SPEAKER_AMPLITUDE e)
      ∧ speaker_fixup_sample e (speaker_fixup_sample e x) = speaker_fixup_sample e x := by
  unfold speaker_fixup_sample
  refine ⟨?_, ?_, ?_, ?_, ?_, ?_⟩
  · intro h
    rw [if_pos h]
  · intro h
    rw [if_neg (by omega), if_pos h]
  · intro h1 h2
    rw [if_neg h1, if_neg h2]
  · intro h
    rw [abs_le] at h
    rw [if_pos (by omega)]
  · intro h
    rw [abs_le] at h
    rw [if_neg (by omega), if_pos (by omega)]
  · split_ifs <;> omega

/-- C10, wake from silence: `speaker_w` with a value other than the current
state, while `idle` is set and the countdown is 0, leaves the ring buffer as it
is (no sample written, no segment acquired), sets `last_sample` to 0, `state` to
the new value and the change cycle to the current cycle count, and ends with
`idle = 0`, the countdown at `idle_count` and `samples_since_write = 0`; with
the value equal to the current state it changes nothing. -/
theorem speaker_w_wake (e : audio_t) (s : speaker_t) (data now : Nat) :
    (data ≠ s.state → s.idle ≠ 0 → s.count = 0 →
        speaker_w e s data now
          = some { s with last_sample := 0, state := data, change_tstates := now, idle := 0,
                          count := s.idle_count, samples_since_write := 0 })
      ∧ (data = s.state → speaker_w e s data now = some s) := by
  constructor
  · intro h1 h2 h3
    unfold speaker_w
    rw [if_neg h1, if_pos ⟨h2, h3⟩]
    rfl
  · intro h
    unfold speaker_w
    rw [if_pos h]

/-- C11, the postcondition of `speaker_reset`: `state`, `fraction`,
`last_sample` and `decay` are 0, the change cycle is the current cycle count, no
work buffer is held (one under construction has been handed over), and
`div_num`, `div_denom`, `tau` and `idle_count` are unchanged. -/
theorem speaker_reset_post (s : speaker_t) (now : Nat) :
    (speaker_reset s now).state = 0 ∧ (speaker_reset s now).fraction = 0
      ∧ (speaker_reset s now).last_sample = 0 ∧ (speaker_reset s now).decay = 0
      ∧ (speaker_reset s now).change_tstates = now
      ∧ audio_has_work_buffer (speaker_reset s now).snd_buf = false
      ∧ (speaker_reset s now).snd_buf
          = (if audio_has_work_buffer s.snd_buf then audio_put_work_buffer s.snd_buf
             else s.snd_buf)
      ∧ (speaker_reset s now).div_num = s.div_num
      ∧ (speaker_reset s now).div_denom = s.div_denom
      ∧ (speaker_reset s now).tau = s.tau
      ∧ (speaker_reset s now).idle_count = s.idle_count := by
  unfold speaker_reset audio_has_work_buffer
  by_cases h : s.snd_buf.has_work = true
  · simp [h, audio_put_work_buffer]
  · simp [h]

/-- C12, buffer-boundary transparency: for `count ≥ 0`, fresh work segments of
at least one slot (and a non-zero `tau`), `speaker_fill` returns having appended
exactly `count` samples; the segment is handed over and a fresh one acquired
once for every time the free slots run out before a sample is to be written,
that is `⌈(count - free) / bufsize⌉` times; with `count = 0` nothing changes. -/
theorem speaker_fill_transparent (e : audio_t) (s : speaker_t) (sample count : Int)
    (hbuf : 1 ≤ e.bufsize) (htau : s.tau ≠ 0) (hcount : 0 ≤ count) :
    ∃ s1 out, speaker_fill e s sample count = some s1
      ∧ s1.snd_buf.written = s.snd_buf.written ++ out ∧ (out.length : Int) = count
      ∧ s1.snd_buf.gets = s.snd_buf.gets
          + (count.toNat - audio_space_remaining s.snd_buf + e.bufsize - 1) / e.bufsize
      ∧ s1.snd_buf.puts = s.snd_buf.puts
          + (count.toNat - audio_space_remaining s.snd_buf + e.bufsize - 1) / e.bufsize
      ∧ (count = 0 → s1 = s) := by
  obtain ⟨s1, h1, -, h3, -, h5, h6, h7⟩ := speaker_fill_spec e s sample count hbuf htau hcount
  refine ⟨s1, _, h1, h3, ?_, h6, h7, h5⟩
  rw [decay_output_length]
  omega

/-- C13, decay shaping: for `tau ≥ 1` every further sample of `speaker_fill`
(the one that a count of `count + 1` adds to a count of `count`) first updates
`decay := decay - (sample * 65536 + decay) / tau` with C division and then
hands to the buffer, through `audio_limit`, `sample + decay / 65536` when the
new `decay` is above `2 * 65536` or below `-2 * 65536`, and `sample` itself
otherwise. -/
theorem speaker_fill_decay_shaping (e : audio_t) (s : speaker_t) (sample count : Int)
    (hbuf : 1 ≤ e.bufsize) (htau : 1 ≤ s.tau) (hcount : 0 ≤ count) :
    ∃ s1 s2, speaker_fill e s sample count = some s1
      ∧ speaker_fill e s sample (count + 1) = some s2
      ∧ s2.decay = s1.decay - (sample * 65536 + s1.decay).tdiv s.tau
      ∧ s2.snd_buf.written = s1.snd_buf.written
          ++ [audio_limit e (if s2.decay > 2 * 65536 ∨ s2.decay < -2 * 65536
                then sample + s2.decay.tdiv 65536 else sample)] := by
  obtain ⟨s1, h1, hd1, hw1, -⟩ := speaker_fill_spec e s sample count hbuf (by omega) hcount
  obtain ⟨s2, h2, hd2, hw2, -⟩ :=
    speaker_fill_spec e s sample (count + 1) hbuf (by omega) (by omega)
  have hc : (count + 1).toNat = count.toNat + 1 := by omega
  rw [hc, decay_after_add] at hd2
  rw [hc, decay_output_add, ← List.append_assoc, ← hw1] at hw2
  rw [← hd1] at hd2 hw2
  have hstep : s2.decay = s1.decay - (sample * 65536 + s1.decay).tdiv s.tau := by
    rw [hd2]
    rfl
  refine ⟨s1, s2, h1, h2, hstep, ?_⟩
  have hsd : speaker_decay s.tau sample s1.decay = s2.decay := hd2.symm
  rw [hw2]
  simp only [decay_output]
  rw [hsd]
  unfold speaker_shaped
  split_ifs <;> rfl

/-- C5, clock re-derivation yields a reduced fraction: for a sample rate
`f ≥ 1` and a chosen clock `c ≥ 1` (an `int`), `speaker_clock` returns (its
Euclidean loop terminates) with `div_num ≥ 1`, `div_denom ≥ 1`,
`gcd (div_num, div_denom) = 1` and `div_num * f = div_denom * c`, and it stores
`SAMPLE_COUNT (cycles_now)` converted to `int` as `samplenumber` and
`SAMPLE_TIME_FRACTION (cycles_now)` as `fraction`, both under the new fraction. -/
theorem speaker_clock_reduced (e : audio_t) (s : speaker_t) (cpuclock : Int) (now : Nat)
    (hf : 1 ≤ e.frequency) (hc : 1 ≤ chosen_clock e cpuclock)
    (hc2 : chosen_clock e cpuclock < 2147483648) :
    ∃ s1, speaker_clock e s cpuclock now = some s1
      ∧ 1 ≤ s1.div_num ∧ 1 ≤ s1.div_denom ∧ Int.gcd s1.div_num s1.div_denom = 1
      ∧ s1.div_num * e.frequency = s1.div_denom * chosen_clock e cpuclock
      ∧ s1.samplenumber = toInt32 (SAMPLE_COUNT s1 now)
      ∧ s1.fraction = (SAMPLE_TIME_FRACTION s1 now : Int) := by
  obtain ⟨F, hF⟩ : ∃ F : Nat, e.frequency = F := ⟨e.frequency.toNat, by omega⟩
  obtain ⟨C, hC⟩ : ∃ C : Nat, chosen_clock e cpuclock = C :=
    ⟨(chosen_clock e cpuclock).toNat, by omega⟩
  have hF1 : 1 ≤ F := by omega
  have hC1 : 1 ≤ C := by omega
  obtain ⟨s1, h1, hdn, hdd, hsn, hfr, -⟩ := speaker_clock_spec e s cpuclock now F C hF hC hF1 hC1
  have hg : 0 < Nat.gcd C F := Nat.gcd_pos_of_pos_left _ hC1
  have hn1 : 1 ≤ C / Nat.gcd C F :=
    Nat.div_pos (Nat.le_of_dvd hC1 (Nat.gcd_dvd_left C F)) hg
  have hd1 : 1 ≤ F / Nat.gcd C F :=
    Nat.div_pos (Nat.le_of_dvd hF1 (Nat.gcd_dvd_right C F)) hg
  have hle : C / Nat.gcd C F ≤ C := Nat.div_le_self _ _
  have hrel : C / Nat.gcd C F * F = F / Nat.gcd C F * C := by
    calc C / Nat.gcd C F * F
        = C / Nat.gcd C F * (Nat.gcd C F * (F / Nat.gcd C F)) := by
          rw [Nat.mul_div_cancel' (Nat.gcd_dvd_right C F)]
      _ = C / Nat.gcd C F * Nat.gcd C F * (F / Nat.gcd C F) := by ring
      _ = C * (F / Nat.gcd C F) := by rw [Nat.div_mul_cancel (Nat.gcd_dvd_left C F)]
      _ = F / Nat.gcd C F * C := by ring
  obtain ⟨f1, -⟩ := fraction_in_range s1 now (by omega) (by omega)
  refine ⟨s1, h1, by omega, by omega, ?_, ?_, hsn, by rw [hfr, f1]⟩
  · rw [hdn, hdd, Int.gcd_natCast_natCast]
    exact Nat.coprime_div_gcd_div_gcd hg
  · rw [hdn, hdd, hF, hC]
    exact_mod_cast hrel

/-- C6, the fraction invariant: once `speaker_clock` has run with a positive
clock and sample rate, `0 <= fraction < div_num` holds after every further
speaker operation (`speaker_clock` with a positive clock, `speaker_reset`,
`speaker_w`, `speaker_update`, `speaker_tick`), for every cycle count. -/
theorem fraction_invariant (e : audio_t) (s0 s : speaker_t) (cpuclock : Int) (now : Nat)
    (ops : List speaker_op) (hf : 1 ≤ e.frequency)
    (hc : clock_ok e (speaker_op.clock cpuclock now)) (hops : ∀ op ∈ ops, clock_ok e op)
    (hrun : speaker_run e (speaker_op.clock cpuclock now :: ops) s0 = some s) :
    0 ≤ s.fraction ∧ s.fraction < s.div_num := by
  simp only [speaker_run] at hrun
  split at hrun
  · exact absurd hrun (by simp)
  · rename_i s1 h1
    simp only [speaker_step] at h1
    have hinv := speaker_run_fraction_ok e ops s1 s hf hops
      (speaker_clock_fraction_ok e s0 s1 cpuclock now hf hc h1) hrun
    exact ⟨hinv.2.2.1, hinv.2.2.2⟩

/-- C7 as amended: after `speaker_update`, hence after a `speaker_w` that takes
the update path and after a `speaker_tick` that returns 1, `samplenumber` and
`fraction` are `SAMPLE_COUNT` and `SAMPLE_TIME_FRACTION` of the stored change
cycle (converted to `int`) under the current `div_num / div_denom`;
`speaker_clock` derives both for the current cycle count instead. -/
theorem joint_consistency_after_update (e : audio_t) (s : speaker_t) :
    (∀ data now s1, speaker_update e s data now = some s1 → speaker_consistent s1)
      ∧ (∀ data now s1, data ≠ s.state → ¬ (s.idle ≠ 0 ∧ s.count = 0) →
          speaker_w e s data now = some s1 → speaker_consistent s1)
      ∧ (∀ start cycles now s1, speaker_tick e s start cycles now = some (s1, 1) →
          speaker_consistent s1)
      ∧ (∀ cpuclock now s1, speaker_clock e s cpuclock now = some s1 →
          s1.samplenumber = toInt32 (SAMPLE_COUNT s1 now)
            ∧ s1.fraction = toInt32 (SAMPLE_TIME_FRACTION s1 now)) := by
  refine ⟨?_, ?_, ?_, ?_⟩
  · intro data now s1 h
    exact speaker_update_consistent e s s1 data now h
  · intro data now s1 h1 h2 h
    unfold speaker_w at h
    rw [if_neg h1, if_neg h2] at h
    obtain ⟨s2, h3, h4⟩ := Option.bind_eq_some.mp h
    obtain ⟨j1, j2⟩ := speaker_update_consistent e s s2 data now h3
    simp only [Option.some.injEq] at h4
    subst h4
    unfold speaker_consistent
    refine ⟨j1.trans ?_, j2.trans ?_⟩
    · simp only [SAMPLE_COUNT, tstates_scaled]
    · simp only [SAMPLE_TIME_FRACTION, tstates_scaled]
  · intro start cycles now s1 h
    rcases speaker_tick_cases e s start cycles now _ h with ⟨-, -, h0⟩ | ⟨-, -, -, hj⟩
    · simp at h0
    · exact hj
  · intro cpuclock now s1 h
    unfold speaker_clock at h
    obtain ⟨a, -, h2⟩ := Option.bind_eq_some.mp h
    split_ifs at h2
    simp only [Option.some.injEq] at h2
    subst h2
    obtain ⟨r1, r2, -, -⟩ := speaker_clock_rederive_fields
      { s with div_num := (chosen_clock e cpuclock).tdiv a, div_denom := e.frequency.tdiv a } now
    exact ⟨r1, r2⟩

/-- C2, the completed sample can fall short of the rail: under the fraction
3750/49 (3.375 MHz at 44100 Hz) with the bit high since the sample boundary at
cycle 0, the update at cycle 40 builds the partial sample 5708 and the update at
cycle 77, in the next output sample, completes it to 10845, which
`speaker_fixup_sample` leaves as it is: 77 below `SPEAKER_AMPLITUDE = 10922`
(written as 10841 after the decay filter).  Under 75/1 with updates at cycles 9,
18, 27 and 36 of one output sample the sample completed at cycle 100 is 10919,
again outside the tolerance of 2 of the fix-up. -/
theorem whole_sample_short_of_rail :
    ((speaker_update audio_default speaker_default 1 40).bind fun s1 =>
        (speaker_update audio_default s1 1 77).map fun s2 =>
          (s1.last_sample,
            speaker_update_finished audio_default s1 (speaker_sample audio_default s1.state),
            s2.snd_buf.written))
      = some (5708, 10845, [10841])
    ∧ ((speaker_update_seq audio_default 1 [9, 18, 27, 36]
          { speaker_default with div_num := 75, div_denom := 1 }).bind fun s1 =>
        (speaker_update audio_default s1 1 100).map fun s2 =>
          (s1.last_sample,
            speaker_update_finished audio_default s1 (speaker_sample audio_default s1.state),
            s2.snd_buf.written))
      = some (5240, 10919, [10915])
    ∧ SPEAKER_AMPLITUDE audio_default = 10922
    ∧ speaker_fixup_sample audio_default 10845 = 10845
    ∧ speaker_fixup_sample audio_default 10919 = 10919 := by
  decide

/-- C8 as amended: for a positive new clock, `speaker_clock` at `t2` returns and
stores `SAMPLE_COUNT (t2)` under the new fraction as the sample number (which
may be less than the number stored before), and for `t2 ≤ t3` the following
`speaker_update` at `t3` returns having written
`SAMPLE_COUNT (t3) - SAMPLE_COUNT (t2) ≥ 0` samples, counted under the new
fraction. -/
theorem clock_rederivation_continuity (e : audio_t) (s1 : speaker_t) (cpuclock : Int)
    (data t2 t3 : Nat) (hM : 0 ≤ e.AUDIO_MAXVAL) (hbuf : 1 ≤ e.bufsize) (htau : s1.tau ≠ 0)
    (hf : 1 ≤ e.frequency) (hc : 1 ≤ chosen_clock e cpuclock)
    (hopen : audio_has_work_buffer s1.snd_buf = true) (ht : t2 ≤ t3) :
    ∃ s2, speaker_clock e s1 cpuclock t2 = some s2
      ∧ (t3 * toU64 s2.div_denom < 18446744073709551616 →
          SAMPLE_COUNT s2 t3 < 2147483648 →
          s2.samplenumber = (SAMPLE_COUNT s2 t2 : Int)
            ∧ SAMPLE_COUNT s2 t2 ≤ SAMPLE_COUNT s2 t3
            ∧ ∃ s3, speaker_update e s2 data t3 = some s3
                ∧ s3.snd_buf.written.length
                    = s2.snd_buf.written.length
                      + (SAMPLE_COUNT s2 t3 - SAMPLE_COUNT s2 t2)) := by
  obtain ⟨s2, h2, hdn, hdd, hsn, -, hsb, htau2, -⟩ := speaker_clock_spec e s1 cpuclock t2
    e.frequency.toNat (chosen_clock e cpuclock).toNat (by omega) (by omega) (by omega)
    (by omega)
  have hn1 : 1 ≤ (chosen_clock e cpuclock).toNat
      / Nat.gcd (chosen_clock e cpuclock).toNat e.frequency.toNat :=
    Nat.div_pos (Nat.le_of_dvd (by omega) (Nat.gcd_dvd_left _ _))
      (Nat.gcd_pos_of_pos_left _ (by omega))
  have hd1 : 1 ≤ e.frequency.toNat
      / Nat.gcd (chosen_clock e cpuclock).toNat e.frequency.toNat :=
    Nat.div_pos (Nat.le_of_dvd (by omega) (Nat.gcd_dvd_right _ _))
      (Nat.gcd_pos_of_pos_left _ (by omega))
  refine ⟨s2, h2, ?_⟩
  intro hov hfit
  have hmono := SAMPLE_COUNT_mono s2 t2 t3 ht hov
  have hsn2 : s2.samplenumber = (SAMPLE_COUNT s2 t2 : Int) := by
    rw [hsn, toInt32_natCast _ (by omega)]
  obtain ⟨s3, h3, hlen, -⟩ := speaker_update_count e s2 data t2 t3 hM hbuf
    (by rw [htau2]; exact htau) (by omega) (by omega) (by rw [hsb]; exact hopen) hsn2 ht hov
    hfit
  exact ⟨hsn2, hmono, s3, h3, hlen⟩


/-- C4 as amended: with the fraction 1:1, a work buffer held, `decay` 0, the
bit high, the state in step with cycle `t0`, and a time constant
`tau ≥ 5 * SPEAKER_AMPLITUDE` (`AUDIO_MAXVAL` being an `int`), the update at
`t0` writes nothing and the update at `t0 + 10` writes exactly ten samples, each
`+SPEAKER_AMPLITUDE`: the decay accumulator stays below the threshold at which
it is applied. -/
theorem held_high_ten_samples (e : audio_t) (s : speaker_t) (t0 : Nat)
    (hM : 0 ≤ e.AUDIO_MAXVAL) (hint : e.AUDIO_MAXVAL < 2147483648) (hbuf : 1 ≤ e.bufsize)
    (hA : 2 ≤ SPEAKER_AMPLITUDE e)
    (h5 : 5 * SPEAKER_AMPLITUDE e ≤ s.tau)
    (hopen : audio_has_work_buffer s.snd_buf = true) (hdn : s.div_num = 1)
    (hdd : s.div_denom = 1) (hdecay : s.decay = 0) (hstate : s.state ≠ 0)
    (hsn : s.samplenumber = t0) (hfr : s.fraction = 0) (hlast : s.last_sample = 0)
    (ht : t0 + 10 < 2147483648) :
    ∃ s1 s2, speaker_update e s s.state t0 = some s1
      ∧ s1.snd_buf.written = s.snd_buf.written
      ∧ speaker_update e s1 s.state (t0 + 10) = some s2
      ∧ s2.snd_buf.written
          = s.snd_buf.written ++ List.replicate 10 (SPEAKER_AMPLITUDE e) := by
  obtain ⟨s1, h1, g1, g2, g3, g4, g5, g6, g7, g9, g10⟩ :=
    held_high_first e s t0 hopen hdn hdd hsn hfr hlast (by omega)
  obtain ⟨s2, h2, hw⟩ := held_high_second e s1 s.state t0 hM hbuf hA
    (lt_of_le_of_lt (amplitude_range e hM).2 hint) (by rw [g4]; exact h5)
    (by rw [g1]; exact hopen) g2 g3 (g5.trans hdecay) (by rw [g6]; exact hstate) g7 g9
    (by rw [g10]; omega) ht
  exact ⟨s1, s2, h1, congrArg audio_scratch_t.written g1, h2, by rw [hw, g1]⟩


/-- C9 as amended: from a bit write with a work buffer held (`idle = 0`), the
first `idle_count` consecutive no-change ticks all return 1 and leave the buffer
held; the next tick, number `idle_count + 1`, still returns 1 and hands the
buffer over with `decay` reset to 0; every later no-change tick returns 0 and
leaves the buffer and `decay` as they are, so the buffer is flushed once. -/
theorem idle_lifecycle (e : audio_t) (s : speaker_t) (ta : List Nat) (t : Nat)
    (tb : List Nat) (hM : 0 ≤ e.AUDIO_MAXVAL) (hbuf : 1 ≤ e.bufsize) (hr : speaker_ready s)
    (hidle : s.idle = 0) (hN : s.idle_count = (ta.length : Int))
    (hchain : List.Chain (fun a b => a ≤ b) s.change_tstates ta)
    (hlast : ta.getLastD s.change_tstates ≤ t)
    (hov : t * toU64 s.div_denom < 18446744073709551616)
    (hfit : SAMPLE_COUNT s t < 2147483648) :
    ∃ sa sb sc, speaker_tick_seq e ta s = some (sa, List.replicate ta.length 1)
      ∧ audio_has_work_buffer sa.snd_buf = true
      ∧ speaker_tick e sa sa.change_tstates (t - sa.change_tstates) t = some (sb, 1)
      ∧ audio_has_work_buffer sb.snd_buf = false ∧ sb.decay = 0
      ∧ speaker_tick_seq e tb sb = some (sc, List.replicate tb.length 0)
      ∧ sc.snd_buf = sb.snd_buf ∧ sc.decay = 0 := by
  cases ta with
  | nil =>
    obtain ⟨sb, h1, ha, -⟩ := speaker_tick_first e s t hM hbuf hr hidle hlast hov hfit
    obtain ⟨f1, f2⟩ := ha (by simpa using hN)
    obtain ⟨sc, h3, c1, c2⟩ := speaker_tick_seq_idle e tb sb f1
    exact ⟨s, sb, sc, rfl, hr.1, h1, f1, f2, h3, c1, c2.trans f2⟩
  | cons t1 rest =>
    rw [List.chain_cons] at hchain
    rw [List.getLastD_cons] at hlast
    have ht1 : t1 ≤ t := le_trans (chain_le_getLastD t1 rest hchain.2) hlast
    have hov1 : t1 * toU64 s.div_denom < 18446744073709551616 :=
      lt_of_le_of_lt (Nat.mul_le_mul_right _ ht1) hov
    have hfit1 : SAMPLE_COUNT s t1 < 2147483648 :=
      lt_of_le_of_lt (SAMPLE_COUNT_mono s t1 t ht1 hov) hfit
    have hN0 : s.idle_count ≠ 0 := by
      rw [hN, List.length_cons]
      exact_mod_cast Nat.succ_ne_zero rest.length
    obtain ⟨s1, h1, -, hb⟩ := speaker_tick_first e s t1 hM hbuf hr hidle hchain.1 hov1 hfit1
    obtain ⟨b1, b2, b3, b4, b5, b6⟩ := hb hN0
    obtain ⟨sa, h2, c1, c2, c3, c4, c5, c6⟩ := speaker_tick_seq_countdown e hM hbuf t rest s1 0
      b1 (by rw [b3]; decide) (by rw [b4, hN, List.length_cons])
      (by rw [b2]; exact hchain.2) (by rw [b2]; exact hlast) (by rw [b6]; exact hov)
      (by rw [SAMPLE_COUNT_congr s s1 b5 b6]; exact hfit)
    obtain ⟨sb, h3, ha, -⟩ := speaker_tick_countdown e sa t hM hbuf c1 c2
      (by rw [c3]; decide) (by rw [c6, b2]; exact hlast) (by rw [c5, b6]; exact hov)
      (by rw [SAMPLE_COUNT_congr s sa (c4.trans b5) (c5.trans b6)]; exact hfit)
    obtain ⟨f1, f2⟩ := ha (by rw [c3]; rfl)
    obtain ⟨sc, h4, d1, d2⟩ := speaker_tick_seq_idle e tb sb f1
    refine ⟨sa, sb, sc, ?_, c1.1, h3, f1, f2, h4, d1, d2.trans f2⟩
    simp only [speaker_tick_seq, h1, Option.some_bind, h2, List.length_cons,
      List.replicate_succ]


/-! ## CRTC: the claims -/

/-- C20, register read values: `crtc_data_r` returns `(cur_pos >> 8) & 0x3F` for
register 14, `cur_pos & 0xFF` for register 15, `(lpen >> 8) & 0x3F` for register
16, `lpen & 0xFF` for register 17, and `0xFFFF` for register 31 and for every
other register. -/
theorem crtc_data_r_values (s : crtc_state) :
    (crtc_data_r s).2 =
      if s.reg = 14 then (s.cursor.cur_pos >>> 8) &&& 0x3F
      else if s.reg = 15 then s.cursor.cur_pos &&& 0xFF
      else if s.reg = 16 then (s.lpen >>> 8) &&& 0x3F
      else if s.reg = 17 then s.lpen &&& 0xFF
      else 0xFFFF :=
  crtc_data_r_snd s

/-- C21, register read side effects: `crtc_data_r` on register 16 or on register
17 clears `lpen_valid` and nothing else, so the latched light-pen address is
kept; on register 31 it clears `update_strobe` and nothing else; on any other
register it leaves the state unchanged. -/
theorem crtc_data_r_effects (s : crtc_state) :
    (crtc_data_r s).1 =
        (if s.reg = 16 ∨ s.reg = 17 then { s with lpen_valid := 0 }
          else if s.reg = 31 then { s with update_strobe := 0 }
          else s)
      ∧ (crtc_data_r s).1.lpen = s.lpen := by
  unfold crtc_data_r
  by_cases h14 : s.reg = 14
  · rw [if_pos h14, if_neg (by omega), if_neg (by omega)]; exact ⟨rfl, rfl⟩
  by_cases h15 : s.reg = 15
  · rw [if_neg h14, if_pos h15, if_neg (by omega), if_neg (by omega)]; exact ⟨rfl, rfl⟩
  by_cases h16 : s.reg = 16
  · rw [if_neg h14, if_neg h15, if_pos h16, if_pos (Or.inl h16)]; exact ⟨rfl, rfl⟩
  by_cases h17 : s.reg = 17
  · rw [if_neg h14, if_neg h15, if_neg h16, if_pos h17, if_pos (Or.inr h17)]; exact ⟨rfl, rfl⟩
  by_cases h31 : s.reg = 31
  · rw [if_neg h14, if_neg h15, if_neg h16, if_neg h17, if_pos h31, if_neg (by omega),
      if_pos h31]
    exact ⟨rfl, rfl⟩
  · rw [if_neg h14, if_neg h15, if_neg h16, if_neg h17, if_neg h31, if_neg (by omega),
      if_neg h31]
    exact ⟨rfl, rfl⟩

/-- C28, resize validation: `crtc_videochange` returns 0 exactly when
`1 <= hdisp*8 <= 720` and `1 <= vdisp*scans_per_row <= 600`; otherwise it returns
-1 and the state is unchanged; on success the surface is created with `hdisp*8`
by `vdisp*scans_per_row*yscale`, `crtc.resized` is cleared, and a full redraw is
forced: with display output enabled every cell of the grid is drawn and the
redraw flag is clear afterwards, with display output disabled the redraw flag is
left set. -/
theorem crtc_videochange_validation (e : crtc_env) (s : crtc_state) :
    ((crtc_videochange e s).2 = 0 ↔
        (1 ≤ s.hdisp * 8 ∧ s.hdisp * 8 ≤ 720
          ∧ 1 ≤ s.vdisp * s.scans_per_row ∧ s.vdisp * s.scans_per_row ≤ 600))
      ∧ ((crtc_videochange e s).2 ≠ 0 → crtc_videochange e s = (s, -1))
      ∧ ((crtc_videochange e s).2 = 0 →
          (crtc_videochange e s).1.vdu.surface
              = some (s.hdisp * 8, s.vdisp * s.scans_per_row * e.yscale)
            ∧ (crtc_videochange e s).1.resized = 0
            ∧ (s.video ≠ 0 →
                (crtc_videochange e s).1.redraw = 0
                  ∧ ∃ calls, (crtc_videochange e s).1.vdu.drawn = s.vdu.drawn ++ calls
                      ∧ calls.length = s.vdisp * s.hdisp)
            ∧ (s.video = 0 → (crtc_videochange e s).1.redraw = 1)) := by
  by_cases hc : s.hdisp * 8 = 0 ∨ s.vdisp * s.scans_per_row = 0 ∨ s.hdisp * 8 > 720
      ∨ s.vdisp * s.scans_per_row > 600
  · have hf := crtc_videochange_fail e s hc
    rw [hf]
    have hne : ¬ ((-1 : Int) = 0) := by decide
    refine ⟨⟨fun h => absurd h hne, fun h => ?_⟩, fun _ => rfl, fun h => absurd h hne⟩
    exfalso
    omega
  · obtain ⟨p1, p2, p3, p4, p5⟩ := crtc_videochange_pass e s hc
    refine ⟨⟨fun _ => by omega, fun _ => p1⟩, fun h => absurd p1 h, fun _ => ?_⟩
    refine ⟨p3, p2, fun hv => ⟨(p4 hv).1, _, (p4 hv).2, grid_calls_length _ _ _ _ _ _ _ _⟩, p5⟩

/-- C29, flash-rate index validation: when `n < 0` or `n > 11`,
`crtc_set_flash_rate (n)` returns -1 and leaves the state, and so `flashrate`,
`flashvalue_c` and `flashvalue_t`, unchanged; for every `n` in 0..11 and every
state, also with a frequency of zero, it returns 0 and stores a `flashrate` in
0..7, namely `n` for `n < 8` and `n - 5` otherwise; so the result is -1 exactly
when `n` is out of range. -/
theorem crtc_set_flash_rate_validation (e : crtc_env) (s : crtc_state) (n : Int) :
    ((n < 0 ∨ n > 11) → crtc_set_flash_rate e s n = some (s, -1))
      ∧ ((0 ≤ n ∧ n ≤ 11) →
          ∃ r, crtc_set_flash_rate e s n = some r ∧ r.2 = 0
            ∧ r.1.timing.flashrate = (if n < 8 then n else n - 5)
            ∧ 0 ≤ r.1.timing.flashrate ∧ r.1.timing.flashrate ≤ 7)
      ∧ (∀ r, crtc_set_flash_rate e s n = some r → (r.2 = -1 ↔ (n < 0 ∨ n > 11))) := by
  have hin : (0 ≤ n ∧ n ≤ 11) →
      ∃ r, crtc_set_flash_rate e s n = some r ∧ r.2 = 0
        ∧ r.1.timing.flashrate = (if n < 8 then n else n - 5)
        ∧ 0 ≤ r.1.timing.flashrate ∧ r.1.timing.flashrate ≤ 7 := by
    intro hn
    obtain ⟨r, h, a1, a2, _⟩ := crtc_set_flash_rate_valid e s n hn
    have a3 : r.1.timing.flashrate = (if n < 8 then n else n - 5) := by
      rw [a2]; split_ifs <;> omega
    refine ⟨r, h, a1, a3, ?_, ?_⟩
    · rw [a3]; split_ifs <;> omega
    · rw [a3]; split_ifs <;> omega
  have hout : (n < 0 ∨ n > 11) → crtc_set_flash_rate e s n = some (s, -1) := by
    intro h
    unfold crtc_set_flash_rate
    rw [if_pos h]
  refine ⟨hout, hin, fun r h => ?_⟩
  by_cases hn : n < 0 ∨ n > 11
  · rw [hout hn] at h
    cases h
    exact ⟨fun _ => hn, fun _ => rfl⟩
  · obtain ⟨r2, h2, a1, _⟩ := hin (by omega)
    rw [h] at h2
    cases h2
    constructor
    · intro h1
      rw [a1] at h1
      exact absurd h1 (by decide)
    · intro h1
      exact absurd h1 hn

/-- C19, needs-resize flag: after a data write, `hdisp`, `vdisp` and
`scans_per_row` hold the effective value written to register 1, 6 or 9
(`data & 0xFF`, `data & 0x7F`, `(data & 0x1F) + 1`) and are unchanged by a write
to any other register; `crtc.resized` is 1 when the write was to register 1, 6
or 9 with an effective value different from the stored one, and is unchanged
otherwise, in particular when the effective value is equal or another register
is written. -/
theorem needs_resize_flag (e : crtc_env) (s : crtc_state) (data : Nat) (s' : crtc_state)
    (h : crtc_data_w e s data = some s') :
    s'.hdisp = (if s.reg = 1 then data &&& 0xFF else s.hdisp)
      ∧ s'.vdisp = (if s.reg = 6 then data &&& 0x7F else s.vdisp)
      ∧ s'.scans_per_row = (if s.reg = 9 then (data &&& 0x1F) + 1 else s.scans_per_row)
      ∧ s'.resized = (if (s.reg = 1 ∧ s.hdisp ≠ data &&& 0xFF)
          ∨ (s.reg = 6 ∧ s.vdisp ≠ data &&& 0x7F)
          ∨ (s.reg = 9 ∧ s.scans_per_row ≠ (data &&& 0x1F) + 1) then 1 else s.resized) :=
  crtc_data_w_geometry e s data s' h

/-- C18, degenerate timing is deferred: a data write to register 0, 1, 4, 5 or 9
that leaves `htot`, `vtot` or `scans_per_row` zero (a total other than the one
written is zero) returns normally, and the blank divisor and threshold, the four
cursor-blink periods and the flash periods keep their previous values. -/
theorem degenerate_timing_deferred (e : crtc_env) (s : crtc_state) (data : Nat)
    (hreg : s.reg = 0 ∨ s.reg = 1 ∨ s.reg = 4 ∨ s.reg = 5 ∨ s.reg = 9)
    (hz : (s.reg ≠ 0 ∧ s.htot = 0) ∨ (s.reg ≠ 4 ∧ s.vtot = 0)
      ∨ (s.reg ≠ 9 ∧ s.scans_per_row = 0)) :
    ∃ s', crtc_data_w e s data = some s'
      ∧ (s'.htot = 0 ∨ s'.vtot = 0 ∨ s'.scans_per_row = 0)
      ∧ crtc_constants_kept s.timing s'.timing := by
  rcases hreg with h0 | h1 | h4 | h5 | h9
  · rw [crtc_data_w_r0 e s data h0]
    refine crtc_calc_vsync_freq_skip_kept e _ s.timing (by rfl) ?_
    rcases hz with hz | hz | hz
    · exact absurd h0 hz.1
    · exact Or.inr (Or.inl hz.2)
    · exact Or.inr (Or.inr hz.2)
  · rw [crtc_data_w_r1 e s data h1]
    have hz2 : s.htot = 0 ∨ s.vtot = 0 ∨ s.scans_per_row = 0 := by
      rcases hz with hz | hz | hz
      · exact Or.inl hz.2
      · exact Or.inr (Or.inl hz.2)
      · exact Or.inr (Or.inr hz.2)
    by_cases hd : s.hdisp ≠ data &&& 0xFF
    · rw [if_pos hd]
      exact crtc_calc_vsync_freq_skip_kept e _ s.timing (by rfl) hz2
    · rw [if_neg hd]
      exact crtc_calc_vsync_freq_skip_kept e _ s.timing (by rfl) hz2
  · rw [crtc_data_w_r4 e s data h4]
    refine crtc_calc_vsync_freq_skip_kept e _ s.timing (by rfl) ?_
    rcases hz with hz | hz | hz
    · exact Or.inl hz.2
    · exact absurd h4 hz.1
    · exact Or.inr (Or.inr hz.2)
  · rw [crtc_data_w_r5 e s data h5]
    refine crtc_calc_vsync_freq_skip_kept e _ s.timing (by rfl) ?_
    rcases hz with hz | hz | hz
    · exact Or.inl hz.2
    · exact Or.inr (Or.inl hz.2)
    · exact Or.inr (Or.inr hz.2)
  · rw [crtc_data_w_r9 e s data h9]
    have hz2 : s.htot = 0 ∨ s.vtot = 0 := by
      rcases hz with hz | hz | hz
      · exact Or.inl hz.2
      · exact Or.inr hz.2
      · exact absurd h9 hz.1
    by_cases hd : s.scans_per_row ≠ (data &&& 0x1F) + 1
    · rw [if_pos hd]
      refine crtc_calc_vsync_freq_skip_kept e _ s.timing (by rfl) ?_
      rcases hz2 with hz2 | hz2
      · exact Or.inl hz2
      · exact Or.inr (Or.inl hz2)
    · rw [if_neg hd]
      refine crtc_calc_vsync_freq_skip_kept e _ s.timing (by rfl) ?_
      rcases hz2 with hz2 | hz2
      · exact Or.inl hz2
      · exact Or.inr (Or.inl hz2)

/-- C23, status query: `crtc_status_r` sets `update_strobe` to 0x80, scans the
keys when light-pen support is enabled and no address is latched, and returns
`0x80 | (0x40 if light-pen support is enabled and lpen_valid holds after the
scan) | (0x20 if vertical blank)`, so bit 7 is set in every result; vertical
blank is `(cycles mod vblank_divval) < vblank_cmpval` under method 0 (the divisor
being positive) and `(host_ms / 10)` odd otherwise. -/
theorem crtc_status_r_value (e : crtc_env) (s : crtc_state)
    (hd : s.vblank_method = 0 →
      (0 < s.timing.vblank_divval ∧ s.timing.vblank_divval < 2147483648)
        ∧ (0 ≤ s.timing.vblank_cmpval ∧ s.timing.vblank_cmpval < 2147483648)) :
    ∃ s1 v, crtc_status_r e s = some (s1, v)
      ∧ s1 = crtc_status_scan e s
      ∧ s1.update_strobe = 0x80
      ∧ (s.vblank_method = 0 →
          v = 0x80
            ||| ((if e.lpen = true ∧ s1.lpen_valid ≠ 0 then 0x40 else 0)
              ||| (if (e.tstates : Int) % s.timing.vblank_divval < s.timing.vblank_cmpval
                    then 0x20 else 0)))
      ∧ (s.vblank_method ≠ 0 →
          v = 0x80
            ||| ((if e.lpen = true ∧ s1.lpen_valid ≠ 0 then 0x40 else 0)
              ||| (if (e.time_ms / 10) % 2 = 1 then 0x20 else 0)))
      ∧ v &&& 0x80 = 0x80 := by
  have hs : (crtc_status_scan e s).update_strobe = 0x80 := by
    rw [crtc_status_scan_frame]
  have hv : crtc_vblank e (crtc_status_scan e s) = crtc_vblank e s :=
    crtc_vblank_congr e s _ (by rw [crtc_status_scan_frame]) (by rw [crtc_status_scan_frame])
  have hl : (if e.lpen = true ∧ (crtc_status_scan e s).lpen_valid ≠ 0 then 0x40 else 0) = 0x40
      ∨ (if e.lpen = true ∧ (crtc_status_scan e s).lpen_valid ≠ 0 then 0x40 else 0) = 0 := by
    split_ifs
    · exact Or.inl rfl
    · exact Or.inr rfl
  unfold crtc_status_r
  rw [hv, hs]
  unfold crtc_status_lpen
  by_cases h0 : s.vblank_method = 0
  · rw [crtc_vblank_cycle e s h0 (hd h0).1 (hd h0).2, Option.some_bind]
    refine ⟨_, _, rfl, rfl, hs, fun _ => ?_, fun h => absurd h0 h, ?_⟩
    · generalize (if e.lpen = true ∧ (crtc_status_scan e s).lpen_valid ≠ 0 then 0x40 else 0)
        = lp at hl ⊢
      by_cases hb : (e.tstates : Int) % s.timing.vblank_divval < s.timing.vblank_cmpval
      · rcases hl with rfl | rfl <;> simp [hb]
      · rcases hl with rfl | rfl <;> simp [hb]
    · generalize (if e.lpen = true ∧ (crtc_status_scan e s).lpen_valid ≠ 0 then 0x40 else 0)
        = lp at hl ⊢
      by_cases hb : (e.tstates : Int) % s.timing.vblank_divval < s.timing.vblank_cmpval
      · rcases hl with rfl | rfl <;> simp [hb] <;> decide
      · rcases hl with rfl | rfl <;> simp [hb] <;> decide
  · rw [crtc_vblank_clock e s h0, Option.some_bind]
    refine ⟨_, _, rfl, rfl, hs, fun h => absurd h h0, fun _ => ?_, ?_⟩
    · generalize (if e.lpen = true ∧ (crtc_status_scan e s).lpen_valid ≠ 0 then 0x40 else 0)
        = lp at hl ⊢
      by_cases hb : (e.time_ms / 10) % 2 = 1
      · rcases hl with rfl | rfl <;> simp [hb]
      · rcases hl with rfl | rfl <;> simp [hb]
    · generalize (if e.lpen = true ∧ (crtc_status_scan e s).lpen_valid ≠ 0 then 0x40 else 0)
        = lp at hl ⊢
      by_cases hb : (e.time_ms / 10) % 2 = 1
      · rcases hl with rfl | rfl <;> simp [hb] <;> decide
      · rcases hl with rfl | rfl <;> simp [hb] <;> decide

/-- C24, blank duty cycle: under the cycle-accurate method with divisor `D >= 1`
and threshold `T <= D`, exactly `T` of the `D` consecutive cycle values
`c, c+1, ..., c+D-1` make `crtc_vblank` report blank (return 0x80). -/
theorem blank_duty_cycle (e : crtc_env) (s : crtc_state) (D T c : Nat) (hD : 1 ≤ D)
    (hD2 : D < 2147483648) (hT : T ≤ D) (_hc : c + D < 18446744073709551616)
    (h0 : s.vblank_method = 0) (hd : s.timing.vblank_divval = D)
    (ht : s.timing.vblank_cmpval = T) :
    ((List.range D).filter
      (fun i => crtc_vblank { e with tstates := c + i } s = some 0x80)).length = T := by
  rw [filter_range_length]
  rw [← count_mod_lt_window D T c hT]
  congr 1
  funext i
  rw [crtc_vblank_cycle _ s h0 (by rw [hd]; omega) (by rw [ht]; omega), hd, ht]
  by_cases h : (c + i) % D < T
  · simp only [h, decide_True, eq_iff_iff, iff_true]
    rw [if_pos (by exact_mod_cast h)]
    simp
  · simp only [h, decide_False, eq_iff_iff, iff_false]
    rw [if_neg (by exact_mod_cast h)]
    simp

/-- C25, a change of the cursor phase that is not reported: in mode 0 the
initial state holds the phase 0x00, current and observed; `crtc_update_cursor`
makes the phase 0xff, so the cursor state changes, and returns 0.  In mode 1
with the phase 0xff before, it makes the phase 0x00 and returns 0 as well.  In
these two modes the observed phase is assigned together with the current one,
before the comparison that decides the returned value. -/
theorem cursor_change_unreported :
    crtc_initial.cursor.cur_mode = 0 ∧ crtc_initial.cursor.cur_blink = 0x00
      ∧ crtc_initial.cursor.cur_blink_last = 0x00
      ∧ (crtc_update_cursor crtc_env_default crtc_initial).map
          (fun r => (r.2, r.1.cursor.cur_blink, r.1.cursor.cur_blink_last))
          = some (0, 0xff, 0xff)
      ∧ (crtc_update_cursor crtc_env_default
            { crtc_initial with
              cursor := { crtc_initial.cursor with
                cur_mode := 1, cur_blink := 0xff, cur_blink_last := 0xff } }).map
          (fun r => (r.2, r.1.cursor.cur_blink, r.1.cursor.cur_blink_last))
          = some (0, 0x00, 0x00) := by
  decide

/-- C26, blink edge detection: in a blink mode (2 or 3) with the positive period
`p` of the mode and of the time base (cycles when not turbo, milliseconds when
turbo, the same for every call), successive calls of `crtc_update_cursor` at the
elapsed counts `t1, t2, ...`, the phase of `t0` having been observed before,
return 1 exactly where the parity of `t / p` differs from that of the preceding
count and 0 elsewhere; and when the counts never decrease and never advance by
more than one period, the number of calls that return 1 is the number of period
boundaries crossed, `last / p - t0 / p`. -/
theorem blink_edge_detection (s : crtc_state) (turbo : Bool) (p t0 : Nat)
    (es : List crtc_env) (hm : s.cursor.cur_mode = 2 ∨ s.cursor.cur_mode = 3)
    (hper : cursor_period turbo s = (p : Int)) (hp : 0 < p) (hp2 : p < 2147483648)
    (hturbo : ∀ e ∈ es, e.turbo = turbo)
    (hlast : s.cursor.cur_blink_last = cursor_phase t0 p) :
    crtc_update_cursor_seq es s = some (blink_edges p t0 (es.map cursor_elapsed))
      ∧ (List.Chain (fun a b => a ≤ b ∧ b ≤ a + p) t0 (es.map cursor_elapsed) →
          ((blink_edges p t0 (es.map cursor_elapsed)).filter (fun r => r = 1)).length
            = (es.map cursor_elapsed).getLastD t0 / p - t0 / p) := by
  refine ⟨crtc_update_cursor_seq_blink p hp hp2 turbo es s t0 hm hper hturbo hlast, fun hc => ?_⟩
  have := blink_edges_count p hp _ t0 hc
  omega

/-- C22, 14-bit register pairs: for the display start (registers 12/13), the
cursor position (14/15) and the update address (18/19), a write of the high
register keeps bits 0-7 and leaves `data & 0x3F` above them, a write of the low
register sets bits 0-7 to the data byte and keeps bits 8-13, so that after
writing high = `h` and low = `l` in either order the value is
`((h & 0x3F) << 8) | l`; reading registers 14 and 15 after the cursor writes
returns `h & 0x3F` and `l`. -/
theorem register_pair_round_trip (e : crtc_env) (s : crtc_state) (h l k : Nat)
    (hk : k = 12 ∨ k = 14 ∨ k = 18) (hl : l < 256) :
    (∃ s1, crtc_data_w e (crtc_address_w s k) h = some s1
        ∧ register_pair k s1 &&& 0xFF = register_pair k s &&& 0xFF
        ∧ register_pair k s1 >>> 8 = h &&& 0x3F)
      ∧ (∃ s1, crtc_data_w e (crtc_address_w s (k + 1)) l = some s1
        ∧ register_pair k s1 &&& 0xFF = l
        ∧ register_pair k s1 &&& 0x3F00 = register_pair k s &&& 0x3F00)
      ∧ (∃ s2, crtc_write_regs e [(k, h), (k + 1, l)] s = some s2
        ∧ register_pair k s2 = ((h &&& 0x3F) <<< 8) ||| l
        ∧ (k = 14 → (crtc_data_r (crtc_address_w s2 14)).2 = h &&& 0x3F
            ∧ (crtc_data_r (crtc_address_w s2 15)).2 = l))
      ∧ (∃ s2, crtc_write_regs e [(k + 1, l), (k, h)] s = some s2
        ∧ register_pair k s2 = ((h &&& 0x3F) <<< 8) ||| l
        ∧ (k = 14 → (crtc_data_r (crtc_address_w s2 14)).2 = h &&& 0x3F
            ∧ (crtc_data_r (crtc_address_w s2 15)).2 = l)) := by
  refine ⟨?_, ?_, ?_, ?_⟩
  · obtain ⟨s1, e1, f1⟩ := crtc_data_w_pair_high e (crtc_address_w s k) h k hk
      (crtc_address_w_reg s k (by omega))
    refine ⟨s1, e1, ?_, ?_⟩
    · rw [f1, register_pair_address_w]; exact pair_high_keeps_low _ h
    · rw [f1]; exact pair_high_sets _ h
  · obtain ⟨s1, e1, f1⟩ := crtc_data_w_pair_low e (crtc_address_w s (k + 1)) l k hk
      (crtc_address_w_reg s (k + 1) (by omega))
    refine ⟨s1, e1, ?_, ?_⟩
    · rw [f1, pair_low_sets, byte_and_ff l hl]
    · rw [f1, register_pair_address_w]; exact pair_low_keeps_high _ l
  · obtain ⟨s2, e2, f2⟩ := crtc_write_pair_high_low e s h l k hk hl
    refine ⟨s2, e2, f2, fun h14 => ?_⟩
    subst h14
    exact crtc_read_cursor_pair s2 h l hl f2
  · obtain ⟨s2, e2, f2⟩ := crtc_write_pair_low_high e s h l k hk hl
    refine ⟨s2, e2, f2, fun h14 => ?_⟩
    subst h14
    exact crtc_read_cursor_pair s2 h l hl f2


/-- C14 as amended, the scenario frequency: on a model with the 13.5 MHz
crystal, after register 0 = 63, register 4 = 38, register 5 = 2 and register 9 =
9 are written from any state, the vertical-sync frequency is the `double` that
`13500000 / (64*8) / (39*10 + 2)` gives, `591653658122449 / 2^43`, within
`2^-48` of `421875/6272` and between 67 and 67.5 Hz. -/
theorem vsync_scenario (e : crtc_env) (s : crtc_state) (hx : e.model_2mhz = false) :
    ∃ s', crtc_write_regs e [(0, 63), (4, 38), (5, 2), (9, 9)] s = some s'
      ∧ s'.timing.vsync_freq = 591653658122449 / 8796093022208
      ∧ |s'.timing.vsync_freq - 421875 / 6272| < 1 / 2 ^ 48
      ∧ (67 : ℚ) < s'.timing.vsync_freq ∧ s'.timing.vsync_freq < 67 + 1 / 2 := by
  obtain ⟨s', h⟩ := crtc_write_timing_defined e s 63 38 2 9
  obtain ⟨_, _, _, _, hf⟩ := crtc_write_timing_freq e s s' 63 38 2 9 h
  have hv : vsync_formula e ((63 &&& 0xFF) + 1) ((38 &&& 0x7F) + 1) ((9 &&& 0x1F) + 1)
      (2 &&& 0x1F) = 591653658122449 / 8796093022208 := by
    unfold vsync_formula vdu_xtal
    rw [hx]
    decide!
  rw [hv] at hf
  have hf2 : s'.timing.vsync_freq = 591653658122449 / 8796093022208 := by
    rw [hf]; norm_num
  refine ⟨s', h, hf2, ?_, ?_, ?_⟩
  · rw [hf2, abs_lt]; constructor <;> norm_num
  · rw [hf2]; norm_num
  · rw [hf2]; norm_num

/-- C15, vertical-sync derivation: when `htot`, `vtot` and `scans_per_row` are
non-zero, a result of `crtc_calc_vsync_freq` has `vsync_freq` equal to
`(xtal / (htot*8)) / (vtot*scans_per_row + vtot_adj)` in `double` arithmetic
(both quotients rounded to nearest), or to 1 when that value is below 5, with
`xtal` 12 MHz on the 2 MHz model and 13.5 MHz otherwise; and the writes of
registers 0, 4, 5 and 9 return from any state with `htot = R0+1`,
`vtot = (R4 & 0x7F)+1`, `vtot_adj = R5 & 0x1F`, `scans_per_row = (R9 & 0x1F)+1`
and the frequency that function of the four register values and the crystal
alone, whatever the state before; the rounded quotient differs from the exact
one by at most `2^-51` of its value. -/
theorem vsync_derivation (e : crtc_env) (s : crtc_state) (r0 r4 r5 r9 : Nat) (h0 : r0 < 256) :
    (∀ x x', x.htot ≠ 0 ∧ x.vtot ≠ 0 ∧ x.scans_per_row ≠ 0 →
        crtc_calc_vsync_freq e x = some x' →
        x'.timing.vsync_freq
          = (if dbl_nearest (dbl_nearest ((if e.model_2mhz then (12000000 : ℚ) else 13500000)
                    / ((x.htot * 8 : Nat) : ℚ))
                  / ((x.vtot * x.scans_per_row + x.vtot_adj : Nat) : ℚ)) < 5 then 1
              else dbl_nearest (dbl_nearest ((if e.model_2mhz then (12000000 : ℚ) else 13500000)
                    / ((x.htot * 8 : Nat) : ℚ))
                  / ((x.vtot * x.scans_per_row + x.vtot_adj : Nat) : ℚ))))
      ∧ ∃ s', crtc_write_regs e [(0, r0), (4, r4), (5, r5), (9, r9)] s = some s'
          ∧ s'.htot = r0 + 1 ∧ s'.vtot = (r4 &&& 0x7F) + 1 ∧ s'.vtot_adj = r5 &&& 0x1F
          ∧ s'.scans_per_row = (r9 &&& 0x1F) + 1
          ∧ s'.timing.vsync_freq
              = (if dbl_nearest (dbl_nearest
                        ((if e.model_2mhz then (12000000 : ℚ) else 13500000)
                          / (((r0 + 1) * 8 : Nat) : ℚ))
                      / ((((r4 &&& 0x7F) + 1) * ((r9 &&& 0x1F) + 1) + (r5 &&& 0x1F) : Nat)
                          : ℚ)) < 5 then 1
                  else dbl_nearest (dbl_nearest
                        ((if e.model_2mhz then (12000000 : ℚ) else 13500000)
                          / (((r0 + 1) * 8 : Nat) : ℚ))
                      / ((((r4 &&& 0x7F) + 1) * ((r9 &&& 0x1F) + 1) + (r5 &&& 0x1F) : Nat)
                          : ℚ)))
          ∧ |dbl_nearest (dbl_nearest
                  ((if e.model_2mhz then (12000000 : ℚ) else 13500000)
                    / (((r0 + 1) * 8 : Nat) : ℚ))
                / ((((r4 &&& 0x7F) + 1) * ((r9 &&& 0x1F) + 1) + (r5 &&& 0x1F) : Nat) : ℚ))
              - ((if e.model_2mhz then (12000000 : ℚ) else 13500000)
                    / (((r0 + 1) * 8 : Nat) : ℚ))
                / ((((r4 &&& 0x7F) + 1) * ((r9 &&& 0x1F) + 1) + (r5 &&& 0x1F) : Nat) : ℚ)|
            ≤ ((if e.model_2mhz then (12000000 : ℚ) else 13500000)
                    / (((r0 + 1) * 8 : Nat) : ℚ))
                / ((((r4 &&& 0x7F) + 1) * ((r9 &&& 0x1F) + 1) + (r5 &&& 0x1F) : Nat) : ℚ)
                / 2 ^ 51 := by
  constructor
  · intro x x' hz hx
    exact (crtc_calc_vsync_freq_spec e x x' hz hx).2.1
  · obtain ⟨s', h⟩ := crtc_write_timing_defined e s r0 r4 r5 r9
    obtain ⟨a1, a2, a3, a4, hf⟩ := crtc_write_timing_freq e s s' r0 r4 r5 r9 h
    rw [byte_and_ff r0 h0] at a1 hf
    have m2 := and_le_mask r4 0x7F
    have m3 := and_le_mask r9 0x1F
    have m4 := and_le_mask r5 0x1F
    have hD : ((r4 &&& 0x7F) + 1) * ((r9 &&& 0x1F) + 1) ≤ 128 * 32 :=
      Nat.mul_le_mul (by omega) (by omega)
    have hD0 : 0 < ((r4 &&& 0x7F) + 1) * ((r9 &&& 0x1F) + 1) :=
      Nat.mul_pos (by omega) (by omega)
    exact ⟨s', h, a1, a2, a3, a4, hf,
      vsync_formula_close e (r0 + 1) ((r4 &&& 0x7F) + 1) ((r9 &&& 0x1F) + 1) (r5 &&& 0x1F)
        ⟨by omega, by omega⟩ ⟨by omega, by omega⟩⟩

/-- C16 as amended, timing registers re-derive: a data write to register 0, 1,
4, 5 or 9 returns from any state, and when `htot`, `vtot` and `scans_per_row`
are non-zero after it (the flash rate stored before being one of 0..7) the
frequency, the blank divisor and threshold, the cursor-blink periods and the
flash periods are the ones that the `double` expressions of `crtc_clock` and
`crtc_set_flash_rate` give for the totals after the write and the current CPU
clock; a data write to register 6 returns and leaves the frequency and every
derived constant as they were, without a new derivation. -/
theorem timing_registers_rederive (e : crtc_env) (s : crtc_state) (data : Nat)
    (hfl : 0 ≤ s.timing.flashrate ∧ s.timing.flashrate ≤ 7) :
    ((s.reg = 0 ∨ s.reg = 1 ∨ s.reg = 4 ∨ s.reg = 5 ∨ s.reg = 9) →
        ∃ s', crtc_data_w e s data = some s'
          ∧ (s'.htot ≠ 0 ∧ s'.vtot ≠ 0 ∧ s'.scans_per_row ≠ 0 →
              s'.timing.vsync_freq
                  = (if vsync_formula e s'.htot s'.vtot s'.scans_per_row s'.vtot_adj < 5
                      then 1
                      else vsync_formula e s'.htot s'.vtot s'.scans_per_row s'.vtot_adj)
                ∧ crtc_rates_derived e.cvt_invalid s'.timing
                    (vsync_formula e s'.htot s'.vtot s'.scans_per_row s'.vtot_adj) e.cpuclock
                ∧ crtc_flash_derived e.cvt_invalid s'.timing
                    (vsync_formula e s'.htot s'.vtot s'.scans_per_row s'.vtot_adj) e.cpuclock
                    s.timing.flashrate))
      ∧ (s.reg = 6 → ∃ s', crtc_data_w e s data = some s' ∧ s'.timing = s.timing) := by
  constructor
  · intro hreg
    obtain ⟨s', h⟩ := crtc_data_w_timing_total e s data hreg
    refine ⟨s', h, fun hz => ?_⟩
    obtain ⟨a1, a2, a3⟩ := crtc_data_w_timing_derived e s data s' hreg h hz
    exact ⟨a1, a2, a3 ⟨hfl.1, by omega⟩⟩
  · intro h6
    rw [crtc_data_w_r6 e s data h6]
    refine ⟨_, rfl, ?_⟩
    split_ifs <;> rfl

/-- C17, a blink period of zero: with register 0 = 0, register 4 = 0 and register
9 = 0 written from the initial state at a CPU clock of 3.375 MHz, the frequency
is 1687500 Hz and both millisecond blink periods are 0, so that in turbo mode the
division in `crtc_update_cursor`, made when register 10 selects blink mode 2, is
a division by zero. -/
theorem blink_period_zero :
    (crtc_write_regs { crtc_env_default with turbo := true } [(0, 0), (4, 0), (9, 0)]
        crtc_initial).map
      (fun s => (s.timing.vsync_freq, s.timing.vblank_divval, s.timing.cur_blink_rate_t1r32,
        s.timing.cur_blink_rate_t1r16)) = some (1687500, 2, 0, 0)
      ∧ cur_blink_phase 0 0 = none
      ∧ crtc_write_regs { crtc_env_default with turbo := true }
          [(0, 0), (4, 0), (9, 0), (10, 0x40)] crtc_initial = none := by
  decide!

/-- C30, the flash rate numbers 8 and 3 differ: at 50 Hz and a CPU clock of 3.375
MHz, `crtc_set_flash_rate (8)` stores the rate 3 with the periods 17280000 cycles
and 5120 ms, `crtc_set_flash_rate (3)` stores the rate 3 with 540000 cycles and
160 ms, and `crtc_clock` after `crtc_set_flash_rate (8)` changes the periods to
540000 cycles and 160 ms. -/
theorem flash_rate_alias_divergence :
    (crtc_set_flash_rate crtc_env_default crtc_at_50hz 8).map
        (fun r => (r.2, r.1.timing.flashrate, r.1.timing.flashvalue_c,
          r.1.timing.flashvalue_t)) = some (0, 3, 17280000, 5120)
      ∧ (crtc_set_flash_rate crtc_env_default crtc_at_50hz 3).map
        (fun r => (r.2, r.1.timing.flashrate, r.1.timing.flashvalue_c,
          r.1.timing.flashvalue_t)) = some (0, 3, 540000, 160)
      ∧ ((crtc_set_flash_rate crtc_env_default crtc_at_50hz 8).bind
          (fun r => crtc_clock crtc_env_default r.1 3375000)).map
        (fun s => (s.timing.vsync_freq, s.timing.flashrate, s.timing.flashvalue_c,
          s.timing.flashvalue_t)) = some (50, 3, 540000, 160) := by
  decide!


/-! ## Speaker: further claims -/

/-- C31, update within one output sample: when `speaker_update` runs with a work
buffer held at a cycle whose sample number equals the stored `samplenumber`, it
returns with the ring buffer (and so the samples written) and the decay
unchanged, `last_sample` increased by
`sample * (fraction_now - fraction) * div_denom / div_num` in C `int`
arithmetic (the products wrapping modulo `2^32`, the division truncating; the
exact quotient when the product stays within the range of `int`), `sample`
being the full value of the state held before the call, `samplenumber`
unchanged, and `fraction`, `state` and the change cycle set to the new values. -/
theorem update_within_sample (e : audio_t) (s : speaker_t) (data now : Nat)
    (hdn : s.div_num ≠ 0) (hdd : s.div_denom ≠ 0) (hopen : s.snd_buf.has_work = true)
    (hsame : toInt32 (SAMPLE_COUNT s now) = s.samplenumber) :
    ∃ s1, speaker_update e s data now = some s1
      ∧ s1.snd_buf = s.snd_buf ∧ s1.decay = s.decay
      ∧ s1.last_sample = s.last_sample
          + (toInt32
              (toInt32 (speaker_sample e s.state
                  * (toInt32 (SAMPLE_TIME_FRACTION s now) - s.fraction))
                * s.div_denom)).tdiv s.div_num
      ∧ (-2147483648 ≤ speaker_sample e s.state
              * (toInt32 (SAMPLE_TIME_FRACTION s now) - s.fraction) * s.div_denom
          ∧ speaker_sample e s.state
              * (toInt32 (SAMPLE_TIME_FRACTION s now) - s.fraction) * s.div_denom
            < 2147483648 →
          s1.last_sample = s.last_sample
            + (speaker_sample e s.state
                * (toInt32 (SAMPLE_TIME_FRACTION s now) - s.fraction)
                * s.div_denom).tdiv s.div_num)
      ∧ s1.samplenumber = s.samplenumber
      ∧ s1.fraction = toInt32 (SAMPLE_TIME_FRACTION s now)
      ∧ s1.state = data ∧ s1.change_tstates = now := by
  refine ⟨_, speaker_update_same e s data now hdn hdd hopen hsame, ?_⟩
  obtain ⟨f1, _, _, _, f5, f6, f7, f8, f9, f10, _, _, _⟩ :=
    speaker_update_store_fields s data now (toInt32 (SAMPLE_COUNT s now))
      (toInt32 (SAMPLE_TIME_FRACTION s now))
      (s.last_sample
        + PARTIAL_SAMPLE s (toInt32 (SAMPLE_TIME_FRACTION s now) - s.fraction)
            (speaker_sample e s.state))
  refine ⟨f1, f5, f9, fun hr => ?_, f7.trans hsame, f8, f6, f10⟩
  rw [f9, PARTIAL_SAMPLE_of_range s _ _ hr.1 hr.2]

/-- C33, update across a sample boundary: when `speaker_update` runs with a work
buffer held at a cycle whose sample number exceeds the stored one (the
difference fitting an `int`), it returns having passed to the emitter
`samplenumber_now - samplenumber` samples: first the completed in-flight one,
`speaker_fixup_sample (last_sample + PARTIAL_SAMPLE (SAMPLE_TIME_FRACTION_REMAINING
(change cycle), sample))`, then the whole ones; afterwards `last_sample` is
`PARTIAL_SAMPLE (fraction_now, sample)` and `fraction`, `samplenumber`, `state`
and the change cycle hold the new values.  `PARTIAL_SAMPLE` is the macro in C
`int` arithmetic: its products wrap modulo `2^32`. -/
theorem update_across_boundary (e : audio_t) (s : speaker_t) (data now : Nat)
    (hM : 0 ≤ e.AUDIO_MAXVAL) (hbuf : 1 ≤ e.bufsize) (htau : s.tau ≠ 0)
    (hdn : s.div_num ≠ 0) (hdd : s.div_denom ≠ 0) (hopen : s.snd_buf.has_work = true)
    (hcross : s.samplenumber < toInt32 (SAMPLE_COUNT s now))
    (hfit : toInt32 (SAMPLE_COUNT s now) - s.samplenumber - 1 < 2147483648) :
    ∃ s1, speaker_update e s data now = some s1
      ∧ s1.snd_buf.written = s.snd_buf.written
          ++ decay_output e s.tau
              (speaker_fixup_sample e
                (s.last_sample + PARTIAL_SAMPLE s
                  (toInt32 (SAMPLE_TIME_FRACTION_REMAINING s s.change_tstates))
                  (speaker_sample e s.state))) 1 s.decay
          ++ decay_output e s.tau (speaker_sample e s.state)
              (toInt32 (SAMPLE_COUNT s now) - s.samplenumber - 1).toNat
              (decay_after s.tau
                (speaker_fixup_sample e
                  (s.last_sample + PARTIAL_SAMPLE s
                    (toInt32 (SAMPLE_TIME_FRACTION_REMAINING s s.change_tstates))
                    (speaker_sample e s.state))) 1 s.decay)
      ∧ (s1.snd_buf.written.length : Int)
          = s.snd_buf.written.length + (toInt32 (SAMPLE_COUNT s now) - s.samplenumber)
      ∧ s1.last_sample = PARTIAL_SAMPLE s (toInt32 (SAMPLE_TIME_FRACTION s now))
          (speaker_sample e s.state)
      ∧ s1.fraction = toInt32 (SAMPLE_TIME_FRACTION s now)
      ∧ s1.samplenumber = toInt32 (SAMPLE_COUNT s now)
      ∧ s1.state = data ∧ s1.change_tstates = now := by
  have hk : toInt32 (toInt32 (SAMPLE_COUNT s now) - s.samplenumber - 1)
      = toInt32 (SAMPLE_COUNT s now) - s.samplenumber - 1 :=
    toInt32_of_range _ (by omega) hfit
  obtain ⟨s1, h1, hw, _, _, hl⟩ := speaker_update_cross e s data now hM hbuf htau hdn hdd hopen
    (by omega) (by rw [hk]; omega)
  obtain ⟨_, f2, f3, f4, f5⟩ := speaker_update_fields e s s1 data now h1
  rw [hk] at hw
  refine ⟨s1, h1, hw, ?_, hl, f5, f4, f2, f3⟩
  rw [hw, List.length_append, List.length_append, decay_output_length, decay_output_length]
  push_cast
  rw [Int.toNat_of_nonneg (by omega)]
  omega

/-- C32 as amended: when `speaker_update` crosses a sample boundary, the whole
samples that follow the completed in-flight one are the emitter's output for the
full value of the state held before the call (`+SPEAKER_AMPLITUDE` if the stored
bit is set, `-SPEAKER_AMPLITUDE` if it is clear); the bit passed to the call only
becomes the stored state, and the samples written are the same whichever bit is
passed. -/
theorem whole_samples_old_state (e : audio_t) (s : speaker_t) (data now : Nat)
    (hM : 0 ≤ e.AUDIO_MAXVAL) (hbuf : 1 ≤ e.bufsize) (htau : s.tau ≠ 0)
    (hdn : s.div_num ≠ 0) (hdd : s.div_denom ≠ 0) (hopen : s.snd_buf.has_work = true)
    (hcross : s.samplenumber < toInt32 (SAMPLE_COUNT s now))
    (hfit : toInt32 (SAMPLE_COUNT s now) - s.samplenumber - 1 < 2147483648) :
    ∃ s1 first, speaker_update e s data now = some s1
      ∧ first.length = 1
      ∧ s1.snd_buf.written = s.snd_buf.written ++ first
          ++ decay_output e s.tau
              (if s.state ≠ 0 then SPEAKER_AMPLITUDE e else -SPEAKER_AMPLITUDE e)
              (toInt32 (SAMPLE_COUNT s now) - s.samplenumber - 1).toNat
              (decay_after s.tau (speaker_update_finished e s (speaker_sample e s.state)) 1
                s.decay)
      ∧ s1.state = data
      ∧ ∀ data2, (speaker_update e s data2 now).map (fun x => x.snd_buf.written)
          = some s1.snd_buf.written := by
  have hk : toInt32 (toInt32 (SAMPLE_COUNT s now) - s.samplenumber - 1)
      = toInt32 (SAMPLE_COUNT s now) - s.samplenumber - 1 :=
    toInt32_of_range _ (by omega) hfit
  obtain ⟨s1, h1, hw, _, _, _⟩ := speaker_update_cross e s data now hM hbuf htau hdn hdd hopen
    (by omega) (by rw [hk]; omega)
  obtain ⟨_, f2, _, _, _⟩ := speaker_update_fields e s s1 data now h1
  rw [hk] at hw
  refine ⟨s1, _, h1, decay_output_length _ _ _ 1 _, hw, f2, fun data2 => ?_⟩
  obtain ⟨s2, h2, hw2, _, _, _⟩ := speaker_update_cross e s data2 now hM hbuf htau hdn hdd
    hopen (by omega) (by rw [hk]; omega)
  rw [hk] at hw2
  rw [h2, Option.map_some', hw2, hw]

/-- C36, the range assertion of `speaker_update` never fails: whenever
`SPEAKER_AMPLITUDE >= 2`, the value that `speaker_fixup_sample` returns for any
integer lies in `[-SPEAKER_AMPLITUDE, +SPEAKER_AMPLITUDE]`, hence in
`[-(AUDIO_MAXVAL + 1), AUDIO_MAXVAL]`, so the `assert` on the completed in-flight
sample holds for every state and the emitting branch goes on to `speaker_fill`. -/
theorem assert_never_fails (e : audio_t) (hA : 2 ≤ SPEAKER_AMPLITUDE e) :
    (∀ x, -SPEAKER_AMPLITUDE e ≤ speaker_fixup_sample e x
        ∧ speaker_fixup_sample e x ≤ SPEAKER_AMPLITUDE e
        ∧ -(e.AUDIO_MAXVAL + 1) ≤ speaker_fixup_sample e x
        ∧ speaker_fixup_sample e x ≤ e.AUDIO_MAXVAL)
      ∧ ∀ s sample k,
          (speaker_update_finished e s sample ≥ -(e.AUDIO_MAXVAL + 1)
            ∧ speaker_update_finished e s sample ≤ e.AUDIO_MAXVAL)
          ∧ speaker_update_emit e s sample k
              = (speaker_fill e { s with last_sample := speaker_update_finished e s sample }
                  (speaker_update_finished e s sample) 1).bind
                fun s1 => speaker_update_whole e s1 sample k := by
  have hM : 0 ≤ e.AUDIO_MAXVAL := by
    have := amplitude_maxval e hA
    omega
  constructor
  · intro x
    obtain ⟨a1, a2⟩ := fixup_within_amplitude e (by omega) x
    obtain ⟨b1, b2⟩ := fixup_range e hM x
    exact ⟨a1, a2, b1, b2⟩
  · intro s sample k
    have hr := fixup_range e hM
      (s.last_sample + PARTIAL_SAMPLE s
        (toInt32 (SAMPLE_TIME_FRACTION_REMAINING s s.change_tstates)) sample)
    have hc : speaker_update_finished e s sample ≥ -(e.AUDIO_MAXVAL + 1)
        ∧ speaker_update_finished e s sample ≤ e.AUDIO_MAXVAL := ⟨hr.1, hr.2⟩
    refine ⟨hc, ?_⟩
    unfold speaker_update_emit
    rw [if_pos hc]

/-- C37, the decay accumulator is bounded: for `tau >= 1` and 16-bit audio
(`0 <= AUDIO_MAXVAL <= 32767`), if `|decay| <= SPEAKER_AMPLITUDE * 65536` before
a sample `s` with `|s| <= SPEAKER_AMPLITUDE`, then the new decay lies between the
old decay and `-s * 65536` and again has magnitude at most
`SPEAKER_AMPLITUDE * 65536` (and so after any number of such samples);
`s * 65536 + decay` is within the range of an `int`; the value
`s + decay / 65536` has magnitude at most `2 * SPEAKER_AMPLITUDE`, and
`audio_limit` leaves the value handed to the buffer as it is. -/
theorem decay_bounded (e : audio_t) (tau s d : Int)
    (hM : 0 ≤ e.AUDIO_MAXVAL ∧ e.AUDIO_MAXVAL ≤ 32767) (htau : 1 ≤ tau)
    (hs : -SPEAKER_AMPLITUDE e ≤ s ∧ s ≤ SPEAKER_AMPLITUDE e)
    (hd : -(SPEAKER_AMPLITUDE e * 65536) ≤ d ∧ d ≤ SPEAKER_AMPLITUDE e * 65536) :
    (min d (-(s * 65536)) ≤ speaker_decay tau s d
        ∧ speaker_decay tau s d ≤ max d (-(s * 65536)))
      ∧ (-(SPEAKER_AMPLITUDE e * 65536) ≤ speaker_decay tau s d
        ∧ speaker_decay tau s d ≤ SPEAKER_AMPLITUDE e * 65536)
      ∧ (∀ n, -(SPEAKER_AMPLITUDE e * 65536) ≤ decay_after tau s n d
        ∧ decay_after tau s n d ≤ SPEAKER_AMPLITUDE e * 65536)
      ∧ (-2147483648 ≤ s * 65536 + d ∧ s * 65536 + d < 2147483648)
      ∧ (-(2 * SPEAKER_AMPLITUDE e) ≤ s + (speaker_decay tau s d).tdiv 65536
        ∧ s + (speaker_decay tau s d).tdiv 65536 ≤ 2 * SPEAKER_AMPLITUDE e)
      ∧ speaker_shaped e s (speaker_decay tau s d)
          = (if speaker_decay tau s d > 2 * 65536 ∨ speaker_decay tau s d < -2 * 65536
              then s + (speaker_decay tau s d).tdiv 65536 else s) := by
  obtain ⟨a0, a1⟩ := amplitude_range e hM.1
  have a2 : 3 * SPEAKER_AMPLITUDE e ≤ e.AUDIO_MAXVAL := by
    unfold SPEAKER_AMPLITUDE
    rw [Int.tdiv_eq_ediv hM.1 (by norm_num)]
    omega
  have hb := speaker_decay_bound tau s d (SPEAKER_AMPLITUDE e) htau hs hd
  obtain ⟨t1, t2⟩ := tdiv_65536_bound (speaker_decay tau s d) (SPEAKER_AMPLITUDE e) hb.1 hb.2
  refine ⟨speaker_decay_between tau s d htau, hb,
    fun n => decay_after_bound tau s (SPEAKER_AMPLITUDE e) htau hs n d hd,
    ⟨by omega, by omega⟩, ⟨by omega, by omega⟩, ?_⟩
  unfold speaker_shaped audio_limit
  generalize (speaker_decay tau s d).tdiv 65536 = q at t1 t2 ⊢
  split_ifs <;> first | rfl | omega

/-- C39, idle with a zero countdown implies no open buffer: in every state
reached from the zero-initialised speaker, after `speaker_init`, through
`speaker_clock`, `speaker_reset`, `speaker_w` and `speaker_tick` at any cycle
counts, whenever `idle` is set and the idle countdown is 0 no work buffer is
held; so the wake path of `speaker_w` is taken only without a work buffer. -/
theorem idle_closed_reachable (e : audio_t) (framerate : Int) (ops : List speaker_op)
    (s1 : speaker_t) (hops : ∀ op ∈ ops, speaker_op_entry op)
    (h : speaker_run e ops (speaker_init e framerate speaker_zeroed) = some s1) :
    s1.idle ≠ 0 ∧ s1.count = 0 → audio_has_work_buffer s1.snd_buf = false :=
  speaker_run_closed e ops _ s1 hops (fun hx => absurd rfl hx.1) h


/-! ## CRTC: further claims -/

/-- C34 as amended, derived constants and the frequency: a data write to
register 0, 1, 4, 5 or 9 returns, and when it leaves `htot`, `vtot` and
`scans_per_row` non-zero (the flash rate stored before being one of 0..7) the
blank divisor and threshold, the cursor-blink periods and the flash periods are
the truncations that the `double` expressions give for the value `f0` of the
frequency formula before the floor clamp; the stored frequency is `f0` when
`f0 >= 5`, and then the constants agree with the stored frequency; it is 1 when
`f0 < 5`, while the constants are still those of `f0`. -/
theorem derived_constants_unclamped (e : crtc_env) (s : crtc_state) (data : Nat)
    (hreg : s.reg = 0 ∨ s.reg = 1 ∨ s.reg = 4 ∨ s.reg = 5 ∨ s.reg = 9)
    (hfl : 0 ≤ s.timing.flashrate ∧ s.timing.flashrate ≤ 7) :
    ∃ s', crtc_data_w e s data = some s'
      ∧ (s'.htot ≠ 0 ∧ s'.vtot ≠ 0 ∧ s'.scans_per_row ≠ 0 →
          crtc_rates_derived e.cvt_invalid s'.timing
              (vsync_formula e s'.htot s'.vtot s'.scans_per_row s'.vtot_adj) e.cpuclock
            ∧ crtc_flash_derived e.cvt_invalid s'.timing
                (vsync_formula e s'.htot s'.vtot s'.scans_per_row s'.vtot_adj) e.cpuclock
                s.timing.flashrate
            ∧ (5 ≤ vsync_formula e s'.htot s'.vtot s'.scans_per_row s'.vtot_adj →
                s'.timing.vsync_freq
                    = vsync_formula e s'.htot s'.vtot s'.scans_per_row s'.vtot_adj
                  ∧ crtc_rates_derived e.cvt_invalid s'.timing s'.timing.vsync_freq
                      e.cpuclock
                  ∧ crtc_flash_derived e.cvt_invalid s'.timing s'.timing.vsync_freq
                      e.cpuclock s.timing.flashrate)
            ∧ (vsync_formula e s'.htot s'.vtot s'.scans_per_row s'.vtot_adj < 5 →
                s'.timing.vsync_freq = 1)) := by
  obtain ⟨s', h⟩ := crtc_data_w_timing_total e s data hreg
  refine ⟨s', h, fun hz => ?_⟩
  obtain ⟨a1, a2, a3⟩ := crtc_data_w_timing_derived e s data s' hreg h hz
  have a4 := a3 ⟨hfl.1, by omega⟩
  refine ⟨a2, a4, fun h5 => ?_, fun h5 => ?_⟩
  · have hf : s'.timing.vsync_freq
        = vsync_formula e s'.htot s'.vtot s'.scans_per_row s'.vtot_adj := by
      rw [a1, if_neg (not_lt.mpr h5)]
    rw [hf]
    exact ⟨rfl, a2, a4⟩
  · rw [a1, if_pos h5]

/-- C35, the redraw walk: with display output enabled `crtc_redraw` considers,
after the character-generator updates are marked, the `vdisp * hdisp` cells of
the grid in row order, the cell of row `i` and column `j` at pixel
`(8*j, i * yscale * scans_per_row)` with the address
`(disp_start + i*hdisp + j) mod 0x4000`, and then clears the global flag; a
cell considered is drawn with its dirty bit cleared when the global flag or its
dirty bit is set and is left alone otherwise, the cursor blink state being
passed only when the address equals `cur_pos` (0 otherwise); the walk changes
neither the global flag nor the cursor, so every cell sees the flag of entry;
with display output disabled the state is returned unchanged. -/
theorem redraw_walk (e : crtc_env) (s : crtc_state) :
    (s.video ≠ 0 →
        crtc_redraw e s
          = { crtc_walk { s with vdu := { s.vdu with dirty := s.vdu.dirty ++ e.pcg_dirty } }
                (grid_cells s.hdisp (e.yscale * s.scans_per_row) s.disp_start
                  (s.vdisp * s.hdisp))
              with redraw := 0 })
      ∧ (grid_cells s.hdisp (e.yscale * s.scans_per_row) s.disp_start
            (s.vdisp * s.hdisp)).length = s.vdisp * s.hdisp
      ∧ (∀ i j, i < s.vdisp → j < s.hdisp →
          (grid_cells s.hdisp (e.yscale * s.scans_per_row) s.disp_start
              (s.vdisp * s.hdisp))[i * s.hdisp + j]?
            = some (8 * j, i * (e.yscale * s.scans_per_row),
                (s.disp_start + i * s.hdisp + j) % 0x4000))
      ∧ (∀ (st : crtc_state) (x y a : Nat), a < 0x4000 →
          (st.redraw ≠ 0 ∨ a ∈ st.vdu.dirty →
              crtc_redraw_cell st x y a
                = crtc_drawn st
                    (st.vdu.drawn ++
                      [{ x := x, y := y, maddr := a, scans_per_row := st.scans_per_row,
                         flashvideo := st.flashvideo,
                         cursor := if a = st.cursor.cur_pos then st.cursor.cur_blink else 0,
                         cur_start := st.cursor.cur_start, cur_end := st.cursor.cur_end }])
                    (st.vdu.dirty.filter (fun b => b ≠ a)) 1)
            ∧ (¬ (st.redraw ≠ 0 ∨ a ∈ st.vdu.dirty) → crtc_redraw_cell st x y a = st))
      ∧ (∀ (st : crtc_state) (cells : List (Nat × Nat × Nat)),
          (crtc_walk st cells).redraw = st.redraw ∧ (crtc_walk st cells).cursor = st.cursor
            ∧ (crtc_walk st cells).scans_per_row = st.scans_per_row
            ∧ (crtc_walk st cells).flashvideo = st.flashvideo)
      ∧ (s.video = 0 → crtc_redraw e s = s) := by
  refine ⟨crtc_redraw_walk e s, ?_, ?_, ?_, ?_, ?_⟩
  · unfold grid_cells
    rw [List.length_map, List.length_range]
  · intro i j hi hj
    have hk : i * s.hdisp + j < s.vdisp * s.hdisp := by
      calc i * s.hdisp + j < i * s.hdisp + s.hdisp := by omega
        _ = (i + 1) * s.hdisp := by ring
        _ ≤ s.vdisp * s.hdisp := Nat.mul_le_mul_right _ hi
    have hmod : (i * s.hdisp + j) % s.hdisp = j := by
      rw [Nat.mul_comm, Nat.mul_add_mod, Nat.mod_eq_of_lt hj]
    have hdiv : (i * s.hdisp + j) / s.hdisp = i := by
      rw [Nat.mul_comm, Nat.mul_add_div (by omega), Nat.div_eq_of_lt hj, Nat.add_zero]
    unfold grid_cells
    rw [List.getElem?_map, List.getElem?_range hk, Option.map_some', hmod, hdiv, Nat.add_assoc]
  · intro st x y a ha
    exact ⟨crtc_redraw_cell_drawn st x y a ha, crtc_redraw_cell_skipped st x y a ha⟩
  · intro st cells
    obtain ⟨d, q, u, hw⟩ := crtc_walk_frame cells st
    rw [hw]
    exact ⟨rfl, rfl, rfl, rfl⟩
  · intro hv
    unfold crtc_redraw
    rw [if_pos hv]

/-- C40, the register-file range invariant: in every state that a sequence of
`crtc_address_w`, `crtc_data_w`, `crtc_data_r` and `crtc_status_r` calls with
any arguments returns from the initial state, the selected register index is at
most 31 and so within the 32 entries of `crtc_regs_data`, `disp_start`,
`cur_pos` and `mem_addr` are at most 0x3FFF, `cur_start` and `cur_end` at most
31, `cur_mode` at most 3, `hdisp` at most 255, `vdisp` at most 127 and
`scans_per_row` in 1..32. -/
theorem register_file_ranges (ops : List (crtc_env × crtc_op)) (s' : crtc_state)
    (h : crtc_run ops crtc_initial = some s') :
    crtc_regs_in_range s' ∧ s'.crtc_regs_data.length = 32
      ∧ s'.reg < s'.crtc_regs_data.length := by
  obtain ⟨k1, k2⟩ := crtc_run_in_range ops crtc_initial s' crtc_initial_in_range h
  have k3 : s'.crtc_regs_data.length = 32 := by
    rw [k2]
    rfl
  have k4 : s'.reg ≤ 31 := k1.1
  exact ⟨k1, k3, by omega⟩


/-! ## Standard keyboard: the scan tables -/

/-- C38, the keyboard scan tables and the array bounds: the key-down handler
uses the 0xFF code as an index.  For INSERT (index 30) the shifted table holds
0x20 and the lower table 0xFF; pressed while a SHIFT and a CTRL key are down
under the modified handling (`KEYSTD_MOD_CTRL_SHIFT`, the default), the handler
takes `scan = mb_scan_pclower[30] = 0xFF` and writes `mb_invert[255]`, outside
the 64 entries of the array.  With the modified handling off the same key
presses stay inside the arrays. -/
theorem keydown_insert_out_of_bounds :
    PCK_INSERT < PC_KEYS
      ∧ mb_scan_pcshift.getD PCK_INSERT 255 = 0x20
      ∧ mb_scan_pclower.getD PCK_INSERT 255 = 0xFF
      ∧ keystd_initial.mb_invert.length = MB_KEYS
      ∧ ((keystd_keydown_event true keystd_initial PCK_LSHIFT).bind fun s1 =>
          (keystd_keydown_event true s1 PCK_LCTRL).bind fun s2 =>
            keystd_keydown_event true s2 PCK_INSERT) = none
      ∧ ((keystd_keydown_event false keystd_initial PCK_LSHIFT).bind fun s1 =>
          (keystd_keydown_event false s1 PCK_LCTRL).bind fun s2 =>
            (keystd_keydown_event false s2 PCK_INSERT).map fun s3 =>
              s3.mb_keystate.getD 0x20 0) = some 1 := by
  decide

/-! ## Counterexamples and witnesses for the speaker -/

theorem sample_count_conservation_witness :
    ∃ s1, speaker_update_seq audio_default 1 [77, 500, 1000] speaker_default = some s1
      ∧ s1.snd_buf.written.length = 0 + (13 - 0) ∧ 13 ≤ 13 - 0 ∧ 13 - 0 ≤ 13 + 1 :=
  sample_count_conservation audio_default speaker_default 1 0 [77, 500, 1000] (by decide)
    (by decide) (by decide) (by decide) (by decide) (by decide) (by decide) (by decide)
    (by simp) (by decide) (by decide)

theorem speaker_fixup_sample_rail_witness :
    speaker_fixup_sample audio_default 10920 = 10922
      ∧ speaker_fixup_sample audio_default (-10921) = -10922
      ∧ speaker_fixup_sample audio_default 10919 = 10919 :=
  ⟨(speaker_fixup_sample_rail audio_default 10920 (by decide)).1 (by decide),
    (speaker_fixup_sample_rail audio_default (-10921) (by decide)).2.1 (by decide),
    (speaker_fixup_sample_rail audio_default 10919 (by decide)).2.2.1 (by decide) (by decide)⟩

theorem speaker_w_wake_witness :
    speaker_w audio_default { speaker_default with idle := 1, count := 0 } 0 9000
        = some { speaker_default with last_sample := 0, state := 0, change_tstates := 9000,
                                      idle := 0, count := 50, samples_since_write := 0 }
      ∧ speaker_w audio_default speaker_default 1 9000 = some speaker_default :=
  ⟨(speaker_w_wake audio_default { speaker_default with idle := 1, count := 0 } 0 9000).1
      (by decide) (by decide) (by decide),
    (speaker_w_wake audio_default speaker_default 1 9000).2 (by decide)⟩

theorem speaker_fill_transparent_witness :
    ∃ s1 out, speaker_fill audio_default speaker_default 10922 9 = some s1
      ∧ s1.snd_buf.written = [] ++ out ∧ (out.length : Int) = 9
      ∧ s1.snd_buf.gets = 0 + 3 ∧ s1.snd_buf.puts = 0 + 3
      ∧ ((9 : Int) = 0 → s1 = speaker_default) :=
  speaker_fill_transparent audio_default speaker_default 10922 9 (by decide) (by decide)
    (by decide)

theorem speaker_fill_decay_shaping_witness :
    ∃ s1 s2, speaker_fill audio_default speaker_default 10922 0 = some s1
      ∧ speaker_fill audio_default speaker_default 10922 (0 + 1) = some s2
      ∧ s2.decay = s1.decay - (10922 * 65536 + s1.decay).tdiv 2205
      ∧ s2.snd_buf.written = s1.snd_buf.written
          ++ [audio_limit audio_default
                (if s2.decay > 2 * 65536 ∨ s2.decay < -2 * 65536
                  then 10922 + s2.decay.tdiv 65536 else 10922)] :=
  speaker_fill_decay_shaping audio_default speaker_default 10922 0 (by decide) (by decide)
    (by decide)

theorem speaker_clock_reduced_witness :
    ∃ s1, speaker_clock audio_default speaker_default 2000000 7500 = some s1
      ∧ 1 ≤ s1.div_num ∧ 1 ≤ s1.div_denom ∧ Int.gcd s1.div_num s1.div_denom = 1
      ∧ s1.div_num * audio_default.frequency
          = s1.div_denom * chosen_clock audio_default 2000000
      ∧ s1.samplenumber = toInt32 (SAMPLE_COUNT s1 7500)
      ∧ s1.fraction = (SAMPLE_TIME_FRACTION s1 7500 : Int) :=
  speaker_clock_reduced audio_default speaker_default 2000000 7500 (by decide) (by decide)
    (by decide)

theorem fraction_invariant_witness :
    ∃ s, speaker_run audio_default
          [speaker_op.clock 0 7500, speaker_op.reset 7600, speaker_op.w 0 7700]
          speaker_default = some s
      ∧ 0 ≤ s.fraction ∧ s.fraction < s.div_num := by
  obtain ⟨s1, h1, -⟩ := speaker_clock_spec audio_default speaker_default 0 7500 44100 3375000
    rfl rfl (by decide) (by decide)
  have hrun : speaker_run audio_default
      [speaker_op.clock 0 7500, speaker_op.reset 7600, speaker_op.w 0 7700] speaker_default
      = some (speaker_reset s1 7600) := by
    have hst : (speaker_reset s1 7600).state = 0 := by
      simp only [speaker_reset]
      split <;> rfl
    have hw : speaker_w audio_default (speaker_reset s1 7600) 0 7700
        = some (speaker_reset s1 7600) := by
      unfold speaker_w
      rw [if_pos hst.symm]
    simp only [speaker_run, speaker_step, h1, hw]
  have k1 : (1 : Int) ≤ audio_default.frequency := by decide
  have k2 : clock_ok audio_default (speaker_op.clock 0 7500) := ⟨by decide, by decide⟩
  have k3 : ∀ op ∈ [speaker_op.reset 7600, speaker_op.w 0 7700], clock_ok audio_default op := by
    simp [clock_ok]
  exact ⟨_, hrun, fraction_invariant audio_default speaker_default _ 0 7500
    [speaker_op.reset 7600, speaker_op.w 0 7700] k1 k2 k3 hrun⟩

/-- C7, counterexample: after `speaker_reset` at cycle 7500 the stored sample
number is still 0 while `SAMPLE_COUNT` of the stored change cycle is 98 (under
3750/49), so the two are not jointly consistent. -/
theorem joint_consistency_counterexample :
    (speaker_reset speaker_default 7500).samplenumber = 0
      ∧ (speaker_reset speaker_default 7500).change_tstates = 7500
      ∧ SAMPLE_COUNT (speaker_reset speaker_default 7500) 7500 = 98
      ∧ ¬ speaker_consistent (speaker_reset speaker_default 7500) := by
  refine ⟨by decide, by decide, by decide, ?_⟩
  intro h
  have h1 := h.1
  revert h1
  decide

theorem joint_consistency_after_update_witness :
    ∃ s1, speaker_update audio_default speaker_default 0 1000 = some s1
      ∧ speaker_consistent s1 := by
  obtain ⟨s1, h1, -⟩ := speaker_update_count audio_default speaker_default 0 0 1000
    (by decide) (by decide) (by decide) (by decide) (by decide) (by decide) (by decide)
    (by decide) (by decide) (by decide)
  exact ⟨s1, h1, (joint_consistency_after_update audio_default speaker_default).1 0 1000 s1 h1⟩

/-- C4, counterexample: with the fraction 1:1 (clock 44100 Hz at 44100 samples
per second, `tau` 2205), an open buffer, `decay` 0 and the bit high, the update
at cycle 110 after the one at cycle 100 writes ten samples that the decay
filter has lowered: 10918, 10913, ... instead of 10922. -/
theorem held_high_counterexample :
    (speaker_run audio_proportional
        [speaker_op.clock 44100 100, speaker_op.update 1 100, speaker_op.update 1 110]
        speaker_default).map
      (fun s => (s.div_num, s.div_denom, s.tau, s.snd_buf.written))
      = some (1, 1, 2205,
          [10918, 10913, 10908, 10903, 10898, 10893, 10888, 10883, 10878, 10873]) := by
  decide

theorem held_high_ten_samples_witness :
    ∃ s1 s2,
      speaker_update audio_default
          { speaker_default with div_num := 1, div_denom := 1, tau := 168750,
                                 samplenumber := 100, change_tstates := 100 } 1 100 = some s1
        ∧ s1.snd_buf.written = []
        ∧ speaker_update audio_default s1 1 (100 + 10) = some s2
        ∧ s2.snd_buf.written = [] ++ List.replicate 10 (SPEAKER_AMPLITUDE audio_default) :=
  held_high_ten_samples audio_default
    { speaker_default with div_num := 1, div_denom := 1, tau := 168750,
                           samplenumber := 100, change_tstates := 100 } 100
    (by decide) (by decide) (by decide) (by decide) (by decide) (by decide) (by decide)
    (by decide) (by decide) (by decide) (by decide) (by decide) (by decide) (by decide)

/-- C8, counterexample: in proportional mode at 44100 Hz the update at cycle
7500 under 3750/49 stores sample number 98; `speaker_clock` for a CPU clock of
6.75 MHz at the same cycle re-derives it as 49 under 7500/49, a smaller number. -/
theorem clock_continuity_counterexample :
    ((speaker_update audio_proportional speaker_default 1 7500).bind fun s1 =>
        (speaker_clock audio_proportional s1 6750000 7500).map fun s2 =>
          (s1.samplenumber, s2.samplenumber, s2.div_num, s2.div_denom))
      = some (98, 49, 7500, 49) := by
  decide

theorem clock_rederivation_continuity_witness :
    ∃ s2, speaker_clock audio_proportional speaker_default 6750000 7500 = some s2
      ∧ (15000 * toU64 s2.div_denom < 18446744073709551616 →
          SAMPLE_COUNT s2 15000 < 2147483648 →
          s2.samplenumber = (SAMPLE_COUNT s2 7500 : Int)
            ∧ SAMPLE_COUNT s2 7500 ≤ SAMPLE_COUNT s2 15000
            ∧ ∃ s3, speaker_update audio_proportional s2 1 15000 = some s3
                ∧ s3.snd_buf.written.length
                    = s2.snd_buf.written.length
                      + (SAMPLE_COUNT s2 15000 - SAMPLE_COUNT s2 7500)) :=
  clock_rederivation_continuity audio_proportional speaker_default 6750000 1 7500 15000
    (by decide) (by decide) (by decide) (by decide) (by decide) (by decide) (by decide)


/-- C9, counterexample: with `idle_count = 1`, after a bit write with the buffer
held, the three following no-change ticks return 1, 1, 0: the tick after
`idle_count` ticks still returns 1 (it is the one that flushes), and idle is
first reported by tick `idle_count + 2`. -/
theorem idle_lifecycle_counterexample :
    (speaker_tick_seq audio_default [1000, 2000, 3000]
        { speaker_default with idle_count := 1, count := 1 }).map
      (fun r => (r.2, audio_has_work_buffer r.1.snd_buf, r.1.decay))
      = some ([1, 1, 0], false, 0) := by
  decide

theorem idle_lifecycle_witness :
    ∃ sa sb sc,
      speaker_tick_seq audio_default [1000] { speaker_default with idle_count := 1, count := 1 }
          = some (sa, List.replicate [1000].length 1)
        ∧ audio_has_work_buffer sa.snd_buf = true
        ∧ speaker_tick audio_default sa sa.change_tstates (2000 - sa.change_tstates) 2000
            = some (sb, 1)
        ∧ audio_has_work_buffer sb.snd_buf = false ∧ sb.decay = 0
        ∧ speaker_tick_seq audio_default [3000, 4000] sb
            = some (sc, List.replicate [3000, 4000].length 0)
        ∧ sc.snd_buf = sb.snd_buf ∧ sc.decay = 0 :=
  idle_lifecycle audio_default { speaker_default with idle_count := 1, count := 1 } [1000] 2000
    [3000, 4000] (by decide) (by decide)
    ⟨by decide, by decide, by decide, by decide, by decide⟩ (by decide) (by decide)
    (List.Chain.cons (by decide) List.Chain.nil) (by decide) (by decide) (by decide)


/-! ## CRTC: counterexamples and witnesses -/

theorem vsync_scenario_counterexample :
    (crtc_write_regs crtc_env_default [(0, 63), (4, 38), (5, 2), (9, 9)] crtc_initial).map
        (fun s => s.timing.vsync_freq) = some (591653658122449 / 8796093022208)
      ∧ ¬ ((50 - 1 / 2 : ℚ) ≤ 591653658122449 / 8796093022208
            ∧ (591653658122449 / 8796093022208 : ℚ) ≤ 50 + 1 / 2) := by
  refine ⟨by decide!, ?_⟩
  norm_num

theorem timing_registers_counterexample :
    ((crtc_write_regs crtc_env_default [(0, 107), (4, 18), (5, 8), (9, 15)] crtc_initial).bind
        (crtc_write_regs { crtc_env_default with cpuclock := 6750000 } [(6, 24)])).map
        (fun s => (s.vdisp, s.timing.vblank_divval, s.timing.cur_blink_rate_c1r32))
        = some (24, 67392, 2156544)
      ∧ ((crtc_write_regs crtc_env_default [(0, 107), (4, 18), (5, 8), (9, 15)]
            crtc_initial).bind
          (crtc_write_regs { crtc_env_default with cpuclock := 6750000 } [(1, 79)])).map
        (fun s => (s.hdisp, s.timing.vblank_divval, s.timing.cur_blink_rate_c1r32))
        = some (79, 134784, 4313088) := by
  decide!

theorem vsync_scenario_witness :
    ∃ s', crtc_write_regs crtc_env_default [(0, 63), (4, 38), (5, 2), (9, 9)] crtc_initial
        = some s'
      ∧ s'.timing.vsync_freq = 591653658122449 / 8796093022208
      ∧ |s'.timing.vsync_freq - 421875 / 6272| < 1 / 2 ^ 48
      ∧ (67 : ℚ) < s'.timing.vsync_freq ∧ s'.timing.vsync_freq < 67 + 1 / 2 :=
  vsync_scenario crtc_env_default crtc_initial rfl

theorem vsync_derivation_witness :
    ∃ s', crtc_write_regs crtc_env_default [(0, 107), (4, 18), (5, 8), (9, 15)] crtc_initial
        = some s'
      ∧ s'.htot = 107 + 1 ∧ s'.vtot = (18 &&& 0x7F) + 1 ∧ s'.vtot_adj = 8 &&& 0x1F
      ∧ s'.scans_per_row = (15 &&& 0x1F) + 1 :=
  (vsync_derivation crtc_env_default crtc_initial 107 18 8 15 (by decide)).2.imp
    fun _ h => ⟨h.1, h.2.1, h.2.2.1, h.2.2.2.1, h.2.2.2.2.1⟩

theorem timing_registers_rederive_witness :
    (∃ s', crtc_data_w crtc_env_default
        { crtc_initial with htot := 64, vtot := 39, vtot_adj := 4, reg := 9 } 9 = some s'
      ∧ s'.timing.vsync_freq = 2354601360243655 / 35184372088832
      ∧ s'.timing.vblank_divval = 50431 ∧ s'.timing.cur_blink_rate_c1r32 = 1613823
      ∧ s'.timing.cur_blink_rate_t1r32 = 478 ∧ s'.timing.flashvalue_c = 806911)
      ∧ ∃ s', crtc_data_w crtc_env_default (crtc_address_w crtc_at_50hz 6) 24 = some s'
          ∧ s'.timing = (crtc_address_w crtc_at_50hz 6).timing := by
  refine ⟨?_, (timing_registers_rederive crtc_env_default (crtc_address_w crtc_at_50hz 6) 24
    ⟨by decide, by decide⟩).2 (by decide)⟩
  obtain ⟨s', h, hd⟩ := (timing_registers_rederive crtc_env_default
    { crtc_initial with htot := 64, vtot := 39, vtot_adj := 4, reg := 9 } 9
    ⟨by decide, by decide⟩).1 (Or.inr (Or.inr (Or.inr (Or.inr rfl))))
  obtain ⟨t1, t2, t3⟩ := crtc_data_w_totals _ _ _ _ h
  obtain ⟨_, _, g3, _⟩ := crtc_data_w_geometry _ _ _ _ h
  have e1 : s'.htot = 64 := t1.trans (by decide)
  have e2 : s'.vtot = 39 := t2.trans (by decide)
  have e3 : s'.vtot_adj = 4 := t3.trans (by decide)
  have e4 : s'.scans_per_row = 10 := g3.trans (by decide)
  obtain ⟨a1, a2, a3⟩ := hd ⟨by rw [e1]; decide, by rw [e2]; decide, by rw [e4]; decide⟩
  rw [e1, e2, e3, e4] at a1 a2 a3
  exact ⟨s', h, a1.trans (by decide!), a2.1.trans (by decide!),
    a2.2.2.2.1.trans (by decide!), a2.2.2.1.trans (by decide!), a3.1.trans (by decide!)⟩

theorem degenerate_timing_deferred_witness :
    ∃ s', crtc_data_w crtc_env_default crtc_initial 63 = some s'
      ∧ (s'.htot = 0 ∨ s'.vtot = 0 ∨ s'.scans_per_row = 0)
      ∧ crtc_constants_kept crtc_initial.timing s'.timing :=
  degenerate_timing_deferred crtc_env_default crtc_initial 63 (Or.inl (by decide))
    (Or.inr (Or.inl ⟨by decide, by decide⟩))

theorem needs_resize_flag_witness :
    ∃ s', crtc_data_w crtc_env_default (crtc_address_w crtc_initial 6) 24 = some s'
      ∧ s'.hdisp = 80 ∧ s'.vdisp = 24 ∧ s'.scans_per_row = 11 ∧ s'.resized = 1 :=
  ⟨_, crtc_data_w_r6 crtc_env_default (crtc_address_w crtc_initial 6) 24 (by decide),
    (needs_resize_flag crtc_env_default (crtc_address_w crtc_initial 6) 24 _
      (crtc_data_w_r6 crtc_env_default (crtc_address_w crtc_initial 6) 24 (by decide))).1.trans
      (by decide),
    (needs_resize_flag crtc_env_default (crtc_address_w crtc_initial 6) 24 _
      (crtc_data_w_r6 crtc_env_default (crtc_address_w crtc_initial 6) 24 (by decide))).2.1.trans
      (by decide),
    (needs_resize_flag crtc_env_default (crtc_address_w crtc_initial 6) 24 _
      (crtc_data_w_r6 crtc_env_default (crtc_address_w crtc_initial 6) 24
        (by decide))).2.2.1.trans (by decide),
    (needs_resize_flag crtc_env_default (crtc_address_w crtc_initial 6) 24 _
      (crtc_data_w_r6 crtc_env_default (crtc_address_w crtc_initial 6) 24
        (by decide))).2.2.2.trans (by decide)⟩

theorem crtc_status_r_value_witness :
    ∃ s1 v, crtc_status_r { crtc_env_default with tstates := 70000 } crtc_at_50hz = some (s1, v)
      ∧ s1.update_strobe = 0x80 ∧ v &&& 0x80 = 0x80 :=
  (crtc_status_r_value { crtc_env_default with tstates := 70000 } crtc_at_50hz
    (fun _ => ⟨⟨by decide, by decide⟩, by decide, by decide⟩)).imp
    fun _ h => h.imp fun _ h => ⟨h.1, h.2.2.1, h.2.2.2.2.2⟩

theorem blank_duty_cycle_witness :
    ((List.range 20).filter
      (fun i => crtc_vblank { crtc_env_default with tstates := 7 + i }
        { crtc_initial with
          timing := { crtc_initial.timing with vblank_divval := 20, vblank_cmpval := 3 } }
        = some 0x80)).length = 3 :=
  blank_duty_cycle crtc_env_default
    { crtc_initial with
      timing := { crtc_initial.timing with vblank_divval := 20, vblank_cmpval := 3 } }
    20 3 7 (by decide) (by decide) (by decide) (by decide) (by decide) (by decide) (by decide)

theorem blink_edge_detection_witness :
    crtc_update_cursor_seq
        [{ crtc_env_default with z80_cycles := 1000000 },
         { crtc_env_default with z80_cycles := 2160000 },
         { crtc_env_default with z80_cycles := 2160000 },
         { crtc_env_default with z80_cycles := 4320000 }]
        { crtc_at_50hz with cursor := { crtc_at_50hz.cursor with cur_mode := 2 } }
      = some (blink_edges 2160000 0 [1000000, 2160000, 2160000, 4320000]) :=
  (blink_edge_detection
    { crtc_at_50hz with cursor := { crtc_at_50hz.cursor with cur_mode := 2 } } false 2160000 0
    [{ crtc_env_default with z80_cycles := 1000000 },
     { crtc_env_default with z80_cycles := 2160000 },
     { crtc_env_default with z80_cycles := 2160000 },
     { crtc_env_default with z80_cycles := 4320000 }]
    (Or.inl (by decide)) (by decide) (by decide) (by decide) (by simp [crtc_env_default])
    (by decide)).1

theorem register_pair_round_trip_witness :
    ∃ s2, crtc_write_regs crtc_env_default [(14, 0x12), (14 + 1, 0x34)] crtc_initial = some s2
      ∧ register_pair 14 s2 = ((0x12 &&& 0x3F) <<< 8) ||| 0x34
      ∧ (14 = 14 → (crtc_data_r (crtc_address_w s2 14)).2 = 0x12 &&& 0x3F
          ∧ (crtc_data_r (crtc_address_w s2 15)).2 = 0x34) :=
  (register_pair_round_trip crtc_env_default crtc_initial 0x12 0x34 14 (Or.inr (Or.inl rfl))
    (by decide)).2.2.1

theorem crtc_set_flash_rate_validation_witness :
    ∃ r, crtc_set_flash_rate crtc_env_default crtc_initial 9 = some r ∧ r.2 = 0
      ∧ r.1.timing.flashrate = 4 ∧ crtc_initial.timing.vsync_freq = 0 :=
  ((crtc_set_flash_rate_validation crtc_env_default crtc_initial 9).2.1
    ⟨by decide, by decide⟩).imp fun _ h => ⟨h.1, h.2.1, h.2.2.1.trans (by decide), rfl⟩


/-! ## Further witnesses and counterexamples -/

theorem whole_samples_counterexample :
    (speaker_update audio_default { speaker_default with tau := 1000000000 } 0 300).map
        (fun s => (s.snd_buf.written, s.state)) = some ([10846, 10922, 10922], 0)
      ∧ speaker_sample audio_default 0 = -10922 := by
  decide!

theorem update_within_sample_witness :
    ∃ s1, speaker_update audio_proportional
        { speaker_default with div_num := 482143, div_denom := 6300 } 1 70 = some s1
      ∧ s1.snd_buf = speaker_default.snd_buf ∧ s1.last_sample = 1081 :=
  (update_within_sample audio_proportional
    { speaker_default with div_num := 482143, div_denom := 6300 } 1 70 (by decide) (by decide)
    (by decide) (by decide)).imp fun _ h => ⟨h.1, h.2.1, h.2.2.2.1.trans (by decide)⟩

theorem update_across_boundary_witness :
    ∃ s1, speaker_update audio_proportional
        { speaker_default with div_num := 482143, div_denom := 6300, last_sample := 1081,
                               fraction := 70, change_tstates := 70 } 0 130 = some s1
      ∧ s1.snd_buf.written = [1937] ∧ s1.last_sample = -1344 ∧ s1.samplenumber = 1 :=
  (update_across_boundary audio_proportional
    { speaker_default with div_num := 482143, div_denom := 6300, last_sample := 1081,
                           fraction := 70, change_tstates := 70 } 0 130 (by decide) (by decide)
    (by decide) (by decide) (by decide) (by decide) (by decide) (by decide)).imp
    fun _ h => ⟨h.1, h.2.1.trans (by decide), h.2.2.2.1.trans (by decide),
      h.2.2.2.2.2.1.trans (by decide)⟩

theorem whole_samples_old_state_witness :
    ∃ (s1 : speaker_t) (first : List Int),
      speaker_update audio_default speaker_default 0 300 = some s1
        ∧ first.length = 1 ∧ s1.state = 0 :=
  (whole_samples_old_state audio_default speaker_default 0 300 (by decide) (by decide)
    (by decide) (by decide) (by decide) (by decide) (by decide) (by decide)).imp
    fun _ h => h.imp fun _ h => ⟨h.1, h.2.1, h.2.2.2.1⟩

theorem assert_never_fails_witness :
    speaker_fixup_sample audio_default 100000 ≤ SPEAKER_AMPLITUDE audio_default
      ∧ -SPEAKER_AMPLITUDE audio_default ≤ speaker_fixup_sample audio_default (-100000) :=
  ⟨((assert_never_fails audio_default (by decide)).1 100000).2.1,
    ((assert_never_fails audio_default (by decide)).1 (-100000)).1⟩

theorem decay_bounded_witness :
    -(SPEAKER_AMPLITUDE audio_default * 65536) ≤ speaker_decay 2205 10922 0
      ∧ speaker_decay 2205 10922 0 ≤ SPEAKER_AMPLITUDE audio_default * 65536 :=
  (decay_bounded audio_default 2205 10922 0 ⟨by decide, by decide⟩ (by decide)
    ⟨by decide, by decide⟩ ⟨by decide, by decide⟩).2.1

theorem idle_closed_reachable_witness :
    ∃ s1, speaker_run audio_default
        [speaker_op.clock 3375000 0, speaker_op.w 1 100, speaker_op.tick 100 1000 1100,
         speaker_op.tick 1100 1000 2100] (speaker_init audio_default 1 speaker_zeroed)
        = some s1
      ∧ (s1.idle ≠ 0 ∧ s1.count = 0 → audio_has_work_buffer s1.snd_buf = false) :=
  (Option.isSome_iff_exists.mp (by decide!)).imp fun s1 h =>
    ⟨h, idle_closed_reachable audio_default 1 _ s1 (by simp [speaker_op_entry]) h⟩


theorem derived_constants_counterexample :
    (crtc_write_regs crtc_env_default [(0, 255), (4, 127)] crtc_initial).map
        (fun s => (s.htot, s.vtot, s.scans_per_row, s.vtot_adj, s.timing.vsync_freq,
          s.timing.vblank_divval))
        = some (256, 128, 11, 0, 1, 720896)
      ∧ double_to_int crtc_env_default.cvt_invalid (dbl_div crtc_env_default.cpuclock 1)
          = 3375000 := by
  decide!

theorem derived_constants_unclamped_witness :
    (∃ s', crtc_data_w crtc_env_default
        { crtc_initial with htot := 64, vtot := 39, scans_per_row := 10, reg := 5 } 4
          = some s'
      ∧ s'.timing.vsync_freq = 2354601360243655 / 35184372088832
      ∧ s'.timing.vblank_divval = 50431 ∧ s'.timing.vblank_cmpval = 7564
      ∧ s'.timing.cur_blink_rate_c1r16 = 806911 ∧ s'.timing.flashvalue_t = 239)
      ∧ ∃ s', crtc_data_w crtc_env_default { crtc_initial with htot := 256, reg := 4 } 127
            = some s'
          ∧ s'.timing.vsync_freq = 1 ∧ s'.timing.vblank_divval = 720896 := by
  constructor
  · obtain ⟨s', h, hd⟩ := derived_constants_unclamped crtc_env_default
      { crtc_initial with htot := 64, vtot := 39, scans_per_row := 10, reg := 5 } 4
      (Or.inr (Or.inr (Or.inr (Or.inl rfl)))) ⟨by decide, by decide⟩
    obtain ⟨t1, t2, t3⟩ := crtc_data_w_totals _ _ _ _ h
    obtain ⟨_, _, g3, _⟩ := crtc_data_w_geometry _ _ _ _ h
    have e1 : s'.htot = 64 := t1.trans (by decide)
    have e2 : s'.vtot = 39 := t2.trans (by decide)
    have e3 : s'.vtot_adj = 4 := t3.trans (by decide)
    have e4 : s'.scans_per_row = 10 := g3.trans (by decide)
    obtain ⟨a2, a3, a5, _⟩ := hd ⟨by rw [e1]; decide, by rw [e2]; decide, by rw [e4]; decide⟩
    rw [e1, e2, e3, e4] at a2 a3 a5
    have hdv : s'.timing.vblank_divval = 50431 := a2.1.trans (by decide!)
    have hcm := a2.2.1
    rw [hdv] at hcm
    exact ⟨s', h, (a5 (by decide!)).1.trans (by decide!), hdv, hcm.trans (by decide!),
      a2.2.2.2.2.2.trans (by decide!), a3.2.trans (by decide!)⟩
  · obtain ⟨s', h, hd⟩ := derived_constants_unclamped crtc_env_default
      { crtc_initial with htot := 256, reg := 4 } 127
      (Or.inr (Or.inr (Or.inl rfl))) ⟨by decide, by decide⟩
    obtain ⟨t1, t2, t3⟩ := crtc_data_w_totals _ _ _ _ h
    obtain ⟨_, _, g3, _⟩ := crtc_data_w_geometry _ _ _ _ h
    have e1 : s'.htot = 256 := t1.trans (by decide)
    have e2 : s'.vtot = 128 := t2.trans (by decide)
    have e3 : s'.vtot_adj = 0 := t3.trans (by decide)
    have e4 : s'.scans_per_row = 11 := g3.trans (by decide)
    obtain ⟨a2, _, _, a6⟩ := hd ⟨by rw [e1]; decide, by rw [e2]; decide, by rw [e4]; decide⟩
    rw [e1, e2, e3, e4] at a2 a6
    exact ⟨s', h, a6 (by decide!), a2.1.trans (by decide!)⟩

theorem redraw_walk_witness :
    crtc_redraw crtc_env_default crtc_initial
      = { crtc_walk
            { crtc_initial with
              vdu := { crtc_initial.vdu with
                dirty := crtc_initial.vdu.dirty ++ crtc_env_default.pcg_dirty } }
            (grid_cells crtc_initial.hdisp
              (crtc_env_default.yscale * crtc_initial.scans_per_row) crtc_initial.disp_start
              (crtc_initial.vdisp * crtc_initial.hdisp))
          with redraw := 0 } :=
  (redraw_walk crtc_env_default crtc_initial).1 (by decide)

theorem register_file_ranges_witness :
    ∃ s', crtc_run
        [(crtc_env_default, crtc_op.address_w 0), (crtc_env_default, crtc_op.data_w 107),
         (crtc_env_default, crtc_op.address_w 4), (crtc_env_default, crtc_op.data_w 18),
         (crtc_env_default, crtc_op.address_w 0xEE), (crtc_env_default, crtc_op.data_w 0xFF),
         (crtc_env_default, crtc_op.data_r), (crtc_env_default, crtc_op.status_r)]
        crtc_initial = some s'
      ∧ crtc_regs_in_range s' ∧ s'.reg < s'.crtc_regs_data.length :=
  (Option.isSome_iff_exists.mp (by decide!)).imp fun s' h =>
    ⟨h, (register_file_ranges _ s' h).1, (register_file_ranges _ s' h).2.2⟩

end UBee
